import Mathlib

/-!
# Kronos OS kernel core: scheduler, IPC and virtual memory

A shallow embedding of `src/kernel/scheduler.c`, `src/kernel/ipc.c` and
`src/mm/virtual_memory.c`.

Conventions of the embedding:

* a `struct process*` is the index of its slot in `processes[]`, `NULL` is `none`;
* C arrays are total functions from the index (`Nat → α`), written with
  `Function.update`; the surrounding `count` field says which prefix is live;
* `u32` / `u64` values are natural numbers, reduced modulo `2^32` / `2^64`
  where the C arithmetic can wrap; `i32` values are integers, wrapped into
  `[-2^31, 2^31)` likewise;
* a C loop is a structurally recursive function on its trip count;
* a blocking call (a `while (cond) schedule();` loop) is cut at `schedule()`:
  the part before the first `schedule()` is the `_enter` function, one further
  pass of the loop after the caller has been resumed is the `_resume` function.
-/

set_option autoImplicit false

namespace Kronos

/-! ## Machine integers -/

/-- Truncation to `u32`. -/
def u32 (x : Nat) : Nat := x % 4294967296

/-- Truncation to `u64`. -/
def u64 (x : Nat) : Nat := x % 18446744073709551616

/-- Subtraction in `u64` (wraps below zero). -/
def sub_u64 (a b : Nat) : Nat := (u64 a + (18446744073709551616 - u64 b)) % 18446744073709551616

/-- Subtraction in `u32` (wraps below zero). -/
def sub_u32 (a b : Nat) : Nat := (u32 a + (4294967296 - u32 b)) % 4294967296

/-- Two's-complement wrap of an integer into the `i32` range. -/
def wrap_i32 (x : Int) : Int := (x + 2147483648) % 4294967296 - 2147483648

/-! ## scheduler.c: constants and the weight table -/

def MAX_PROCESSES : Nat := 256
def TIME_SLICE_MS : Nat := 10
/-- The table `nice_to_weight[40]` of `calculate_weight`. -/
def nice_to_weight : List Nat :=
  [88761, 71755, 56483, 46273, 36291,
   29154, 23254, 18705, 14949, 11916,
   9548, 7620, 6100, 4904, 3906,
   3121, 2501, 1991, 1586, 1277,
   1024, 820, 655, 526, 423,
   335, 272, 215, 172, 137,
   110, 87, 70, 56, 45,
   36, 29, 23, 18, 15]

/-- Source `calculate_weight(i32 nice)`: clamp to `[-20, 19]`, then index the table
with `nice + 20`. -/
def calculate_weight (nice : Int) : Nat :=
  let nice1 := if nice < -20 then -20 else nice
  let nice2 := if nice1 > 19 then 19 else nice1
  nice_to_weight.getD (nice2 + 20).toNat 0

/-! ## scheduler.c: processes and scheduler state -/

inductive process_state where
  | PROCESS_READY
  | PROCESS_RUNNING
  | PROCESS_BLOCKED
  | PROCESS_ZOMBIE
  | PROCESS_TERMINATED
  deriving DecidableEq, Repr

open process_state

def PRIORITY_REALTIME : Nat := 0
def PRIORITY_HIGH : Nat := 1
def PRIORITY_NORMAL : Nat := 2
def PRIORITY_LOW : Nat := 3
def PRIORITY_IDLE : Nat := 4

/-- Source `struct vma` (virtual_memory.c); the `next` link is the list structure. -/
structure vma where
  start : Nat
  vm_end : Nat
  flags : Nat
  permissions : Nat
  file : Option Nat
  file_offset : Nat
  deriving DecidableEq, Repr

/-- Source `struct process`.  The name, the saved CPU context, the memory layout
constants and the descriptor table play no part in scheduling, IPC or paging
decisions and are left out.  The fields after `in_use` are the ones `ipc.c` and
`virtual_memory.c` use (`signal_state`, priority inheritance, time slice,
`vma_list`, `page_directory->pgd`). -/
structure process where
  pid : Nat
  ppid : Nat
  state : process_state
  priority : Nat
  vruntime : Nat
  exec_start : Nat
  sum_exec_runtime : Nat
  nice_value : Int
  weight : Nat
  creation_time : Nat
  last_scheduled : Nat
  total_cpu_time : Nat
  parent : Option Nat
  child_count : Nat
  exit_code : Nat
  in_use : Bool
  pending_signals : Nat
  blocked_signals : Nat
  handlers : Nat → Bool
  original_priority : Nat
  priority_inherited : Bool
  is_realtime : Bool
  time_slice : Nat
  default_time_slice : Nat
  vma_list : List vma
  pgd : Nat

/-- A zero-filled PCB (static storage). -/
def process.zero : process :=
  { pid := 0, ppid := 0, state := PROCESS_READY, priority := 0, vruntime := 0,
    exec_start := 0, sum_exec_runtime := 0, nice_value := 0, weight := 0,
    creation_time := 0, last_scheduled := 0, total_cpu_time := 0, parent := none,
    child_count := 0, exit_code := 0, in_use := false, pending_signals := 0,
    blocked_signals := 0, handlers := fun _ => false, original_priority := 0,
    priority_inherited := false, is_realtime := false, time_slice := 0,
    default_time_slice := 0, vma_list := [], pgd := 0 }

/-- Source `struct rb_node`: the process and the key it was inserted with. -/
structure rb_node where
  process : Nat
  key : Nat
  deriving DecidableEq, Repr

/-- Modelled from the spec: `rb_insert` is called by `cfs_enqueue_task` but defined
nowhere under src/.  The spec describes the run queue as an ordered tree keyed by
virtual runtime; the tree is represented by its in-order sequence of nodes, and
insertion places the new node after the nodes whose key is not larger. -/
def rb_insert : List rb_node → Nat → Nat → List rb_node
  | [], proc, key => [⟨proc, key⟩]
  | n :: rest, proc, key =>
    if key < n.key then ⟨proc, key⟩ :: n :: rest else n :: rb_insert rest proc key

/-- Modelled from the spec: `rb_remove(root, key)` is called by `cfs_dequeue_task`
but defined nowhere under src/.  It removes one node carrying the key (the first in
order), and nothing when no node carries it. -/
def rb_remove : List rb_node → Nat → List rb_node
  | [], _ => []
  | n :: rest, key => if n.key = key then rest else n :: rb_remove rest key

/-- Modelled from the spec: `rb_leftmost` is called by `cfs_pick_next_task` but
defined nowhere under src/.  It is the first node in key order ("minimum-vruntime
entry"), `NULL` on the empty tree. -/
def rb_leftmost (root : List rb_node) : Option rb_node := root.head?

/-- Source: the anonymous `static struct { ... } scheduler`. -/
structure scheduler_t where
  current_process : Option Nat
  idle_process : Option Nat
  cfs_runqueue : List rb_node
  total_weight : Nat
  min_vruntime : Nat
  nr_running : Nat
  next_pid : Nat
  scheduler_enabled : Bool

/-! ## ipc.c: data structures -/

def MAX_PIPES : Nat := 128
def MAX_MESSAGE_QUEUES : Nat := 64
def MAX_SEMAPHORES : Nat := 128
def PIPE_BUFFER_SIZE : Nat := 4096
def MSG_QUEUE_SIZE : Nat := 1024
def MAX_MSG_SIZE : Nat := 256

def SIGKILL : Nat := 9
def SIGSEGV : Nat := 11
def SIGPIPE : Nat := 13
def SIGTERM : Nat := 15
def SIGCHLD : Nat := 17
def SIGSTOP : Nat := 19

/-- The flag `IPC_CREAT` is used by `msgget` and `semget` but defined nowhere under
src/; it has its POSIX value (octal 01000). -/
def IPC_CREAT : Nat := 512

/-- Source `struct pipe`. -/
structure pipe where
  id : Nat
  read_fd : Nat
  write_fd : Nat
  buffer : Nat → Nat
  read_pos : Nat
  write_pos : Nat
  data_size : Nat
  in_use : Bool
  readers : Nat → Nat
  writers : Nat → Nat
  reader_count : Nat
  writer_count : Nat

/-- Source `struct message`; `data` is the array `char data[MAX_MSG_SIZE]`. -/
structure message where
  type : Nat
  size : Nat
  data : Nat → Nat

/-- Source `struct message_queue`. -/
structure message_queue where
  id : Nat
  key : Nat
  messages : Nat → message
  head : Nat
  tail : Nat
  count : Nat
  max_messages : Nat
  max_message_size : Nat
  in_use : Bool
  waiting_senders : Nat → Nat
  waiting_receivers : Nat → Nat
  sender_count : Nat
  receiver_count : Nat

/-- Source `struct semaphore`; `value` is an `i32`. -/
structure semaphore where
  id : Nat
  key : Nat
  value : Int
  max_value : Int
  in_use : Bool
  waiting_processes : Nat → Nat
  waiting_count : Nat

/-- Source `struct rtos_timeout`. -/
structure rtos_timeout where
  deadline_ticks : Nat
  has_timeout : Bool
  waiting_process : Nat
  deriving DecidableEq, Repr

/-- Source `struct priority_queue`: two parallel arrays and the live count. -/
structure priority_queue where
  processes : Nat → Option Nat
  priorities : Nat → Nat
  count : Nat

/-- Source: the anonymous `static struct { ... } ipc_system`. -/
structure ipc_system_t where
  next_pipe_id : Nat
  next_msgq_id : Nat
  next_sem_id : Nat
  next_shm_id : Nat
  initialized : Bool
  system_ticks : Nat
  active_timeouts : Nat → rtos_timeout
  timeout_count : Nat
  rt_ready_queue : priority_queue
  preemption_enabled : Bool
  max_interrupt_latency_us : Nat
  max_scheduling_latency_us : Nat

/-- Source `struct periodic_task`.  The function pointer `task_function` is the
number that names the function. -/
structure periodic_task where
  task_function : Nat
  period_ms : Nat
  next_execution : Nat
  active : Bool
  priority : Nat
  deriving DecidableEq, Repr

/-! ## virtual_memory.c: data structures -/

def PAGE_SIZE : Nat := 4096
def PAGES_PER_TABLE : Nat := 512

def PAGE_PRESENT : Nat := 0x001
def PAGE_WRITABLE : Nat := 0x002
def PAGE_USER : Nat := 0x004
def PAGE_COW : Nat := 0x200
def PAGE_SWAPPED : Nat := 0x400

def PROT_READ : Nat := 0x1
def PROT_WRITE : Nat := 0x2
def PROT_EXEC : Nat := 0x4

def MAP_SHARED : Nat := 0x01
def MAP_PRIVATE : Nat := 0x02
def MAP_FIXED : Nat := 0x10
def MAP_ANONYMOUS : Nat := 0x20

def MAX_SWAP_PAGES : Nat := 65536

/-- The C expression `x & PAGE_MASK` on a `u64`: clear the low twelve bits. -/
def page_mask (x : Nat) : Nat := u64 x / 4096 * 4096

/-- Source `struct page_frame`; the `next` link is the free list itself. -/
structure page_frame where
  physical_addr : Nat
  ref_count : Nat
  flags : Nat
  deriving DecidableEq, Repr

/-- Source `struct memory_stats` (the counters the allocator maintains). -/
structure memory_stats where
  total_pages : Nat
  free_pages : Nat
  used_pages : Nat
  deriving DecidableEq, Repr

/-- Source: the anonymous `static struct { ... } mm_state`.  The free list, a chain
of `next` pointers through `page_frames[]`, is the list of the frame indices on
it, head first. -/
structure mm_state_t where
  free_pages : List Nat
  page_frames : Nat → page_frame
  total_memory : Nat
  stats : memory_stats
  paging_enabled : Bool

/-- Source: the anonymous `static struct { ... } swap_state`.  The swap file is the
map from byte offset to stored byte. -/
structure swap_state_t where
  swap_bitmap : Nat → Bool
  total_swap_pages : Nat
  used_swap_pages : Nat
  swap_file : Nat → Nat

/-! ## The whole kernel state -/

/-- All the global state the three files work on (the periodic-task table is the
pair of statics `periodic_tasks[32]` and `periodic_task_count` of ipc.c).  `phys` is physical memory, a map
from address to the value stored there: a 64-bit table entry is the cell at its
(8-aligned) address, a page is the 4096 cells from its frame address on. -/
structure kernel where
  processes : Nat → process
  scheduler : scheduler_t
  ipc_system : ipc_system_t
  pipes : Nat → pipe
  message_queues : Nat → message_queue
  semaphores : Nat → semaphore
  periodic_tasks : Nat → periodic_task
  periodic_task_count : Nat
  mm_state : mm_state_t
  swap_state : swap_state_t
  phys : Nat → Nat

/-- What a kernel call did: it returned a value, it reached `schedule()` inside a
blocking loop, or it dereferenced a `NULL` process pointer. -/
inductive outcome where
  | returned (v : Int)
  | blocked
  | fault
  deriving DecidableEq, Repr

/-- Replace the PCB in slot `i` by `f` of it. -/
def kernel.set_proc (k : kernel) (i : Nat) (f : process → process) : kernel :=
  { k with processes := Function.update k.processes i (f (k.processes i)) }

/-! ## scheduler.c: operations -/

/-- The first index `i` with `lo ≤ i < hi` and `p i`, as a `for` loop with `break`
finds it. -/
def first_index (lo hi : Nat) (p : Nat → Bool) : Option Nat :=
  (List.range hi).find? (fun i => decide (lo ≤ i) && p i)

/-- Source `create_idle_process`. -/
def create_idle_process (k : kernel) : kernel :=
  let k1 := k.set_proc 0 (fun idle =>
    { idle with pid := 0, ppid := 0, state := PROCESS_READY, priority := PRIORITY_IDLE,
                vruntime := 0, nice_value := 19, weight := 15, in_use := true })
  { k1 with scheduler := { k1.scheduler with idle_process := some 0 } }

/-- Source `scheduler_init`. -/
def scheduler_init (k : kernel) : kernel :=
  let cleared : Nat → process := fun i =>
    if i < MAX_PROCESSES then { (k.processes i) with in_use := false, pid := 0 }
    else k.processes i
  let k1 := { k with processes := cleared }
  let k2 := { k1 with scheduler :=
    { current_process := none, idle_process := none, cfs_runqueue := [],
      total_weight := 0, min_vruntime := 0, nr_running := 0, next_pid := 1,
      scheduler_enabled := false } }
  let k3 := create_idle_process k2
  { k3 with scheduler := { k3.scheduler with scheduler_enabled := true } }

/-- Source `cfs_enqueue_task`. -/
def cfs_enqueue_task (k : kernel) (proc : Nat) : kernel :=
  let k1 := if (k.processes proc).state ≠ PROCESS_READY
            then k.set_proc proc (fun p => { p with state := PROCESS_READY }) else k
  let p := k1.processes proc
  { k1 with scheduler := { k1.scheduler with
      cfs_runqueue := rb_insert k1.scheduler.cfs_runqueue proc p.vruntime,
      total_weight := u64 (k1.scheduler.total_weight + p.weight),
      nr_running := u32 (k1.scheduler.nr_running + 1) } }

/-- Source `cfs_dequeue_task`: the node is looked up by the process's current
vruntime. -/
def cfs_dequeue_task (k : kernel) (proc : Nat) : kernel :=
  let p := k.processes proc
  { k with scheduler := { k.scheduler with
      cfs_runqueue := rb_remove k.scheduler.cfs_runqueue p.vruntime,
      total_weight := sub_u64 k.scheduler.total_weight p.weight,
      nr_running := sub_u32 k.scheduler.nr_running 1 } }

/-- Source `update_vruntime`. -/
def update_vruntime (k : kernel) (proc : Nat) (delta_exec : Nat) : kernel :=
  let k1 := k.set_proc proc (fun p =>
    { p with vruntime := u64 (p.vruntime + u64 (delta_exec * 1024) / p.weight),
             sum_exec_runtime := u64 (p.sum_exec_runtime + delta_exec) })
  if (k1.processes proc).vruntime < k1.scheduler.min_vruntime then
    { k1 with scheduler := { k1.scheduler with min_vruntime := (k1.processes proc).vruntime } }
  else k1

/-- Source `cfs_pick_next_task`. -/
def cfs_pick_next_task (k : kernel) : Option Nat :=
  match k.scheduler.cfs_runqueue with
  | [] => k.scheduler.idle_process
  | _ :: _ =>
    match rb_leftmost k.scheduler.cfs_runqueue with
    | some leftmost => some leftmost.process
    | none => k.scheduler.idle_process

/-- The process `schedule()` holds in `next` after its first two statements. -/
def schedule_next (k : kernel) : Option Nat :=
  match cfs_pick_next_task k with
  | some n => some n
  | none => k.scheduler.idle_process

/-- Source `schedule`.  The two readings of `get_system_time()` are the arguments
`now_out` (accounting of the outgoing process) and `now_in` (start of the incoming
one).  `context_switch` only swaps CPU registers.  With no idle process set up
(`next` still `NULL`) the C code dereferences `NULL`; the state is then left
alone. -/
def schedule (k : kernel) (now_out now_in : Nat) : kernel :=
  if !k.scheduler.scheduler_enabled then k
  else
    let prev := k.scheduler.current_process
    match schedule_next k with
    | none => k
    | some next =>
      if prev = some next then k
      else
        let k1 :=
          match prev with
          | some pv =>
            if (k.processes pv).state = PROCESS_RUNNING then
              let delta_exec := sub_u64 now_out (k.processes pv).exec_start
              let ka := update_vruntime k pv delta_exec
              let kb := ka.set_proc pv (fun p =>
                { p with total_cpu_time := u64 (p.total_cpu_time + delta_exec),
                         state := PROCESS_READY })
              if (kb.processes pv).state = PROCESS_READY then cfs_enqueue_task kb pv else kb
            else k
          | none => k
        let k2 := if some next ≠ k1.scheduler.idle_process then cfs_dequeue_task k1 next else k1
        let k3 := k2.set_proc next (fun p =>
          { p with state := PROCESS_RUNNING, exec_start := now_in, last_scheduled := now_in })
        { k3 with scheduler := { k3.scheduler with current_process := some next } }

/-- Source `get_process_by_pid`. -/
def get_process_by_pid (k : kernel) (pid : Nat) : Option Nat :=
  first_index 0 MAX_PROCESSES (fun i => (k.processes i).in_use && decide ((k.processes i).pid = pid))

/-- Source `signal_send` (ipc.c). -/
def signal_send (k : kernel) (pid : Nat) (signal : Nat) : Int × kernel :=
  match get_process_by_pid k pid with
  | none => (-1, k)
  | some target =>
    let k1 := k.set_proc target (fun p =>
      { p with pending_signals := u32 (p.pending_signals ||| (1 <<< signal)) })
    if (k1.processes target).state = PROCESS_BLOCKED then
      let k2 := k1.set_proc target (fun p => { p with state := PROCESS_READY })
      (0, cfs_enqueue_task k2 target)
    else (0, k1)

/-- Source `process_create`; `now` is the reading of `get_system_time()`. -/
def process_create (k : kernel) (priority : Nat) (now : Nat) : Nat × kernel :=
  match first_index 1 MAX_PROCESSES (fun i => !(k.processes i).in_use) with
  | none => (0, k)
  | some i =>
    let nice : Int := if priority = PRIORITY_HIGH then -5
                      else if priority = PRIORITY_LOW then 5 else 0
    let ppid := match k.scheduler.current_process with
                | some c => (k.processes c).pid
                | none => 0
    let k1 := { k with scheduler := { k.scheduler with next_pid := u32 (k.scheduler.next_pid + 1) } }
    let k2 := k1.set_proc i (fun p =>
      { p with pid := k.scheduler.next_pid, ppid := ppid, state := PROCESS_READY,
               priority := priority, nice_value := nice, weight := calculate_weight nice,
               vruntime := k.scheduler.min_vruntime, exec_start := 0, sum_exec_runtime := 0,
               creation_time := now, last_scheduled := 0, total_cpu_time := 0,
               parent := k.scheduler.current_process, child_count := 0, in_use := true })
    let k3 := cfs_enqueue_task k2 i
    ((k3.processes i).pid, k3)

/-- Source `process_exit`; the time arguments are those of the `schedule()` call
that ends it. -/
def process_exit (k : kernel) (exit_code : Nat) (now_out now_in : Nat) : kernel :=
  match k.scheduler.current_process with
  | none => k
  | some proc =>
    if some proc = k.scheduler.idle_process then k
    else
      let k1 := k.set_proc proc (fun p =>
        { p with state := PROCESS_ZOMBIE, exit_code := exit_code })
      let k2 := cfs_dequeue_task k1 proc
      let k3 := match (k2.processes proc).parent with
                | some par => (signal_send k2 (k2.processes par).pid SIGCHLD).2
                | none => k2
      schedule k3 now_out now_in

/-! ## ipc.c: array loops -/

/-- The loop `for (i = lo; i < lo + n; i++) a[i] = a[i + 1];` run on array `a`. -/
def shift_left {α : Type} (a : Nat → α) : Nat → Nat → Nat → α
  | _, 0 => a
  | lo, n + 1 => shift_left (Function.update a lo (a (lo + 1))) (lo + 1) n

/-- The loop `for (i = hi; i > pos; i--) a[i] = a[i - 1];` run on array `a`. -/
def shift_right {α : Type} (a : Nat → α) (pos : Nat) : Nat → Nat → α
  | 0 => a
  | i + 1 => if i + 1 > pos then shift_right (Function.update a (i + 1) (a i)) pos i else a

/-! ## ipc.c: the real-time priority queue -/

/-- The `while (i > 0 && pq->priorities[i-1] > priority)` loop of
`priority_queue_insert`, started at `i`; returns both arrays and the final `i`. -/
def priority_queue_insert_loop (priority : Nat) :
    Nat → (Nat → Option Nat) → (Nat → Nat) → (Nat → Option Nat) × (Nat → Nat) × Nat
  | 0, procs, prios => (procs, prios, 0)
  | i + 1, procs, prios =>
    if prios i > priority then
      priority_queue_insert_loop priority i
        (Function.update procs (i + 1) (procs i)) (Function.update prios (i + 1) (prios i))
    else (procs, prios, i + 1)

/-- Source `priority_queue_insert`. -/
def priority_queue_insert (pq : priority_queue) (proc : Option Nat) (priority : Nat) :
    priority_queue :=
  if pq.count ≥ MAX_PROCESSES then pq
  else
    let r := priority_queue_insert_loop priority pq.count pq.processes pq.priorities
    { processes := Function.update r.1 r.2.2 proc
      priorities := Function.update r.2.1 r.2.2 priority
      count := u32 (pq.count + 1) }

/-- Source `priority_queue_remove_highest`: the returned pointer and the queue
afterwards. -/
def priority_queue_remove_highest (pq : priority_queue) : Option Nat × priority_queue :=
  if pq.count = 0 then (none, pq)
  else
    (pq.processes 0,
     { processes := shift_left pq.processes 0 (pq.count - 1)
       priorities := shift_left pq.priorities 0 (pq.count - 1)
       count := pq.count - 1 })

/-! ## ipc.c: timeouts -/

/-- Source `rtos_get_ticks`. -/
def rtos_get_ticks (k : kernel) : Nat := k.ipc_system.system_ticks

/-- Source `rtos_ms_to_ticks`. -/
def rtos_ms_to_ticks (ms : Nat) : Nat := ms

/-- Source `rtos_add_timeout`. -/
def rtos_add_timeout (k : kernel) (proc : Nat) (timeout_ms : Nat) : kernel :=
  if k.ipc_system.timeout_count ≥ MAX_PROCESSES then k
  else
    let t : rtos_timeout :=
      { deadline_ticks := u64 (rtos_get_ticks k + rtos_ms_to_ticks timeout_ms)
        has_timeout := true
        waiting_process := proc }
    { k with ipc_system := { k.ipc_system with
        active_timeouts := Function.update k.ipc_system.active_timeouts k.ipc_system.timeout_count t
        timeout_count := u32 (k.ipc_system.timeout_count + 1) } }

/-- The body of the `for` loop of `rtos_check_timeouts` from index `i` on; `fuel`
bounds the number of passes (each pass either advances `i` or removes a record). -/
def rtos_check_timeouts_loop (current_ticks : Nat) : Nat → Nat → kernel → kernel
  | 0, _, k => k
  | fuel + 1, i, k =>
    if i < k.ipc_system.timeout_count then
      let timeout := k.ipc_system.active_timeouts i
      if timeout.has_timeout && decide (current_ticks ≥ timeout.deadline_ticks) then
        let wp := timeout.waiting_process
        let k1 :=
          if (k.processes wp).state = PROCESS_BLOCKED then
            let ka := k.set_proc wp (fun p => { p with state := PROCESS_READY })
            { ka with ipc_system := { ka.ipc_system with
                rt_ready_queue := priority_queue_insert ka.ipc_system.rt_ready_queue (some wp)
                                    (ka.processes wp).priority } }
          else k
        let k2 := { k1 with ipc_system := { k1.ipc_system with
            active_timeouts := shift_left k1.ipc_system.active_timeouts i
                                 (k1.ipc_system.timeout_count - 1 - i)
            timeout_count := k1.ipc_system.timeout_count - 1 } }
        rtos_check_timeouts_loop current_ticks fuel i k2
      else rtos_check_timeouts_loop current_ticks fuel (i + 1) k
    else k

/-- Source `rtos_check_timeouts`. -/
def rtos_check_timeouts (k : kernel) : kernel :=
  rtos_check_timeouts_loop (rtos_get_ticks k) (k.ipc_system.timeout_count + 1) 0 k

/-- Source `rtos_schedule_next`: the process picked and the state afterwards (the
real-time queue loses its head). -/
def rtos_schedule_next (k : kernel) : Option Nat × kernel :=
  let r := priority_queue_remove_highest k.ipc_system.rt_ready_queue
  let k1 := { k with ipc_system := { k.ipc_system with rt_ready_queue := r.2 } }
  match r.1 with
  | some rt_proc => (some rt_proc, k1)
  | none => (cfs_pick_next_task k1, k1)

/-- Source `rtos_set_realtime_priority`. -/
def rtos_set_realtime_priority (k : kernel) (pid : Nat) (priority : Nat) : Int × kernel :=
  match get_process_by_pid k pid with
  | none => (-1, k)
  | some proc =>
    if priority > 99 then (-1, k)
    else
      let k1 := k.set_proc proc (fun p =>
        { p with priority := priority, is_realtime := true, time_slice := 10,
                 default_time_slice := 10 })
      if (k1.processes proc).state = PROCESS_READY then
        (0, { k1 with ipc_system := { k1.ipc_system with
                rt_ready_queue := priority_queue_insert k1.ipc_system.rt_ready_queue
                                    (some proc) priority } })
      else (0, k1)

/-- Source `ipc_init`. -/
def ipc_init (k : kernel) : kernel :=
  let pipes1 : Nat → pipe := fun i =>
    if i < MAX_PIPES then { (k.pipes i) with in_use := false } else k.pipes i
  let msgqs1 : Nat → message_queue := fun i =>
    if i < MAX_MESSAGE_QUEUES then { (k.message_queues i) with in_use := false }
    else k.message_queues i
  let sems1 : Nat → semaphore := fun i =>
    if i < MAX_SEMAPHORES then { (k.semaphores i) with in_use := false } else k.semaphores i
  { k with
    pipes := pipes1
    message_queues := msgqs1
    semaphores := sems1
    ipc_system := { k.ipc_system with
      next_pipe_id := 1, next_msgq_id := 1, next_sem_id := 1, next_shm_id := 1,
      system_ticks := 0, timeout_count := 0,
      rt_ready_queue := { k.ipc_system.rt_ready_queue with count := 0 },
      preemption_enabled := true, max_interrupt_latency_us := 10,
      max_scheduling_latency_us := 100, initialized := true } }

/-! ## ipc.c: pipes -/

/-- Replace the pipe in slot `i` by `f` of it. -/
def kernel.set_pipe (k : kernel) (i : Nat) (f : pipe → pipe) : kernel :=
  { k with pipes := Function.update k.pipes i (f (k.pipes i)) }

/-- The wake-up loop shared by the pipe operations:
`for (i = 0; i < count; i++) { list[i]->state = PROCESS_READY; cfs_enqueue_task(list[i]); }`. -/
def wake_all (k : kernel) (list : Nat → Nat) (count : Nat) : kernel :=
  (List.range count).foldl
    (fun acc i => cfs_enqueue_task (acc.set_proc (list i) (fun p => { p with state := PROCESS_READY }))
                    (list i))
    k

/-- Source `pipe_create`.  The two descriptors come from `fd_allocate()`, which is
not under src/; they are the arguments `rfd` and `wfd`.  The result is the return
value together with the slot that was initialised. -/
def pipe_create (k : kernel) (rfd wfd : Nat) : Int × Option Nat × kernel :=
  match first_index 0 MAX_PIPES (fun i => !(k.pipes i).in_use) with
  | none => (-1, none, k)
  | some i =>
    let k1 := { k with ipc_system := { k.ipc_system with
                  next_pipe_id := u32 (k.ipc_system.next_pipe_id + 1) } }
    let k2 := k1.set_pipe i (fun p =>
      { p with id := k.ipc_system.next_pipe_id, read_fd := rfd, write_fd := wfd,
               read_pos := 0, write_pos := 0, data_size := 0, reader_count := 0,
               writer_count := 0, in_use := true })
    (0, some i, k2)

/-- The copy loop of `pipe_read`:
`while (bytes_read < size && p->data_size > 0)`, with `n` bytes still wanted. -/
def pipe_read_bytes : Nat → pipe → List Nat × pipe
  | 0, p => ([], p)
  | n + 1, p =>
    if p.data_size > 0 then
      let b := p.buffer p.read_pos
      let r := pipe_read_bytes n
        { p with read_pos := (p.read_pos + 1) % PIPE_BUFFER_SIZE, data_size := p.data_size - 1 }
      (b :: r.1, r.2)
    else ([], p)

/-- Source `pipe_read` from its `while (p->data_size == 0)` loop on: the outcome,
the bytes stored into the caller's buffer, and the state.  This is also what runs
when a blocked reader is resumed. -/
def pipe_read_loop (k : kernel) (pipe_id : Nat) (size : Nat) : outcome × List Nat × kernel :=
  let p := k.pipes pipe_id
  if p.data_size = 0 then
    if p.writer_count = 0 then (outcome.returned 0, [], k)
    else
      match k.scheduler.current_process with
      | none => (outcome.fault, [], k)
      | some current =>
        let k1 := k.set_pipe pipe_id (fun p =>
          { p with readers := Function.update p.readers p.reader_count current,
                   reader_count := u32 (p.reader_count + 1) })
        let k2 := k1.set_proc current (fun q => { q with state := PROCESS_BLOCKED })
        (outcome.blocked, [], k2)
  else
    let r := pipe_read_bytes size p
    let k1 := k.set_pipe pipe_id (fun _ => r.2)
    let k2 := wake_all k1 r.2.writers r.2.writer_count
    let k3 := k2.set_pipe pipe_id (fun p => { p with writer_count := 0 })
    (outcome.returned (wrap_i32 r.1.length), r.1, k3)

/-- Source `pipe_read`. -/
def pipe_read (k : kernel) (pipe_id : Nat) (size : Nat) : outcome × List Nat × kernel :=
  if !(k.pipes pipe_id).in_use then (outcome.returned (-1), [], k)
  else pipe_read_loop k pipe_id size

/-- The copy loop of `pipe_write`:
`while (bytes_written < size && p->data_size < PIPE_BUFFER_SIZE)`; returns the
number of bytes taken from `buf`. -/
def pipe_write_bytes : List Nat → pipe → Nat × pipe
  | [], p => (0, p)
  | b :: rest, p =>
    if p.data_size < PIPE_BUFFER_SIZE then
      let r := pipe_write_bytes rest
        { p with buffer := Function.update p.buffer p.write_pos b,
                 write_pos := (p.write_pos + 1) % PIPE_BUFFER_SIZE,
                 data_size := p.data_size + 1 }
      (r.1 + 1, r.2)
    else (0, p)

/-- Source `pipe_write` from its `while (p->data_size >= PIPE_BUFFER_SIZE - size)`
loop on; `buf` holds the `size` bytes of the caller's buffer.  This is also what
runs when a blocked writer is resumed. -/
def pipe_write_loop (k : kernel) (pipe_id : Nat) (buf : List Nat) : outcome × kernel :=
  let p := k.pipes pipe_id
  if p.data_size ≥ sub_u32 PIPE_BUFFER_SIZE buf.length then
    match k.scheduler.current_process with
    | none => (outcome.fault, k)
    | some current =>
      let k1 := k.set_pipe pipe_id (fun p =>
        { p with writers := Function.update p.writers p.writer_count current,
                 writer_count := u32 (p.writer_count + 1) })
      let k2 := k1.set_proc current (fun q => { q with state := PROCESS_BLOCKED })
      (outcome.blocked, k2)
  else
    let r := pipe_write_bytes buf p
    let k1 := k.set_pipe pipe_id (fun _ => r.2)
    let k2 := wake_all k1 r.2.readers r.2.reader_count
    let k3 := k2.set_pipe pipe_id (fun p => { p with reader_count := 0 })
    (outcome.returned (wrap_i32 r.1), k3)

/-- Source `pipe_write`. -/
def pipe_write (k : kernel) (pipe_id : Nat) (buf : List Nat) : outcome × kernel :=
  let p := k.pipes pipe_id
  if !p.in_use then (outcome.returned (-1), k)
  else if p.reader_count = 0 then
    match k.scheduler.current_process with
    | none => (outcome.fault, k)
    | some current =>
      (outcome.returned (-1), (signal_send k (k.processes current).pid SIGPIPE).2)
  else pipe_write_loop k pipe_id buf

/-! ## ipc.c: semaphores -/

/-- Replace the semaphore in slot `i` by `f` of it. -/
def kernel.set_sem (k : kernel) (i : Nat) (f : semaphore → semaphore) : kernel :=
  { k with semaphores := Function.update k.semaphores i (f (k.semaphores i)) }

/-- Source `semget`: the return value and the state. -/
def semget (k : kernel) (key : Nat) (_nsems : Int) (flags : Nat) : Int × kernel :=
  match first_index 0 MAX_SEMAPHORES
          (fun i => (k.semaphores i).in_use && decide ((k.semaphores i).key = key)) with
  | some i => (wrap_i32 (k.semaphores i).id, k)
  | none =>
    if flags &&& IPC_CREAT = 0 then (-1, k)
    else
      match first_index 0 MAX_SEMAPHORES (fun i => !(k.semaphores i).in_use) with
      | none => (-1, k)
      | some i =>
        let k1 := { k with ipc_system := { k.ipc_system with
                      next_sem_id := u32 (k.ipc_system.next_sem_id + 1) } }
        let k2 := k1.set_sem i (fun s =>
          { s with id := k.ipc_system.next_sem_id, key := key, value := 1, max_value := 1,
                   waiting_count := 0, in_use := true })
        (wrap_i32 (k2.semaphores i).id, k2)

/-- The priority-inheritance scan of `sem_wait_timeout`: the smallest priority
number among the caller's and the waiters'. -/
def sem_highest_priority (k : kernel) (sem : semaphore) (current : Nat) : Nat :=
  (List.range sem.waiting_count).foldl
    (fun highest i =>
      if (k.processes (sem.waiting_processes i)).priority < highest
      then (k.processes (sem.waiting_processes i)).priority else highest)
    (k.processes current).priority

/-- One test of the `while (sem->value <= 0)` loop of `sem_wait_timeout`, with the
locals `current`, `timeout_ms` and `deadline` of the waiting call: time out, reach
`schedule()`, or leave the loop and take the semaphore. -/
def sem_wait_loop (k : kernel) (semid current timeout_ms deadline : Nat) : outcome × kernel :=
  let sem := k.semaphores semid
  if sem.value ≤ 0 then
    if decide (timeout_ms > 0) && decide (rtos_get_ticks k ≥ deadline) then
      let k1 :=
        match first_index 0 sem.waiting_count (fun i => decide (sem.waiting_processes i = current)) with
        | some i =>
          k.set_sem semid (fun s =>
            { s with waiting_processes := shift_left s.waiting_processes i (s.waiting_count - 1 - i),
                     waiting_count := s.waiting_count - 1 })
        | none => k
      (outcome.returned (-2), k1.set_proc current (fun p => { p with state := PROCESS_READY }))
    else (outcome.blocked, k)
  else
    (outcome.returned 0, k.set_sem semid (fun s => { s with value := wrap_i32 (s.value - 1) }))

/-- The priority-inheritance step of `sem_wait_timeout`
(`if (sem->waiting_count > 0) { ... }`). -/
def sem_inherit_priority (k : kernel) (semid current : Nat) : kernel :=
  let sem := k.semaphores semid
  if sem.waiting_count > 0 then
    let highest_priority := sem_highest_priority k sem current
    if (k.processes current).priority > highest_priority then
      k.set_proc current (fun p =>
        { p with original_priority := p.priority, priority := highest_priority,
                 priority_inherited := true })
    else k
  else k

/-- The insertion of the caller into the wait list in `sem_wait_timeout`: the scan
for `insert_pos`, the shift, the store and the count. -/
def sem_enqueue_waiter (k : kernel) (semid current : Nat) : kernel :=
  let sem := k.semaphores semid
  let insert_pos :=
    (first_index 0 sem.waiting_count (fun i =>
      decide ((k.processes current).priority
                < (k.processes (sem.waiting_processes i)).priority))).getD sem.waiting_count
  k.set_sem semid (fun s =>
    { s with waiting_processes :=
               Function.update (shift_right s.waiting_processes insert_pos s.waiting_count)
                 insert_pos current,
             waiting_count := u32 (s.waiting_count + 1) })

/-- Source `sem_wait_timeout` up to its first `schedule()`. -/
def sem_wait_timeout (k : kernel) (semid : Nat) (timeout_ms : Nat) : outcome × kernel :=
  let sem := k.semaphores semid
  if !sem.in_use then (outcome.returned (-1), k)
  else
    let deadline := u64 (rtos_get_ticks k + rtos_ms_to_ticks timeout_ms)
    if sem.value > 0 then
      (outcome.returned 0, k.set_sem semid (fun s => { s with value := wrap_i32 (s.value - 1) }))
    else
      match k.scheduler.current_process with
      | none => (outcome.fault, k)
      | some current =>
        let k1 := sem_inherit_priority k semid current
        let k2 := sem_enqueue_waiter k1 semid current
        let k3 := if timeout_ms > 0 then rtos_add_timeout k2 current timeout_ms else k2
        let k4 := k3.set_proc current (fun p => { p with state := PROCESS_BLOCKED })
        sem_wait_loop k4 semid current timeout_ms deadline

/-- Source `sem_wait_timeout` after `schedule()` has returned to the waiting call:
`rtos_check_timeouts()` and the next test of the loop. -/
def sem_wait_timeout_resume (k : kernel) (semid current timeout_ms deadline : Nat) :
    outcome × kernel :=
  sem_wait_loop (rtos_check_timeouts k) semid current timeout_ms deadline

/-- Source `sem_wait`. -/
def sem_wait (k : kernel) (semid : Nat) : outcome × kernel := sem_wait_timeout k semid 0

/-- Source `sem_signal`. -/
def sem_signal (k : kernel) (semid : Nat) : Int × kernel :=
  let sem := k.semaphores semid
  if !sem.in_use then (-1, k)
  else
    let k1 := k.set_sem semid (fun s => { s with value := wrap_i32 (s.value + 1) })
    if sem.waiting_count > 0 then
      let proc := sem.waiting_processes 0
      let k2 := k1.set_proc proc (fun p => { p with state := PROCESS_READY })
      let k3 := cfs_enqueue_task k2 proc
      (0, k3.set_sem semid (fun s =>
            { s with waiting_processes := shift_left s.waiting_processes 0 (s.waiting_count - 1),
                     waiting_count := s.waiting_count - 1 }))
    else (0, k1)

/-! ## virtual_memory.c: the physical page allocator -/

/-- The effect of `memset((void*)addr, 0, PAGE_SIZE)` on physical memory. -/
def zero_page (m : Nat → Nat) (addr : Nat) : Nat → Nat :=
  fun a => if addr ≤ a ∧ a < addr + PAGE_SIZE then 0 else m a

/-- The effect of `memcpy((void*)dst, (void*)src, PAGE_SIZE)` on physical memory. -/
def copy_page (m : Nat → Nat) (dst src : Nat) : Nat → Nat :=
  fun a => if dst ≤ a ∧ a < dst + PAGE_SIZE then m (src + (a - dst)) else m a

/-- Source `pmm_alloc_page`: the address returned (0 when out of memory) and the
state. -/
def pmm_alloc_page (k : kernel) : Nat × kernel :=
  match k.mm_state.free_pages with
  | [] => (0, k)
  | frame :: rest =>
    let addr := (k.mm_state.page_frames frame).physical_addr
    let mm1 : mm_state_t :=
      { k.mm_state with
        free_pages := rest
        page_frames := Function.update k.mm_state.page_frames frame
          { (k.mm_state.page_frames frame) with ref_count := 1 }
        stats := { k.mm_state.stats with
          free_pages := sub_u64 k.mm_state.stats.free_pages 1
          used_pages := u64 (k.mm_state.stats.used_pages + 1) } }
    (addr, { k with mm_state := mm1, phys := zero_page k.phys addr })

/-- Source `pmm_free_page`. -/
def pmm_free_page (k : kernel) (physical_addr : Nat) : kernel :=
  let page_index := physical_addr / PAGE_SIZE
  let frame := k.mm_state.page_frames page_index
  if frame.ref_count > 0 then
    let frames1 := Function.update k.mm_state.page_frames page_index
      { frame with ref_count := frame.ref_count - 1 }
    if frame.ref_count - 1 = 0 then
      { k with mm_state := { k.mm_state with
          page_frames := frames1
          free_pages := page_index :: k.mm_state.free_pages
          stats := { k.mm_state.stats with
            free_pages := u64 (k.mm_state.stats.free_pages + 1)
            used_pages := sub_u64 k.mm_state.stats.used_pages 1 } } }
    else { k with mm_state := { k.mm_state with page_frames := frames1 } }
  else k

/-! ## virtual_memory.c: page tables -/

/-- One level of the walk in `get_pte`: `entry` is the address of the table entry.
When the entry is not present and `create` is set, a page is allocated and the
entry filled in.  Returns the address of the next table (`entry & PAGE_MASK`), or
`none` where the C code returns `NULL`. -/
def get_pte_level (k : kernel) (entry : Nat) (create : Bool) : Option Nat × kernel :=
  if k.phys entry &&& PAGE_PRESENT = 0 then
    if !create then (none, k)
    else
      let r := pmm_alloc_page k
      if r.1 = 0 then (none, r.2)
      else
        let v := r.1 ||| PAGE_PRESENT ||| PAGE_WRITABLE ||| PAGE_USER
        (some (page_mask v), { r.2 with phys := Function.update r.2.phys entry v })
  else (some (page_mask (k.phys entry)), k)

/-- Source `get_pte`: the address of the leaf entry, or `none` for `NULL`. -/
def get_pte (k : kernel) (pgd : Nat) (virtual_addr : Nat) (create : Bool) : Option Nat × kernel :=
  let pgd_index := (virtual_addr >>> 39) &&& 0x1FF
  let pud_index := (virtual_addr >>> 30) &&& 0x1FF
  let pmd_index := (virtual_addr >>> 21) &&& 0x1FF
  let pte_index := (virtual_addr >>> 12) &&& 0x1FF
  match get_pte_level k (pgd + 8 * pgd_index) create with
  | (none, k1) => (none, k1)
  | (some pud, k1) =>
    match get_pte_level k1 (pud + 8 * pud_index) create with
    | (none, k2) => (none, k2)
    | (some pmd, k2) =>
      match get_pte_level k2 (pmd + 8 * pmd_index) create with
      | (none, k3) => (none, k3)
      | (some pte_table, k3) => (some (pte_table + 8 * pte_index), k3)

/-- Source `map_page`. -/
def map_page (k : kernel) (pgd virtual_addr physical_addr flags : Nat) : Int × kernel :=
  match get_pte k pgd virtual_addr true with
  | (none, k1) => (-1, k1)
  | (some pte, k1) =>
    (0, { k1 with phys := Function.update k1.phys pte (physical_addr ||| flags) })

/-- Source `unmap_page`. -/
def unmap_page (k : kernel) (pgd virtual_addr : Nat) : kernel :=
  match get_pte k pgd virtual_addr false with
  | (none, k1) => k1
  | (some pte, k1) =>
    if k1.phys pte &&& PAGE_PRESENT ≠ 0 then
      let physical_addr := page_mask (k1.phys pte)
      pmm_free_page { k1 with phys := Function.update k1.phys pte 0 } physical_addr
    else k1

/-! ## virtual_memory.c: mappings -/

/-- Source `vma_create` (the `kmalloc` is assumed to succeed where this is used). -/
def vma_create (start vm_end permissions flags : Nat) : vma :=
  { start := start, vm_end := vm_end, permissions := permissions, flags := flags,
    file := none, file_offset := 0 }

/-- Source `vma_find`. -/
def vma_find (k : kernel) (proc : Nat) (addr : Nat) : Option vma :=
  (k.processes proc).vma_list.find? (fun v => decide (addr ≥ v.start) && decide (addr < v.vm_end))

/-- The loop `for (vaddr = vma->start; vaddr < vma->end; vaddr += PAGE_SIZE)
unmap_page(pgd, vaddr);` of `munmap`, with `n` passes allowed. -/
def unmap_range (pgd vm_end : Nat) : Nat → Nat → kernel → kernel
  | 0, _, k => k
  | n + 1, vaddr, k =>
    if vaddr < vm_end then unmap_range pgd vm_end n (u64 (vaddr + PAGE_SIZE)) (unmap_page k pgd vaddr)
    else k

/-- The `while (vma)` loop of `munmap` over the VMA list: the list that remains and
the state.  A VMA inside `[start_addr, end_addr)` has its pages unmapped and is
unlinked.  The page loop gets one pass per page of the VMA, which is what it takes
unless `vaddr` wraps around `2^64`. -/
def munmap_vmas (pgd start_addr end_addr : Nat) : List vma → kernel → List vma × kernel
  | [], k => ([], k)
  | v :: rest, k =>
    if v.start ≥ start_addr ∧ v.vm_end ≤ end_addr then
      munmap_vmas pgd start_addr end_addr rest
        (unmap_range pgd v.vm_end ((v.vm_end - v.start + (PAGE_SIZE - 1)) / PAGE_SIZE) v.start k)
    else
      let r := munmap_vmas pgd start_addr end_addr rest k
      (v :: r.1, r.2)

/-- Source `munmap`. -/
def munmap (k : kernel) (addr length : Nat) : Int × kernel :=
  match k.scheduler.current_process with
  | none => (-1, k)
  | some current =>
    let start_addr := page_mask addr
    let end_addr := page_mask (addr + length + PAGE_SIZE - 1)
    let r := munmap_vmas (k.processes current).pgd start_addr end_addr
               (k.processes current).vma_list k
    (0, r.2.set_proc current (fun p => { p with vma_list := r.1 }))

/-- The flags `mmap` maps a page with:
`page_flags = PAGE_PRESENT | PAGE_USER; if (prot & PROT_WRITE) page_flags |= PAGE_WRITABLE;`. -/
def mmap_page_flags (prot : Nat) : Nat :=
  if prot &&& PROT_WRITE ≠ 0 then PAGE_PRESENT ||| PAGE_USER ||| PAGE_WRITABLE
  else PAGE_PRESENT ||| PAGE_USER

/-- The page loop of `mmap`,
`for (vaddr = start_addr; vaddr < start_addr + aligned_length; vaddr += PAGE_SIZE)`,
with `n` passes allowed; `bound` is `start_addr + aligned_length`.  Returns `false`
with the state at that point when `pmm_alloc_page` fails. -/
def mmap_pages (pgd prot bound : Nat) : Nat → Nat → kernel → Bool × kernel
  | 0, _, k => (true, k)
  | n + 1, vaddr, k =>
    if vaddr < bound then
      let r := pmm_alloc_page k
      if r.1 = 0 then (false, r.2)
      else
        mmap_pages pgd prot bound n (u64 (vaddr + PAGE_SIZE))
          (map_page r.2 pgd vaddr r.1 (mmap_page_flags prot)).2
    else (true, k)

/-- Source `mmap`; `none` is `MAP_FAILED`.  `find_free_vma_space` is not under src/:
the address it returns for this request is the argument `free_space`.  The VMA
allocation (`kmalloc`) is taken to succeed, and the file of descriptor `fd` is
named by the descriptor.  The page loop gets one pass per page of the region, which
is all it can take. -/
def mmap (k : kernel) (addr length prot flags : Nat) (fd : Int) (offset : Nat)
    (free_space : Nat) : Option Nat × kernel :=
  match k.scheduler.current_process with
  | none => (none, k)
  | some current =>
    let aligned_length := page_mask (length + PAGE_SIZE - 1)
    let start_addr := if flags &&& MAP_FIXED = 0 then free_space else addr
    if flags &&& MAP_FIXED = 0 ∧ start_addr = 0 then (none, k)
    else
      let v0 := vma_create start_addr (u64 (start_addr + aligned_length)) prot flags
      let v := if flags &&& MAP_ANONYMOUS = 0 ∧ fd ≥ 0
               then { v0 with file := some fd.toNat, file_offset := offset } else v0
      let k1 := k.set_proc current (fun p => { p with vma_list := v :: p.vma_list })
      let r := mmap_pages (k1.processes current).pgd prot (u64 (start_addr + aligned_length))
                 (aligned_length / PAGE_SIZE) start_addr k1
      if r.1 then (some start_addr, r.2)
      else (none, (munmap r.2 start_addr aligned_length).2)

/-- Source `handle_cow_fault`; `pte` is the address of the faulting entry.  With no
current process the out-of-memory branch has nobody to signal. -/
def handle_cow_fault (k : kernel) (_fault_addr : Nat) (pte : Nat) : kernel :=
  let old_physical := page_mask (k.phys pte)
  let r := pmm_alloc_page k
  let new_physical := r.1
  if new_physical = 0 then
    match r.2.scheduler.current_process with
    | some current => (signal_send r.2 (r.2.processes current).pid SIGKILL).2
    | none => r.2
  else
    let k1 := { r.2 with phys := copy_page r.2.phys new_physical old_physical }
    let entry := new_physical ||| PAGE_PRESENT ||| PAGE_WRITABLE ||| PAGE_USER
    let k2 := { k1 with phys := Function.update k1.phys pte entry }
    pmm_free_page k2 old_physical

/-! ## virtual_memory.c: swap -/

/-- Source `swap_init`: the bitmap is cleared; the swap file is whatever
`create_swap_file` hands back. -/
def swap_init (k : kernel) : kernel :=
  { k with swap_state := { k.swap_state with
      total_swap_pages := MAX_SWAP_PAGES
      used_swap_pages := 0
      swap_bitmap := fun i => if i < MAX_SWAP_PAGES then false else k.swap_state.swap_bitmap i } }

/-- The effect of a successful `file_write(file, offset, (void*)addr, PAGE_SIZE)`:
the file holds the page at the offset. -/
def file_write_page (file : Nat → Nat) (offset : Nat) (m : Nat → Nat) (addr : Nat) : Nat → Nat :=
  fun o => if offset ≤ o ∧ o < offset + PAGE_SIZE then m (addr + (o - offset)) else file o

/-- The effect of `file_read(file, offset, (void*)addr, PAGE_SIZE)` on memory. -/
def file_read_page (file : Nat → Nat) (offset : Nat) (m : Nat → Nat) (addr : Nat) : Nat → Nat :=
  fun a => if addr ≤ a ∧ a < addr + PAGE_SIZE then file (offset + (a - addr)) else m a

/-- Source `swap_out_page`: the slot returned (0 for failure) and the state.
`io_ok` says whether `file_write` transfers the whole page. -/
def swap_out_page (k : kernel) (physical_addr : Nat) (io_ok : Bool) : Nat × kernel :=
  let swap_slot :=
    (first_index 0 k.swap_state.total_swap_pages (fun i => !k.swap_state.swap_bitmap i)).getD 0
  if swap_slot = 0 then (0, k)
  else
    let swap_offset := u32 (swap_slot * PAGE_SIZE)
    if !io_ok then (0, k)
    else
      (swap_slot, { k with swap_state := { k.swap_state with
          swap_file := file_write_page k.swap_state.swap_file swap_offset k.phys physical_addr
          swap_bitmap := Function.update k.swap_state.swap_bitmap swap_slot true
          used_swap_pages := u32 (k.swap_state.used_swap_pages + 1) } })

/-- Source `handle_swap_fault`; `pte` is the address of the faulting entry. -/
def handle_swap_fault (k : kernel) (_fault_addr : Nat) (pte : Nat) : kernel :=
  let swap_slot := u32 ((k.phys pte >>> 12) &&& 0xFFFFF)
  let r := pmm_alloc_page k
  let physical_page := r.1
  if physical_page = 0 then
    match r.2.scheduler.current_process with
    | some current => (signal_send r.2 (r.2.processes current).pid SIGKILL).2
    | none => r.2
  else
    let swap_offset := u32 (swap_slot * PAGE_SIZE)
    let k1 := { r.2 with phys := file_read_page r.2.swap_state.swap_file swap_offset r.2.phys physical_page }
    let entry := physical_page ||| PAGE_PRESENT ||| PAGE_WRITABLE ||| PAGE_USER
    let k2 := { k1 with phys := Function.update k1.phys pte entry }
    { k2 with swap_state := { k2.swap_state with
        swap_bitmap := Function.update k2.swap_state.swap_bitmap swap_slot false
        used_swap_pages := sub_u32 k2.swap_state.used_swap_pages 1 } }

/-! ## Concrete states used to evaluate the code -/

/-- Zero-filled static storage: the state at boot, before any `*_init`. -/
def kernel.zero : kernel :=
  { processes := fun _ => process.zero
    scheduler := { current_process := none, idle_process := none, cfs_runqueue := [],
                   total_weight := 0, min_vruntime := 0, nr_running := 0, next_pid := 0,
                   scheduler_enabled := false }
    ipc_system := { next_pipe_id := 0, next_msgq_id := 0, next_sem_id := 0, next_shm_id := 0,
                    initialized := false, system_ticks := 0,
                    active_timeouts := fun _ => ⟨0, false, 0⟩, timeout_count := 0,
                    rt_ready_queue := ⟨fun _ => none, fun _ => 0, 0⟩,
                    preemption_enabled := false, max_interrupt_latency_us := 0,
                    max_scheduling_latency_us := 0 }
    pipes := fun _ => ⟨0, 0, 0, fun _ => 0, 0, 0, 0, false, fun _ => 0, fun _ => 0, 0, 0⟩
    message_queues := fun _ =>
      ⟨0, 0, fun _ => ⟨0, 0, fun _ => 0⟩, 0, 0, 0, 0, 0, false, fun _ => 0, fun _ => 0, 0, 0⟩
    semaphores := fun _ => ⟨0, 0, 0, 0, false, fun _ => 0, 0⟩
    periodic_tasks := fun _ => ⟨0, 0, 0, false, 0⟩
    periodic_task_count := 0
    mm_state := ⟨[], fun _ => ⟨0, 0, 0⟩, 0, ⟨0, 0, 0⟩, false⟩
    swap_state := ⟨fun _ => false, 0, 0, fun _ => 0⟩
    phys := fun _ => 0 }

/-- The state after `scheduler_init(); ipc_init();` at boot. -/
def kernel.booted : kernel := ipc_init (scheduler_init kernel.zero)

/-- A run of the scheduler alone: the idle process is started, process A (slot 1) is
created and runs from time 15 to 5015, the idle process runs again, process B
(slot 2) is created and preempts it at time 5165. -/
def stale_idle_trace : kernel :=
  let k := schedule kernel.booted 0 0
  let k := (process_create k PRIORITY_NORMAL 0).2
  let k := schedule k 15 15
  let k := schedule k 5015 5015
  let k := (process_create k PRIORITY_NORMAL 5015).2
  schedule k 5165 5165

/-- A run that ends with a process in the real-time ready queue: R (slot 1, pid 1)
runs from time 0 to 10 and is preempted by A (slot 2); R is then given real-time
priority 5, and a third process C (slot 3) is created. -/
def rt_ready_trace : kernel :=
  let k := (process_create kernel.booted PRIORITY_NORMAL 0).2
  let k := schedule k 0 0
  let k := (process_create k PRIORITY_NORMAL 0).2
  let k := schedule k 10 10
  let k := (rtos_set_realtime_priority k 1 5).2
  (process_create k PRIORITY_NORMAL 10).2

/-- A process (slot 1) is created and running, and has just created a pipe. -/
def fresh_pipe_trace : kernel :=
  let k := (process_create kernel.booted PRIORITY_NORMAL 0).2
  let k := schedule k 0 0
  (pipe_create k 3 4).2.2

/-! ## Call sequences on the real-time priority queue -/

/-- Insertion into a list of entries the way `priority_queue_insert` scans, on the
reversed list: entries with a larger priority number are passed, the new entry is
put behind the first one that is not larger. -/
def pq_ins_rev {α : Type} (x : α × Nat) : List (α × Nat) → List (α × Nat)
  | [] => [x]
  | y :: r => if y.2 > x.2 then y :: pq_ins_rev x r else x :: y :: r

/-- Insertion into a list of entries, head first. -/
def pq_ins {α : Type} (l : List (α × Nat)) (x : α × Nat) : List (α × Nat) :=
  (pq_ins_rev x l.reverse).reverse

/-- A run that leaves a semaphore with value 1 and a waiter: three processes (slots
1, 2, 3) are created, process 1 creates the semaphore (slot 0) and takes it,
processes 2 and 3 block on it in turn, and process 1 signals it once, which wakes
process 2 and leaves process 3 waiting. -/
def sem_waiters_trace : kernel :=
  let k := (process_create kernel.booted PRIORITY_NORMAL 0).2
  let k := (process_create k PRIORITY_NORMAL 0).2
  let k := (process_create k PRIORITY_NORMAL 0).2
  let k := schedule k 0 0
  let k := (semget k 42 1 IPC_CREAT).2
  let k := (sem_wait k 0).2
  let k := schedule k 10 10
  let k := (sem_wait_timeout k 0 0).2
  let k := schedule k 20 20
  let k := (sem_wait k 0).2
  let k := schedule k 30 30
  (sem_signal k 0).2

/-- Source `rtos_tick_handler`; the time arguments are those of the `schedule()` call
it may make. -/
def rtos_tick_handler (k : kernel) (now_out now_in : Nat) : kernel :=
  let k1 := { k with ipc_system := { k.ipc_system with
                system_ticks := u64 (k.ipc_system.system_ticks + 1) } }
  let k2 := rtos_check_timeouts k1
  match k2.scheduler.current_process with
  | none => k2
  | some current =>
    if (k2.processes current).time_slice > 0 then
      let k3 := k2.set_proc current (fun p => { p with time_slice := p.time_slice - 1 })
      if (k3.processes current).time_slice = 0 ∧ k3.ipc_system.preemption_enabled = true then
        schedule (k3.set_proc current (fun p => { p with time_slice := p.default_time_slice }))
          now_out now_in
      else k3
    else k2

/-! ## Call sequences on the semaphores -/

/-- A step of the system as far as semaphores are concerned: a call of
`sem_wait_timeout`, `sem_wait` or `sem_signal` by the running process, the resumption
of a call blocked in `sem_wait_timeout` (with the locals of that call), a call of
`schedule()`, or a timer tick. -/
inductive sem_op where
  | wait_timeout (semid timeout_ms : Nat)
  | wait (semid : Nat)
  | resume (semid current timeout_ms deadline : Nat)
  | signal (semid : Nat)
  | sched (now_out now_in : Nat)
  | tick (now_out now_in : Nat)
  deriving DecidableEq, Repr

/-- The state after one step. -/
def sem_step (k : kernel) : sem_op → kernel
  | sem_op.wait_timeout semid timeout_ms => (sem_wait_timeout k semid timeout_ms).2
  | sem_op.wait semid => (sem_wait k semid).2
  | sem_op.resume semid current timeout_ms deadline =>
      (sem_wait_timeout_resume k semid current timeout_ms deadline).2
  | sem_op.signal semid => (sem_signal k semid).2
  | sem_op.sched now_out now_in => schedule k now_out now_in
  | sem_op.tick now_out now_in => rtos_tick_handler k now_out now_in

/-- The state after a sequence of steps. -/
def sem_run (k : kernel) (ops : List sem_op) : kernel := ops.foldl sem_step k

/-- The number of `sem_signal` calls on semaphore `i` in a sequence. -/
def count_signals (i : Nat) : List sem_op → Nat
  | [] => 0
  | sem_op.signal semid :: rest => (if semid = i then 1 else 0) + count_signals i rest
  | _ :: rest => count_signals i rest

/-- A small memory for the paging examples: eight frames of 4096 bytes, frame `i` at
address `4096 * i`; frame 2 is a page table whose entry 1 (address 0x2008) maps
frame 3 present, user and copy-on-write; frame 3 holds data and is shared by two
mappings (reference count 2); frame 5 heads the free list, followed by 6 and 7. -/
def cow_sample_state : kernel :=
  { kernel.zero with
    phys := fun a =>
      if a = 0x2008 then 0x3000 ||| PAGE_PRESENT ||| PAGE_USER ||| PAGE_COW
      else if 0x3000 ≤ a ∧ a < 0x4000 then a % 251 + 1
      else 0
    mm_state :=
      { free_pages := [5, 6, 7]
        page_frames := fun i => ⟨4096 * i, if i = 3 then 2 else if i = 2 then 1 else 0, 0⟩
        total_memory := 32768
        stats := ⟨8, 3, 2⟩
        paging_enabled := true } }

/-- The walk of `get_pte` without `create` on memory `m`: when the three upper
levels are present, the addresses of the three entries read (PGD, PUD, PMD entry)
and of the leaf entry. -/
def pte_walk (m : Nat → Nat) (pgd virtual_addr : Nat) : Option (Nat × Nat × Nat × Nat) :=
  let c1 := pgd + 8 * ((virtual_addr >>> 39) &&& 0x1FF)
  if m c1 &&& PAGE_PRESENT = 0 then none
  else
    let c2 := page_mask (m c1) + 8 * ((virtual_addr >>> 30) &&& 0x1FF)
    if m c2 &&& PAGE_PRESENT = 0 then none
    else
      let c3 := page_mask (m c2) + 8 * ((virtual_addr >>> 21) &&& 0x1FF)
      if m c3 &&& PAGE_PRESENT = 0 then none
      else some (c1, c2, c3, page_mask (m c3) + 8 * ((virtual_addr >>> 12) &&& 0x1FF))

/-- Address `c` lies outside the page of frame `f` (at address `4096 * f`). -/
def outside_frame (c f : Nat) : Prop := c < 4096 * f ∨ 4096 * f + 4096 ≤ c

instance (c f : Nat) : Decidable (outside_frame c f) := by
  unfold outside_frame
  infer_instance

/-- A process (slot 1, page directory in frame 1, no VMA) is running; memory has
eight frames, frame `i` at address `4096 * i`, all zero; frames 2 to 7 are free. -/
def mmap_sample_state : kernel :=
  let k := (process_create kernel.booted PRIORITY_NORMAL 0).2
  let k := schedule k 0 0
  let k := k.set_proc 1 (fun p => { p with pgd := 0x1000 })
  { k with
    mm_state :=
      { free_pages := [2, 3, 4, 5, 6, 7]
        page_frames := fun i => ⟨4096 * i, if i = 1 then 1 else 0, 0⟩
        total_memory := 32768
        stats := ⟨8, 6, 2⟩
        paging_enabled := true } }

/-- The state after a first `mmap` of one page at 0x400000 and its `munmap` on
`mmap_sample_state`: the page tables for that address now exist. -/
def mmap_sample_state2 : kernel :=
  (munmap (mmap mmap_sample_state 0x400000 4096 (PROT_READ ||| PROT_WRITE)
            (MAP_FIXED ||| MAP_PRIVATE ||| MAP_ANONYMOUS) (-1) 0 0).2 0x400000 4096).2

/-- The state after `pmm_alloc_page` has taken frame `f`, at address `4096 * f`, from
the head of the free list, `rest` being the list that remains. -/
def alloc_state (k : kernel) (f : Nat) (rest : List Nat) : kernel :=
  { k with
    mm_state :=
      { k.mm_state with
        free_pages := rest
        page_frames := Function.update k.mm_state.page_frames f
          { (k.mm_state.page_frames f) with ref_count := 1 }
        stats := { k.mm_state.stats with
          free_pages := sub_u64 k.mm_state.stats.free_pages 1
          used_pages := u64 (k.mm_state.stats.used_pages + 1) } }
    phys := zero_page k.phys (4096 * f) }

/-- The state after `unmap_page` has cleared the leaf entry at `pte` and
`pmm_free_page` has put frame `f`, whose reference count was 1, back on the free
list. -/
def unmap_state (k : kernel) (pte f : Nat) : kernel :=
  { k with
    mm_state :=
      { k.mm_state with
        page_frames := Function.update k.mm_state.page_frames f
          { (k.mm_state.page_frames f) with ref_count := 0 }
        free_pages := f :: k.mm_state.free_pages
        stats := { k.mm_state.stats with
          free_pages := u64 (k.mm_state.stats.free_pages + 1)
          used_pages := sub_u64 k.mm_state.stats.used_pages 1 } }
    phys := Function.update k.phys pte 0 }

/-! ## ipc.c: periodic tasks -/

/-- Source `rtos_register_periodic_task`: the return value and the state. -/
def rtos_register_periodic_task (k : kernel) (task_func period_ms priority : Nat) :
    Int × kernel :=
  if k.periodic_task_count ≥ 32 then (-1, k)
  else
    let task : periodic_task :=
      { task_function := task_func, period_ms := period_ms,
        next_execution := u64 (rtos_get_ticks k + rtos_ms_to_ticks period_ms),
        active := true, priority := priority }
    let k1 := { k with
      periodic_tasks := Function.update k.periodic_tasks k.periodic_task_count task,
      periodic_task_count := u32 (k.periodic_task_count + 1) }
    (wrap_i32 (sub_u32 k1.periodic_task_count 1), k1)

/-- One pass of the `for` loop of `rtos_execute_periodic_tasks` at index `i`, with
the list of the indices executed so far. -/
def rtos_execute_periodic_task (current_ticks : Nat) (acc : List Nat × kernel) (i : Nat) :
    List Nat × kernel :=
  let task := acc.2.periodic_tasks i
  if task.active && decide (current_ticks ≥ task.next_execution) then
    let task1 : periodic_task :=
      { task with next_execution := u64 (current_ticks + rtos_ms_to_ticks task.period_ms) }
    (acc.1 ++ [i], { acc.2 with periodic_tasks := Function.update acc.2.periodic_tasks i task1 })
  else acc

/-- Source `rtos_execute_periodic_tasks`: the table indices of the tasks whose
function was called, in call order, and the state.  The task functions themselves
are outside the kernel; they are taken to leave the table and the tick counter
alone. -/
def rtos_execute_periodic_tasks (k : kernel) : List Nat × kernel :=
  (List.range k.periodic_task_count).foldl (rtos_execute_periodic_task (rtos_get_ticks k)) ([], k)

/-! ## ipc.c: message queues -/

/-- The flag `IPC_NOWAIT` is used by `msgsnd` and `msgrcv` but defined nowhere under
src/; it has its POSIX value (octal 04000). -/
def IPC_NOWAIT : Nat := 2048

/-- Replace the message queue in slot `i` by `f` of it. -/
def kernel.set_msgq (k : kernel) (i : Nat) (f : message_queue → message_queue) : kernel :=
  { k with message_queues := Function.update k.message_queues i (f (k.message_queues i)) }

/-- Source `msgget`: the return value and the state. -/
def msgget (k : kernel) (key : Nat) (flags : Nat) : Int × kernel :=
  match first_index 0 MAX_MESSAGE_QUEUES
          (fun i => (k.message_queues i).in_use && decide ((k.message_queues i).key = key)) with
  | some i => (wrap_i32 (k.message_queues i).id, k)
  | none =>
    if flags &&& IPC_CREAT = 0 then (-1, k)
    else
      match first_index 0 MAX_MESSAGE_QUEUES (fun i => !(k.message_queues i).in_use) with
      | none => (-1, k)
      | some i =>
        let k1 := { k with ipc_system := { k.ipc_system with
                      next_msgq_id := u32 (k.ipc_system.next_msgq_id + 1) } }
        let k2 := k1.set_msgq i (fun q =>
          { q with id := k.ipc_system.next_msgq_id, key := key, head := 0, tail := 0, count := 0,
                   max_messages := MSG_QUEUE_SIZE, max_message_size := MAX_MSG_SIZE,
                   sender_count := 0, receiver_count := 0, in_use := true })
        (wrap_i32 (k2.message_queues i).id, k2)

/-- Source `msgsnd` from its `while (mq->count >= mq->max_messages)` loop on; the
caller's message is its `type` and its `data` array.  This is also what runs when a
blocked sender is resumed. -/
def msgsnd_loop (k : kernel) (msgqid : Nat) (mtype : Nat) (data : Nat → Nat) (msgsz msgflg : Nat) :
    outcome × kernel :=
  let mq := k.message_queues msgqid
  if mq.count ≥ mq.max_messages then
    if msgflg &&& IPC_NOWAIT ≠ 0 then (outcome.returned (-1), k)
    else
      match k.scheduler.current_process with
      | none => (outcome.fault, k)
      | some current =>
        let k1 := k.set_msgq msgqid (fun q =>
          { q with waiting_senders := Function.update q.waiting_senders q.sender_count current,
                   sender_count := u32 (q.sender_count + 1) })
        let k2 := k1.set_proc current (fun p => { p with state := PROCESS_BLOCKED })
        (outcome.blocked, k2)
  else
    let old := mq.messages mq.tail
    let msg : message :=
      { type := mtype, size := msgsz, data := fun j => if j < msgsz then data j else old.data j }
    let k1 := k.set_msgq msgqid (fun q =>
      { q with messages := Function.update q.messages q.tail msg,
               tail := u32 (q.tail + 1) % q.max_messages,
               count := u32 (q.count + 1) })
    let k2 := wake_all k1 (k1.message_queues msgqid).waiting_receivers
                (k1.message_queues msgqid).receiver_count
    let k3 := k2.set_msgq msgqid (fun q => { q with receiver_count := 0 })
    (outcome.returned 0, k3)

/-- Source `msgsnd`. -/
def msgsnd (k : kernel) (msgqid : Nat) (mtype : Nat) (data : Nat → Nat) (msgsz msgflg : Nat) :
    outcome × kernel :=
  if !(k.message_queues msgqid).in_use then (outcome.returned (-1), k)
  else if msgsz > MAX_MSG_SIZE then (outcome.returned (-1), k)
  else msgsnd_loop k msgqid mtype data msgsz msgflg

/-- The type scan of `msgrcv`:
`for (i = 0; i < mq->count; i++) { index = (mq->head + i) % mq->max_messages; ... }`,
giving the index of the first message of type `msgtyp`. -/
def msgrcv_find (mq : message_queue) (msgtyp : Int) : Option Nat :=
  (first_index 0 mq.count (fun i =>
      decide (((mq.messages (u32 (mq.head + i) % mq.max_messages)).type : Int) = msgtyp))).map
    (fun i => u32 (mq.head + i) % mq.max_messages)

/-- The compaction loop of `msgrcv`,
`for (i = msg_index; i != mq->tail; i = (i + 1) % mq->max_messages)
   mq->messages[i] = mq->messages[(i + 1) % mq->max_messages];`,
with `fuel` passes allowed (fewer than `max_messages` are taken when `i` and `tail`
are indices of the ring). -/
def msgrcv_shift (max tail : Nat) : Nat → Nat → (Nat → message) → (Nat → message)
  | 0, _, msgs => msgs
  | fuel + 1, i, msgs =>
    if i ≠ tail then
      msgrcv_shift max tail fuel (u32 (i + 1) % max)
        (Function.update msgs i (msgs (u32 (i + 1) % max)))
    else msgs

/-- Source `msgrcv` from its `while (mq->count == 0)` loop on: the outcome, what was
stored into the caller's buffer (the type and the bytes copied), and the state.
This is also what runs when a blocked receiver is resumed. -/
def msgrcv_loop (k : kernel) (msgqid msgsz : Nat) (msgtyp : Int) (msgflg : Nat) :
    outcome × Option (Nat × List Nat) × kernel :=
  let mq := k.message_queues msgqid
  if mq.count = 0 then
    if msgflg &&& IPC_NOWAIT ≠ 0 then (outcome.returned (-1), none, k)
    else
      match k.scheduler.current_process with
      | none => (outcome.fault, none, k)
      | some current =>
        let k1 := k.set_msgq msgqid (fun q =>
          { q with waiting_receivers := Function.update q.waiting_receivers q.receiver_count current,
                   receiver_count := u32 (q.receiver_count + 1) })
        let k2 := k1.set_proc current (fun p => { p with state := PROCESS_BLOCKED })
        (outcome.blocked, none, k2)
  else
    let found := if msgtyp > 0 then msgrcv_find mq msgtyp else some mq.head
    match found with
    | none => (outcome.returned (-1), none, k)
    | some msg_index =>
      let msg := mq.messages msg_index
      let copy_size := if msg.size < msgsz then msg.size else msgsz
      let k1 :=
        if msg_index = mq.head then
          k.set_msgq msgqid (fun q => { q with head := u32 (q.head + 1) % q.max_messages })
        else
          k.set_msgq msgqid (fun q =>
            { q with messages := msgrcv_shift q.max_messages q.tail q.max_messages msg_index
                                   q.messages,
                     tail := u32 (sub_u32 q.tail 1 + q.max_messages) % q.max_messages })
      let k2 := k1.set_msgq msgqid (fun q => { q with count := sub_u32 q.count 1 })
      let k3 := wake_all k2 (k2.message_queues msgqid).waiting_senders
                  (k2.message_queues msgqid).sender_count
      let k4 := k3.set_msgq msgqid (fun q => { q with sender_count := 0 })
      (outcome.returned (wrap_i32 copy_size),
       some (msg.type, (List.range copy_size).map msg.data), k4)

/-- Source `msgrcv`. -/
def msgrcv (k : kernel) (msgqid msgsz : Nat) (msgtyp : Int) (msgflg : Nat) :
    outcome × Option (Nat × List Nat) × kernel :=
  if !(k.message_queues msgqid).in_use then (outcome.returned (-1), none, k)
  else msgrcv_loop k msgqid msgsz msgtyp msgflg

/-! ## ipc.c: signal delivery -/

/-- One pass of the `for (sig = 1; sig < 32; sig++)` loop of `signal_handle_pending`;
`pending` is the mask computed on entry.  A registered handler is user code and is
taken to leave the kernel state alone.  The time arguments are those of the
`schedule()` call inside `process_exit`. -/
def signal_handle_one (proc pending now_out now_in : Nat) (k : kernel) (sig : Nat) : kernel :=
  if pending &&& (1 <<< sig) ≠ 0 then
    let k1 := k.set_proc proc (fun p =>
      { p with pending_signals := p.pending_signals &&& (4294967295 ^^^ (1 <<< sig)) })
    if (k1.processes proc).handlers sig then k1
    else if sig = SIGKILL ∨ sig = SIGTERM then process_exit k1 (128 + sig) now_out now_in
    else if sig = SIGSTOP then k1.set_proc proc (fun p => { p with state := PROCESS_BLOCKED })
    else k1
  else k

/-- Source `signal_handle_pending`. -/
def signal_handle_pending (k : kernel) (proc : Nat) (now_out now_in : Nat) : kernel :=
  let pending := (k.processes proc).pending_signals
                   &&& (4294967295 ^^^ (k.processes proc).blocked_signals)
  (List.range' 1 31).foldl (signal_handle_one proc pending now_out now_in) k

/-! ## virtual_memory.c: the page-fault handler -/

/-- Source `page_fault_handler`. -/
def page_fault_handler (k : kernel) (fault_addr error_code : Nat) : kernel :=
  match k.scheduler.current_process with
  | none => k
  | some current =>
    match vma_find k current fault_addr with
    | none => (signal_send k (k.processes current).pid SIGSEGV).2
    | some v =>
      if error_code &&& 0x2 ≠ 0 ∧ v.permissions &&& PROT_WRITE = 0 then
        (signal_send k (k.processes current).pid SIGSEGV).2
      else
        let r := get_pte k (k.processes current).pgd fault_addr false
        let k1 := r.2
        let is_cow := match r.1 with
                      | some pte => decide (k1.phys pte &&& PAGE_COW ≠ 0)
                      | none => false
        let is_swapped := match r.1 with
                          | some pte => decide (k1.phys pte &&& PAGE_SWAPPED ≠ 0)
                          | none => false
        match r.1, is_cow, is_swapped with
        | some pte, true, _ => handle_cow_fault k1 fault_addr pte
        | some pte, false, true => handle_swap_fault k1 fault_addr pte
        | _, _, _ =>
          let page_addr := page_mask fault_addr
          let a := pmm_alloc_page k1
          if a.1 = 0 then (signal_send a.2 (a.2.processes current).pid SIGKILL).2
          else
            let flags := if v.permissions &&& PROT_WRITE ≠ 0
                         then PAGE_PRESENT ||| PAGE_USER ||| PAGE_WRITABLE
                         else PAGE_PRESENT ||| PAGE_USER
            (map_page a.2 (a.2.processes current).pgd page_addr a.1 flags).2

/-! ## Call sequences on the scheduler -/

/-- A call of one of the three scheduler entry points, with the readings of
`get_system_time()` it makes. -/
inductive sched_op where
  | create (priority now : Nat)
  | sched (now_out now_in : Nat)
  | exit (exit_code now_out now_in : Nat)
  deriving DecidableEq, Repr

/-- The state after one call. -/
def sched_step (k : kernel) : sched_op → kernel
  | sched_op.create priority now => (process_create k priority now).2
  | sched_op.sched now_out now_in => schedule k now_out now_in
  | sched_op.exit exit_code now_out now_in => process_exit k exit_code now_out now_in

/-- The state after a sequence of calls. -/
def sched_run (k : kernel) (ops : List sched_op) : kernel := ops.foldl sched_step k

/-! ## Runs of the periodic-task poll -/

/-- Task `i` is due in state `k`: the test of `rtos_execute_periodic_tasks`. -/
def periodic_due (k : kernel) (i : Nat) : Bool :=
  (k.periodic_tasks i).active && decide (rtos_get_ticks k ≥ (k.periodic_tasks i).next_execution)

/-- Timer ticks, each followed by one call of `rtos_execute_periodic_tasks`; `ts`
gives the clock readings of each tick's `schedule()` call.  The result lists, tick by
tick, the tasks executed after that tick. -/
def periodic_ticks : List (Nat × Nat) → kernel → List (List Nat) × kernel
  | [], k => ([], k)
  | t :: ts, k =>
    let r := rtos_execute_periodic_tasks (rtos_tick_handler k t.1 t.2)
    let rest := periodic_ticks ts r.2
    (r.1 :: rest.1, rest.2)

/-- A sequence of registrations `(task_func, period_ms, priority)`, made one after
the other. -/
def register_all (k : kernel) (regs : List (Nat × Nat × Nat)) : kernel :=
  regs.foldl (fun acc r => (rtos_register_periodic_task acc r.1 r.2.1 r.2.2).2) k

/-- The messages a queue holds, in send order: the `count` ring slots from `head`
on. -/
def msgq_contents (q : message_queue) : List message :=
  (List.range q.count).map (fun i => q.messages (u32 (q.head + i) % q.max_messages))

/-- A message with a given type, size and constant data byte. -/
def sample_message (type size byte : Nat) : message :=
  { type := type, size := size, data := fun _ => byte }

/-- A full queue that wraps around the ring: slot 0 of the table is in use with
`head = tail = 1000` and `count = 1024`; the message at offset `i` from the head has
type `i % 3 + 1`, size 4 and the data byte `i % 256`. -/
def full_queue_state : kernel :=
  kernel.booted.set_msgq 0 (fun q =>
    { q with id := 1, key := 42, head := 1000, tail := 1000, count := 1024,
             max_messages := MSG_QUEUE_SIZE, max_message_size := MAX_MSG_SIZE, in_use := true,
             messages := fun s =>
               sample_message ((s + 1024 - 1000) % 1024 % 3 + 1) 4 ((s + 1024 - 1000) % 1024 % 256) })

/-- The state `sem_wait_timeout` leaves when the caller has to wait. -/
def sem_wait_blocked_state (k : kernel) (semid timeout_ms c : Nat) : kernel :=
  (if timeout_ms > 0
    then rtos_add_timeout (sem_enqueue_waiter (sem_inherit_priority k semid c) semid c) c timeout_ms
    else sem_enqueue_waiter (sem_inherit_priority k semid c) semid c).set_proc c
      (fun p => { p with state := PROCESS_BLOCKED })

/-- A run that leaves a semaphore held, with one waiter and a third process running:
P1 (slot 1, priority 2), P2 (slot 2, priority 1) and P3 (slot 3, priority 3) are
created; P1 creates the semaphore (slot 0) and takes it; P2 runs and blocks on it; P3
runs. -/
def sem_priority_trace : kernel :=
  let k := (process_create kernel.booted PRIORITY_NORMAL 0).2
  let k := (process_create k PRIORITY_HIGH 0).2
  let k := (process_create k PRIORITY_LOW 0).2
  let k := schedule k 0 0
  let k := (semget k 42 1 IPC_CREAT).2
  let k := (sem_wait k 0).2
  let k := schedule k 10 10
  let k := (sem_wait k 0).2
  schedule k 20 20

/-- The priority number of the waiter at index `i` of a semaphore's wait list. -/
def sem_waiter_priority (k : kernel) (semid i : Nat) : Nat :=
  (k.processes ((k.semaphores semid).waiting_processes i)).priority

/-- The wait list of a semaphore is in priority order: the priority numbers do not
decrease from index 0 on. -/
def sem_list_sorted (k : kernel) (semid : Nat) : Prop :=
  ∀ i j, i < j → j < (k.semaphores semid).waiting_count →
    sem_waiter_priority k semid i ≤ sem_waiter_priority k semid j

/-- A run that wakes a blocked process twice.  P (slot 1) and Q (slot 2) are created
and each runs once (P's vruntime becomes 10); P creates semaphore 0, takes it and
blocks on it; Q runs, sends P a signal (which makes P READY and enqueues it) and
signals the semaphore (which enqueues P a second time); P runs again and takes the
semaphore; R (slot 3) is created and runs from time 60 to 75 while P waits in the
run queue; then P runs again. -/
def exit_stale_before : kernel :=
  let k := (process_create kernel.booted PRIORITY_NORMAL 0).2
  let k := schedule k 0 0
  let k := (process_create k PRIORITY_NORMAL 0).2
  let k := schedule k 10 10
  let k := schedule k 30 30
  let k := (semget k 42 1 IPC_CREAT).2
  let k := (sem_wait k 0).2
  let k := (sem_wait k 0).2
  let k := schedule k 40 40
  let k := (signal_send k 1 10).2
  let k := (sem_signal k 0).2
  let k := schedule k 50 50
  let k := (sem_wait_timeout_resume k 0 1 0 0).2
  let k := (process_create k PRIORITY_NORMAL 50).2
  let k := schedule k 60 60
  schedule k 75 75

/-- The state after P calls `process_exit(3)` at the end of `exit_stale_before`. -/
def exit_stale_trace : kernel := process_exit exit_stale_before 3 80 80

/-- Two processes A (slot 1, pid 1) and B (slot 2, pid 2) are created, A is running
and B is READY; `signal_send(2, SIGKILL)` has made SIGKILL pending on B. -/
def sigkill_pending_trace : kernel :=
  let k := (process_create kernel.booted PRIORITY_NORMAL 0).2
  let k := (process_create k PRIORITY_NORMAL 0).2
  let k := schedule k 0 0
  (signal_send k 2 SIGKILL).2

/-- A state with both tables exhausted: 32 periodic tasks have been registered after
boot, and every slot of the process table is marked in use, as it is after 255
successful `process_create` calls. -/
def full_tables_state : kernel :=
  let k := register_all kernel.booted (List.replicate 32 (1, 100, 10))
  { k with processes := fun i => { (k.processes i) with in_use := true } }

/-! ## The two halves of a context switch in `schedule` -/

/-- The first half of the switch in `schedule()`: the outgoing process, if it is
RUNNING, is accounted for (`update_vruntime`, `total_cpu_time`), made READY and put on
the run queue. -/
def schedule_out (k : kernel) (now_out : Nat) : kernel :=
  match k.scheduler.current_process with
  | some pv =>
    if (k.processes pv).state = PROCESS_RUNNING then
      let delta_exec := sub_u64 now_out (k.processes pv).exec_start
      let ka := update_vruntime k pv delta_exec
      let kb := ka.set_proc pv (fun p =>
        { p with total_cpu_time := u64 (p.total_cpu_time + delta_exec),
                 state := PROCESS_READY })
      if (kb.processes pv).state = PROCESS_READY then cfs_enqueue_task kb pv else kb
    else k
  | none => k

/-- The second half of the switch in `schedule()`, applied to the state `k1` after the
first half: `next` is taken off the run queue unless it is the idle process, made
RUNNING and installed as the current process. -/
def schedule_in (k1 : kernel) (next now_in : Nat) : kernel :=
  let k2 := if some next ≠ k1.scheduler.idle_process then cfs_dequeue_task k1 next else k1
  let k3 := k2.set_proc next (fun p =>
    { p with state := PROCESS_RUNNING, exec_start := now_in, last_scheduled := now_in })
  { k3 with scheduler := { k3.scheduler with current_process := some next } }

/-- The reading of `get_system_time()` a scheduler call accounts the outgoing process
with. -/
def sched_op_now_out : sched_op → Nat
  | sched_op.create _ now => now
  | sched_op.sched now_out _ => now_out
  | sched_op.exit _ now_out _ => now_out

/-- No call of the sequence, started in state `k`, wraps the 64-bit vruntime of
process `i`: whenever `i` is the RUNNING current process at a call, its vruntime plus
the increment for the time elapsed up to that call stays below `2^64`. -/
def no_vruntime_wrap (i : Nat) : kernel → List sched_op → Prop
  | _, [] => True
  | k, op :: rest =>
    (k.scheduler.current_process = some i → (k.processes i).state = PROCESS_RUNNING →
      (k.processes i).vruntime
        + u64 (sub_u64 (sched_op_now_out op) (k.processes i).exec_start * 1024)
            / (k.processes i).weight < 18446744073709551616) ∧
    no_vruntime_wrap i (sched_step k op) rest

/-! ## The invariant behind "one RUNNING process" -/

/-- No two nodes of a run queue belong to the same process, except that the idle
process (slot 0) may occur several times. -/
def rq_distinct (l : List rb_node) : Prop :=
  l.Pairwise (fun a b => a.process = b.process → a.process = 0)

/-- What every state reached from `scheduler_init` by `process_create`, `schedule` and
`process_exit` satisfies: the scheduler is enabled with the idle process in slot 0;
only the current process can be RUNNING, and it is; no process is BLOCKED; every node
of the run queue belongs to a process in use, and a node of a process other than the
idle process carries that process's vruntime, is the only node of that process, does
not belong to the current process, and belongs to a READY process. -/
structure sched_inv (k : kernel) : Prop where
  enabled : k.scheduler.scheduler_enabled = true
  idle : k.scheduler.idle_process = some 0
  idle_in_use : (k.processes 0).in_use = true
  running_is_current : ∀ i, (k.processes i).in_use = true →
    (k.processes i).state = PROCESS_RUNNING → k.scheduler.current_process = some i
  current_is_running : ∀ c, k.scheduler.current_process = some c →
    (k.processes c).in_use = true ∧ (k.processes c).state = PROCESS_RUNNING
  none_blocked : ∀ i, (k.processes i).in_use = true → (k.processes i).state ≠ PROCESS_BLOCKED
  nodes : ∀ n, n ∈ k.scheduler.cfs_runqueue →
    (k.processes n.process).in_use = true ∧
    (n.process ≠ 0 → n.key = (k.processes n.process).vruntime ∧
      k.scheduler.current_process ≠ some n.process)
  distinct : rq_distinct k.scheduler.cfs_runqueue
  ready : ∀ n, n ∈ k.scheduler.cfs_runqueue → n.process ≠ 0 →
    (k.processes n.process).state = PROCESS_READY

/-! ## Call sequences on a pipe -/

/-- A call in the life of a pipe: a read or a write on it, or a scheduler call, which
is what changes the calling process. -/
inductive pipe_op where
  | read (size : Nat)
  | write (buf : List Nat)
  | sched (op : sched_op)
  deriving DecidableEq, Repr

/-- The state after one call on pipe `pipe_id`. -/
def pipe_step (k : kernel) (pipe_id : Nat) : pipe_op → kernel
  | pipe_op.read size => (pipe_read k pipe_id size).2.2
  | pipe_op.write buf => (pipe_write k pipe_id buf).2
  | pipe_op.sched op => sched_step k op

/-- The state after a sequence of calls on pipe `pipe_id`. -/
def pipe_run (k : kernel) (pipe_id : Nat) (ops : List pipe_op) : kernel :=
  ops.foldl (fun acc op => pipe_step acc pipe_id op) k

/-! ## The bytes held by a pipe -/

/-- The bytes a pipe holds, oldest first: the `data_size` bytes of the ring from
`read_pos` on. -/
def pipe_contents (p : pipe) : List Nat :=
  (List.range p.data_size).map (fun j => p.buffer ((p.read_pos + j) % PIPE_BUFFER_SIZE))

/-- An empty pipe with a reader and a writer registered: process A (slot 1) runs,
process B (slot 2) is BLOCKED and is entry 0 of both wait lists of pipe 0, whose
cursors are both 0. -/
def pipe_both_waiting_state : kernel :=
  let k := (process_create kernel.booted PRIORITY_NORMAL 0).2
  let k := (process_create k PRIORITY_NORMAL 0).2
  let k := schedule k 0 0
  let k := (pipe_create k 3 4).2.2
  let k := k.set_proc 2 (fun p => { p with state := PROCESS_BLOCKED })
  k.set_pipe 0 (fun p =>
    { p with readers := Function.update p.readers 0 2, reader_count := 1,
             writers := Function.update p.writers 0 2, writer_count := 1 })

/-! ## The timeout table as a list -/

/-- The test `vma->start >= start_addr && vma->end <= end_addr` of `munmap`. -/
def vma_within (start_addr end_addr : Nat) (v : vma) : Bool :=
  decide (v.start ≥ start_addr ∧ v.vm_end ≤ end_addr)

/-- The addresses the page loop of `munmap` passes to `unmap_page` for a VMA:
`start`, `start + PAGE_SIZE`, ... below `end`. -/
def vma_pages (v : vma) : List Nat :=
  (List.range ((v.vm_end - v.start + (PAGE_SIZE - 1)) / PAGE_SIZE)).map
    (fun j => v.start + PAGE_SIZE * j)

/-- The calls `unmap_page(pgd, a)` for the addresses `a` of a list, in order. -/
def unmap_list (pgd : Nat) (pages : List Nat) (k : kernel) : kernel :=
  pages.foldl (fun acc a => unmap_page acc pgd a) k

/-- The leaf entry of page `a` is present in memory `m`, given its walk. -/
def leaf_present (m : Nat → Nat) (w : Nat → Nat × Nat × Nat × Nat) (a : Nat) : Bool :=
  decide (m (w a).2.2.2 &&& PAGE_PRESENT ≠ 0)

/-- Two overlapping mappings: a process (slot 1, page directory in frame 1) is
running; memory has twelve frames, frame `i` at address `4096 * i`, frames 2 to 11
free.  The process maps two pages at 0x400000 (VMA A) and then, with MAP_FIXED, two
pages at 0x401000 (VMA B), so that the page at 0x401000 lies in both. -/
def mmap_overlap_state : kernel :=
  let k := (process_create kernel.booted PRIORITY_NORMAL 0).2
  let k := schedule k 0 0
  let k := k.set_proc 1 (fun p => { p with pgd := 0x1000 })
  let k := { k with
    mm_state :=
      { free_pages := [2, 3, 4, 5, 6, 7, 8, 9, 10, 11]
        page_frames := fun i => ⟨4096 * i, if i = 1 then 1 else 0, 0⟩
        total_memory := 49152
        stats := ⟨12, 10, 2⟩
        paging_enabled := true } }
  let k := (mmap k 0x400000 8192 (PROT_READ ||| PROT_WRITE)
              (MAP_FIXED ||| MAP_PRIVATE ||| MAP_ANONYMOUS) (-1) 0 0).2
  (mmap k 0x401000 8192 (PROT_READ ||| PROT_WRITE)
      (MAP_FIXED ||| MAP_PRIVATE ||| MAP_ANONYMOUS) (-1) 0 0).2

/-- The addresses `munmap(addr, length)` passes to `unmap_page`, in order: the pages
of the VMAs of process `cur` that lie within the rounded range. -/
def munmap_pages (k : kernel) (cur addr length : Nat) : List Nat :=
  ((k.processes cur).vma_list.filter
    (vma_within (page_mask addr) (page_mask (addr + length + PAGE_SIZE - 1)))).flatMap vma_pages

/-- Two adjacent mappings: on `mmap_sample_state` the process (slot 1) maps one page
at 0x400000 (VMA A) and then two pages at 0x401000 (VMA B). -/
def mmap_adjacent_state : kernel :=
  let k := (mmap mmap_sample_state 0x400000 4096 (PROT_READ ||| PROT_WRITE)
              (MAP_FIXED ||| MAP_PRIVATE ||| MAP_ANONYMOUS) (-1) 0 0).2
  (mmap k 0x401000 8192 (PROT_READ ||| PROT_WRITE)
      (MAP_FIXED ||| MAP_PRIVATE ||| MAP_ANONYMOUS) (-1) 0 0).2

/-! ## When `schedule()` switches -/

/-- The call `schedule()` gets past its early returns and switches: the scheduler is
enabled, a next process is found, and it is not the current process. -/
def schedule_switches (k : kernel) : Prop :=
  k.scheduler.scheduler_enabled = true ∧ schedule_next k ≠ none ∧
  k.scheduler.current_process ≠ schedule_next k

instance (k : kernel) : Decidable (schedule_switches k) := by
  unfold schedule_switches
  infer_instance

/-- A run in which the idle process accumulates run time: the idle process is started
at time 0 and process A is created; then, `rounds` times, with `D = 2^54 - 1` time
units per round, `schedule()` is called at the end of the round (the idle process has
run for `D` and A is switched in) and at once again (A has run for 0 and the idle
process is switched in). -/
def vruntime_wrap_ops (rounds : Nat) : List sched_op :=
  [sched_op.sched 0 0, sched_op.create PRIORITY_NORMAL 0] ++
  (List.range rounds).flatMap (fun j =>
    [sched_op.sched (18014398509481983 * (j + 1)) (18014398509481983 * (j + 1)),
     sched_op.sched (18014398509481983 * (j + 1)) (18014398509481983 * (j + 1))])

/-- A semaphore with two waiters and a third process about to wait.  P1 (slot 1,
NORMAL, priority 2), P2 (slot 2, NORMAL, 2), P3 (slot 3, HIGH, 1) and P4 (slot 4,
LOW, 3) are created; P1 creates semaphore 0 with value 1 and takes it; P2 runs, calls
`sem_wait` and blocks; P3 runs, calls `sem_wait` and blocks ahead of P2; P4 runs. -/
def sem_boost_before : kernel :=
  let k := (process_create kernel.booted PRIORITY_NORMAL 0).2
  let k := (process_create k PRIORITY_NORMAL 0).2
  let k := (process_create k PRIORITY_HIGH 0).2
  let k := (process_create k PRIORITY_LOW 0).2
  let k := schedule k 0 0
  let k := (semget k 42 1 IPC_CREAT).2
  let k := (sem_wait k 0).2
  let k := schedule k 10 10
  let k := (sem_wait k 0).2
  let k := schedule k 20 20
  let k := (sem_wait k 0).2
  schedule k 30 30

/-- The run continues: P4 calls `sem_wait` and blocks, P1 (the holder) runs again and
calls `sem_signal` twice. -/
def sem_boost_trace : kernel :=
  let k := (sem_wait sem_boost_before 0).2
  let k := schedule k 40 40
  let k := (sem_signal k 0).2
  (sem_signal k 0).2

/-! # Verified properties -/

/-- C1: for every nice value `n` in `[-20, 19]`, `calculate_weight n` is entry
`n + 20` of the 40-entry weight table 88761, 71755, ..., 18, 15; nice -20, 0 and 19
give 88761, 1024 and 15; a nice value below -20 or above 19 gives the weight of the
nearest bound. -/
theorem calculate_weight_table (n : Int) :
    (-20 ≤ n → n ≤ 19 →
      [88761, 71755, 56483, 46273, 36291, 29154, 23254, 18705, 14949, 11916,
       9548, 7620, 6100, 4904, 3906, 3121, 2501, 1991, 1586, 1277,
       1024, 820, 655, 526, 423, 335, 272, 215, 172, 137,
       110, 87, 70, 56, 45, 36, 29, 23, 18, 15].get? (n + 20).toNat
        = some (calculate_weight n)) ∧
    (n < -20 → calculate_weight n = calculate_weight (-20)) ∧
    (19 < n → calculate_weight n = calculate_weight 19) ∧
    calculate_weight (-20) = 88761 ∧ calculate_weight 0 = 1024 ∧
    calculate_weight 19 = 15 := by
  refine ⟨?_, ?_, ?_, by decide, by decide, by decide⟩
  · intro hlo hhi
    interval_cases n <;> decide
  · intro h
    have h19 : ¬ ((-20 : Int) > 19) := by decide
    simp [calculate_weight, h, h19]
  · intro h
    have h20 : ¬ (n < -20) := by omega
    have h19 : n > 19 := h
    simp [calculate_weight, h20, h19]

/-- Witness for C1 at nice 6 (in range), -25 and 30 (clamped). -/
theorem calculate_weight_table_witness :
    calculate_weight 6 = 272 ∧ calculate_weight (-25) = 88761 ∧ calculate_weight 30 = 15 := by
  refine ⟨?_, ?_, ?_⟩
  · have h := (calculate_weight_table 6).1 (by decide) (by decide)
    simpa using h.symm
  · rw [(calculate_weight_table (-25)).2.1 (by decide)]
    exact (calculate_weight_table (-25)).2.2.2.1
  · rw [(calculate_weight_table 30).2.2.1 (by decide)]
    exact (calculate_weight_table 30).2.2.2.2.2

/-! ## Scheduler selection (C2, C4) -/

/-- The pick of `cfs_pick_next_task` is the first node of the ordered run queue, and
the idle process exactly when the queue is empty. -/
theorem cfs_pick_next_task_eq (k : kernel) :
    cfs_pick_next_task k =
      match k.scheduler.cfs_runqueue with
      | [] => k.scheduler.idle_process
      | n :: _ => some n.process := by
  unfold cfs_pick_next_task rb_leftmost
  cases k.scheduler.cfs_runqueue <;> rfl

/-- C2, evaluated on the code: after the run `stale_idle_trace` (scheduler calls
only) the run queue holds the idle process twice, once under the key 1024 it was
first enqueued with, and process A (slot 1) with vruntime 5000.  `schedule()` takes
the leftmost node and so selects the idle process, whose vruntime is by now 11264,
although A is enqueued with the smaller vruntime 5000. -/
theorem schedule_selects_stale_idle :
    stale_idle_trace.scheduler.cfs_runqueue = [⟨0, 1024⟩, ⟨1, 5000⟩, ⟨0, 11264⟩] ∧
    stale_idle_trace.scheduler.idle_process = some 0 ∧
    schedule_next stale_idle_trace = some 0 ∧
    (schedule stale_idle_trace 5200 5200).scheduler.current_process = some 0 ∧
    (stale_idle_trace.processes 0).vruntime = 11264 ∧
    (stale_idle_trace.processes 1).vruntime = 5000 := by
  decide

/-- C4, evaluated on the code: in the state `rt_ready_trace` the real-time ready
queue holds process R (slot 1) and `rtos_schedule_next` would return it, but
`schedule()` never looks at that queue: it selects process C (slot 3), the
leftmost node of the fair-share run queue, and leaves R in the real-time queue. -/
theorem schedule_ignores_rt_ready_queue :
    rt_ready_trace.ipc_system.rt_ready_queue.count = 1 ∧
    rt_ready_trace.ipc_system.rt_ready_queue.processes 0 = some 1 ∧
    (rtos_schedule_next rt_ready_trace).1 = some 1 ∧
    schedule_next rt_ready_trace = some 3 ∧
    (schedule rt_ready_trace 20 20).scheduler.current_process = some 3 ∧
    (schedule rt_ready_trace 20 20).ipc_system.rt_ready_queue.count = 1 ∧
    (schedule rt_ready_trace 20 20).ipc_system.rt_ready_queue.processes 0 = some 1 := by
  decide

/-! ## Pipes (C5) -/

/-- C5, evaluated on the code: on the pipe just created by `pipe_create` (slot 0,
`reader_count = 0`) a `pipe_write` of the single byte 65 by the running process
(slot 1) returns -1 instead of 1, sets SIGPIPE (bit 13) pending on the writer and
stores nothing; the `pipe_read` that follows returns 0 and no byte. -/
theorem pipe_write_on_fresh_pipe_fails :
    (fresh_pipe_trace.pipes 0).in_use = true ∧
    (fresh_pipe_trace.pipes 0).reader_count = 0 ∧
    (pipe_write fresh_pipe_trace 0 [65]).1 = outcome.returned (-1) ∧
    ((pipe_write fresh_pipe_trace 0 [65]).2.processes 1).pending_signals = 2 ^ 13 ∧
    ((pipe_write fresh_pipe_trace 0 [65]).2.pipes 0).data_size = 0 ∧
    (pipe_read (pipe_write fresh_pipe_trace 0 [65]).2 0 1).1 = outcome.returned 0 ∧
    (pipe_read (pipe_write fresh_pipe_trace 0 [65]).2 0 1).2.1 = [] := by
  decide

/-! ## Swap (C10) -/

theorem first_index_zero (hi : Nat) (p : Nat → Bool) (h0 : p 0 = true) :
    first_index 0 (hi + 1) p = some 0 := by
  unfold first_index
  rw [List.range_succ_eq_map]
  simp [h0]

/-- C10, evaluated on the code: on the swap area as `swap_init` leaves it (every
slot free) `swap_out_page` returns 0 for every frame and changes nothing: its scan
stops at the free slot 0, and slot 0 is also its failure value.  No page is written
and no slot is marked used, even when `file_write` would succeed. -/
theorem swap_out_page_after_init_fails (k : kernel) (physical_addr : Nat) (io_ok : Bool) :
    (swap_init k).swap_state.swap_bitmap 0 = false ∧
    swap_out_page (swap_init k) physical_addr io_ok = (0, swap_init k) := by
  have hb : (swap_init k).swap_state.swap_bitmap 0 = false := by
    simp [swap_init, MAX_SWAP_PAGES]
  refine ⟨hb, ?_⟩
  have ht : (swap_init k).swap_state.total_swap_pages = 65535 + 1 := by
    simp [swap_init, MAX_SWAP_PAGES]
  unfold swap_out_page
  rw [ht, first_index_zero 65535 _ (by simp [hb])]
  simp

/-! ## Array loops -/

theorem shift_left_apply {α : Type} (a : Nat → α) (lo n i : Nat) :
    shift_left a lo n i = if lo ≤ i ∧ i < lo + n then a (i + 1) else a i := by
  induction n generalizing a lo with
  | zero =>
    have h : ¬ (lo ≤ i ∧ i < lo) := by omega
    simp [shift_left, h]
  | succ n ih =>
    rw [shift_left, ih]
    by_cases h1 : lo + 1 ≤ i ∧ i < lo + 1 + n
    · have h2 : lo ≤ i ∧ i < lo + (n + 1) := by omega
      have h3 : i + 1 ≠ lo := by omega
      simp [h1, h2, Function.update, h3]
    · by_cases h4 : i = lo
      · subst h4
        simp [Function.update]
      · have h2 : ¬ (lo ≤ i ∧ i < lo + (n + 1)) := by omega
        simp [h1, h2, Function.update, h4]

theorem pq_ins_nil {α : Type} (x : α × Nat) : pq_ins [] x = [x] := rfl

theorem pq_ins_snoc {α : Type} (l : List (α × Nat)) (y x : α × Nat) :
    pq_ins (l ++ [y]) x = if y.2 > x.2 then pq_ins l x ++ [y] else l ++ [y, x] := by
  unfold pq_ins
  rw [List.reverse_append]
  simp only [List.reverse_cons, List.reverse_nil, List.nil_append, List.singleton_append,
    pq_ins_rev]
  split <;> simp

theorem length_pq_ins {α : Type} (l : List (α × Nat)) (x : α × Nat) :
    (pq_ins l x).length = l.length + 1 := by
  induction l using List.reverseRecOn with
  | nil => simp [pq_ins_nil]
  | append_singleton l y ih =>
    rw [pq_ins_snoc]
    split
    · simp [ih]
    · simp

@[simp] theorem set_sem_processes (k : kernel) (i : Nat) (f : semaphore → semaphore) :
    (k.set_sem i f).processes = k.processes := rfl

@[simp] theorem set_sem_scheduler (k : kernel) (i : Nat) (f : semaphore → semaphore) :
    (k.set_sem i f).scheduler = k.scheduler := rfl

@[simp] theorem set_sem_ipc_system (k : kernel) (i : Nat) (f : semaphore → semaphore) :
    (k.set_sem i f).ipc_system = k.ipc_system := rfl

@[simp] theorem set_sem_semaphores_same (k : kernel) (i : Nat) (f : semaphore → semaphore) :
    (k.set_sem i f).semaphores i = f (k.semaphores i) := by
  simp [kernel.set_sem]

theorem set_sem_semaphores_other (k : kernel) (i j : Nat) (f : semaphore → semaphore)
    (h : j ≠ i) : (k.set_sem i f).semaphores j = k.semaphores j := by
  simp [kernel.set_sem, Function.update, h]

@[simp] theorem set_proc_semaphores (k : kernel) (i : Nat) (f : process → process) :
    (k.set_proc i f).semaphores = k.semaphores := rfl

@[simp] theorem set_proc_scheduler (k : kernel) (i : Nat) (f : process → process) :
    (k.set_proc i f).scheduler = k.scheduler := rfl

@[simp] theorem set_proc_ipc_system (k : kernel) (i : Nat) (f : process → process) :
    (k.set_proc i f).ipc_system = k.ipc_system := rfl

@[simp] theorem set_proc_processes_same (k : kernel) (i : Nat) (f : process → process) :
    (k.set_proc i f).processes i = f (k.processes i) := by
  simp [kernel.set_proc]

theorem set_proc_processes_other (k : kernel) (i j : Nat) (f : process → process)
    (h : j ≠ i) : (k.set_proc i f).processes j = k.processes j := by
  simp [kernel.set_proc, Function.update, h]

@[simp] theorem cfs_enqueue_task_semaphores (k : kernel) (p : Nat) :
    (cfs_enqueue_task k p).semaphores = k.semaphores := by
  unfold cfs_enqueue_task
  split <;> rfl

@[simp] theorem cfs_enqueue_task_ipc_system (k : kernel) (p : Nat) :
    (cfs_enqueue_task k p).ipc_system = k.ipc_system := by
  unfold cfs_enqueue_task
  split <;> rfl

theorem cfs_enqueue_task_processes_other (k : kernel) (p q : Nat) (h : q ≠ p) :
    (cfs_enqueue_task k p).processes q = k.processes q := by
  unfold cfs_enqueue_task
  split
  · simp [kernel.set_proc, Function.update, h]
  · rfl

theorem cfs_enqueue_task_state (k : kernel) (p : Nat) :
    ((cfs_enqueue_task k p).processes p).state = PROCESS_READY := by
  unfold cfs_enqueue_task
  split
  · simp [kernel.set_proc]
  · rename_i h
    simpa using h

theorem cfs_enqueue_task_runqueue (k : kernel) (p : Nat) :
    (cfs_enqueue_task k p).scheduler.cfs_runqueue
      = rb_insert k.scheduler.cfs_runqueue p (k.processes p).vruntime := by
  unfold cfs_enqueue_task
  split <;> simp [kernel.set_proc]

/-! ## Semaphores (C6, C7) -/

theorem wrap_i32_of_range (x : Int) (h1 : -2147483648 ≤ x) (h2 : x < 2147483648) :
    wrap_i32 x = x := by
  unfold wrap_i32
  omega

/-- What `sem_signal` does on an in-use semaphore. -/
theorem sem_signal_in_use (k : kernel) (semid : Nat) (huse : (k.semaphores semid).in_use = true) :
    sem_signal k semid =
      (0,
       if 0 < (k.semaphores semid).waiting_count then
         (cfs_enqueue_task
            ((k.set_sem semid (fun s => { s with value := wrap_i32 (s.value + 1) })).set_proc
              ((k.semaphores semid).waiting_processes 0)
              (fun p => { p with state := PROCESS_READY }))
            ((k.semaphores semid).waiting_processes 0)).set_sem semid
           (fun s =>
             { s with waiting_processes := shift_left s.waiting_processes 0 (s.waiting_count - 1),
                      waiting_count := s.waiting_count - 1 })
       else k.set_sem semid (fun s => { s with value := wrap_i32 (s.value + 1) })) := by
  unfold sem_signal
  simp only [huse, Bool.not_true, Bool.false_eq_true, if_false]
  split <;> rfl

/-- What `sem_wait_timeout` does on an in-use semaphore with a positive value. -/
theorem sem_wait_timeout_positive (k : kernel) (semid timeout_ms : Nat)
    (huse : (k.semaphores semid).in_use = true) (hval : 0 < (k.semaphores semid).value) :
    sem_wait_timeout k semid timeout_ms
      = (outcome.returned 0,
         k.set_sem semid (fun s => { s with value := wrap_i32 (s.value - 1) })) := by
  unfold sem_wait_timeout
  simp [huse, hval]

/-- C7: on an in-use semaphore of value 1, `sem_wait_timeout` returns 0 at once and
only sets the value to 0; the `sem_signal` that follows returns 0 and sets the value
back to 1.  With a non-empty wait list it wakes exactly its first entry: that
process is READY and inserted in the run queue, no other process is touched, the
wait count drops by one and the other waiters move up one place, in order.  With
an empty wait list no process is touched. -/
theorem sem_wait_then_signal (k : kernel) (semid timeout_ms : Nat)
    (huse : (k.semaphores semid).in_use = true) (hval : (k.semaphores semid).value = 1) :
    (sem_wait_timeout k semid timeout_ms).1 = outcome.returned 0 ∧
    ((sem_wait_timeout k semid timeout_ms).2.semaphores semid).value = 0 ∧
    (sem_wait_timeout k semid timeout_ms).2.processes = k.processes ∧
    ((sem_wait_timeout k semid timeout_ms).2.semaphores semid).waiting_count
      = (k.semaphores semid).waiting_count ∧
    (sem_signal (sem_wait_timeout k semid timeout_ms).2 semid).1 = 0 ∧
    ((sem_signal (sem_wait_timeout k semid timeout_ms).2 semid).2.semaphores semid).value = 1 ∧
    (0 < (k.semaphores semid).waiting_count →
      ((sem_signal (sem_wait_timeout k semid timeout_ms).2 semid).2.processes
          ((k.semaphores semid).waiting_processes 0)).state = PROCESS_READY ∧
      (∀ p, p ≠ (k.semaphores semid).waiting_processes 0 →
        (sem_signal (sem_wait_timeout k semid timeout_ms).2 semid).2.processes p
          = k.processes p) ∧
      (sem_signal (sem_wait_timeout k semid timeout_ms).2 semid).2.scheduler.cfs_runqueue
        = rb_insert k.scheduler.cfs_runqueue ((k.semaphores semid).waiting_processes 0)
            (k.processes ((k.semaphores semid).waiting_processes 0)).vruntime ∧
      ((sem_signal (sem_wait_timeout k semid timeout_ms).2 semid).2.semaphores semid).waiting_count
        = (k.semaphores semid).waiting_count - 1 ∧
      (∀ i, i < (k.semaphores semid).waiting_count - 1 →
        ((sem_signal (sem_wait_timeout k semid timeout_ms).2 semid).2.semaphores
            semid).waiting_processes i
          = (k.semaphores semid).waiting_processes (i + 1))) ∧
    ((k.semaphores semid).waiting_count = 0 →
      (sem_signal (sem_wait_timeout k semid timeout_ms).2 semid).2.processes = k.processes ∧
      ((sem_signal (sem_wait_timeout k semid timeout_ms).2 semid).2.semaphores
          semid).waiting_count = 0) := by
  rw [sem_wait_timeout_positive k semid timeout_ms huse (by omega)]
  have hu : ((k.set_sem semid (fun s => { s with value := wrap_i32 (s.value - 1) })).semaphores
      semid).in_use = true := by simp [huse]
  rw [sem_signal_in_use _ semid hu]
  have w0 : wrap_i32 0 = 0 := by decide
  have w1 : wrap_i32 1 = 1 := by decide
  refine ⟨rfl, ?_, rfl, by simp, rfl, ?_, ?_, ?_⟩
  · simp [hval, w0]
  · split
    · simp [hval, w0, w1]
    · simp [hval, w0, w1]
  · intro hc
    have hc2 : 0 < ((k.set_sem semid
        (fun s => { s with value := wrap_i32 (s.value - 1) })).semaphores semid).waiting_count := by
      simpa using hc
    rw [if_pos hc2]
    refine ⟨?_, ?_, ?_, ?_, ?_⟩
    · simpa using cfs_enqueue_task_state _ _
    · intro p hp
      simp only [set_sem_processes, set_sem_semaphores_same]
      rw [cfs_enqueue_task_processes_other _ _ _ hp, set_proc_processes_other _ _ _ _ hp]
      rfl
    · simp [cfs_enqueue_task_runqueue]
    · simp
    · intro i hi
      simp only [set_sem_semaphores_same, cfs_enqueue_task_semaphores, set_proc_semaphores,
        shift_left_apply]
      rw [if_pos (by omega)]
  · intro hc
    simp [hc]

/-- Witness for C7 on the state `sem_waiters_trace` (value 1, process 3 waiting):
the wait returns 0, and the signal wakes process 3 and empties the wait list. -/
theorem sem_wait_then_signal_witness :
    (sem_waiters_trace.semaphores 0).in_use = true ∧
    (sem_waiters_trace.semaphores 0).value = 1 ∧
    (sem_waiters_trace.semaphores 0).waiting_processes 0 = 3 ∧
    (sem_wait_timeout sem_waiters_trace 0 0).1 = outcome.returned 0 ∧
    ((sem_signal (sem_wait_timeout sem_waiters_trace 0 0).2 0).2.processes
        ((sem_waiters_trace.semaphores 0).waiting_processes 0)).state = PROCESS_READY ∧
    ((sem_signal (sem_wait_timeout sem_waiters_trace 0 0).2 0).2.semaphores 0).waiting_count
      = (sem_waiters_trace.semaphores 0).waiting_count - 1 :=
  have h := sem_wait_then_signal sem_waiters_trace 0 0 (by decide) (by decide)
  have hw := h.2.2.2.2.2.2.1 (by decide)
  ⟨by decide, by decide, by decide, h.1, hw.1, hw.2.2.2.1⟩

/-! ### Operations that leave the semaphore table alone -/

@[simp] theorem cfs_dequeue_task_semaphores (k : kernel) (p : Nat) :
    (cfs_dequeue_task k p).semaphores = k.semaphores := rfl

@[simp] theorem update_vruntime_semaphores (k : kernel) (p d : Nat) :
    (update_vruntime k p d).semaphores = k.semaphores := by
  unfold update_vruntime
  dsimp only
  split <;> rfl

@[simp] theorem schedule_semaphores (k : kernel) (a b : Nat) :
    (schedule k a b).semaphores = k.semaphores := by
  unfold schedule
  dsimp only
  repeat' split
  all_goals simp

@[simp] theorem rtos_add_timeout_semaphores (k : kernel) (p t : Nat) :
    (rtos_add_timeout k p t).semaphores = k.semaphores := by
  unfold rtos_add_timeout
  split <;> rfl

@[simp] theorem rtos_check_timeouts_loop_semaphores (ticks fuel i : Nat) (k : kernel) :
    (rtos_check_timeouts_loop ticks fuel i k).semaphores = k.semaphores := by
  induction fuel generalizing i k with
  | zero => rfl
  | succ fuel ih =>
    unfold rtos_check_timeouts_loop
    dsimp only
    repeat' split
    all_goals simp [ih]

@[simp] theorem rtos_check_timeouts_semaphores (k : kernel) :
    (rtos_check_timeouts k).semaphores = k.semaphores := by
  unfold rtos_check_timeouts
  simp

@[simp] theorem rtos_tick_handler_semaphores (k : kernel) (a b : Nat) :
    (rtos_tick_handler k a b).semaphores = k.semaphores := by
  unfold rtos_tick_handler
  dsimp only
  repeat' split
  all_goals simp

/-! ### How each semaphore operation changes a semaphore's value -/

theorem set_sem_value (k : kernel) (s i : Nat) (f : semaphore → semaphore)
    (hf : ∀ x, (f x).value = x.value) :
    ((k.set_sem s f).semaphores i).value = (k.semaphores i).value := by
  by_cases h : i = s
  · subst h
    simp [hf]
  · rw [set_sem_semaphores_other _ _ _ _ h]

theorem sem_signal_value (k : kernel) (s i : Nat) :
    ((sem_signal k s).2.semaphores i).value =
      if s = i ∧ (k.semaphores s).in_use = true then wrap_i32 ((k.semaphores i).value + 1)
      else (k.semaphores i).value := by
  by_cases huse : (k.semaphores s).in_use = true
  · rw [sem_signal_in_use k s huse]
    by_cases hsi : s = i
    · subst hsi
      simp only [huse, and_self, if_true]
      split <;> simp
    · have hne : i ≠ s := fun h => hsi h.symm
      simp only [hsi, false_and, if_false]
      split
      · rw [set_sem_semaphores_other _ _ _ _ hne]
        simp only [cfs_enqueue_task_semaphores, set_proc_semaphores]
        rw [set_sem_semaphores_other _ _ _ _ hne]
      · rw [set_sem_semaphores_other _ _ _ _ hne]
  · have : sem_signal k s = (-1, k) := by
      unfold sem_signal
      simp [huse]
    simp [this, huse]

/-- One pass of the wait loop leaves a semaphore's value alone or, when it is
strictly positive, decrements it. -/
theorem sem_wait_loop_value (k : kernel) (s cur t d i : Nat) :
    ((sem_wait_loop k s cur t d).2.semaphores i).value = (k.semaphores i).value ∨
    (s = i ∧ 0 < (k.semaphores i).value ∧
      ((sem_wait_loop k s cur t d).2.semaphores i).value = wrap_i32 ((k.semaphores i).value - 1)) := by
  unfold sem_wait_loop
  dsimp only
  split
  · left
    split
    · simp only [set_proc_semaphores]
      split
      · exact set_sem_value _ _ _ _ (fun _ => rfl)
      · rfl
    · rfl
  · rename_i hpos
    by_cases hsi : s = i
    · subst hsi
      right
      refine ⟨rfl, by omega, ?_⟩
      simp
    · left
      have hne : i ≠ s := fun h => hsi h.symm
      rw [set_sem_semaphores_other _ _ _ _ hne]

@[simp] theorem sem_inherit_priority_semaphores (k : kernel) (s cur : Nat) :
    (sem_inherit_priority k s cur).semaphores = k.semaphores := by
  unfold sem_inherit_priority
  dsimp only
  repeat' split
  all_goals rfl

theorem sem_enqueue_waiter_value (k : kernel) (s cur i : Nat) :
    ((sem_enqueue_waiter k s cur).semaphores i).value = (k.semaphores i).value := by
  unfold sem_enqueue_waiter
  exact set_sem_value _ _ _ _ (fun _ => rfl)

/-- The entry part of `sem_wait_timeout` leaves a semaphore's value alone or, when
it is strictly positive, decrements it. -/
theorem sem_wait_timeout_value (k : kernel) (s t i : Nat) :
    ((sem_wait_timeout k s t).2.semaphores i).value = (k.semaphores i).value ∨
    (s = i ∧ 0 < (k.semaphores i).value ∧
      ((sem_wait_timeout k s t).2.semaphores i).value = wrap_i32 ((k.semaphores i).value - 1)) := by
  unfold sem_wait_timeout
  dsimp only
  split
  · left; rfl
  · split
    · rename_i hpos
      by_cases hsi : s = i
      · subst hsi
        right
        exact ⟨rfl, hpos, by simp⟩
      · left
        have hne : i ≠ s := fun h => hsi h.symm
        rw [set_sem_semaphores_other _ _ _ _ hne]
    · rename_i hnpos
      split
      · left; rfl
      · rename_i current hcur
        left
        generalize hk4 : kernel.set_proc _ current _ = k4
        have hv : ∀ j, (k4.semaphores j).value = (k.semaphores j).value := by
          intro j
          rw [← hk4]
          simp only [set_proc_semaphores]
          split
          · simp only [rtos_add_timeout_semaphores]
            rw [sem_enqueue_waiter_value, sem_inherit_priority_semaphores]
          · rw [sem_enqueue_waiter_value, sem_inherit_priority_semaphores]
        rcases sem_wait_loop_value k4 s current t
            (u64 (rtos_get_ticks k + rtos_ms_to_ticks t)) i with h | ⟨h1, h2, _⟩
        · rw [h, hv]
        · exfalso
          subst h1
          rw [hv] at h2
          omega

theorem sem_wait_timeout_resume_value (k : kernel) (s cur t d i : Nat) :
    ((sem_wait_timeout_resume k s cur t d).2.semaphores i).value = (k.semaphores i).value ∨
    (s = i ∧ 0 < (k.semaphores i).value ∧
      ((sem_wait_timeout_resume k s cur t d).2.semaphores i).value
        = wrap_i32 ((k.semaphores i).value - 1)) := by
  unfold sem_wait_timeout_resume
  have h := sem_wait_loop_value (rtos_check_timeouts k) s cur t d i
  simpa using h

/-- A slot that is free before `semget` and in use after it is the one `semget`
initialised: its value is 1 (and its wait list empty). -/
theorem semget_new_slot (k : kernel) (key : Nat) (nsems : Int) (flags i : Nat)
    (hfree : (k.semaphores i).in_use = false)
    (hused : ((semget k key nsems flags).2.semaphores i).in_use = true) :
    ((semget k key nsems flags).2.semaphores i).value = 1 ∧
    ((semget k key nsems flags).2.semaphores i).waiting_count = 0 := by
  unfold semget at hused ⊢
  cases h1 : first_index 0 MAX_SEMAPHORES
      (fun i => (k.semaphores i).in_use && decide ((k.semaphores i).key = key)) with
  | some j =>
    rw [h1] at hused
    simp [hfree] at hused
  | none =>
    rw [h1] at hused
    dsimp only at hused ⊢
    by_cases h2 : flags &&& IPC_CREAT = 0
    · rw [if_pos h2] at hused
      simp [hfree] at hused
    · rw [if_neg h2] at hused ⊢
      cases h3 : first_index 0 MAX_SEMAPHORES (fun i => !(k.semaphores i).in_use) with
      | none =>
        rw [h3] at hused
        simp [hfree] at hused
      | some j =>
        rw [h3] at hused
        dsimp only at hused ⊢
        by_cases hij : i = j
        · subst hij
          simp
        · rw [set_sem_semaphores_other _ _ _ _ hij] at hused
          simp [hfree] at hused

theorem sem_signal_keeps_in_use (k : kernel) (s : Nat) (h : (k.semaphores s).in_use = true) :
    ((sem_signal k s).2.semaphores s).in_use = true := by
  rw [sem_signal_in_use k s h]
  dsimp only
  split <;> simp [h]

theorem sem_step_value (k : kernel) (i : Nat) (op : sem_op) :
    (((sem_step k op).semaphores i).value = (k.semaphores i).value ∨
     (0 < (k.semaphores i).value ∧
       ((sem_step k op).semaphores i).value = wrap_i32 ((k.semaphores i).value - 1))) ∨
    (op = sem_op.signal i ∧
      ((sem_step k op).semaphores i).value = wrap_i32 ((k.semaphores i).value + 1)) := by
  cases op with
  | wait_timeout s t =>
    left
    rcases sem_wait_timeout_value k s t i with h | ⟨_, h2, h3⟩
    · exact Or.inl h
    · exact Or.inr ⟨h2, h3⟩
  | wait s =>
    left
    rcases sem_wait_timeout_value k s 0 i with h | ⟨_, h2, h3⟩
    · exact Or.inl h
    · exact Or.inr ⟨h2, h3⟩
  | resume s cur t d =>
    left
    rcases sem_wait_timeout_resume_value k s cur t d i with h | ⟨_, h2, h3⟩
    · exact Or.inl h
    · exact Or.inr ⟨h2, h3⟩
  | signal s =>
    have h := sem_signal_value k s i
    by_cases hc : s = i ∧ (k.semaphores s).in_use = true
    · right
      rw [if_pos hc] at h
      exact ⟨by rw [hc.1], h⟩
    · left; left
      rw [if_neg hc] at h
      exact h
  | sched a b => left; left; simp [sem_step]
  | tick a b => left; left; simp [sem_step]

theorem count_signals_cons (i : Nat) (op : sem_op) (rest : List sem_op) :
    count_signals i (op :: rest) = (if op = sem_op.signal i then 1 else 0) + count_signals i rest := by
  cases op <;> simp [count_signals]

/-- As long as the signals cannot overflow it, the value stays between 0 and its
start value plus the number of signals. -/
theorem sem_run_value_bounds (i : Nat) (ops : List sem_op) (k : kernel)
    (h0 : 0 ≤ (k.semaphores i).value)
    (hb : (k.semaphores i).value + count_signals i ops ≤ 2147483647) :
    0 ≤ ((sem_run k ops).semaphores i).value ∧
    ((sem_run k ops).semaphores i).value ≤ (k.semaphores i).value + count_signals i ops := by
  induction ops generalizing k with
  | nil => exact ⟨h0, by simp [sem_run, count_signals]⟩
  | cons op rest ih =>
    rw [count_signals_cons] at hb ⊢
    have hrun : sem_run k (op :: rest) = sem_run (sem_step k op) rest := rfl
    rw [hrun]
    rcases sem_step_value k i op with (h | ⟨hpos, h⟩) | ⟨hop, h⟩
    · have := ih (sem_step k op) (by rw [h]; exact h0) (by rw [h]; split at hb <;> omega)
      rw [h] at this
      split <;> omega
    · rw [wrap_i32_of_range _ (by omega) (by split at hb <;> omega)] at h
      have := ih (sem_step k op) (by rw [h]; omega) (by rw [h]; split at hb <;> omega)
      rw [h] at this
      split <;> omega
    · rw [if_pos hop] at hb ⊢
      rw [wrap_i32_of_range _ (by omega) (by omega)] at h
      have := ih (sem_step k op) (by rw [h]; omega) (by rw [h]; omega)
      rw [h] at this
      omega

/-- C6 as amended: for a semaphore just initialised by `semget` (slot `i`, free
before the call and in use after it) and every sequence of semaphore calls,
resumptions, `schedule()` calls and ticks that contains at most `2^31 - 2` calls
of `sem_signal` on it, the value is never negative; and every wait (the entry of
`sem_wait_timeout` or `sem_wait`, or a resumed pass of the wait loop) changes a
value only when it is strictly positive, by decrementing it. -/
theorem sem_value_never_negative (k : kernel) (key : Nat) (nsems : Int) (flags i : Nat)
    (hfree : (k.semaphores i).in_use = false)
    (hused : ((semget k key nsems flags).2.semaphores i).in_use = true)
    (ops : List sem_op) (hbound : count_signals i ops ≤ 2147483646) :
    ((semget k key nsems flags).2.semaphores i).value = 1 ∧
    0 ≤ ((sem_run (semget k key nsems flags).2 ops).semaphores i).value ∧
    (∀ (k1 : kernel) (s t : Nat),
      ((sem_wait_timeout k1 s t).2.semaphores i).value ≠ (k1.semaphores i).value →
        0 < (k1.semaphores i).value ∧
        ((sem_wait_timeout k1 s t).2.semaphores i).value = wrap_i32 ((k1.semaphores i).value - 1)) ∧
    (∀ (k1 : kernel) (s : Nat),
      ((sem_wait k1 s).2.semaphores i).value ≠ (k1.semaphores i).value →
        0 < (k1.semaphores i).value ∧
        ((sem_wait k1 s).2.semaphores i).value = wrap_i32 ((k1.semaphores i).value - 1)) ∧
    (∀ (k1 : kernel) (s cur t d : Nat),
      ((sem_wait_timeout_resume k1 s cur t d).2.semaphores i).value ≠ (k1.semaphores i).value →
        0 < (k1.semaphores i).value ∧
        ((sem_wait_timeout_resume k1 s cur t d).2.semaphores i).value
          = wrap_i32 ((k1.semaphores i).value - 1)) := by
  have hnew := (semget_new_slot k key nsems flags i hfree hused).1
  refine ⟨hnew, ?_, ?_, ?_, ?_⟩
  · exact (sem_run_value_bounds i ops _ (by rw [hnew]; decide)
      (by rw [hnew]; omega)).1
  · intro k1 s t hne
    rcases sem_wait_timeout_value k1 s t i with h | ⟨_, h2, h3⟩
    · exact absurd h hne
    · exact ⟨h2, h3⟩
  · intro k1 s hne
    rcases sem_wait_timeout_value k1 s 0 i with h | ⟨_, h2, h3⟩
    · exact absurd h hne
    · exact ⟨h2, h3⟩
  · intro k1 s cur t d hne
    rcases sem_wait_timeout_resume_value k1 s cur t d i with h | ⟨_, h2, h3⟩
    · exact absurd h hne
    · exact ⟨h2, h3⟩

theorem sem_run_append (k : kernel) (a b : List sem_op) :
    sem_run k (a ++ b) = sem_run (sem_run k a) b := by
  simp [sem_run, List.foldl_append]

/-- Repeated `sem_signal` on an in-use semaphore counts up while the `i32` holds. -/
theorem sem_run_signals (i n : Nat) (k : kernel) (huse : (k.semaphores i).in_use = true)
    (h0 : 0 ≤ (k.semaphores i).value) (hb : (k.semaphores i).value + n ≤ 2147483647) :
    ((sem_run k (List.replicate n (sem_op.signal i))).semaphores i).value
      = (k.semaphores i).value + n ∧
    ((sem_run k (List.replicate n (sem_op.signal i))).semaphores i).in_use = true := by
  induction n generalizing k with
  | zero => simp [sem_run, huse]
  | succ n ih =>
    have hrun : sem_run k (List.replicate (n + 1) (sem_op.signal i))
        = sem_run (sem_signal k i).2 (List.replicate n (sem_op.signal i)) := rfl
    rw [hrun]
    have hv := sem_signal_value k i i
    rw [if_pos ⟨rfl, huse⟩, wrap_i32_of_range _ (by omega) (by omega)] at hv
    have := ih (sem_signal k i).2 (sem_signal_keeps_in_use k i huse) (by rw [hv]; omega)
      (by rw [hv]; push_cast at hb ⊢; omega)
    rw [hv] at this
    refine ⟨?_, this.2⟩
    rw [this.1]
    push_cast
    omega

/-- C6 as stated fails: after `semget` on the booted kernel (slot 0, value 1),
2147483647 calls of `sem_signal` leave the value negative: the last increment
overflows the `i32`. -/
theorem sem_value_overflows :
    ((sem_run (semget kernel.booted 42 1 IPC_CREAT).2
        (List.replicate 2147483647 (sem_op.signal 0))).semaphores 0).value < 0 := by
  have hu : ((semget kernel.booted 42 1 IPC_CREAT).2.semaphores 0).in_use = true := by decide
  have hv : ((semget kernel.booted 42 1 IPC_CREAT).2.semaphores 0).value = 1 := by decide
  have hsplit : List.replicate 2147483647 (sem_op.signal 0)
      = List.replicate 2147483646 (sem_op.signal 0) ++ [sem_op.signal 0] :=
    List.replicate_succ' (n := 2147483646) (a := sem_op.signal 0)
  rw [hsplit, sem_run_append]
  obtain ⟨h1, h2⟩ := sem_run_signals 0 2147483646 _ hu (by rw [hv]; decide) (by rw [hv]; decide)
  have hlast : ∀ k1 : kernel, sem_run k1 [sem_op.signal 0] = (sem_signal k1 0).2 := fun _ => rfl
  rw [hlast, sem_signal_value, if_pos ⟨rfl, h2⟩, h1, hv]
  decide

/-- Witness for the amended C6: the semaphore created on the booted kernel, after
a wait, two signals and a further wait. -/
theorem sem_value_never_negative_witness :
    (kernel.booted.semaphores 0).in_use = false ∧
    ((semget kernel.booted 42 1 IPC_CREAT).2.semaphores 0).in_use = true ∧
    0 ≤ ((sem_run (semget kernel.booted 42 1 IPC_CREAT).2
           [sem_op.wait 0, sem_op.signal 0, sem_op.signal 0, sem_op.wait_timeout 0 5]).semaphores
          0).value :=
  ⟨by decide, by decide,
   (sem_value_never_negative kernel.booted 42 1 IPC_CREAT 0 (by decide) (by decide)
      [sem_op.wait 0, sem_op.signal 0, sem_op.signal 0, sem_op.wait_timeout 0 5]
      (by decide)).2.1⟩

/-! ## Page-table entries as bit fields -/

theorem and_two_pow_eq_zero (x k : Nat) (h : x.testBit k = false) : x &&& 2 ^ k = 0 := by
  apply Nat.eq_of_testBit_eq
  intro i
  rw [Nat.testBit_and, Nat.testBit_two_pow, Nat.zero_testBit]
  by_cases hki : k = i
  · subst hki
    simp [h]
  · simp [hki]

theorem and_two_pow_ne_zero (x k : Nat) (h : x.testBit k = true) : x &&& 2 ^ k ≠ 0 := by
  intro h0
  have : (x &&& 2 ^ k).testBit k = true := by
    rw [Nat.testBit_and, Nat.testBit_two_pow]
    simp [h]
  rw [h0, Nat.zero_testBit] at this
  exact Bool.noConfusion this

/-- The entry built for a page-aligned frame address: present, writable, user. -/
theorem pte_of_frame (f : Nat) :
    4096 * f ||| PAGE_PRESENT ||| PAGE_WRITABLE ||| PAGE_USER = 4096 * f + 7 := by
  unfold PAGE_PRESENT PAGE_WRITABLE PAGE_USER
  rw [Nat.or_assoc, Nat.or_assoc]
  have h7 : (1 ||| (2 ||| 4) : Nat) = 7 := by decide
  rw [h7]
  exact (Nat.mul_add_lt_is_or (i := 12) (by decide) f).symm

theorem pte_of_frame_flags (f : Nat) (hf : 4096 * f + 7 < 18446744073709551616) :
    page_mask (4096 * f + 7) = 4096 * f ∧
    (4096 * f + 7) &&& PAGE_PRESENT ≠ 0 ∧
    (4096 * f + 7) &&& PAGE_WRITABLE ≠ 0 ∧
    (4096 * f + 7) &&& PAGE_USER ≠ 0 ∧
    (4096 * f + 7) &&& PAGE_COW = 0 ∧
    (4096 * f + 7) &&& PAGE_SWAPPED = 0 := by
  refine ⟨?_, ?_, ?_, ?_, ?_, ?_⟩
  · unfold page_mask u64
    omega
  · exact and_two_pow_ne_zero _ 0 (by rw [Nat.testBit_to_div_mod]; simp; omega)
  · exact and_two_pow_ne_zero _ 1 (by rw [Nat.testBit_to_div_mod]; simp; omega)
  · exact and_two_pow_ne_zero _ 2 (by rw [Nat.testBit_to_div_mod]; simp; omega)
  · exact and_two_pow_eq_zero _ 9 (by rw [Nat.testBit_to_div_mod]; simp; omega)
  · exact and_two_pow_eq_zero _ 10 (by rw [Nat.testBit_to_div_mod]; simp; omega)

/-! ## The frame allocator -/

theorem pmm_alloc_page_cons (k : kernel) (f : Nat) (rest : List Nat)
    (hfree : k.mm_state.free_pages = f :: rest) :
    pmm_alloc_page k =
      ((k.mm_state.page_frames f).physical_addr,
       { k with
         mm_state :=
           { k.mm_state with
             free_pages := rest
             page_frames := Function.update k.mm_state.page_frames f
               { (k.mm_state.page_frames f) with ref_count := 1 }
             stats := { k.mm_state.stats with
               free_pages := sub_u64 k.mm_state.stats.free_pages 1
               used_pages := u64 (k.mm_state.stats.used_pages + 1) } }
         phys := zero_page k.phys (k.mm_state.page_frames f).physical_addr }) := by
  unfold pmm_alloc_page
  rw [hfree]

theorem page_mask_eq (x : Nat) : page_mask x = 4096 * (u64 x / 4096) := by
  unfold page_mask
  omega

@[simp] theorem pmm_free_page_phys (k : kernel) (a : Nat) : (pmm_free_page k a).phys = k.phys := by
  unfold pmm_free_page
  dsimp only
  repeat' split
  all_goals rfl

theorem pmm_free_page_ref_count (k : kernel) (g : Nat)
    (href : 0 < (k.mm_state.page_frames g).ref_count) :
    ((pmm_free_page k (4096 * g)).mm_state.page_frames g).ref_count + 1
      = (k.mm_state.page_frames g).ref_count := by
  have hidx : 4096 * g / PAGE_SIZE = g := by
    unfold PAGE_SIZE
    omega
  unfold pmm_free_page
  dsimp only
  rw [hidx, if_pos href]
  split <;> simp <;> omega


theorem pmm_free_page_frames_other (k : kernel) (a j : Nat) (h : j ≠ a / PAGE_SIZE) :
    (pmm_free_page k a).mm_state.page_frames j = k.mm_state.page_frames j := by
  unfold pmm_free_page
  dsimp only
  split
  · split
    · exact Function.update_noteq h _ _
    · exact Function.update_noteq h _ _
  · rfl

theorem pmm_free_page_free_list (k : kernel) (a : Nat)
    (href : 0 < (k.mm_state.page_frames (a / PAGE_SIZE)).ref_count) :
    (pmm_free_page k a).mm_state.free_pages
      = (if (k.mm_state.page_frames (a / PAGE_SIZE)).ref_count = 1
         then a / PAGE_SIZE :: k.mm_state.free_pages else k.mm_state.free_pages) := by
  unfold pmm_free_page
  dsimp only
  rw [if_pos href]
  by_cases h1 : (k.mm_state.page_frames (a / PAGE_SIZE)).ref_count = 1
  · have h2 : (k.mm_state.page_frames (a / PAGE_SIZE)).ref_count - 1 = 0 := by omega
    rw [if_pos h2, if_pos h1]
  · have h2 : ¬ ((k.mm_state.page_frames (a / PAGE_SIZE)).ref_count - 1 = 0) := by omega
    rw [if_neg h2, if_neg h1]

/-! ## Copy-on-write (C9) -/

/-- C9: let the entry at `pte` be marked copy-on-write and refer to frame `F`, with
reference count at least 1, and let a free frame be available: frame `f` heads the
free list, at address `4096 * f`, not 0.  Memory is laid out soundly: `f` is not
`F`, and the entry is stored neither in `F` nor in the free frame.  Then after
`handle_cow_fault` the 4096 cells of the new frame equal those `F` had, the cells
of `F` are unchanged, the entry is the new frame address with PRESENT, WRITABLE and
USER set and COW (and SWAPPED) clear, the reference count of `F` is one less, and
the new frame has reference count 1 and has left the free list. -/
theorem handle_cow_fault_copies (k : kernel) (fault_addr pte F f : Nat) (rest : List Nat)
    (_hcow : k.phys pte &&& PAGE_COW ≠ 0)
    (hF : page_mask (k.phys pte) = F)
    (hfree : k.mm_state.free_pages = f :: rest)
    (haddr : (k.mm_state.page_frames f).physical_addr = 4096 * f)
    (hf0 : f ≠ 0)
    (hlt : 4096 * f + 4096 ≤ 18446744073709551616)
    (hne : F ≠ 4096 * f)
    (hpte_new : pte < 4096 * f ∨ 4096 * f + 4096 ≤ pte)
    (hpte_old : pte < F ∨ F + 4096 ≤ pte)
    (href : 0 < (k.mm_state.page_frames (F / 4096)).ref_count) :
    (∀ off, off < 4096 →
      (handle_cow_fault k fault_addr pte).phys (4096 * f + off) = k.phys (F + off)) ∧
    (∀ off, off < 4096 →
      (handle_cow_fault k fault_addr pte).phys (F + off) = k.phys (F + off)) ∧
    (handle_cow_fault k fault_addr pte).phys pte
      = 4096 * f ||| PAGE_PRESENT ||| PAGE_WRITABLE ||| PAGE_USER ∧
    page_mask ((handle_cow_fault k fault_addr pte).phys pte) = 4096 * f ∧
    (handle_cow_fault k fault_addr pte).phys pte &&& PAGE_PRESENT ≠ 0 ∧
    (handle_cow_fault k fault_addr pte).phys pte &&& PAGE_WRITABLE ≠ 0 ∧
    (handle_cow_fault k fault_addr pte).phys pte &&& PAGE_USER ≠ 0 ∧
    (handle_cow_fault k fault_addr pte).phys pte &&& PAGE_COW = 0 ∧
    ((handle_cow_fault k fault_addr pte).mm_state.page_frames (F / 4096)).ref_count + 1
      = (k.mm_state.page_frames (F / 4096)).ref_count ∧
    ((handle_cow_fault k fault_addr pte).mm_state.page_frames f).ref_count = 1 ∧
    (handle_cow_fault k fault_addr pte).mm_state.free_pages
      = (if (k.mm_state.page_frames (F / 4096)).ref_count = 1 then F / 4096 :: rest else rest) := by
  -- the frame index of F
  obtain ⟨g, hg⟩ : ∃ g, F = 4096 * g := ⟨u64 (k.phys pte) / 4096, by rw [← hF, page_mask_eq]⟩
  subst hg
  have hgf : g ≠ f := fun h => hne (by rw [h])
  have hidx : 4096 * g / 4096 = g := by omega
  rw [hidx] at href ⊢
  have hnew0 : ¬ (4096 * f = 0) := by omega
  -- the state handed to pmm_free_page
  have hstep : handle_cow_fault k fault_addr pte
      = pmm_free_page
          { (pmm_alloc_page k).2 with
            phys := Function.update (copy_page (pmm_alloc_page k).2.phys (4096 * f) (4096 * g)) pte
              (4096 * f ||| PAGE_PRESENT ||| PAGE_WRITABLE ||| PAGE_USER) }
          (4096 * g) := by
    unfold handle_cow_fault
    simp only [hF]
    rw [pmm_alloc_page_cons k f rest hfree, haddr]
    simp only [hnew0, if_false]
  rw [hstep, pmm_alloc_page_cons k f rest hfree, haddr]
  simp only [pmm_free_page_phys]
  have hpte_val : Function.update (copy_page (zero_page k.phys (4096 * f)) (4096 * f) (4096 * g)) pte
      (4096 * f ||| PAGE_PRESENT ||| PAGE_WRITABLE ||| PAGE_USER) pte
      = 4096 * f ||| PAGE_PRESENT ||| PAGE_WRITABLE ||| PAGE_USER := by simp
  have hflags := pte_of_frame_flags f (by omega)
  refine ⟨?_, ?_, hpte_val, ?_, ?_, ?_, ?_, ?_, ?_, ?_, ?_⟩
  · intro off hoff
    have h1 : 4096 * f + off ≠ pte := by omega
    have h2 : ¬ (4096 * f ≤ 4096 * g + off ∧ 4096 * g + off < 4096 * f + 4096) := by omega
    simp [Function.update, h1, copy_page, zero_page, PAGE_SIZE, hoff, h2]
  · intro off hoff
    have h1 : 4096 * g + off ≠ pte := by omega
    have h2 : ¬ (4096 * f ≤ 4096 * g + off ∧ 4096 * g + off < 4096 * f + 4096) := by omega
    simp [Function.update, h1, copy_page, zero_page, PAGE_SIZE, h2]
  · rw [hpte_val, pte_of_frame]; exact hflags.1
  · rw [hpte_val, pte_of_frame]; exact hflags.2.1
  · rw [hpte_val, pte_of_frame]; exact hflags.2.2.1
  · rw [hpte_val, pte_of_frame]; exact hflags.2.2.2.1
  · rw [hpte_val, pte_of_frame]; exact hflags.2.2.2.2.1
  · have := pmm_free_page_ref_count
      { k with
        mm_state :=
          { k.mm_state with
            free_pages := rest
            page_frames := Function.update k.mm_state.page_frames f
              { (k.mm_state.page_frames f) with ref_count := 1 }
            stats := { k.mm_state.stats with
              free_pages := sub_u64 k.mm_state.stats.free_pages 1
              used_pages := u64 (k.mm_state.stats.used_pages + 1) } }
        phys := Function.update (copy_page (zero_page k.phys (4096 * f)) (4096 * f) (4096 * g)) pte
          (4096 * f ||| PAGE_PRESENT ||| PAGE_WRITABLE ||| PAGE_USER) } g
      (by simpa [Function.update, hgf] using href)
    simpa [Function.update, hgf] using this
  · have hidx2 : 4096 * g / PAGE_SIZE = g := hidx
    rw [pmm_free_page_frames_other _ _ _ (by rw [hidx2]; exact Ne.symm hgf)]
    dsimp only
    rw [Function.update_same]
  · have hidx2 : 4096 * g / PAGE_SIZE = g := hidx
    rw [pmm_free_page_free_list]
    · dsimp only
      rw [hidx2, Function.update_noteq hgf]
    · dsimp only
      rw [hidx2, Function.update_noteq hgf]
      exact href

/-- Witness for C9 on `cow_sample_state`: the fault on the entry at 0x2008 copies
frame 3 (address 0x3000) into frame 5 (address 0x5000). -/
theorem handle_cow_fault_copies_witness :
    cow_sample_state.phys 0x2008 &&& PAGE_COW ≠ 0 ∧
    page_mask (cow_sample_state.phys 0x2008) = 0x3000 ∧
    cow_sample_state.mm_state.free_pages = [5, 6, 7] ∧
    (∀ off, off < 4096 →
      (handle_cow_fault cow_sample_state 0x7000 0x2008).phys (4096 * 5 + off)
        = cow_sample_state.phys (0x3000 + off)) ∧
    page_mask ((handle_cow_fault cow_sample_state 0x7000 0x2008).phys 0x2008) = 4096 * 5 ∧
    ((handle_cow_fault cow_sample_state 0x7000 0x2008).mm_state.page_frames (0x3000 / 4096)).ref_count
        + 1 = 2 :=
  have h := handle_cow_fault_copies cow_sample_state 0x7000 0x2008 0x3000 5 [6, 7]
    (by decide) (by decide) (by decide) (by decide) (by decide) (by decide) (by decide)
    (by decide) (by decide) (by decide)
  ⟨by decide, by decide, by decide, h.1, h.2.2.2.1, h.2.2.2.2.2.2.2.2.1⟩

/-! ## mmap followed by munmap (C8) -/

/-- C8 as stated fails: on `mmap_sample_state` (six free frames, empty page
directory) an `mmap` of one page at 0x400000 succeeds and the `munmap` of the same
region leaves three free frames: the three page-table frames `get_pte` allocated
for the mapping are not released. -/
theorem mmap_munmap_loses_table_frames :
    mmap_sample_state.mm_state.stats.free_pages = 6 ∧
    mmap_sample_state.mm_state.free_pages.length = 6 ∧
    (mmap mmap_sample_state 0x400000 4096 (PROT_READ ||| PROT_WRITE)
        (MAP_FIXED ||| MAP_PRIVATE ||| MAP_ANONYMOUS) (-1) 0 0).1 = some 0x400000 ∧
    (munmap (mmap mmap_sample_state 0x400000 4096 (PROT_READ ||| PROT_WRITE)
        (MAP_FIXED ||| MAP_PRIVATE ||| MAP_ANONYMOUS) (-1) 0 0).2 0x400000 4096).1 = 0 ∧
    (munmap (mmap mmap_sample_state 0x400000 4096 (PROT_READ ||| PROT_WRITE)
        (MAP_FIXED ||| MAP_PRIVATE ||| MAP_ANONYMOUS) (-1) 0 0).2 0x400000
        4096).2.mm_state.stats.free_pages = 3 ∧
    (munmap (mmap mmap_sample_state 0x400000 4096 (PROT_READ ||| PROT_WRITE)
        (MAP_FIXED ||| MAP_PRIVATE ||| MAP_ANONYMOUS) (-1) 0 0).2 0x400000
        4096).2.mm_state.free_pages.length = 3 := by
  decide

/-- With all three upper levels present `get_pte` allocates nothing and returns the
leaf entry of the walk, whatever `create` is. -/
theorem get_pte_of_walk (k : kernel) (pgd v : Nat) (create : Bool) (w : Nat × Nat × Nat × Nat)
    (hw : pte_walk k.phys pgd v = some w) :
    get_pte k pgd v create = (some w.2.2.2, k) := by
  unfold pte_walk at hw
  dsimp only at hw
  split at hw
  · exact Option.noConfusion hw
  · rename_i h1
    split at hw
    · exact Option.noConfusion hw
    · rename_i h2
      split at hw
      · exact Option.noConfusion hw
      · rename_i h3
        have hw2 := Option.some.inj hw
        subst hw2
        unfold get_pte
        dsimp only
        have e1 : get_pte_level k (pgd + 8 * (v >>> 39 &&& 0x1FF)) create
            = (some (page_mask (k.phys (pgd + 8 * (v >>> 39 &&& 0x1FF)))), k) := by
          unfold get_pte_level
          rw [if_neg h1]
        rw [e1]
        dsimp only
        have e2 : get_pte_level k
            (page_mask (k.phys (pgd + 8 * (v >>> 39 &&& 0x1FF))) + 8 * (v >>> 30 &&& 0x1FF)) create
            = (some (page_mask (k.phys (page_mask (k.phys (pgd + 8 * (v >>> 39 &&& 0x1FF)))
                + 8 * (v >>> 30 &&& 0x1FF)))), k) := by
          unfold get_pte_level
          rw [if_neg h2]
        rw [e2]
        dsimp only
        have e3 : get_pte_level k
            (page_mask (k.phys (page_mask (k.phys (pgd + 8 * (v >>> 39 &&& 0x1FF)))
                + 8 * (v >>> 30 &&& 0x1FF))) + 8 * (v >>> 21 &&& 0x1FF)) create
            = (some (page_mask (k.phys (page_mask (k.phys (page_mask
                (k.phys (pgd + 8 * (v >>> 39 &&& 0x1FF))) + 8 * (v >>> 30 &&& 0x1FF)))
                + 8 * (v >>> 21 &&& 0x1FF)))), k) := by
          unfold get_pte_level
          rw [if_neg h3]
        rw [e3]

/-- The walk only depends on the three entries it reads. -/
theorem pte_walk_congr (m m2 : Nat → Nat) (pgd v : Nat) (w : Nat × Nat × Nat × Nat)
    (hw : pte_walk m pgd v = some w)
    (h1 : m2 w.1 = m w.1) (h2 : m2 w.2.1 = m w.2.1) (h3 : m2 w.2.2.1 = m w.2.2.1) :
    pte_walk m2 pgd v = some w := by
  unfold pte_walk at hw
  dsimp only at hw
  split at hw
  · exact Option.noConfusion hw
  · rename_i p1
    split at hw
    · exact Option.noConfusion hw
    · rename_i p2
      split at hw
      · exact Option.noConfusion hw
      · rename_i p3
        have hw2 := Option.some.inj hw
        subst hw2
        dsimp only at h1 h2 h3
        unfold pte_walk
        dsimp only
        rw [h1, if_neg p1, h2, if_neg p2, h3, if_neg p3]

theorem zero_page_outside (m : Nat → Nat) (c f : Nat) (h : outside_frame c f) :
    zero_page m (4096 * f) c = m c := by
  unfold outside_frame at h
  unfold zero_page PAGE_SIZE
  have : ¬ (4096 * f ≤ c ∧ c < 4096 * f + 4096) := by omega
  rw [if_neg this]

/-- One pass of the page loop of `mmap` when the page tables for the page exist:
frame `f` is taken from the free list and zeroed, and the leaf entry is written. -/
theorem mmap_one_page (k : kernel) (pgd v fl f : Nat) (rest : List Nat)
    (w : Nat × Nat × Nat × Nat)
    (hfree : k.mm_state.free_pages = f :: rest)
    (haddr : (k.mm_state.page_frames f).physical_addr = 4096 * f)
    (hw : pte_walk k.phys pgd v = some w)
    (h1 : outside_frame w.1 f) (h2 : outside_frame w.2.1 f) (h3 : outside_frame w.2.2.1 f) :
    pmm_alloc_page k = (4096 * f, alloc_state k f rest) ∧
    (map_page (alloc_state k f rest) pgd v (4096 * f) fl).2
      = { (alloc_state k f rest) with
          phys := Function.update (zero_page k.phys (4096 * f)) w.2.2.2 (4096 * f ||| fl) } := by
  constructor
  · rw [pmm_alloc_page_cons k f rest hfree, haddr]
    rfl
  · have hw2 : pte_walk (alloc_state k f rest).phys pgd v = some w :=
      pte_walk_congr k.phys _ pgd v w hw (zero_page_outside _ _ _ h1)
        (zero_page_outside _ _ _ h2) (zero_page_outside _ _ _ h3)
    unfold map_page
    rw [get_pte_of_walk _ pgd v true w hw2]
    rfl

/-- The page loop of `mmap` over a region whose page tables exist: it takes one
frame per page from the free list and writes the leaf entries; `w j` is the walk of
page `j`. -/
theorem mmap_pages_spec (pgd prot bound : Nat) :
    ∀ (n v : Nat) (k : kernel) (fs rest : List Nat) (w : Nat → Nat × Nat × Nat × Nat),
      fs.length = n →
      k.mm_state.free_pages = fs ++ rest →
      (∀ f, f ∈ fs → (k.mm_state.page_frames f).physical_addr = 4096 * f ∧ f ≠ 0) →
      v + 4096 * n = bound → bound < 18446744073709551616 →
      (∀ j, j < n → pte_walk k.phys pgd (v + 4096 * j) = some (w j)) →
      (∀ j, j < n → ∀ f, f ∈ fs →
        outside_frame (w j).1 f ∧ outside_frame (w j).2.1 f ∧
        outside_frame (w j).2.2.1 f ∧ outside_frame (w j).2.2.2 f) →
      (∀ i j, i < n → j < n →
        (w i).2.2.2 ≠ (w j).1 ∧ (w i).2.2.2 ≠ (w j).2.1 ∧ (w i).2.2.2 ≠ (w j).2.2.1) →
      (∀ i j, i < n → j < n → i ≠ j → (w i).2.2.2 ≠ (w j).2.2.2) →
      k.mm_state.stats.free_pages = (fs ++ rest).length →
      (fs ++ rest).length < 18446744073709551616 →
      (mmap_pages pgd prot bound n v k).1 = true ∧
      (mmap_pages pgd prot bound n v k).2.mm_state.free_pages = rest ∧
      (mmap_pages pgd prot bound n v k).2.mm_state.stats.free_pages = rest.length ∧
      (mmap_pages pgd prot bound n v k).2.processes = k.processes ∧
      (mmap_pages pgd prot bound n v k).2.scheduler = k.scheduler ∧
      (∀ j, j < n → (mmap_pages pgd prot bound n v k).2.phys (w j).2.2.2
          = 4096 * fs.getD j 0 ||| mmap_page_flags prot) ∧
      (∀ c, (∀ f, f ∈ fs → outside_frame c f) → (∀ j, j < n → c ≠ (w j).2.2.2) →
          (mmap_pages pgd prot bound n v k).2.phys c = k.phys c) ∧
      (∀ f, f ∈ fs → ((mmap_pages pgd prot bound n v k).2.mm_state.page_frames f).ref_count = 1) ∧
      (∀ g, g ∉ fs →
          (mmap_pages pgd prot bound n v k).2.mm_state.page_frames g = k.mm_state.page_frames g) := by
  intro n
  induction n with
  | zero =>
    intro v k fs rest w hlen hfree _ _ _ _ _ _ _ hstats _
    have hfs : fs = [] := List.length_eq_zero.mp hlen
    subst hfs
    simp only [List.nil_append] at hfree hstats
    refine ⟨rfl, hfree, ?_, rfl, rfl, ?_, ?_, ?_, ?_⟩
    · show k.mm_state.stats.free_pages = rest.length
      exact hstats
    · intro j hj; omega
    · intro c _ _; rfl
    · intro f hf; simp at hf
    · intro g _; rfl
  | succ n ih =>
    intro v k fs rest w hlen hfree hframes hbound hb64 hwalk hout hsep3 hsep4 hstats hlen64
    obtain ⟨f, fs1, rfl⟩ : ∃ f fs1, fs = f :: fs1 := by
      cases fs with
      | nil => simp at hlen
      | cons f fs1 => exact ⟨f, fs1, rfl⟩
    have hlen1 : fs1.length = n := by simpa using hlen
    have hf := hframes f (by simp)
    have hw0 : pte_walk k.phys pgd v = some (w 0) := by simpa using hwalk 0 (by omega)
    have hout0 := hout 0 (by omega) f (by simp)
    obtain ⟨halloc, hmap⟩ := mmap_one_page k pgd v (mmap_page_flags prot) f (fs1 ++ rest) (w 0)
      (by simpa using hfree) hf.1 hw0 hout0.1 hout0.2.1 hout0.2.2.1
    have hlt : v < bound := by omega
    have hne0 : ¬ (4096 * f = 0) := by have := hf.2; omega
    have hu : u64 (v + PAGE_SIZE) = v + 4096 := by
      unfold u64 PAGE_SIZE
      omega
    have hunf : mmap_pages pgd prot bound (n + 1) v k
        = mmap_pages pgd prot bound n (v + 4096)
            { (alloc_state k f (fs1 ++ rest)) with
              phys := Function.update (zero_page k.phys (4096 * f)) (w 0).2.2.2
                (4096 * f ||| mmap_page_flags prot) } := by
      rw [mmap_pages]
      simp only [hlt, if_true, halloc, hne0, if_false, hu, hmap]
    rw [hunf]
    -- the state the rest of the loop starts from
    generalize hK : ({ (alloc_state k f (fs1 ++ rest)) with
              phys := Function.update (zero_page k.phys (4096 * f)) (w 0).2.2.2
                (4096 * f ||| mmap_page_flags prot) } : kernel) = K
    have hKphys : K.phys = Function.update (zero_page k.phys (4096 * f)) (w 0).2.2.2
        (4096 * f ||| mmap_page_flags prot) := by rw [← hK]
    have hKfree : K.mm_state.free_pages = fs1 ++ rest := by rw [← hK]; rfl
    have hKframes : K.mm_state.page_frames = Function.update k.mm_state.page_frames f
        { (k.mm_state.page_frames f) with ref_count := 1 } := by rw [← hK]; rfl
    have hKstats : K.mm_state.stats.free_pages = sub_u64 k.mm_state.stats.free_pages 1 := by
      rw [← hK]; rfl
    have hKproc : K.processes = k.processes := by rw [← hK]; rfl
    have hKsched : K.scheduler = k.scheduler := by rw [← hK]; rfl
    have hKcell : ∀ c, outside_frame c f → c ≠ (w 0).2.2.2 → K.phys c = k.phys c := by
      intro c hc hne
      rw [hKphys, Function.update_noteq hne, zero_page_outside _ _ _ hc]
    have ih1 := ih (v + 4096) K fs1 rest (fun j => w (j + 1)) hlen1 hKfree
      (by
        intro g hg
        have := hframes g (by simp [hg])
        rw [hKframes]
        by_cases hgf : g = f
        · subst hgf; simpa using this
        · rw [Function.update_noteq hgf]; exact this)
      (by omega) hb64
      (by
        intro j hj
        have hwj := hwalk (j + 1) (by omega)
        have ho := hout (j + 1) (by omega) f (by simp)
        have hs := hsep3 0 (j + 1) (by omega) (by omega)
        have e : v + 4096 + 4096 * j = v + 4096 * (j + 1) := by omega
        rw [e]
        exact pte_walk_congr k.phys K.phys pgd _ _ hwj
          (hKcell _ ho.1 (Ne.symm hs.1)) (hKcell _ ho.2.1 (Ne.symm hs.2.1))
          (hKcell _ ho.2.2.1 (Ne.symm hs.2.2)))
      (by intro j hj g hg; exact hout (j + 1) (by omega) g (by simp [hg]))
      (by intro i j hi hj; exact hsep3 (i + 1) (j + 1) (by omega) (by omega))
      (by intro i j hi hj hij; exact hsep4 (i + 1) (j + 1) (by omega) (by omega) (by omega))
      (by
        rw [hKstats, hstats]
        simp only [List.cons_append, List.length_cons, List.length_append] at hlen64 ⊢
        unfold sub_u64 u64
        omega)
      (by
        simp only [List.cons_append, List.length_cons, List.length_append] at hlen64 ⊢
        omega)
    obtain ⟨r1, r2, r3, r4, r5, r6, r7, r8, r9⟩ := ih1
    refine ⟨r1, r2, r3, by rw [r4, hKproc], by rw [r5, hKsched], ?_, ?_, ?_, ?_⟩
    · intro j hj
      cases j with
      | zero =>
        have ho := hout 0 (by omega)
        rw [r7 _ (fun g hg => (ho g (by simp [hg])).2.2.2)
          (fun j hj2 => hsep4 0 (j + 1) (by omega) (by omega) (by omega))]
        rw [hKphys, Function.update_same]
        rfl
      | succ j =>
        have := r6 j (by omega)
        simpa using this
    · intro c hc hne
      rw [r7 c (fun g hg => hc g (by simp [hg])) (fun j hj => hne (j + 1) (by omega))]
      exact hKcell c (hc f (by simp)) (hne 0 (by omega))
    · intro g hg
      by_cases hg1 : g ∈ fs1
      · exact r8 g hg1
      · have hgf : g = f := by
          rcases List.mem_cons.mp hg with h | h
          · exact h
          · exact absurd h hg1
        rw [r9 g hg1, hKframes, hgf, Function.update_same]
    · intro g hg
      have hg1 : g ∉ fs1 := fun h => hg (by simp [h])
      have hgf : g ≠ f := fun h => hg (by simp [h])
      rw [r9 g hg1, hKframes, Function.update_noteq hgf]

theorem mmap_page_flags_cases (prot : Nat) :
    mmap_page_flags prot = 5 ∨ mmap_page_flags prot = 7 := by
  unfold mmap_page_flags
  split
  · right; decide
  · left; decide

/-- A leaf entry `mmap` writes for frame `f`: it is present and its address part is
the frame address. -/
theorem mmap_entry (f prot : Nat) (hf : 4096 * f + 4096 ≤ 18446744073709551616) :
    (4096 * f ||| mmap_page_flags prot) &&& PAGE_PRESENT ≠ 0 ∧
    page_mask (4096 * f ||| mmap_page_flags prot) = 4096 * f := by
  have hadd : ∀ fl, fl < 2 ^ 12 → 4096 * f ||| fl = 4096 * f + fl := fun fl h =>
    (Nat.mul_add_lt_is_or (i := 12) h f).symm
  rcases mmap_page_flags_cases prot with h | h
  · rw [h, hadd 5 (by decide)]
    refine ⟨and_two_pow_ne_zero _ 0 (by rw [Nat.testBit_to_div_mod]; simp; omega), ?_⟩
    unfold page_mask u64
    omega
  · rw [h, hadd 7 (by decide)]
    refine ⟨and_two_pow_ne_zero _ 0 (by rw [Nat.testBit_to_div_mod]; simp; omega), ?_⟩
    unfold page_mask u64
    omega

/-- One pass of the page loop of `munmap` on a page that `mmap` mapped to frame `f`. -/
theorem unmap_one_page (k : kernel) (pgd v f prot : Nat) (w : Nat × Nat × Nat × Nat)
    (hw : pte_walk k.phys pgd v = some w)
    (hcell : k.phys w.2.2.2 = 4096 * f ||| mmap_page_flags prot)
    (hf : 4096 * f + 4096 ≤ 18446744073709551616)
    (href : (k.mm_state.page_frames f).ref_count = 1) :
    unmap_page k pgd v = unmap_state k w.2.2.2 f := by
  obtain ⟨hp, hm⟩ := mmap_entry f prot hf
  unfold unmap_page
  rw [get_pte_of_walk k pgd v false w hw]
  dsimp only
  rw [hcell, if_pos hp, hm]
  unfold pmm_free_page
  have hidx : 4096 * f / PAGE_SIZE = f := by
    unfold PAGE_SIZE
    omega
  dsimp only
  rw [hidx, href]
  rfl

/-- The page loop of `munmap` over a region `mmap` has just mapped page by page to
the frames `fs`: every frame goes back to the free list. -/
theorem unmap_range_spec (pgd prot vm_end : Nat) :
    ∀ (n v : Nat) (k : kernel) (fs : List Nat) (w : Nat → Nat × Nat × Nat × Nat),
      fs.length = n → fs.Nodup →
      (∀ f, f ∈ fs → 4096 * f + 4096 ≤ 18446744073709551616 ∧
        (k.mm_state.page_frames f).ref_count = 1) →
      v + 4096 * n = vm_end → vm_end < 18446744073709551616 →
      (∀ j, j < n → pte_walk k.phys pgd (v + 4096 * j) = some (w j)) →
      (∀ j, j < n → k.phys (w j).2.2.2 = 4096 * fs.getD j 0 ||| mmap_page_flags prot) →
      (∀ i j, i < n → j < n →
        (w i).2.2.2 ≠ (w j).1 ∧ (w i).2.2.2 ≠ (w j).2.1 ∧ (w i).2.2.2 ≠ (w j).2.2.1) →
      (∀ i j, i < n → j < n → i ≠ j → (w i).2.2.2 ≠ (w j).2.2.2) →
      k.mm_state.stats.free_pages = k.mm_state.free_pages.length →
      k.mm_state.free_pages.length + n < 18446744073709551616 →
      (unmap_range pgd vm_end n v k).mm_state.free_pages.length
        = k.mm_state.free_pages.length + n ∧
      (unmap_range pgd vm_end n v k).mm_state.stats.free_pages
        = (unmap_range pgd vm_end n v k).mm_state.free_pages.length ∧
      (unmap_range pgd vm_end n v k).processes = k.processes ∧
      (unmap_range pgd vm_end n v k).scheduler = k.scheduler := by
  intro n
  induction n with
  | zero =>
    intro v k fs w _ _ _ _ _ _ _ _ _ hstats _
    exact ⟨rfl, hstats, rfl, rfl⟩
  | succ n ih =>
    intro v k fs w hlen hnd hframes hbound hb64 hwalk hcell hsep3 hsep4 hstats hlen64
    obtain ⟨f, fs1, rfl⟩ : ∃ f fs1, fs = f :: fs1 := by
      cases fs with
      | nil => simp at hlen
      | cons f fs1 => exact ⟨f, fs1, rfl⟩
    have hlen1 : fs1.length = n := by simpa using hlen
    obtain ⟨hfnot, hnd1⟩ := List.nodup_cons.mp hnd
    have hf := hframes f (by simp)
    have hw0 : pte_walk k.phys pgd v = some (w 0) := by simpa using hwalk 0 (by omega)
    have hc0 : k.phys (w 0).2.2.2 = 4096 * f ||| mmap_page_flags prot := by
      simpa using hcell 0 (by omega)
    have hone := unmap_one_page k pgd v f prot (w 0) hw0 hc0 hf.1 hf.2
    have hlt : v < vm_end := by omega
    have hu : u64 (v + PAGE_SIZE) = v + 4096 := by
      unfold u64 PAGE_SIZE
      omega
    have hunf : unmap_range pgd vm_end (n + 1) v k
        = unmap_range pgd vm_end n (v + 4096) (unmap_state k (w 0).2.2.2 f) := by
      rw [unmap_range]
      simp only [hlt, if_true, hu, hone]
    rw [hunf]
    have hKcell : ∀ c, c ≠ (w 0).2.2.2 → (unmap_state k (w 0).2.2.2 f).phys c = k.phys c := by
      intro c hne
      exact Function.update_noteq hne _ _
    have ih1 := ih (v + 4096) (unmap_state k (w 0).2.2.2 f) fs1 (fun j => w (j + 1)) hlen1 hnd1
      (by
        intro g hg
        have hgf : g ≠ f := fun h => hfnot (h ▸ hg)
        have := hframes g (by simp [hg])
        refine ⟨this.1, ?_⟩
        show ((Function.update k.mm_state.page_frames f _) g).ref_count = 1
        rw [Function.update_noteq hgf]
        exact this.2)
      (by omega) hb64
      (by
        intro j hj
        have hwj := hwalk (j + 1) (by omega)
        have hs := hsep3 0 (j + 1) (by omega) (by omega)
        have e : v + 4096 + 4096 * j = v + 4096 * (j + 1) := by omega
        rw [e]
        exact pte_walk_congr k.phys _ pgd _ _ hwj
          (hKcell _ (Ne.symm hs.1)) (hKcell _ (Ne.symm hs.2.1)) (hKcell _ (Ne.symm hs.2.2)))
      (by
        intro j hj
        have := hcell (j + 1) (by omega)
        rw [hKcell _ (Ne.symm (hsep4 0 (j + 1) (by omega) (by omega) (by omega)))]
        simpa using this)
      (by intro i j hi hj; exact hsep3 (i + 1) (j + 1) (by omega) (by omega))
      (by intro i j hi hj hij; exact hsep4 (i + 1) (j + 1) (by omega) (by omega) (by omega))
      (by
        show u64 (k.mm_state.stats.free_pages + 1) = (f :: k.mm_state.free_pages).length
        rw [hstats, List.length_cons]
        unfold u64
        omega)
      (by
        show (f :: k.mm_state.free_pages).length + n < 18446744073709551616
        rw [List.length_cons]
        omega)
    obtain ⟨r1, r2, r3, r4⟩ := ih1
    refine ⟨?_, r2, r3, r4⟩
    rw [r1]
    show (f :: k.mm_state.free_pages).length + n = k.mm_state.free_pages.length + (n + 1)
    rw [List.length_cons]
    omega

theorem munmap_vmas_none (pgd s e : Nat) (l : List vma) (k : kernel)
    (h : ∀ v, v ∈ l → ¬ (v.start ≥ s ∧ v.vm_end ≤ e)) :
    munmap_vmas pgd s e l k = (l, k) := by
  induction l with
  | nil => rfl
  | cons v rest ih =>
    rw [munmap_vmas, if_neg (h v (by simp))]
    dsimp only
    rw [ih (fun u hu => h u (by simp [hu]))]

/-- C8 as amended: the running process `cur` maps `n` pages at the page-aligned
address `start` (the given address with MAP_FIXED, else the one
`find_free_vma_space` returns).  The page tables covering the region exist (`w j`
is the walk of page `j`), they lie outside the `n` frames at the head of the free
list, no leaf entry of the region doubles as an upper-level entry of the region and
no two pages share a leaf entry; the free list is sound (distinct frames, frame `f`
at address `4096 * f`, not 0, counted by `stats.free_pages`); no other VMA of the
process lies inside the unmapped range.  Then `mmap` succeeds and returns `start`,
and the `munmap` of the same address and length returns 0 and leaves
`stats.free_pages` and the length of the free list as they were before the `mmap`,
and the VMA list as it was. -/
theorem mmap_munmap_free_pages (k : kernel) (cur addr length prot flags : Nat) (fd : Int)
    (offset free_space start n : Nat) (fs rest : List Nat)
    (w : Nat → Nat × Nat × Nat × Nat)
    (hcur : k.scheduler.current_process = some cur)
    (hstart : start = if flags &&& MAP_FIXED = 0 then free_space else addr)
    (hstart0 : flags &&& MAP_FIXED = 0 → start ≠ 0)
    (halign : start % 4096 = 0)
    (hn : n = page_mask (length + PAGE_SIZE - 1) / PAGE_SIZE)
    (hend : start + length + 4095 < 18446744073709551616)
    (hfree : k.mm_state.free_pages = fs ++ rest) (hfs : fs.length = n) (hnd : fs.Nodup)
    (hframes : ∀ f, f ∈ fs → (k.mm_state.page_frames f).physical_addr = 4096 * f ∧ f ≠ 0 ∧
      4096 * f + 4096 ≤ 18446744073709551616)
    (hstats : k.mm_state.stats.free_pages = k.mm_state.free_pages.length)
    (hlen64 : k.mm_state.free_pages.length < 18446744073709551616)
    (hwalk : ∀ j, j < n →
      pte_walk k.phys (k.processes cur).pgd (start + 4096 * j) = some (w j))
    (hout : ∀ j, j < n → ∀ f, f ∈ fs →
      outside_frame (w j).1 f ∧ outside_frame (w j).2.1 f ∧
      outside_frame (w j).2.2.1 f ∧ outside_frame (w j).2.2.2 f)
    (hsep3 : ∀ i j, i < n → j < n →
      (w i).2.2.2 ≠ (w j).1 ∧ (w i).2.2.2 ≠ (w j).2.1 ∧ (w i).2.2.2 ≠ (w j).2.2.1)
    (hsep4 : ∀ i j, i < n → j < n → i ≠ j → (w i).2.2.2 ≠ (w j).2.2.2)
    (hvma : ∀ v, v ∈ (k.processes cur).vma_list →
      ¬ (v.start ≥ start ∧ v.vm_end ≤ start + 4096 * n)) :
    (mmap k addr length prot flags fd offset free_space).1 = some start ∧
    (munmap (mmap k addr length prot flags fd offset free_space).2 start length).1 = 0 ∧
    (munmap (mmap k addr length prot flags fd offset free_space).2 start
        length).2.mm_state.stats.free_pages = k.mm_state.stats.free_pages ∧
    (munmap (mmap k addr length prot flags fd offset free_space).2 start
        length).2.mm_state.free_pages.length = k.mm_state.free_pages.length ∧
    ((munmap (mmap k addr length prot flags fd offset free_space).2 start
        length).2.processes cur).vma_list = (k.processes cur).vma_list := by
  -- arithmetic of the region
  have haligned : page_mask (length + PAGE_SIZE - 1) = 4096 * n := by
    rw [hn]
    unfold page_mask u64 PAGE_SIZE
    omega
  have hnval : n = (length + 4095) / 4096 := by
    rw [hn]
    unfold page_mask u64 PAGE_SIZE
    omega
  have hbound : u64 (start + 4096 * n) = start + 4096 * n := by
    unfold u64
    omega
  have hdiv : 4096 * n / PAGE_SIZE = n := by
    unfold PAGE_SIZE
    omega
  have hpm_start : page_mask start = start := by
    unfold page_mask u64
    omega
  have hpm_end : page_mask (start + length + PAGE_SIZE - 1) = start + 4096 * n := by
    unfold page_mask u64 PAGE_SIZE
    omega
  -- the state the page loop starts from
  generalize hv : (if flags &&& MAP_ANONYMOUS = 0 ∧ fd ≥ 0
      then { (vma_create start (u64 (start + 4096 * n)) prot flags) with
             file := some fd.toNat, file_offset := offset }
      else vma_create start (u64 (start + 4096 * n)) prot flags) = v
  have hvs : v.start = start ∧ v.vm_end = start + 4096 * n := by
    rw [← hv]
    split <;> exact ⟨rfl, hbound⟩
  generalize hk1 : k.set_proc cur (fun p => { p with vma_list := v :: p.vma_list }) = k1
  have hk1_mm : k1.mm_state = k.mm_state := by rw [← hk1]; rfl
  have hk1_phys : k1.phys = k.phys := by rw [← hk1]; rfl
  have hk1_sched : k1.scheduler = k.scheduler := by rw [← hk1]; rfl
  have hk1_pgd : (k1.processes cur).pgd = (k.processes cur).pgd := by
    rw [← hk1]; simp
  have hk1_vma : (k1.processes cur).vma_list = v :: (k.processes cur).vma_list := by
    rw [← hk1]; simp
  have hspec := mmap_pages_spec (k.processes cur).pgd prot (start + 4096 * n) n start k1 fs rest w
    hfs (by rw [hk1_mm]; exact hfree)
    (by intro f hf; rw [hk1_mm]; exact ⟨(hframes f hf).1, (hframes f hf).2.1⟩)
    rfl (by omega)
    (by rw [hk1_phys]; exact hwalk) hout hsep3 hsep4
    (by rw [hk1_mm, hstats, hfree]) (by rw [← hfree]; exact hlen64)
  obtain ⟨r1, r2, r3, r4, r5, r6, r7, r8, r9⟩ := hspec
  generalize hk2 : (mmap_pages (k.processes cur).pgd prot (start + 4096 * n) n start k1).2 = k2
    at r2 r3 r4 r5 r6 r7 r8 r9
  have hmmap : mmap k addr length prot flags fd offset free_space = (some start, k2) := by
    unfold mmap
    rw [hcur]
    dsimp only
    rw [haligned, ← hstart]
    have hnot : ¬ (flags &&& MAP_FIXED = 0 ∧ start = 0) := fun h => hstart0 h.1 h.2
    rw [if_neg hnot, hv, hk1, hk1_pgd, hbound, hdiv, r1]
    simp only [if_true, hk2]
  rw [hmmap]
  dsimp only
  -- the munmap
  have hlen_fs : k.mm_state.free_pages.length = rest.length + n := by
    rw [hfree, List.length_append, hfs]
    omega
  have hwalk2 : ∀ j, j < n → pte_walk k2.phys (k.processes cur).pgd (start + 4096 * j) = some (w j) := by
    intro j hj
    have hc : ∀ c, (∀ f, f ∈ fs → outside_frame c f) → (∀ i, i < n → c ≠ (w i).2.2.2) →
        k2.phys c = k.phys c := by
      intro c h1 h2
      rw [r7 c h1 h2, hk1_phys]
    exact pte_walk_congr k.phys k2.phys _ _ _ (hwalk j hj)
      (hc _ (fun f hf => (hout j hj f hf).1) (fun i hi => Ne.symm (hsep3 i j hi hj).1))
      (hc _ (fun f hf => (hout j hj f hf).2.1) (fun i hi => Ne.symm (hsep3 i j hi hj).2.1))
      (hc _ (fun f hf => (hout j hj f hf).2.2.1) (fun i hi => Ne.symm (hsep3 i j hi hj).2.2))
  have huspec := unmap_range_spec (k.processes cur).pgd prot (start + 4096 * n) n start k2 fs w
    hfs hnd (fun f hf => ⟨(hframes f hf).2.2, r8 f hf⟩) rfl (by omega) hwalk2 r6 hsep3 hsep4
    (by rw [r3, r2]) (by rw [r2]; omega)
  obtain ⟨u1, u2, u3, u4⟩ := huspec
  generalize hk3 : unmap_range (k.processes cur).pgd (start + 4096 * n) n start k2 = k3
    at u1 u2 u3 u4
  have hfuel : (v.vm_end - v.start + (PAGE_SIZE - 1)) / PAGE_SIZE = n := by
    rw [hvs.1, hvs.2]
    unfold PAGE_SIZE
    omega
  have hmunmap : munmap k2 start length
      = (0, k3.set_proc cur (fun p => { p with vma_list := (k.processes cur).vma_list })) := by
    unfold munmap
    rw [r5, hk1_sched, hcur]
    dsimp only
    rw [hpm_start, hpm_end, r4, hk1_pgd, hk1_vma, munmap_vmas]
    have hin : v.start ≥ start ∧ v.vm_end ≤ start + 4096 * n := by
      rw [hvs.1, hvs.2]
      exact ⟨Nat.le_refl _, Nat.le_refl _⟩
    rw [if_pos hin, hfuel, hvs.1, hvs.2, hk3, munmap_vmas_none _ _ _ _ _ hvma]
  rw [hmunmap]
  refine ⟨rfl, rfl, ?_, ?_, ?_⟩
  · show k3.mm_state.stats.free_pages = k.mm_state.stats.free_pages
    rw [u2, u1, r2, hstats, hlen_fs]
  · show k3.mm_state.free_pages.length = k.mm_state.free_pages.length
    rw [u1, r2, hlen_fs]
  · simp

/-- Witness for the amended C8 on `mmap_sample_state2`, where the page tables for
0x400000 exist: two pages are mapped to the free frames 2 and 6 and unmapped again,
and the three free frames are back. -/
theorem mmap_munmap_free_pages_witness :
    mmap_sample_state2.mm_state.free_pages = [2, 6] ++ [7] ∧
    mmap_sample_state2.mm_state.stats.free_pages = 3 ∧
    (mmap mmap_sample_state2 0x400000 8192 (PROT_READ ||| PROT_WRITE)
        (MAP_FIXED ||| MAP_PRIVATE ||| MAP_ANONYMOUS) (-1) 0 0).1 = some 0x400000 ∧
    (munmap (mmap mmap_sample_state2 0x400000 8192 (PROT_READ ||| PROT_WRITE)
        (MAP_FIXED ||| MAP_PRIVATE ||| MAP_ANONYMOUS) (-1) 0 0).2 0x400000
        8192).2.mm_state.stats.free_pages = mmap_sample_state2.mm_state.stats.free_pages ∧
    (munmap (mmap mmap_sample_state2 0x400000 8192 (PROT_READ ||| PROT_WRITE)
        (MAP_FIXED ||| MAP_PRIVATE ||| MAP_ANONYMOUS) (-1) 0 0).2 0x400000
        8192).2.mm_state.free_pages.length = mmap_sample_state2.mm_state.free_pages.length :=
  have h := mmap_munmap_free_pages mmap_sample_state2 1 0x400000 8192 (PROT_READ ||| PROT_WRITE)
    (MAP_FIXED ||| MAP_PRIVATE ||| MAP_ANONYMOUS) (-1) 0 0 0x400000 2 [2, 6] [7]
    (fun j => (4096, 12288, 16400, 20480 + 8 * j))
    (by decide) (by decide) (by decide) (by decide) (by decide) (by decide) (by decide)
    (by decide) (by decide) (by decide) (by decide) (by decide) (by decide) (by decide)
    (by intro i j _ _; dsimp only; omega) (by intro i j _ _ hij; dsimp only; omega)
    (by decide)
  ⟨by decide, by decide, h.1, h.2.2.1, h.2.2.2.1⟩

/-! ## Weights of nice 0 and nice 10 (C13) -/

/-- The poll loop over the indices below `n`: it executes the due tasks among them in
index order and re-arms exactly those. -/
theorem rtos_execute_periodic_fold (k : kernel) (n : Nat) :
    (List.range n).foldl (rtos_execute_periodic_task (rtos_get_ticks k)) ([], k)
      = ((List.range n).filter (periodic_due k),
         { k with periodic_tasks := fun i =>
             if i < n ∧ periodic_due k i = true then
               { (k.periodic_tasks i) with
                 next_execution :=
                   u64 (rtos_get_ticks k + rtos_ms_to_ticks (k.periodic_tasks i).period_ms) }
             else k.periodic_tasks i }) := by
  induction n with
  | zero => simp
  | succ n ih =>
    rw [List.range_succ, List.foldl_append, ih]
    simp only [List.foldl_cons, List.foldl_nil, List.filter_append]
    unfold rtos_execute_periodic_task
    have hn : ¬ (n < n ∧ periodic_due k n = true) := by omega
    simp only [hn, if_false]
    by_cases hd : periodic_due k n = true
    · have hd2 : ((k.periodic_tasks n).active
          && decide (rtos_get_ticks k ≥ (k.periodic_tasks n).next_execution)) = true := hd
      simp only [hd2, if_true, List.filter_cons, hd, List.filter_nil]
      congr 2
      funext i
      by_cases hi : i = n
      · subst hi
        simp [hd]
      · simp only [Function.update, hi, dite_false]
        have : (i < n + 1) = (i < n) := by
          apply propext
          omega
        simp only [this, eq_rec_constant, dite_eq_ite, if_false]
    · have hd2 : ((k.periodic_tasks n).active
          && decide (rtos_get_ticks k ≥ (k.periodic_tasks n).next_execution)) = false := by
        simpa [periodic_due] using hd
      simp only [hd2, Bool.false_eq_true, if_false, List.filter_cons, hd, List.filter_nil,
        List.append_nil]
      congr 2
      funext i
      by_cases hi : i = n
      · subst hi
        simp [hd]
      · have : (i < n + 1) = (i < n) := by
          apply propext
          omega
        simp only [this]

/-! ### Operations that leave the periodic-task table and the tick counter alone -/

@[simp] theorem set_proc_periodic_tasks (k : kernel) (i : Nat) (f : process → process) :
    (k.set_proc i f).periodic_tasks = k.periodic_tasks := rfl

@[simp] theorem set_proc_periodic_task_count (k : kernel) (i : Nat) (f : process → process) :
    (k.set_proc i f).periodic_task_count = k.periodic_task_count := rfl

@[simp] theorem cfs_enqueue_task_periodic_tasks (k : kernel) (p : Nat) :
    (cfs_enqueue_task k p).periodic_tasks = k.periodic_tasks := by
  unfold cfs_enqueue_task
  split <;> rfl

@[simp] theorem cfs_enqueue_task_periodic_task_count (k : kernel) (p : Nat) :
    (cfs_enqueue_task k p).periodic_task_count = k.periodic_task_count := by
  unfold cfs_enqueue_task
  split <;> rfl

@[simp] theorem cfs_dequeue_task_periodic_tasks (k : kernel) (p : Nat) :
    (cfs_dequeue_task k p).periodic_tasks = k.periodic_tasks := rfl

@[simp] theorem cfs_dequeue_task_periodic_task_count (k : kernel) (p : Nat) :
    (cfs_dequeue_task k p).periodic_task_count = k.periodic_task_count := rfl

@[simp] theorem cfs_dequeue_task_ipc_system (k : kernel) (p : Nat) :
    (cfs_dequeue_task k p).ipc_system = k.ipc_system := rfl

@[simp] theorem update_vruntime_periodic_tasks (k : kernel) (p d : Nat) :
    (update_vruntime k p d).periodic_tasks = k.periodic_tasks := by
  unfold update_vruntime
  dsimp only
  split <;> rfl

@[simp] theorem update_vruntime_periodic_task_count (k : kernel) (p d : Nat) :
    (update_vruntime k p d).periodic_task_count = k.periodic_task_count := by
  unfold update_vruntime
  dsimp only
  split <;> rfl

@[simp] theorem update_vruntime_ipc_system (k : kernel) (p d : Nat) :
    (update_vruntime k p d).ipc_system = k.ipc_system := by
  unfold update_vruntime
  dsimp only
  split <;> rfl

@[simp] theorem schedule_periodic_tasks (k : kernel) (a b : Nat) :
    (schedule k a b).periodic_tasks = k.periodic_tasks := by
  unfold schedule
  dsimp only
  repeat' split
  all_goals simp

@[simp] theorem schedule_periodic_task_count (k : kernel) (a b : Nat) :
    (schedule k a b).periodic_task_count = k.periodic_task_count := by
  unfold schedule
  dsimp only
  repeat' split
  all_goals simp

@[simp] theorem schedule_ipc_system (k : kernel) (a b : Nat) :
    (schedule k a b).ipc_system = k.ipc_system := by
  unfold schedule
  dsimp only
  repeat' split
  all_goals simp

@[simp] theorem rtos_check_timeouts_loop_periodic_tasks (ticks fuel i : Nat) (k : kernel) :
    (rtos_check_timeouts_loop ticks fuel i k).periodic_tasks = k.periodic_tasks := by
  induction fuel generalizing i k with
  | zero => rfl
  | succ fuel ih =>
    unfold rtos_check_timeouts_loop
    dsimp only
    repeat' split
    all_goals simp [ih]

@[simp] theorem rtos_check_timeouts_loop_periodic_task_count (ticks fuel i : Nat) (k : kernel) :
    (rtos_check_timeouts_loop ticks fuel i k).periodic_task_count = k.periodic_task_count := by
  induction fuel generalizing i k with
  | zero => rfl
  | succ fuel ih =>
    unfold rtos_check_timeouts_loop
    dsimp only
    repeat' split
    all_goals simp [ih]

@[simp] theorem rtos_check_timeouts_loop_system_ticks (ticks fuel i : Nat) (k : kernel) :
    (rtos_check_timeouts_loop ticks fuel i k).ipc_system.system_ticks
      = k.ipc_system.system_ticks := by
  induction fuel generalizing i k with
  | zero => rfl
  | succ fuel ih =>
    unfold rtos_check_timeouts_loop
    dsimp only
    repeat' split
    all_goals simp [ih]

@[simp] theorem rtos_tick_handler_periodic_tasks (k : kernel) (a b : Nat) :
    (rtos_tick_handler k a b).periodic_tasks = k.periodic_tasks := by
  unfold rtos_tick_handler rtos_check_timeouts
  dsimp only
  repeat' split
  all_goals simp

@[simp] theorem rtos_tick_handler_periodic_task_count (k : kernel) (a b : Nat) :
    (rtos_tick_handler k a b).periodic_task_count = k.periodic_task_count := by
  unfold rtos_tick_handler rtos_check_timeouts
  dsimp only
  repeat' split
  all_goals simp

theorem rtos_tick_handler_system_ticks (k : kernel) (a b : Nat) :
    rtos_get_ticks (rtos_tick_handler k a b) = u64 (rtos_get_ticks k + 1) := by
  unfold rtos_tick_handler rtos_check_timeouts rtos_get_ticks
  dsimp only
  repeat' split
  all_goals simp

/-- What `rtos_execute_periodic_tasks` does: the due tasks are executed in index
order and re-armed from the current tick. -/
theorem rtos_execute_periodic_tasks_spec (k : kernel) :
    rtos_execute_periodic_tasks k
      = ((List.range k.periodic_task_count).filter (periodic_due k),
         { k with periodic_tasks := fun i =>
             if i < k.periodic_task_count ∧ periodic_due k i = true then
               { (k.periodic_tasks i) with
                 next_execution :=
                   u64 (rtos_get_ticks k + rtos_ms_to_ticks (k.periodic_tasks i).period_ms) }
             else k.periodic_tasks i }) := by
  unfold rtos_execute_periodic_tasks
  exact rtos_execute_periodic_fold k k.periodic_task_count

theorem count_filter_range (n j : Nat) (p : Nat → Bool) :
    ((List.range n).filter p).count j = if j < n ∧ p j = true then 1 else 0 := by
  induction n with
  | zero => simp
  | succ n ih =>
    rw [List.range_succ, List.filter_append, List.count_append, ih]
    by_cases hj : j = n
    · subst hj
      by_cases hp : p j = true
      · simp [hp]
      · simp [hp]
    · have h1 : j < n + 1 ↔ j < n := by omega
      simp only [h1]
      by_cases hp : p n = true
      · simp [hp, List.count_cons, Ne.symm hj]
      · simp [hp]

/-- A run of ticks and polls seen from one task: with `r` ticks to go until the task
is next due (`1 ≤ r ≤ p`), it is executed after tick `m + 1` exactly when `m + 1` is
`r` plus a multiple of the period. -/
theorem periodic_ticks_task (j p : Nat) (hp : 1 ≤ p) :
    ∀ (ts : List (Nat × Nat)) (k : kernel) (r : Nat),
      j < k.periodic_task_count →
      (k.periodic_tasks j).active = true →
      (k.periodic_tasks j).period_ms = p →
      (k.periodic_tasks j).next_execution = rtos_get_ticks k + r →
      1 ≤ r → r ≤ p →
      rtos_get_ticks k + ts.length + p < 18446744073709551616 →
      (∀ m, m < ts.length →
        (j ∈ (periodic_ticks ts k).1.getD m [] ↔ (r ≤ m + 1 ∧ p ∣ (m + 1 - r)))) ∧
      ((periodic_ticks ts k).1.map (List.count j)).sum = (ts.length + p - r) / p := by
  intro ts
  induction ts with
  | nil =>
    intro k r _ _ _ _ h1 h2 _
    refine ⟨fun m hm => absurd hm (by simp), ?_⟩
    simp only [periodic_ticks, List.map_nil, List.sum_nil, List.length_nil, Nat.zero_add]
    rw [Nat.div_eq_of_lt (by omega)]
  | cons t ts ih =>
    intro k r hj hact hper hnext h1 h2 hrange
    simp only [List.length_cons] at hrange
    have hticks : rtos_get_ticks (rtos_tick_handler k t.1 t.2) = rtos_get_ticks k + 1 := by
      rw [rtos_tick_handler_system_ticks]
      unfold u64
      exact Nat.mod_eq_of_lt (by omega)
    have hdue : periodic_due (rtos_tick_handler k t.1 t.2) j = decide (r = 1) := by
      unfold periodic_due
      rw [hticks]
      simp only [rtos_tick_handler_periodic_tasks, hact, hnext, Bool.true_and]
      by_cases hr : r = 1
      · simp [hr]
      · simp only [hr, decide_False, decide_eq_false_iff_not]
        omega
    have hspec := rtos_execute_periodic_tasks_spec (rtos_tick_handler k t.1 t.2)
    have hjc : j < (rtos_tick_handler k t.1 t.2).periodic_task_count := by simpa using hj
    -- the state after the poll
    have hk2 : ∀ x, x = (rtos_execute_periodic_tasks (rtos_tick_handler k t.1 t.2)).2 →
        rtos_get_ticks x = rtos_get_ticks k + 1 ∧ j < x.periodic_task_count ∧
        (x.periodic_tasks j).active = true ∧ (x.periodic_tasks j).period_ms = p ∧
        (x.periodic_tasks j).next_execution
          = rtos_get_ticks x + (if r = 1 then p else r - 1) := by
      intro x hx
      rw [hspec] at hx
      subst hx
      refine ⟨hticks, hjc, ?_, ?_, ?_⟩
      · dsimp only
        split <;> simp [hact]
      · dsimp only
        split <;> simp [hper]
      · dsimp only
        have e1 : rtos_get_ticks { rtos_tick_handler k t.1 t.2 with
            periodic_tasks := fun i =>
              if i < (rtos_tick_handler k t.1 t.2).periodic_task_count
                  ∧ periodic_due (rtos_tick_handler k t.1 t.2) i = true then
                { ((rtos_tick_handler k t.1 t.2).periodic_tasks i) with
                  next_execution :=
                    u64 (rtos_get_ticks (rtos_tick_handler k t.1 t.2)
                      + rtos_ms_to_ticks ((rtos_tick_handler k t.1 t.2).periodic_tasks i).period_ms) }
              else (rtos_tick_handler k t.1 t.2).periodic_tasks i }
            = rtos_get_ticks k + 1 := hticks
        rw [e1]
        by_cases hr : r = 1
        · have hd : periodic_due (rtos_tick_handler k t.1 t.2) j = true := by
            rw [hdue]
            simp [hr]
          rw [if_pos ⟨hjc, hd⟩, if_pos hr]
          simp only [rtos_tick_handler_periodic_tasks, hper, hticks, rtos_ms_to_ticks]
          unfold u64
          exact Nat.mod_eq_of_lt (by omega)
        · have hd : ¬ (j < (rtos_tick_handler k t.1 t.2).periodic_task_count
              ∧ periodic_due (rtos_tick_handler k t.1 t.2) j = true) := by
            rw [hdue]
            simp [hr]
          rw [if_neg hd, if_neg hr]
          simp only [rtos_tick_handler_periodic_tasks, hnext]
          omega
    obtain ⟨g1, g2, g3, g4, g5⟩ := hk2 _ rfl
    have hr' : 1 ≤ (if r = 1 then p else r - 1) ∧ (if r = 1 then p else r - 1) ≤ p := by
      split <;> omega
    have hih := ih (rtos_execute_periodic_tasks (rtos_tick_handler k t.1 t.2)).2
      (if r = 1 then p else r - 1) g2 g3 g4 g5 hr'.1 hr'.2 (by rw [g1]; omega)
    have hmem : j ∈ (rtos_execute_periodic_tasks (rtos_tick_handler k t.1 t.2)).1 ↔ r = 1 := by
      rw [hspec]
      simp only [List.mem_filter, List.mem_range, hdue, decide_eq_true_eq]
      exact ⟨fun h => h.2, fun h => ⟨hjc, h⟩⟩
    have hcnt : (rtos_execute_periodic_tasks (rtos_tick_handler k t.1 t.2)).1.count j
        = if r = 1 then 1 else 0 := by
      rw [hspec]
      simp only [count_filter_range, hdue, decide_eq_true_eq]
      by_cases hr : r = 1
      · simp [hr, hj]
      · simp [hr]
    refine ⟨?_, ?_⟩
    · intro m hm
      cases m with
      | zero =>
        simp only [periodic_ticks, List.getD_cons_zero, hmem]
        constructor
        · intro h
          subst h
          simp
        · intro h
          omega
      | succ m =>
        simp only [List.length_cons] at hm
        simp only [periodic_ticks, List.getD_cons_succ]
        rw [hih.1 m (by omega)]
        by_cases hr : r = 1
        · subst hr
          simp only [if_true]
          constructor
          · intro h
            refine ⟨by omega, ?_⟩
            have := (Nat.dvd_sub' h.2 (dvd_refl p))
            have e : m + 1 + 1 - 1 = (m + 1 - p) + p := by omega
            rw [e]
            exact Dvd.dvd.add h.2 (dvd_refl p)
          · intro h
            have e : m + 1 + 1 - 1 = m + 1 := by omega
            rw [e] at h
            have hle : p ≤ m + 1 := Nat.le_of_dvd (by omega) h.2
            exact ⟨hle, Nat.dvd_sub' h.2 (dvd_refl p)⟩
        · simp only [hr, if_false]
          have e : m + 1 + 1 - r = m + 1 - (r - 1) := by omega
          rw [e]
          constructor
          · intro h
            exact ⟨by omega, h.2⟩
          · intro h
            exact ⟨by omega, h.2⟩
    · simp only [periodic_ticks, List.map_cons, List.sum_cons, hcnt, hih.2, List.length_cons]
      by_cases hr : r = 1
      · subst hr
        simp only [if_true]
        have e1 : ts.length + p - p = ts.length := by omega
        have e2 : ts.length + 1 + p - 1 = ts.length + p := by omega
        rw [e1, e2, Nat.add_div_right _ (by omega : 0 < p)]
        omega
      · simp only [hr, if_false, Nat.zero_add]
        have e : ts.length + p - (r - 1) = ts.length + 1 + p - r := by omega
        rw [e]

/-- What `rtos_register_periodic_task` does while the table has room. -/
theorem rtos_register_periodic_task_spec (k : kernel) (f p prio : Nat)
    (h : k.periodic_task_count < 32) :
    rtos_register_periodic_task k f p prio
      = ((k.periodic_task_count : Int),
         { k with
           periodic_tasks := Function.update k.periodic_tasks k.periodic_task_count
             ⟨f, p, u64 (rtos_get_ticks k + p), true, prio⟩,
           periodic_task_count := k.periodic_task_count + 1 }) := by
  unfold rtos_register_periodic_task
  have h1 : ¬ k.periodic_task_count ≥ 32 := by omega
  have h2 : u32 (k.periodic_task_count + 1) = k.periodic_task_count + 1 := by
    unfold u32
    omega
  have h3 : sub_u32 (k.periodic_task_count + 1) 1 = k.periodic_task_count := by
    unfold sub_u32 u32
    omega
  have h4 : wrap_i32 (k.periodic_task_count : Int) = (k.periodic_task_count : Int) := by
    unfold wrap_i32
    omega
  simp only [h1, if_false, h2, h3, h4, rtos_ms_to_ticks]

/-- Later registrations leave the tick counter and the entries already in the table
alone. -/
theorem register_all_keeps (regs : List (Nat × Nat × Nat)) :
    ∀ (k : kernel) (j : Nat), j < k.periodic_task_count →
      rtos_get_ticks (register_all k regs) = rtos_get_ticks k ∧
      (register_all k regs).periodic_tasks j = k.periodic_tasks j ∧
      j < (register_all k regs).periodic_task_count := by
  induction regs with
  | nil =>
    intro k j hj
    exact ⟨rfl, rfl, hj⟩
  | cons r regs ih =>
    intro k j hj
    have e : register_all k (r :: regs)
        = register_all (rtos_register_periodic_task k r.1 r.2.1 r.2.2).2 regs := rfl
    rw [e]
    by_cases hc : k.periodic_task_count < 32
    · rw [rtos_register_periodic_task_spec k _ _ _ hc]
      have h := ih { k with
           periodic_tasks := Function.update k.periodic_tasks k.periodic_task_count
             ⟨r.1, r.2.1, u64 (rtos_get_ticks k + r.2.1), true, r.2.2⟩,
           periodic_task_count := k.periodic_task_count + 1 } j (Nat.lt_succ_of_lt hj)
      refine ⟨h.1, ?_, h.2.2⟩
      rw [h.2.1]
      simp [Function.update, Nat.ne_of_lt hj]
    · have e2 : rtos_register_periodic_task k r.1 r.2.1 r.2.2 = (-1, k) := by
        unfold rtos_register_periodic_task
        rw [if_pos (by omega)]
      rw [e2]
      exact ih k j hj

/-- C11: a task of period `p ≥ 1` is registered at tick `t0` (it gets the table index
`periodic_task_count`), possibly followed by further registrations; then the timer
ticks and `rtos_execute_periodic_tasks` is called after every tick.  As long as the
64-bit tick counter does not wrap, the task is executed after tick `t0 + m + 1`
exactly when `p` divides `m + 1`, that is at ticks `t0 + p`, `t0 + 2p`, ..., and so
`T / p` (rounded down) times during the first `T` ticks. -/
theorem periodic_task_executes_every_period (k0 : kernel) (f p prio : Nat)
    (later : List (Nat × Nat × Nat)) (ts : List (Nat × Nat))
    (hp : 1 ≤ p) (hcount : k0.periodic_task_count < 32)
    (hrange : rtos_get_ticks k0 + ts.length + p < 18446744073709551616) :
    (rtos_register_periodic_task k0 f p prio).1 = (k0.periodic_task_count : Int) ∧
    (∀ m, m < ts.length →
      (k0.periodic_task_count ∈
          (periodic_ticks ts
            (register_all (rtos_register_periodic_task k0 f p prio).2 later)).1.getD m []
        ↔ p ∣ (m + 1))) ∧
    ((periodic_ticks ts
        (register_all (rtos_register_periodic_task k0 f p prio).2 later)).1.map
      (List.count k0.periodic_task_count)).sum = ts.length / p := by
  rw [rtos_register_periodic_task_spec k0 f p prio hcount]
  have hk := register_all_keeps later
    { k0 with
      periodic_tasks := Function.update k0.periodic_tasks k0.periodic_task_count
        ⟨f, p, u64 (rtos_get_ticks k0 + p), true, prio⟩,
      periodic_task_count := k0.periodic_task_count + 1 } k0.periodic_task_count
    (Nat.lt_succ_self _)
  have hu : u64 (rtos_get_ticks k0 + p) = rtos_get_ticks k0 + p := by
    unfold u64
    exact Nat.mod_eq_of_lt (by omega)
  have ht : rtos_get_ticks
      { k0 with
        periodic_tasks := Function.update k0.periodic_tasks k0.periodic_task_count
          ⟨f, p, u64 (rtos_get_ticks k0 + p), true, prio⟩,
        periodic_task_count := k0.periodic_task_count + 1 } = rtos_get_ticks k0 := rfl
  have hmain := periodic_ticks_task k0.periodic_task_count p hp ts
    (register_all
      { k0 with
        periodic_tasks := Function.update k0.periodic_tasks k0.periodic_task_count
          ⟨f, p, u64 (rtos_get_ticks k0 + p), true, prio⟩,
        periodic_task_count := k0.periodic_task_count + 1 } later) p hk.2.2
    (by rw [hk.2.1]; simp) (by rw [hk.2.1]; simp)
    (by rw [hk.2.1, hk.1, ht]; simp [hu]) hp (Nat.le_refl p)
    (by rw [hk.1, ht]; exact hrange)
  refine ⟨rfl, ?_, ?_⟩
  · intro m hm
    rw [hmain.1 m hm]
    constructor
    · intro h
      have e : m + 1 = (m + 1 - p) + p := by omega
      rw [e]
      exact Dvd.dvd.add h.2 (dvd_refl p)
    · intro h
      exact ⟨Nat.le_of_dvd (by omega) h, Nat.dvd_sub' h (dvd_refl p)⟩
  · rw [hmain.2]
    have e : ts.length + p - p = ts.length := by omega
    rw [e]

set_option maxRecDepth 100000 in
/-- Witness for C11: task A (period 100) and then task B (period 1000) are registered
at tick 0 after boot; over 1000 ticks A is executed 10 times and B once. -/
theorem periodic_task_executes_every_period_witness :
    ((periodic_ticks (List.replicate 1000 (0, 0))
        (rtos_register_periodic_task (rtos_register_periodic_task kernel.booted 1 100 10).2
          2 1000 90).2).1.map (List.count 0)).sum = 10 ∧
    ((periodic_ticks (List.replicate 1000 (0, 0))
        (rtos_register_periodic_task (rtos_register_periodic_task kernel.booted 1 100 10).2
          2 1000 90).2).1.map (List.count 1)).sum = 1 :=
  ⟨(periodic_task_executes_every_period kernel.booted 1 100 10 [(2, 1000, 90)]
      (List.replicate 1000 (0, 0)) (by decide) (by decide)
      (by simp only [List.length_replicate]; decide)).2.2,
   (periodic_task_executes_every_period (rtos_register_periodic_task kernel.booted 1 100 10).2
      2 1000 90 [] (List.replicate 1000 (0, 0)) (by decide) (by decide)
      (by simp only [List.length_replicate]; decide)).2.2⟩

theorem first_index_succ (lo hi : Nat) (p : Nat → Bool) :
    first_index lo (hi + 1) p
      = (first_index lo hi p).or (if lo ≤ hi ∧ p hi = true then some hi else none) := by
  unfold first_index
  rw [List.range_succ, List.find?_append]
  congr 1
  by_cases h : lo ≤ hi ∧ p hi = true
  · simp [h, List.find?_cons]
  · rw [if_neg h]
    simp only [List.find?_cons, List.find?_nil]
    have : (decide (lo ≤ hi) && p hi) = false := by
      by_cases h1 : lo ≤ hi
      · simp [h1] at h ⊢
        exact h
      · simp [h1]
    rw [this]

theorem first_index_eq_none (lo hi : Nat) (p : Nat → Bool) :
    first_index lo hi p = none ↔ ∀ j, lo ≤ j → j < hi → p j = false := by
  induction hi with
  | zero =>
    constructor
    · intro _ j _ hj
      omega
    · intro _
      rfl
  | succ hi ih =>
    rw [first_index_succ]
    constructor
    · intro h j hlo hj
      cases hf : first_index lo hi p with
      | some x => rw [hf] at h; simp at h
      | none =>
        rw [hf] at h
        by_cases hjh : j = hi
        · subst hjh
          by_cases hc : lo ≤ j ∧ p j = true
          · rw [if_pos hc] at h
            simp at h
          · cases hp : p j with
            | false => rfl
            | true => exact absurd ⟨hlo, hp⟩ hc
        · exact (ih.mp hf) j hlo (by omega)
    · intro h
      have h1 : first_index lo hi p = none := ih.mpr (fun j hlo hj => h j hlo (by omega))
      rw [h1]
      by_cases hc : lo ≤ hi ∧ p hi = true
      · have := h hi hc.1 (by omega)
        rw [hc.2] at this
        cases this
      · rw [if_neg hc]
        rfl

theorem first_index_eq_some (lo hi : Nat) (p : Nat → Bool) (i : Nat) :
    first_index lo hi p = some i ↔
      lo ≤ i ∧ i < hi ∧ p i = true ∧ ∀ j, lo ≤ j → j < i → p j = false := by
  induction hi generalizing i with
  | zero =>
    constructor
    · intro h
      cases h
    · intro h
      omega
  | succ hi ih =>
    rw [first_index_succ]
    cases hf : first_index lo hi p with
    | some x =>
      simp only [Option.or_some, Option.some.injEq]
      constructor
      · intro hx
        subst hx
        have := (ih x).mp hf
        exact ⟨this.1, by omega, this.2.2.1, this.2.2.2⟩
      · intro h
        have hx := (ih x).mp hf
        rcases Nat.lt_trichotomy x i with hlt | heq | hgt
        · have := h.2.2.2 x hx.1 hlt
          rw [hx.2.2.1] at this
          cases this
        · exact heq
        · have := hx.2.2.2 i h.1 hgt
          rw [h.2.2.1] at this
          cases this
    | none =>
      simp only [Option.none_or]
      have hn := (first_index_eq_none lo hi p).mp hf
      constructor
      · intro h
        by_cases hc : lo ≤ hi ∧ p hi = true
        · rw [if_pos hc] at h
          cases h
          exact ⟨hc.1, by omega, hc.2, fun j hlo hj => hn j hlo hj⟩
        · rw [if_neg hc] at h
          cases h
      · intro h
        have hi2 : i = hi := by
          by_contra hne
          have := hn i h.1 (by omega)
          rw [h.2.2.1] at this
          cases this
        subst hi2
        rw [if_pos ⟨h.1, h.2.2.1⟩]

/-! ## msgget (C14) -/

/-- The call `msgget` when its first scan finds slot `i`. -/
theorem msgget_found (k : kernel) (key flags i : Nat)
    (h : first_index 0 MAX_MESSAGE_QUEUES
          (fun i => (k.message_queues i).in_use && decide ((k.message_queues i).key = key))
        = some i) :
    msgget k key flags = (wrap_i32 (k.message_queues i).id, k) := by
  unfold msgget
  rw [h]

/-- The call `msgget` when it neither finds nor creates a queue. -/
theorem msgget_fails (k : kernel) (key flags : Nat)
    (h : first_index 0 MAX_MESSAGE_QUEUES
          (fun i => (k.message_queues i).in_use && decide ((k.message_queues i).key = key))
        = none)
    (h2 : flags &&& IPC_CREAT = 0 ∨
          first_index 0 MAX_MESSAGE_QUEUES (fun i => !(k.message_queues i).in_use) = none) :
    msgget k key flags = (-1, k) := by
  unfold msgget
  rw [h]
  dsimp only
  split
  · rfl
  · rename_i hf
    rcases h2 with h2 | h2
    · exact absurd h2 hf
    · rw [h2]

/-- The call `msgget` when it creates the queue in slot `i`. -/
theorem msgget_creates (k : kernel) (key flags i : Nat)
    (h : first_index 0 MAX_MESSAGE_QUEUES
          (fun i => (k.message_queues i).in_use && decide ((k.message_queues i).key = key))
        = none)
    (hf : flags &&& IPC_CREAT ≠ 0)
    (h2 : first_index 0 MAX_MESSAGE_QUEUES (fun i => !(k.message_queues i).in_use) = some i) :
    msgget k key flags
      = (wrap_i32 k.ipc_system.next_msgq_id,
         ({ k with ipc_system := { k.ipc_system with
              next_msgq_id := u32 (k.ipc_system.next_msgq_id + 1) } }).set_msgq i (fun q =>
           { q with id := k.ipc_system.next_msgq_id, key := key, head := 0, tail := 0, count := 0,
                    max_messages := MSG_QUEUE_SIZE, max_message_size := MAX_MSG_SIZE,
                    sender_count := 0, receiver_count := 0, in_use := true })) := by
  unfold msgget
  rw [h]
  dsimp only
  rw [if_neg hf, h2]
  simp [kernel.set_msgq]

/-- C14: `msgget` is find-or-create by key.  (1) If slot `i` is the first in-use queue
with the key, the call returns that queue's id and leaves the state as it is,
whatever the flags.  (2) If no in-use queue has the key, `IPC_CREAT` is set and `i`
is the first free slot, the call returns the id `next_msgq_id`, which it assigns to
slot `i` together with the key and an empty ring (`count = 0`, `head = tail = 0`);
`next_msgq_id` is incremented, every other queue slot and every other part of the
state is unchanged.  (3) If no in-use queue has the key and `IPC_CREAT` is not set or
all 64 slots are in use, the call returns -1 and leaves the state as it is.  (4) A
second call with the same key returns what the first call returned: with the same
flags always, and with any flags when the first call found or created a queue. -/
theorem msgget_find_or_create (k : kernel) (key flags : Nat) :
    (∀ i, i < MAX_MESSAGE_QUEUES → (k.message_queues i).in_use = true →
      (k.message_queues i).key = key →
      (∀ j, j < i → ¬ ((k.message_queues j).in_use = true ∧ (k.message_queues j).key = key)) →
      msgget k key flags = (wrap_i32 (k.message_queues i).id, k)) ∧
    (∀ i, (∀ j, j < MAX_MESSAGE_QUEUES →
              ¬ ((k.message_queues j).in_use = true ∧ (k.message_queues j).key = key)) →
      flags &&& IPC_CREAT ≠ 0 → i < MAX_MESSAGE_QUEUES →
      (k.message_queues i).in_use = false →
      (∀ j, j < i → (k.message_queues j).in_use = true) →
      (msgget k key flags).1 = wrap_i32 k.ipc_system.next_msgq_id ∧
      ((msgget k key flags).2.message_queues i).in_use = true ∧
      ((msgget k key flags).2.message_queues i).key = key ∧
      ((msgget k key flags).2.message_queues i).id = k.ipc_system.next_msgq_id ∧
      ((msgget k key flags).2.message_queues i).count = 0 ∧
      ((msgget k key flags).2.message_queues i).head = 0 ∧
      ((msgget k key flags).2.message_queues i).tail = 0 ∧
      ((msgget k key flags).2.message_queues i).max_messages = MSG_QUEUE_SIZE ∧
      (∀ j, j ≠ i → (msgget k key flags).2.message_queues j = k.message_queues j) ∧
      (msgget k key flags).2.ipc_system.next_msgq_id = u32 (k.ipc_system.next_msgq_id + 1) ∧
      (msgget k key flags).2.processes = k.processes ∧
      (msgget k key flags).2.scheduler = k.scheduler ∧
      (msgget k key flags).2.pipes = k.pipes ∧
      (msgget k key flags).2.semaphores = k.semaphores) ∧
    ((∀ j, j < MAX_MESSAGE_QUEUES →
          ¬ ((k.message_queues j).in_use = true ∧ (k.message_queues j).key = key)) →
      (flags &&& IPC_CREAT = 0 ∨ ∀ j, j < MAX_MESSAGE_QUEUES → (k.message_queues j).in_use = true) →
      msgget k key flags = (-1, k)) ∧
    (msgget (msgget k key flags).2 key flags).1 = (msgget k key flags).1 ∧
    (∀ flags2,
      ((∃ i, i < MAX_MESSAGE_QUEUES ∧ (k.message_queues i).in_use = true ∧
              (k.message_queues i).key = key) ∨
       (flags &&& IPC_CREAT ≠ 0 ∧
          ∃ i, i < MAX_MESSAGE_QUEUES ∧ (k.message_queues i).in_use = false)) →
      (msgget (msgget k key flags).2 key flags2).1 = (msgget k key flags).1) := by
  -- the two scans, in terms of the table
  have hsome : ∀ (k : kernel) (i : Nat),
      first_index 0 MAX_MESSAGE_QUEUES
          (fun i => (k.message_queues i).in_use && decide ((k.message_queues i).key = key))
        = some i ↔
      (i < MAX_MESSAGE_QUEUES ∧ (k.message_queues i).in_use = true ∧
        (k.message_queues i).key = key ∧
        ∀ j, j < i → ¬ ((k.message_queues j).in_use = true ∧ (k.message_queues j).key = key)) := by
    intro k i
    rw [first_index_eq_some]
    simp only [Nat.zero_le, true_and, Bool.and_eq_true, decide_eq_true_eq, forall_const,
      Bool.and_eq_false_imp, decide_eq_false_iff_not, not_and]
    tauto
  have hnone : ∀ (k : kernel),
      first_index 0 MAX_MESSAGE_QUEUES
          (fun i => (k.message_queues i).in_use && decide ((k.message_queues i).key = key))
        = none ↔
      ∀ j, j < MAX_MESSAGE_QUEUES →
        ¬ ((k.message_queues j).in_use = true ∧ (k.message_queues j).key = key) := by
    intro k
    rw [first_index_eq_none]
    simp only [Nat.zero_le, forall_const, Bool.and_eq_false_imp, decide_eq_false_iff_not, not_and]
  have hfree : ∀ i,
      first_index 0 MAX_MESSAGE_QUEUES (fun i => !(k.message_queues i).in_use) = some i ↔
      (i < MAX_MESSAGE_QUEUES ∧ (k.message_queues i).in_use = false ∧
        ∀ j, j < i → (k.message_queues j).in_use = true) := by
    intro i
    rw [first_index_eq_some]
    simp only [Nat.zero_le, true_and, Bool.not_eq_true', forall_const, Bool.not_eq_false']
  have hfull :
      first_index 0 MAX_MESSAGE_QUEUES (fun i => !(k.message_queues i).in_use) = none ↔
      ∀ j, j < MAX_MESSAGE_QUEUES → (k.message_queues j).in_use = true := by
    rw [first_index_eq_none]
    simp only [Nat.zero_le, forall_const, Bool.not_eq_false']
  -- a second call after a creation finds the new queue
  have hsecond : ∀ i flags2,
      first_index 0 MAX_MESSAGE_QUEUES
          (fun i => (k.message_queues i).in_use && decide ((k.message_queues i).key = key))
        = none →
      flags &&& IPC_CREAT ≠ 0 →
      first_index 0 MAX_MESSAGE_QUEUES (fun i => !(k.message_queues i).in_use) = some i →
      (msgget (msgget k key flags).2 key flags2).1 = (msgget k key flags).1 := by
    intro i flags2 h1 hf h2
    rw [msgget_creates k key flags i h1 hf h2]
    have hn := (hnone k).mp h1
    have hi := (hfree i).mp h2
    rw [msgget_found _ key flags2 i]
    · simp [kernel.set_msgq]
    · rw [hsome]
      refine ⟨hi.1, by simp [kernel.set_msgq], by simp [kernel.set_msgq], ?_⟩
      intro j hj
      have hji : j ≠ i := Nat.ne_of_lt hj
      simp only [kernel.set_msgq, Function.update, hji, dite_false]
      exact hn j (by omega)
  refine ⟨?_, ?_, ?_, ?_, ?_⟩
  · intro i hi hu hk hmin
    exact msgget_found k key flags i ((hsome k i).mpr ⟨hi, hu, hk, hmin⟩)
  · intro i hno hf hi hfr hmin
    rw [msgget_creates k key flags i ((hnone k).mpr hno) hf ((hfree i).mpr ⟨hi, hfr, hmin⟩)]
    refine ⟨rfl, ?_, ?_, ?_, ?_, ?_, ?_, ?_, ?_, rfl, rfl, rfl, rfl, rfl⟩
    all_goals try simp [kernel.set_msgq]
    intro j hj
    simp [kernel.set_msgq, Function.update, hj]
  · intro hno h2
    refine msgget_fails k key flags ((hnone k).mpr hno) ?_
    rcases h2 with h2 | h2
    · exact Or.inl h2
    · exact Or.inr (hfull.mpr h2)
  · cases h1 : first_index 0 MAX_MESSAGE_QUEUES
        (fun i => (k.message_queues i).in_use && decide ((k.message_queues i).key = key)) with
    | some i =>
      rw [msgget_found k key flags i h1, msgget_found k key flags i h1]
    | none =>
      by_cases hf : flags &&& IPC_CREAT = 0
      · rw [msgget_fails k key flags h1 (Or.inl hf), msgget_fails k key flags h1 (Or.inl hf)]
      · cases h2 : first_index 0 MAX_MESSAGE_QUEUES (fun i => !(k.message_queues i).in_use) with
        | none =>
          rw [msgget_fails k key flags h1 (Or.inr h2), msgget_fails k key flags h1 (Or.inr h2)]
        | some i => exact hsecond i flags h1 hf h2
  · intro flags2 hx
    cases h1 : first_index 0 MAX_MESSAGE_QUEUES
        (fun i => (k.message_queues i).in_use && decide ((k.message_queues i).key = key)) with
    | some i =>
      rw [msgget_found k key flags i h1, msgget_found k key flags2 i h1]
    | none =>
      have hn := (hnone k).mp h1
      rcases hx with ⟨i, hi, hu, hk⟩ | ⟨hf, i, hi, hfr⟩
      · exact absurd ⟨hu, hk⟩ (hn i hi)
      · cases h2 : first_index 0 MAX_MESSAGE_QUEUES (fun i => !(k.message_queues i).in_use) with
        | none =>
          have := hfull.mp h2 i hi
          rw [hfr] at this
          cases this
        | some i2 => exact hsecond i2 flags2 h1 hf h2

/-- Witness for C14: after boot `msgget(42, IPC_CREAT)` creates the queue in slot 0
with id 1, and a second `msgget(42, 0)` returns the same id. -/
theorem msgget_find_or_create_witness :
    (msgget kernel.booted 42 IPC_CREAT).1 = wrap_i32 kernel.booted.ipc_system.next_msgq_id ∧
    ((msgget kernel.booted 42 IPC_CREAT).2.message_queues 0).in_use = true ∧
    (msgget (msgget kernel.booted 42 IPC_CREAT).2 42 0).1
      = (msgget kernel.booted 42 IPC_CREAT).1 :=
  have h := msgget_find_or_create kernel.booted 42 IPC_CREAT
  have h2 := h.2.1 0 (by decide) (by decide) (by decide) (by decide) (by decide)
  ⟨h2.1, h2.2.1, h.2.2.2.2 0 (Or.inr ⟨by decide, 0, by decide, by decide⟩)⟩

/-! ## Message queues (C15) -/

@[simp] theorem set_proc_message_queues (k : kernel) (i : Nat) (f : process → process) :
    (k.set_proc i f).message_queues = k.message_queues := rfl

@[simp] theorem cfs_enqueue_task_message_queues (k : kernel) (p : Nat) :
    (cfs_enqueue_task k p).message_queues = k.message_queues := by
  unfold cfs_enqueue_task
  split <;> rfl

theorem wake_fold_message_queues (list : Nat → Nat) (xs : List Nat) :
    ∀ k : kernel,
      (xs.foldl
        (fun acc i => cfs_enqueue_task
          (acc.set_proc (list i) (fun p => { p with state := PROCESS_READY })) (list i)) k
        ).message_queues = k.message_queues := by
  induction xs with
  | nil => intro k; rfl
  | cons x xs ih =>
    intro k
    rw [List.foldl_cons, ih]
    simp

@[simp] theorem wake_all_message_queues (k : kernel) (list : Nat → Nat) (count : Nat) :
    (wake_all k list count).message_queues = k.message_queues := by
  unfold wake_all
  exact wake_fold_message_queues list _ k

@[simp] theorem set_msgq_same (k : kernel) (i : Nat) (f : message_queue → message_queue) :
    (k.set_msgq i f).message_queues i = f (k.message_queues i) := by
  simp [kernel.set_msgq]

theorem set_msgq_other (k : kernel) (i j : Nat) (f : message_queue → message_queue)
    (h : j ≠ i) : (k.set_msgq i f).message_queues j = k.message_queues j := by
  simp [kernel.set_msgq, Function.update, h]

/-- The compaction loop of `msgrcv` on a ring of 1024 slots, started at slot `b` with
the tail `n` slots further on: each of the `n` slots from `b` on receives the
message of its successor, every other slot is left alone. -/
theorem msgrcv_shift_spec (n : Nat) :
    ∀ (fuel b : Nat) (msgs : Nat → message), n ≤ fuel → n < 1024 → b < 1024 →
      msgrcv_shift 1024 ((b + n) % 1024) fuel b msgs
        = fun x => if x < 1024 ∧ (x + 1024 - b) % 1024 < n then msgs ((x + 1) % 1024)
                   else msgs x := by
  induction n with
  | zero =>
    intro fuel b msgs _ _ hb
    have e : (b + 0) % 1024 = b := by omega
    rw [e]
    cases fuel with
    | zero =>
      funext x
      simp [msgrcv_shift]
    | succ fuel =>
      funext x
      simp [msgrcv_shift]
  | succ n ih =>
    intro fuel b msgs hf hn hb
    cases fuel with
    | zero => omega
    | succ fuel =>
      have hne : b ≠ (b + (n + 1)) % 1024 := by omega
      have hu : u32 (b + 1) % 1024 = (b + 1) % 1024 := by
        unfold u32
        omega
      have ht : (b + (n + 1)) % 1024 = ((b + 1) % 1024 + n) % 1024 := by omega
      rw [msgrcv_shift, if_pos hne, hu, ht,
        ih fuel ((b + 1) % 1024) _ (by omega) (by omega) (by omega)]
      funext x
      by_cases hx : x < 1024
      · by_cases hxb : x = b
        · subst hxb
          have c1 : ¬ (x < 1024 ∧ (x + 1024 - (x + 1) % 1024) % 1024 < n) := by omega
          have c2 : x < 1024 ∧ (x + 1024 - x) % 1024 < n + 1 := by omega
          rw [if_neg c1, if_pos c2]
          simp [Function.update]
        · by_cases hin : (x + 1024 - (b + 1) % 1024) % 1024 < n
          · have c2 : x < 1024 ∧ (x + 1024 - b) % 1024 < n + 1 := by omega
            rw [if_pos ⟨hx, hin⟩, if_pos c2]
            have c3 : (x + 1) % 1024 ≠ b := by omega
            simp [Function.update, c3]
          · have c1 : ¬ (x < 1024 ∧ (x + 1024 - (b + 1) % 1024) % 1024 < n) := by omega
            have c2 : ¬ (x < 1024 ∧ (x + 1024 - b) % 1024 < n + 1) := by omega
            rw [if_neg c1, if_neg c2]
            simp [Function.update, hxb]
      · have c1 : ¬ (x < 1024 ∧ (x + 1024 - (b + 1) % 1024) % 1024 < n) := by omega
        have c2 : ¬ (x < 1024 ∧ (x + 1024 - b) % 1024 < n + 1) := by omega
        rw [if_neg c1, if_neg c2]
        have hxb : x ≠ b := by omega
        simp [Function.update, hxb]

/-- The queue slot after `msgrcv` has taken the message at offset `j` from the head
of a well-formed, non-empty ring: what the call returns and what the slot holds. -/
theorem msgrcv_at_offset (k : kernel) (msgqid msgsz : Nat) (msgtyp : Int) (msgflg j : Nat)
    (huse : (k.message_queues msgqid).in_use = true)
    (hmax : (k.message_queues msgqid).max_messages = 1024)
    (hhead : (k.message_queues msgqid).head < 1024)
    (hcount : (k.message_queues msgqid).count ≤ 1024)
    (htail : (k.message_queues msgqid).tail
      = ((k.message_queues msgqid).head + (k.message_queues msgqid).count) % 1024)
    (hj : j < (k.message_queues msgqid).count)
    (hfound : (if msgtyp > 0 then msgrcv_find (k.message_queues msgqid) msgtyp
               else some (k.message_queues msgqid).head)
      = some (((k.message_queues msgqid).head + j) % 1024)) :
    (msgrcv k msgqid msgsz msgtyp msgflg).1
      = outcome.returned (wrap_i32
          ((min ((k.message_queues msgqid).messages
                  (((k.message_queues msgqid).head + j) % 1024)).size msgsz : Nat) : Int)) ∧
    (msgrcv k msgqid msgsz msgtyp msgflg).2.1
      = some (((k.message_queues msgqid).messages
                  (((k.message_queues msgqid).head + j) % 1024)).type,
              (List.range
                (min ((k.message_queues msgqid).messages
                        (((k.message_queues msgqid).head + j) % 1024)).size msgsz)).map
                ((k.message_queues msgqid).messages
                  (((k.message_queues msgqid).head + j) % 1024)).data) ∧
    (msgrcv k msgqid msgsz msgtyp msgflg).2.2.message_queues msgqid
      = (if j = 0 then
           { (k.message_queues msgqid) with
             head := ((k.message_queues msgqid).head + 1) % 1024,
             count := (k.message_queues msgqid).count - 1,
             sender_count := 0 }
         else
           { (k.message_queues msgqid) with
             messages := fun x =>
               if x < 1024 ∧ (x + 1024 - ((k.message_queues msgqid).head + j) % 1024) % 1024
                    < (k.message_queues msgqid).count - j
               then (k.message_queues msgqid).messages ((x + 1) % 1024)
               else (k.message_queues msgqid).messages x,
             tail := ((k.message_queues msgqid).head + (k.message_queues msgqid).count - 1) % 1024,
             count := (k.message_queues msgqid).count - 1,
             sender_count := 0 }) ∧
    (∀ i, i ≠ msgqid →
      (msgrcv k msgqid msgsz msgtyp msgflg).2.2.message_queues i = k.message_queues i) := by
  have hc0 : ¬ (k.message_queues msgqid).count = 0 := by omega
  have hmin : ∀ a b : Nat, (if a < b then a else b) = min a b := by
    intro a b
    split <;> omega
  have hsub : sub_u32 (k.message_queues msgqid).count 1 = (k.message_queues msgqid).count - 1 := by
    unfold sub_u32 u32
    omega
  unfold msgrcv
  simp only [huse, Bool.not_true, Bool.false_eq_true, if_false]
  unfold msgrcv_loop
  simp only [hc0, if_false, hfound, hmin]
  refine ⟨trivial, trivial, ?_, ?_⟩
  · by_cases hj0 : j = 0
    · subst hj0
      have e : ((k.message_queues msgqid).head + 0) % 1024 = (k.message_queues msgqid).head := by
        omega
      have hu : u32 ((k.message_queues msgqid).head + 1) % 1024
          = ((k.message_queues msgqid).head + 1) % 1024 := by
        unfold u32
        omega
      simp only [e, if_true, set_msgq_same, wake_all_message_queues, hmax, hu, hsub, huse]
    · have hne : ¬ ((k.message_queues msgqid).head + j) % 1024 = (k.message_queues msgqid).head := by
        omega
      have ht : u32 (sub_u32 (k.message_queues msgqid).tail 1 + 1024) % 1024
          = ((k.message_queues msgqid).head + (k.message_queues msgqid).count - 1) % 1024 := by
        unfold sub_u32 u32
        omega
      have hsh := msgrcv_shift_spec ((k.message_queues msgqid).count - j) 1024
        (((k.message_queues msgqid).head + j) % 1024) (k.message_queues msgqid).messages
        (by omega) (by omega) (by omega)
      have et : ((((k.message_queues msgqid).head + j) % 1024
            + ((k.message_queues msgqid).count - j)) % 1024) = (k.message_queues msgqid).tail := by
        omega
      rw [et] at hsh
      simp only [hne, hj0, if_false, set_msgq_same, wake_all_message_queues, hmax, ht, hsub, hsh,
        huse]
  · intro i hi
    split
    · simp only [set_msgq_other _ _ _ _ hi, wake_all_message_queues]
    · simp only [set_msgq_other _ _ _ _ hi, wake_all_message_queues]

/-- The entry at position `i` of the contents of a ring of 1024 slots. -/
theorem getElem?_msgq_contents (q : message_queue) (i : Nat)
    (hmax : q.max_messages = 1024) (hhead : q.head < 1024) (hcount : q.count ≤ 1024) :
    (msgq_contents q)[i]?
      = if i < q.count then some (q.messages ((q.head + i) % 1024)) else none := by
  unfold msgq_contents
  rw [List.getElem?_map]
  by_cases h : i < q.count
  · have hu : u32 (q.head + i) % 1024 = (q.head + i) % 1024 := by
      unfold u32
      omega
    rw [List.getElem?_range h, if_pos h, hmax]
    simp [hu]
  · rw [if_neg h, List.getElem?_eq_none (by simpa using h)]
    rfl

/-- C15: `msgrcv` on an in-use, non-empty queue whose ring is well formed (1024
slots, `head` inside the ring, `tail = (head + count) mod 1024`, at most 1024
messages, so also when the queue is full and wraps around).  (1) Let `m` be the
message at position `j` of the contents in send order, where for a positive
requested type `j` is the first position whose message has that type, and `j = 0`
for a non-positive type.  Then the call returns the number of bytes copied (the
message size, cut to `msgsz`), stores the type and these bytes of `m` into the
caller's buffer, and the queue afterwards holds the same contents with position `j`
erased: `count` is one less, the other messages keep their order, the ring is still
well formed and no other queue is touched.  (2) If the requested type is positive
and no message has it, the call returns -1 and the state is unchanged. -/
theorem msgrcv_takes_first_match (k : kernel) (msgqid msgsz : Nat) (msgtyp : Int) (msgflg : Nat)
    (huse : (k.message_queues msgqid).in_use = true)
    (hmax : (k.message_queues msgqid).max_messages = MSG_QUEUE_SIZE)
    (hhead : (k.message_queues msgqid).head < MSG_QUEUE_SIZE)
    (hcount : (k.message_queues msgqid).count ≤ MSG_QUEUE_SIZE)
    (hne : 0 < (k.message_queues msgqid).count)
    (htail : (k.message_queues msgqid).tail
      = ((k.message_queues msgqid).head + (k.message_queues msgqid).count) % MSG_QUEUE_SIZE) :
    (∀ (j : Nat) (m : message),
      (msgq_contents (k.message_queues msgqid))[j]? = some m →
      (0 < msgtyp → (m.type : Int) = msgtyp ∧
        ∀ (i : Nat) (m2 : message), i < j →
          (msgq_contents (k.message_queues msgqid))[i]? = some m2 → (m2.type : Int) ≠ msgtyp) →
      (msgtyp ≤ 0 → j = 0) →
      (msgrcv k msgqid msgsz msgtyp msgflg).1
        = outcome.returned (wrap_i32 ((min m.size msgsz : Nat) : Int)) ∧
      (msgrcv k msgqid msgsz msgtyp msgflg).2.1
        = some (m.type, (List.range (min m.size msgsz)).map m.data) ∧
      msgq_contents ((msgrcv k msgqid msgsz msgtyp msgflg).2.2.message_queues msgqid)
        = (msgq_contents (k.message_queues msgqid)).eraseIdx j ∧
      ((msgrcv k msgqid msgsz msgtyp msgflg).2.2.message_queues msgqid).count
        = (k.message_queues msgqid).count - 1 ∧
      ((msgrcv k msgqid msgsz msgtyp msgflg).2.2.message_queues msgqid).in_use = true ∧
      ((msgrcv k msgqid msgsz msgtyp msgflg).2.2.message_queues msgqid).max_messages
        = MSG_QUEUE_SIZE ∧
      ((msgrcv k msgqid msgsz msgtyp msgflg).2.2.message_queues msgqid).head < MSG_QUEUE_SIZE ∧
      ((msgrcv k msgqid msgsz msgtyp msgflg).2.2.message_queues msgqid).tail
        = (((msgrcv k msgqid msgsz msgtyp msgflg).2.2.message_queues msgqid).head
            + ((msgrcv k msgqid msgsz msgtyp msgflg).2.2.message_queues msgqid).count)
          % MSG_QUEUE_SIZE ∧
      (∀ i, i ≠ msgqid →
        (msgrcv k msgqid msgsz msgtyp msgflg).2.2.message_queues i = k.message_queues i)) ∧
    (0 < msgtyp →
      (∀ m, m ∈ msgq_contents (k.message_queues msgqid) → (m.type : Int) ≠ msgtyp) →
      msgrcv k msgqid msgsz msgtyp msgflg = (outcome.returned (-1), none, k)) := by
  have hM : MSG_QUEUE_SIZE = 1024 := rfl
  rw [hM] at hmax hhead hcount htail
  simp only [hM]
  have hget := fun i => getElem?_msgq_contents (k.message_queues msgqid) i hmax hhead hcount
  have hu : ∀ i, i < 1024 →
      u32 ((k.message_queues msgqid).head + i) % (k.message_queues msgqid).max_messages
        = ((k.message_queues msgqid).head + i) % 1024 := by
    intro i hi
    rw [hmax]
    unfold u32
    omega
  constructor
  · intro j m hjm hpos hnonpos
    rw [hget] at hjm
    have hj : j < (k.message_queues msgqid).count := by
      by_contra hc
      rw [if_neg hc] at hjm
      cases hjm
    rw [if_pos hj] at hjm
    have hm : (k.message_queues msgqid).messages (((k.message_queues msgqid).head + j) % 1024) = m :=
      Option.some.inj hjm
    have hfound : (if msgtyp > 0 then msgrcv_find (k.message_queues msgqid) msgtyp
               else some (k.message_queues msgqid).head)
        = some (((k.message_queues msgqid).head + j) % 1024) := by
      by_cases hp : msgtyp > 0
      · rw [if_pos hp]
        unfold msgrcv_find
        have hfi : first_index 0 (k.message_queues msgqid).count (fun i =>
            decide ((((k.message_queues msgqid).messages
              (u32 ((k.message_queues msgqid).head + i)
                % (k.message_queues msgqid).max_messages)).type : Int) = msgtyp)) = some j := by
          rw [first_index_eq_some]
          refine ⟨Nat.zero_le _, hj, ?_, ?_⟩
          · rw [hu j (by omega), hm]
            simpa using (hpos hp).1
          · intro i _ hi
            rw [hu i (by omega)]
            have := (hpos hp).2 i _ hi (by rw [hget, if_pos (by omega)])
            simpa using this
        rw [hfi]
        simp only [Option.map_some', hu j (by omega)]
      · rw [if_neg hp]
        have := hnonpos (by omega)
        subst this
        have e : ((k.message_queues msgqid).head + 0) % 1024 = (k.message_queues msgqid).head := by
          omega
        rw [e]
    have h := msgrcv_at_offset k msgqid msgsz msgtyp msgflg j huse hmax hhead hcount htail hj hfound
    rw [hm] at h
    refine ⟨h.1, h.2.1, ?_, ?_, ?_, ?_, ?_, ?_, h.2.2.2⟩
    · -- the contents
      apply List.ext_getElem?
      intro o
      rw [List.getElem?_eraseIdx, hget, hget, h.2.2.1]
      by_cases hj0 : j = 0
      · subst hj0
        rw [if_pos rfl, getElem?_msgq_contents _ _ (by exact hmax) (by dsimp only; omega)
          (by dsimp only; omega)]
        dsimp only
        have c0 : ¬ o < 0 := by omega
        rw [if_neg c0]
        by_cases ho : o < (k.message_queues msgqid).count - 1
        · rw [if_pos ho, if_pos (by omega)]
          congr 2
          omega
        · rw [if_neg ho, if_neg (by omega)]
      · rw [if_neg hj0, getElem?_msgq_contents _ _ (by exact hmax) (by exact hhead)
          (by dsimp only; omega)]
        dsimp only
        by_cases ho : o < (k.message_queues msgqid).count - 1
        · rw [if_pos ho]
          have hs : (((k.message_queues msgqid).head + o) % 1024 < 1024 ∧
              (((k.message_queues msgqid).head + o) % 1024 + 1024
                  - ((k.message_queues msgqid).head + j) % 1024) % 1024
                < (k.message_queues msgqid).count - j) ↔ j ≤ o := by omega
          simp only [hs]
          by_cases hoj : o < j
          · rw [if_pos hoj, if_pos (show o < (k.message_queues msgqid).count by omega),
              if_neg (show ¬ j ≤ o by omega)]
          · rw [if_neg hoj, if_pos (show o + 1 < (k.message_queues msgqid).count by omega),
              if_pos (show j ≤ o by omega)]
            congr 2
            omega
        · rw [if_neg ho]
          by_cases hoj : o < j
          · omega
          · rw [if_neg hoj, if_neg (show ¬ o + 1 < (k.message_queues msgqid).count by omega)]
    · rw [h.2.2.1]
      split <;> rfl
    · rw [h.2.2.1]
      split <;> simp [huse]
    · rw [h.2.2.1]
      split <;> simp [hmax]
    · rw [h.2.2.1]
      split
      · dsimp only
        omega
      · exact hhead
    · rw [h.2.2.1]
      split
      · rename_i hj0
        dsimp only
        omega
      · dsimp only
        omega
  · intro hp hno
    have hfi : first_index 0 (k.message_queues msgqid).count (fun i =>
        decide ((((k.message_queues msgqid).messages
          (u32 ((k.message_queues msgqid).head + i)
            % (k.message_queues msgqid).max_messages)).type : Int) = msgtyp)) = none := by
      rw [first_index_eq_none]
      intro i _ hi
      rw [hu i (by omega)]
      have hmem : (k.message_queues msgqid).messages (((k.message_queues msgqid).head + i) % 1024)
          ∈ msgq_contents (k.message_queues msgqid) := by
        rw [List.mem_iff_getElem?]
        exact ⟨i, by rw [hget, if_pos hi]⟩
      simpa using hno _ hmem
    unfold msgrcv
    simp only [huse, Bool.not_true, Bool.false_eq_true, if_false]
    unfold msgrcv_loop
    have hc0 : ¬ (k.message_queues msgqid).count = 0 := by omega
    simp only [hc0, if_false, hp, gt_iff_lt, if_true]
    unfold msgrcv_find
    rw [hfi]
    rfl

/-- Witness for C15 on `full_queue_state`, a full queue whose ring wraps around
(`head = tail = 1000`, 1024 messages): `msgrcv` for type 2 takes the message at
position 1, the first of that type, returns its 4 bytes, and leaves the other 1023
messages in order. -/
theorem msgrcv_takes_first_match_witness :
    (msgrcv full_queue_state 0 16 2 0).1 = outcome.returned (wrap_i32 ((min 4 16 : Nat) : Int)) ∧
    (msgrcv full_queue_state 0 16 2 0).2.1 = some (2, (List.range (min 4 16)).map (fun _ => 1)) ∧
    msgq_contents ((msgrcv full_queue_state 0 16 2 0).2.2.message_queues 0)
      = (msgq_contents (full_queue_state.message_queues 0)).eraseIdx 1 ∧
    ((msgrcv full_queue_state 0 16 2 0).2.2.message_queues 0).count
      = (full_queue_state.message_queues 0).count - 1 :=
  have h := (msgrcv_takes_first_match full_queue_state 0 16 2 0 (by decide) (by decide)
    (by decide) (by decide) (by decide) (by decide)).1 1 (sample_message 2 4 1)
    (by
      rw [getElem?_msgq_contents _ _ (by decide) (by decide) (by decide)]
      rfl)
    (by
      intro _
      refine ⟨rfl, ?_⟩
      intro i m2 hi h
      have hi0 : i = 0 := by omega
      subst hi0
      rw [getElem?_msgq_contents _ _ (by decide) (by decide) (by decide)] at h
      have h2 : some (sample_message 1 4 0) = some m2 := h
      cases h2
      decide)
    (by decide)
  ⟨h.1, h.2.1, h.2.2.1, h.2.2.2.1⟩

/-! ## The semaphore wait list (C16) -/

theorem shift_right_apply {α : Type} (pos hi : Nat) :
    ∀ (a : Nat → α) (x : Nat),
      shift_right a pos hi x = if pos < x ∧ x ≤ hi then a (x - 1) else a x := by
  induction hi with
  | zero =>
    intro a x
    have h : ¬ (pos < x ∧ x ≤ 0) := by omega
    rw [if_neg h]
    rfl
  | succ hi ih =>
    intro a x
    unfold shift_right
    by_cases hp : hi + 1 > pos
    · rw [if_pos hp, ih]
      by_cases hx : pos < x ∧ x ≤ hi
      · have h2 : pos < x ∧ x ≤ hi + 1 := by omega
        rw [if_pos hx, if_pos h2]
        have : x - 1 ≠ hi + 1 := by omega
        simp [Function.update, this]
      · rw [if_neg hx]
        by_cases hx2 : x = hi + 1
        · subst hx2
          have h2 : pos < hi + 1 ∧ hi + 1 ≤ hi + 1 := by omega
          rw [if_pos h2]
          simp [Function.update]
        · have h2 : ¬ (pos < x ∧ x ≤ hi + 1) := by omega
          rw [if_neg h2]
          simp [Function.update, hx2]
    · rw [if_neg hp]
      have h2 : ¬ (pos < x ∧ x ≤ hi + 1) := by omega
      rw [if_neg h2]

theorem sem_inherit_priority_processes_other (k : kernel) (s cur q : Nat) (h : q ≠ cur) :
    (sem_inherit_priority k s cur).processes q = k.processes q := by
  unfold sem_inherit_priority
  dsimp only
  repeat' split
  all_goals first | rfl | exact set_proc_processes_other _ _ _ _ h

@[simp] theorem sem_inherit_priority_ipc_system (k : kernel) (s cur : Nat) :
    (sem_inherit_priority k s cur).ipc_system = k.ipc_system := by
  unfold sem_inherit_priority
  dsimp only
  repeat' split
  all_goals rfl

@[simp] theorem sem_enqueue_waiter_processes (k : kernel) (s cur : Nat) :
    (sem_enqueue_waiter k s cur).processes = k.processes := rfl

@[simp] theorem sem_enqueue_waiter_ipc_system (k : kernel) (s cur : Nat) :
    (sem_enqueue_waiter k s cur).ipc_system = k.ipc_system := rfl

@[simp] theorem rtos_add_timeout_processes (k : kernel) (p t : Nat) :
    (rtos_add_timeout k p t).processes = k.processes := by
  unfold rtos_add_timeout
  split <;> rfl

@[simp] theorem rtos_add_timeout_system_ticks (k : kernel) (p t : Nat) :
    rtos_get_ticks (rtos_add_timeout k p t) = rtos_get_ticks k := by
  unfold rtos_add_timeout rtos_get_ticks
  split <;> rfl

theorem sem_wait_blocked_state_semaphores (k : kernel) (semid t c : Nat) :
    (sem_wait_blocked_state k semid t c).semaphores
      = (sem_enqueue_waiter (sem_inherit_priority k semid c) semid c).semaphores := by
  unfold sem_wait_blocked_state
  split <;> simp

theorem sem_wait_blocked_state_priority (k : kernel) (semid t c q : Nat) :
    ((sem_wait_blocked_state k semid t c).processes q).priority
      = ((sem_inherit_priority k semid c).processes q).priority := by
  unfold sem_wait_blocked_state
  by_cases hq : q = c
  · subst hq
    split <;> simp
  · rw [set_proc_processes_other _ _ _ _ hq]
    split <;> simp

/-- On an in-use semaphore whose value is not positive, with a current process and no
wrap of the tick counter, `sem_wait_timeout` reaches `schedule()` in the state
`sem_wait_blocked_state`. -/
theorem sem_wait_timeout_blocks (k : kernel) (semid t c : Nat)
    (huse : (k.semaphores semid).in_use = true) (hval : (k.semaphores semid).value ≤ 0)
    (hcur : k.scheduler.current_process = some c)
    (hrange : rtos_get_ticks k + t < 18446744073709551616) :
    sem_wait_timeout k semid t = (outcome.blocked, sem_wait_blocked_state k semid t c) := by
  have hv : ((sem_wait_blocked_state k semid t c).semaphores semid).value ≤ 0 := by
    rw [sem_wait_blocked_state_semaphores, sem_enqueue_waiter_value,
      sem_inherit_priority_semaphores]
    exact hval
  have hticks : rtos_get_ticks (sem_wait_blocked_state k semid t c) = rtos_get_ticks k := by
    unfold sem_wait_blocked_state
    split
    · show rtos_get_ticks (rtos_add_timeout _ c t) = _
      rw [rtos_add_timeout_system_ticks]
      simp [rtos_get_ticks]
    · simp [rtos_get_ticks]
  have hnv : ¬ (k.semaphores semid).value > 0 := by omega
  unfold sem_wait_timeout
  simp only [huse, Bool.not_true, Bool.false_eq_true, if_false, hnv, hcur]
  change sem_wait_loop (sem_wait_blocked_state k semid t c) semid c t _ = _
  unfold sem_wait_loop
  simp only [hv, if_true, hticks]
  have hd : (decide (t > 0) && decide (rtos_get_ticks k ≥ u64 (rtos_get_ticks k + rtos_ms_to_ticks t)))
      = false := by
    by_cases ht : t > 0
    · have : u64 (rtos_get_ticks k + rtos_ms_to_ticks t) = rtos_get_ticks k + t := by
        unfold u64 rtos_ms_to_ticks
        exact Nat.mod_eq_of_lt hrange
      rw [this]
      simp only [ht, decide_True, Bool.true_and, decide_eq_false_iff_not]
      omega
    · simp [ht]
  rw [hd]
  rfl

theorem cfs_enqueue_task_priority (k : kernel) (p q : Nat) :
    ((cfs_enqueue_task k p).processes q).priority = (k.processes q).priority := by
  unfold cfs_enqueue_task
  split
  · by_cases h : q = p
    · subst h
      simp
    · simp [set_proc_processes_other _ _ _ _ h]
  · rfl

/-- The wait list after the insertion of `sem_wait_timeout`, entry by entry: `pos` is
the place found by the scan for the first waiter with a larger priority number. -/
theorem sem_enqueue_waiter_spec (k : kernel) (semid c : Nat)
    (hroom : (k.semaphores semid).waiting_count < MAX_PROCESSES) :
    ∃ pos, pos ≤ (k.semaphores semid).waiting_count ∧
      (∀ i, i < pos →
        ¬ (k.processes c).priority
            < (k.processes ((k.semaphores semid).waiting_processes i)).priority) ∧
      (pos < (k.semaphores semid).waiting_count →
        (k.processes c).priority
          < (k.processes ((k.semaphores semid).waiting_processes pos)).priority) ∧
      ((sem_enqueue_waiter k semid c).semaphores semid).waiting_count
        = (k.semaphores semid).waiting_count + 1 ∧
      ∀ x, ((sem_enqueue_waiter k semid c).semaphores semid).waiting_processes x
        = if x = pos then c
          else if pos < x ∧ x ≤ (k.semaphores semid).waiting_count
            then (k.semaphores semid).waiting_processes (x - 1)
            else (k.semaphores semid).waiting_processes x := by
  have hu : u32 ((k.semaphores semid).waiting_count + 1) = (k.semaphores semid).waiting_count + 1 := by
    unfold u32
    unfold MAX_PROCESSES at hroom
    omega
  cases hf : first_index 0 (k.semaphores semid).waiting_count (fun i =>
      decide ((k.processes c).priority
                < (k.processes ((k.semaphores semid).waiting_processes i)).priority)) with
  | none =>
    have hn := (first_index_eq_none _ _ _).mp hf
    refine ⟨(k.semaphores semid).waiting_count, Nat.le_refl _, ?_, ?_, ?_, ?_⟩
    · intro i hi
      simpa using hn i (Nat.zero_le _) hi
    · intro h
      omega
    · unfold sem_enqueue_waiter
      simp [hu]
    · intro x
      unfold sem_enqueue_waiter
      simp only [hf, Option.getD_none, set_sem_semaphores_same]
      by_cases hx : x = (k.semaphores semid).waiting_count
      · subst hx
        simp
      · simp only [Function.update, hx, dite_false, if_false, shift_right_apply]
  | some pos =>
    have hs := (first_index_eq_some _ _ _ _).mp hf
    refine ⟨pos, by omega, ?_, ?_, ?_, ?_⟩
    · intro i hi
      simpa using hs.2.2.2 i (Nat.zero_le _) hi
    · intro _
      simpa using hs.2.2.1
    · unfold sem_enqueue_waiter
      simp [hu]
    · intro x
      unfold sem_enqueue_waiter
      simp only [hf, Option.getD_some, set_sem_semaphores_same]
      by_cases hx : x = pos
      · subst hx
        simp
      · simp only [Function.update, hx, dite_false, if_false, shift_right_apply]

/-- The insertion rule of `sem_wait_timeout` and the wake-up rule of `sem_signal`, in
terms of the priority fields as they stand after the call.  Wait part: on an
in-use semaphore whose value is not positive, let the running process `c`, which is
not already on the list, call `sem_wait_timeout` while the list is in priority order
and has room.  The call reaches `schedule()`; no waiter's priority has changed; the
list has one entry more, `c` sits at an index `pos` behind every waiter whose
priority number is not larger than its own and ahead of every waiter whose priority
number is larger, the other waiters keep their order; and the list is again in
priority order.  Signal part: on an in-use semaphore with a non-empty list in
priority order, `sem_signal` wakes the waiter at index 0, whose priority number is
the minimum over the list; it changes no priority, and the other waiters move up one
place, so the list stays in priority order. -/
theorem sem_wait_list_priority_ordered (k ks : kernel) (semid t c : Nat)
    (huse : (k.semaphores semid).in_use = true) (hval : (k.semaphores semid).value ≤ 0)
    (hcur : k.scheduler.current_process = some c)
    (hrange : rtos_get_ticks k + t < 18446744073709551616)
    (hroom : (k.semaphores semid).waiting_count < MAX_PROCESSES)
    (hnotin : ∀ i, i < (k.semaphores semid).waiting_count →
      (k.semaphores semid).waiting_processes i ≠ c)
    (hsorted : sem_list_sorted k semid)
    (hsuse : (ks.semaphores semid).in_use = true)
    (hscount : 0 < (ks.semaphores semid).waiting_count)
    (hssorted : sem_list_sorted ks semid) :
    ((sem_wait_timeout k semid t).1 = outcome.blocked ∧
     ((sem_wait_timeout k semid t).2.semaphores semid).waiting_count
       = (k.semaphores semid).waiting_count + 1 ∧
     (∀ i, i < (k.semaphores semid).waiting_count →
       ((sem_wait_timeout k semid t).2.processes
           ((k.semaphores semid).waiting_processes i)).priority
         = (k.processes ((k.semaphores semid).waiting_processes i)).priority) ∧
     (∃ pos, pos ≤ (k.semaphores semid).waiting_count ∧
       ((sem_wait_timeout k semid t).2.semaphores semid).waiting_processes pos = c ∧
       (∀ i, i < pos →
         ((sem_wait_timeout k semid t).2.semaphores semid).waiting_processes i
           = (k.semaphores semid).waiting_processes i ∧
         ((sem_wait_timeout k semid t).2.processes
             ((k.semaphores semid).waiting_processes i)).priority
           ≤ ((sem_wait_timeout k semid t).2.processes c).priority) ∧
       (∀ i, pos ≤ i → i < (k.semaphores semid).waiting_count →
         ((sem_wait_timeout k semid t).2.semaphores semid).waiting_processes (i + 1)
           = (k.semaphores semid).waiting_processes i ∧
         ((sem_wait_timeout k semid t).2.processes c).priority
           < ((sem_wait_timeout k semid t).2.processes
               ((k.semaphores semid).waiting_processes i)).priority)) ∧
     sem_list_sorted (sem_wait_timeout k semid t).2 semid) ∧
    ((sem_signal ks semid).1 = 0 ∧
     ((sem_signal ks semid).2.processes ((ks.semaphores semid).waiting_processes 0)).state
       = PROCESS_READY ∧
     (∀ i, i < (ks.semaphores semid).waiting_count →
       sem_waiter_priority ks semid 0 ≤ sem_waiter_priority ks semid i) ∧
     ((sem_signal ks semid).2.semaphores semid).waiting_count
       = (ks.semaphores semid).waiting_count - 1 ∧
     (∀ i, i < (ks.semaphores semid).waiting_count - 1 →
       ((sem_signal ks semid).2.semaphores semid).waiting_processes i
         = (ks.semaphores semid).waiting_processes (i + 1)) ∧
     (∀ q, ((sem_signal ks semid).2.processes q).priority = (ks.processes q).priority) ∧
     sem_list_sorted (sem_signal ks semid).2 semid) := by
  constructor
  · rw [sem_wait_timeout_blocks k semid t c huse hval hcur hrange]
    dsimp only
    have hsem : (sem_inherit_priority k semid c).semaphores semid = k.semaphores semid := by
      rw [sem_inherit_priority_semaphores]
    obtain ⟨pos, hpos, hlow, hhigh, hcnt, hW⟩ :=
      sem_enqueue_waiter_spec (sem_inherit_priority k semid c) semid c (by rw [hsem]; exact hroom)
    rw [hsem] at hpos hlow hhigh hcnt hW
    have hpr : ∀ q, ((sem_wait_blocked_state k semid t c).processes q).priority
        = ((sem_inherit_priority k semid c).processes q).priority :=
      sem_wait_blocked_state_priority k semid t c
    have hwp : ∀ i, i < (k.semaphores semid).waiting_count →
        ((sem_inherit_priority k semid c).processes
            ((k.semaphores semid).waiting_processes i)).priority
          = (k.processes ((k.semaphores semid).waiting_processes i)).priority := by
      intro i hi
      rw [sem_inherit_priority_processes_other _ _ _ _ (hnotin i hi)]
    -- the three order facts, in the priorities after the call
    have hs2 : ∀ i j, i ≤ j → j < (k.semaphores semid).waiting_count →
        ((sem_inherit_priority k semid c).processes
            ((k.semaphores semid).waiting_processes i)).priority
          ≤ ((sem_inherit_priority k semid c).processes
              ((k.semaphores semid).waiting_processes j)).priority := by
      intro i j hij hj
      rw [hwp i (by omega), hwp j hj]
      rcases Nat.lt_or_eq_of_le hij with h | h
      · exact hsorted i j h hj
      · subst h
        exact Nat.le_refl _
    have hhigh2 : ∀ i, pos ≤ i → i < (k.semaphores semid).waiting_count →
        ((sem_inherit_priority k semid c).processes c).priority
          < ((sem_inherit_priority k semid c).processes
              ((k.semaphores semid).waiting_processes i)).priority := by
      intro i hpi hi
      exact Nat.lt_of_lt_of_le (hhigh (by omega)) (hs2 pos i hpi hi)
    refine ⟨rfl, ?_, ?_, ?_, ?_⟩
    · rw [sem_wait_blocked_state_semaphores, hcnt]
    · intro i hi
      rw [hpr, hwp i hi]
    · refine ⟨pos, hpos, ?_, ?_, ?_⟩
      · rw [sem_wait_blocked_state_semaphores, hW, if_pos rfl]
      · intro i hi
        refine ⟨?_, ?_⟩
        · rw [sem_wait_blocked_state_semaphores, hW, if_neg (by omega), if_neg (by omega)]
        · rw [hpr, hpr]
          exact Nat.le_of_not_lt (hlow i hi)
      · intro i hpi hi
        refine ⟨?_, ?_⟩
        · rw [sem_wait_blocked_state_semaphores, hW, if_neg (by omega), if_pos (by omega)]
          rfl
        · rw [hpr, hpr]
          exact hhigh2 i hpi hi
    · intro i j hij hj
      unfold sem_waiter_priority
      rw [sem_wait_blocked_state_semaphores, hcnt] at hj
      rw [hpr, hpr, sem_wait_blocked_state_semaphores, hW, hW]
      by_cases hi1 : i = pos
      · rw [if_pos hi1, if_neg (by omega), if_pos (by omega)]
        exact Nat.le_of_lt (hhigh2 (j - 1) (by omega) (by omega))
      · rw [if_neg hi1]
        by_cases hi2 : pos < i
        · rw [if_pos (by omega), if_neg (by omega), if_pos (by omega)]
          exact hs2 (i - 1) (j - 1) (by omega) (by omega)
        · rw [if_neg (by omega)]
          by_cases hj1 : j = pos
          · rw [if_pos hj1]
            exact Nat.le_of_not_lt (hlow i (by omega))
          · rw [if_neg hj1]
            by_cases hj2 : pos < j
            · rw [if_pos (by omega)]
              exact hs2 i (j - 1) (by omega) (by omega)
            · rw [if_neg (by omega)]
              exact hs2 i j (by omega) (by omega)
  · rw [sem_signal_in_use ks semid hsuse, if_pos hscount]
    dsimp only
    have hprio : ∀ q, ((cfs_enqueue_task
          ((ks.set_sem semid (fun s => { s with value := wrap_i32 (s.value + 1) })).set_proc
            ((ks.semaphores semid).waiting_processes 0)
            (fun p => { p with state := PROCESS_READY }))
          ((ks.semaphores semid).waiting_processes 0)).processes q).priority
        = (ks.processes q).priority := by
      intro q
      rw [cfs_enqueue_task_priority]
      by_cases hq : q = (ks.semaphores semid).waiting_processes 0
      · subst hq
        simp
      · rw [set_proc_processes_other _ _ _ _ hq]
        rfl
    have hmin : ∀ i, i < (ks.semaphores semid).waiting_count →
        sem_waiter_priority ks semid 0 ≤ sem_waiter_priority ks semid i := by
      intro i hi
      cases i with
      | zero => exact Nat.le_refl _
      | succ i => exact hssorted 0 (i + 1) (by omega) hi
    refine ⟨rfl, ?_, hmin, ?_, ?_, ?_, ?_⟩
    · simpa using cfs_enqueue_task_state _ _
    · simp
    · intro i hi
      simp only [set_sem_semaphores_same, cfs_enqueue_task_semaphores, set_proc_semaphores,
        shift_left_apply]
      rw [if_pos (by omega)]
    · intro q
      simp only [set_sem_processes]
      exact hprio q
    · intro i j hij hj
      unfold sem_waiter_priority
      simp only [set_sem_semaphores_same, cfs_enqueue_task_semaphores, set_proc_semaphores,
        shift_left_apply, set_sem_processes] at hj ⊢
      rw [if_pos (by omega), if_pos (by omega), hprio, hprio]
      exact hssorted (i + 1) (j + 1) (by omega) (by omega)

/-- The insertion rule on `sem_priority_trace` (semaphore 0 held, P2 of priority 1
waiting, P3 of priority 3 running): P3's `sem_wait_timeout` reaches `schedule()` with
a wait list of two entries in priority order, and `sem_signal` wakes P2. -/
theorem sem_wait_list_priority_ordered_witness :
    (sem_wait_timeout sem_priority_trace 0 0).1 = outcome.blocked ∧
    ((sem_wait_timeout sem_priority_trace 0 0).2.semaphores 0).waiting_count
      = (sem_priority_trace.semaphores 0).waiting_count + 1 ∧
    sem_list_sorted (sem_wait_timeout sem_priority_trace 0 0).2 0 ∧
    ((sem_signal sem_priority_trace 0).2.processes
        ((sem_priority_trace.semaphores 0).waiting_processes 0)).state = PROCESS_READY :=
  have hc : (sem_priority_trace.semaphores 0).waiting_count = 1 := by decide
  have hs : sem_list_sorted sem_priority_trace 0 := by
    intro i j hij hj
    rw [hc] at hj
    omega
  have h := sem_wait_list_priority_ordered sem_priority_trace sem_priority_trace 0 0 3
    (by decide) (by decide) (by decide) (by decide) (by decide) (by decide) hs
    (by decide) (by decide) hs
  ⟨h.1.1, h.1.2.1, h.1.2.2.2.2, h.2.2.1⟩

/-! ## process_exit (C17) -/

/-- C17 (failing run): at the end of `exit_stale_before` process P (slot 1) is the
running, non-idle current process with vruntime 20, and the run queue still holds the
node it was enqueued with at vruntime 10.  `process_exit(3)` makes P a ZOMBIE with
exit code 3, but `cfs_dequeue_task` looks for a node with key 20 and removes nothing:
P's node stays in the run queue, `schedule()` picks it, finds `prev == next`, and
returns with the zombie still the current process. -/
theorem process_exit_leaves_stale_node :
    exit_stale_before.scheduler.current_process = some 1 ∧
    exit_stale_before.scheduler.idle_process = some 0 ∧
    (exit_stale_before.processes 1).state = PROCESS_RUNNING ∧
    (exit_stale_before.processes 1).vruntime = 20 ∧
    exit_stale_before.scheduler.cfs_runqueue = [⟨1, 10⟩, ⟨3, 15⟩, ⟨2, 30⟩] ∧
    (exit_stale_trace.processes 1).state = PROCESS_ZOMBIE ∧
    (exit_stale_trace.processes 1).exit_code = 3 ∧
    exit_stale_trace.scheduler.cfs_runqueue = [⟨1, 10⟩, ⟨3, 15⟩, ⟨2, 30⟩] ∧
    exit_stale_trace.scheduler.current_process = some 1 := by
  decide

/-! ## signal_handle_pending (C18) -/

/-- C18 (failing run): on `sigkill_pending_trace` process B (slot 2) is READY with
SIGKILL pending, unblocked and without a handler, and process A (slot 1) is the
current process.  `signal_handle_pending(B)` clears B's pending bit, but the default
action `process_exit(128 + 9)` terminates the current process: A becomes a ZOMBIE
with exit code 137, while B stays READY with exit code 0 (and loses its run-queue
node to the dequeue made for A). -/
theorem signal_handle_pending_kills_current :
    sigkill_pending_trace.scheduler.current_process = some 1 ∧
    (sigkill_pending_trace.processes 2).pending_signals = 2 ^ SIGKILL ∧
    (sigkill_pending_trace.processes 2).blocked_signals = 0 ∧
    (sigkill_pending_trace.processes 2).handlers SIGKILL = false ∧
    (sigkill_pending_trace.processes 2).state = PROCESS_READY ∧
    ((signal_handle_pending sigkill_pending_trace 2 10 10).processes 2).pending_signals = 0 ∧
    ((signal_handle_pending sigkill_pending_trace 2 10 10).processes 2).state = PROCESS_READY ∧
    ((signal_handle_pending sigkill_pending_trace 2 10 10).processes 2).exit_code = 0 ∧
    ((signal_handle_pending sigkill_pending_trace 2 10 10).processes 1).state = PROCESS_ZOMBIE ∧
    ((signal_handle_pending sigkill_pending_trace 2 10 10).processes 1).exit_code = 137 ∧
    (signal_handle_pending sigkill_pending_trace 2 10 10).scheduler.cfs_runqueue = [] := by
  decide

/-! ## mmap alignment (C19) -/

/-- C19 (failing input): on `mmap_sample_state` the call
`mmap(0x400001, 1, PROT_READ | PROT_WRITE, MAP_FIXED | MAP_PRIVATE | MAP_ANONYMOUS, -1, 0)`
succeeds and returns 0x400001; the VMA it creates is `[0x400001, 0x401001)`, whose
start and end are not multiples of 4096.  The VMA reaches into the page at 0x401000,
for which no entry is mapped: the walk for 0x401000 ends at the same page table, whose
entry 1 (at 0x5008) is still 0, while entry 0 (at 0x5000) maps frame 2. -/
theorem mmap_fixed_unaligned :
    (mmap mmap_sample_state 0x400001 1 (PROT_READ ||| PROT_WRITE)
        (MAP_FIXED ||| MAP_PRIVATE ||| MAP_ANONYMOUS) (-1) 0 0).1 = some 0x400001 ∧
    ((mmap mmap_sample_state 0x400001 1 (PROT_READ ||| PROT_WRITE)
        (MAP_FIXED ||| MAP_PRIVATE ||| MAP_ANONYMOUS) (-1) 0 0).2.processes 1).vma_list
      = [⟨0x400001, 0x401001, MAP_FIXED ||| MAP_PRIVATE ||| MAP_ANONYMOUS,
          PROT_READ ||| PROT_WRITE, none, 0⟩] ∧
    0x400001 % PAGE_SIZE = 1 ∧ 0x401001 % PAGE_SIZE = 1 ∧
    pte_walk (mmap mmap_sample_state 0x400001 1 (PROT_READ ||| PROT_WRITE)
        (MAP_FIXED ||| MAP_PRIVATE ||| MAP_ANONYMOUS) (-1) 0 0).2.phys 0x1000 0x400001
      = some (0x1000, 0x3000, 0x4010, 0x5000) ∧
    (mmap mmap_sample_state 0x400001 1 (PROT_READ ||| PROT_WRITE)
        (MAP_FIXED ||| MAP_PRIVATE ||| MAP_ANONYMOUS) (-1) 0 0).2.phys 0x5000 = 0x2007 ∧
    pte_walk (mmap mmap_sample_state 0x400001 1 (PROT_READ ||| PROT_WRITE)
        (MAP_FIXED ||| MAP_PRIVATE ||| MAP_ANONYMOUS) (-1) 0 0).2.phys 0x1000 0x401000
      = some (0x1000, 0x3000, 0x4010, 0x5008) ∧
    (mmap mmap_sample_state 0x400001 1 (PROT_READ ||| PROT_WRITE)
        (MAP_FIXED ||| MAP_PRIVATE ||| MAP_ANONYMOUS) (-1) 0 0).2.phys 0x5008 = 0 := by
  decide

/-! ## signal_send and the page-fault handler (C21) -/

@[simp] theorem set_proc_phys (k : kernel) (i : Nat) (f : process → process) :
    (k.set_proc i f).phys = k.phys := rfl

@[simp] theorem set_proc_mm_state (k : kernel) (i : Nat) (f : process → process) :
    (k.set_proc i f).mm_state = k.mm_state := rfl

@[simp] theorem cfs_enqueue_task_phys (k : kernel) (p : Nat) :
    (cfs_enqueue_task k p).phys = k.phys := by
  unfold cfs_enqueue_task
  split <;> rfl

@[simp] theorem cfs_enqueue_task_mm_state (k : kernel) (p : Nat) :
    (cfs_enqueue_task k p).mm_state = k.mm_state := by
  unfold cfs_enqueue_task
  split <;> rfl

theorem cfs_enqueue_task_pending (k : kernel) (p q : Nat) :
    ((cfs_enqueue_task k p).processes q).pending_signals = (k.processes q).pending_signals := by
  unfold cfs_enqueue_task
  split
  · by_cases h : q = p
    · subst h
      simp
    · simp [set_proc_processes_other _ _ _ _ h]
  · rfl

/-- What `signal_send` does when the pid resolves to slot `t`: it returns 0, sets the
bit of the signal in `t`'s pending mask, touches no other process, and leaves
physical memory and the frame allocator alone. -/
theorem signal_send_spec (k : kernel) (pid sig t : Nat)
    (h : get_process_by_pid k pid = some t) :
    (signal_send k pid sig).1 = 0 ∧
    ((signal_send k pid sig).2.processes t).pending_signals
      = u32 ((k.processes t).pending_signals ||| (1 <<< sig)) ∧
    (∀ q, q ≠ t → (signal_send k pid sig).2.processes q = k.processes q) ∧
    (signal_send k pid sig).2.phys = k.phys ∧
    (signal_send k pid sig).2.mm_state = k.mm_state := by
  unfold signal_send
  rw [h]
  dsimp only
  split
  · refine ⟨rfl, ?_, ?_, by simp, by simp⟩
    · rw [cfs_enqueue_task_pending]
      simp
    · intro q hq
      rw [cfs_enqueue_task_processes_other _ _ _ hq, set_proc_processes_other _ _ _ _ hq,
        set_proc_processes_other _ _ _ _ hq]
  · refine ⟨rfl, by simp, ?_, rfl, rfl⟩
    intro q hq
    rw [set_proc_processes_other _ _ _ _ hq]

theorem testBit_u32_or_shift (x sig : Nat) (h : sig < 32) :
    (u32 (x ||| (1 <<< sig))).testBit sig = true := by
  unfold u32
  have e : (4294967296 : Nat) = 2 ^ 32 := by norm_num
  rw [e, Nat.testBit_mod_two_pow, Nat.testBit_or, Nat.one_shiftLeft, Nat.testBit_two_pow_self]
  simp [h]

/-- C21: let `c` be the current process (its pid resolving to its own slot).  If the
fault address lies in no VMA of `c`, or the fault is a write (bit 1 of the error code)
and the VMA that `vma_find` returns for the address lacks `PROT_WRITE`, then
`page_fault_handler` sets bit 11 (SIGSEGV) in the pending mask of `c` and does
nothing else to memory: physical memory, and with it every page-table entry, and the
frame allocator are unchanged, and so is every other process. -/
theorem page_fault_handler_sigsegv (k : kernel) (fault_addr error_code c : Nat)
    (hcur : k.scheduler.current_process = some c)
    (hpid : get_process_by_pid k (k.processes c).pid = some c)
    (hbad : (∀ v, v ∈ (k.processes c).vma_list → ¬ (v.start ≤ fault_addr ∧ fault_addr < v.vm_end)) ∨
            (∃ v, vma_find k c fault_addr = some v ∧ error_code &&& 0x2 ≠ 0 ∧
                  v.permissions &&& PROT_WRITE = 0)) :
    ((page_fault_handler k fault_addr error_code).processes c).pending_signals.testBit SIGSEGV
      = true ∧
    (page_fault_handler k fault_addr error_code).phys = k.phys ∧
    (page_fault_handler k fault_addr error_code).mm_state = k.mm_state ∧
    (∀ q, q ≠ c → (page_fault_handler k fault_addr error_code).processes q = k.processes q) := by
  have hs := signal_send_spec k (k.processes c).pid SIGSEGV c hpid
  have hgoal : page_fault_handler k fault_addr error_code
      = (signal_send k (k.processes c).pid SIGSEGV).2 := by
    unfold page_fault_handler
    rw [hcur]
    dsimp only
    rcases hbad with hno | ⟨v, hv, hw, hp⟩
    · have hf : vma_find k c fault_addr = none := by
        unfold vma_find
        rw [List.find?_eq_none]
        intro v hv
        have := hno v hv
        simp only [Bool.and_eq_true, decide_eq_true_eq, ge_iff_le]
        exact this
      rw [hf]
    · rw [hv]
      dsimp only
      rw [if_pos ⟨hw, hp⟩]
  rw [hgoal]
  refine ⟨?_, hs.2.2.2.1, hs.2.2.2.2, hs.2.2.1⟩
  rw [hs.2.1]
  exact testBit_u32_or_shift _ SIGSEGV (by decide)

/-- Witness for C21: on `mmap_sample_state` (process 1 running, no VMA) a fault at
0x1234 raises SIGSEGV; after a read-only page has been mapped at 0x400000, a write
fault on it raises SIGSEGV as well; in both cases physical memory is unchanged. -/
theorem page_fault_handler_sigsegv_witness :
    (((page_fault_handler mmap_sample_state 0x1234 0).processes 1).pending_signals.testBit SIGSEGV
        = true ∧
      (page_fault_handler mmap_sample_state 0x1234 0).phys = mmap_sample_state.phys) ∧
    (((page_fault_handler
          (mmap mmap_sample_state 0x400000 4096 PROT_READ
            (MAP_FIXED ||| MAP_PRIVATE ||| MAP_ANONYMOUS) (-1) 0 0).2 0x400010 0x2).processes
        1).pending_signals.testBit SIGSEGV = true ∧
      (page_fault_handler
          (mmap mmap_sample_state 0x400000 4096 PROT_READ
            (MAP_FIXED ||| MAP_PRIVATE ||| MAP_ANONYMOUS) (-1) 0 0).2 0x400010 0x2).phys
        = (mmap mmap_sample_state 0x400000 4096 PROT_READ
            (MAP_FIXED ||| MAP_PRIVATE ||| MAP_ANONYMOUS) (-1) 0 0).2.phys) :=
  have h1 := page_fault_handler_sigsegv mmap_sample_state 0x1234 0 1 (by decide) (by decide)
    (Or.inl (by
      intro v hv
      have hl : (mmap_sample_state.processes 1).vma_list = [] := by decide
      rw [hl] at hv
      cases hv))
  have h2 := page_fault_handler_sigsegv
    (mmap mmap_sample_state 0x400000 4096 PROT_READ
      (MAP_FIXED ||| MAP_PRIVATE ||| MAP_ANONYMOUS) (-1) 0 0).2 0x400010 0x2 1
    (by decide) (by decide)
    (Or.inr ⟨⟨0x400000, 0x401000, MAP_FIXED ||| MAP_PRIVATE ||| MAP_ANONYMOUS, PROT_READ, none, 0⟩,
      by decide, by decide, by decide⟩)
  ⟨⟨h1.1, h1.2.1⟩, ⟨h2.1, h2.2.1⟩⟩

/-! ## Exhausted tables (C22) -/

/-- C22: when the slots 1 to 255 of the process table are all in use,
`process_create` returns 0 and the whole kernel state (process table, run queue and
its accounting, `next_pid`, periodic-task table, everything else) is the state before
the call; when 32 periodic tasks are registered, `rtos_register_periodic_task` returns
-1 and again the whole state is unchanged. -/
theorem exhaustion_changes_nothing (k : kernel) (priority now f p prio : Nat) :
    ((∀ i, 1 ≤ i → i < MAX_PROCESSES → (k.processes i).in_use = true) →
      process_create k priority now = (0, k)) ∧
    (32 ≤ k.periodic_task_count → rtos_register_periodic_task k f p prio = (-1, k)) := by
  constructor
  · intro h
    have hf : first_index 1 MAX_PROCESSES (fun i => !(k.processes i).in_use) = none := by
      rw [first_index_eq_none]
      intro j h1 h2
      rw [h j h1 h2]
      rfl
    unfold process_create
    rw [hf]
  · intro h
    unfold rtos_register_periodic_task
    rw [if_pos h]

set_option maxRecDepth 100000 in
/-- Witness for C22 on `full_tables_state`: both calls fail and return the state they
were given. -/
theorem exhaustion_changes_nothing_witness :
    process_create full_tables_state PRIORITY_NORMAL 7 = (0, full_tables_state) ∧
    rtos_register_periodic_task full_tables_state 1 100 10 = (-1, full_tables_state) :=
  have h := exhaustion_changes_nothing full_tables_state PRIORITY_NORMAL 7 1 100 10
  ⟨h.1 (by intro i _ _; rfl), h.2 (by decide)⟩

/-! ## Identifiers returned by semget and msgget (C26) -/

/-- C26 (failing run): after boot `semget(42, 1, IPC_CREAT)` creates the semaphore in
slot 0 and returns the identifier 1; `sem_wait_timeout(1, 0)` and `sem_signal(1)` then
look at slot 1, which is not in use, and return -1.  Likewise `msgget(42, IPC_CREAT)`
creates the queue in slot 0 and returns 1, and `msgsnd(1, ...)` and `msgrcv(1, ...)`
return -1. -/
theorem ipc_identifier_is_not_the_slot :
    (semget kernel.booted 42 1 IPC_CREAT).1 = 1 ∧
    ((semget kernel.booted 42 1 IPC_CREAT).2.semaphores 0).in_use = true ∧
    ((semget kernel.booted 42 1 IPC_CREAT).2.semaphores 0).key = 42 ∧
    ((semget kernel.booted 42 1 IPC_CREAT).2.semaphores 1).in_use = false ∧
    (sem_wait_timeout (semget kernel.booted 42 1 IPC_CREAT).2 1 0).1 = outcome.returned (-1) ∧
    (sem_signal (semget kernel.booted 42 1 IPC_CREAT).2 1).1 = -1 ∧
    (msgget kernel.booted 42 IPC_CREAT).1 = 1 ∧
    ((msgget kernel.booted 42 IPC_CREAT).2.message_queues 0).in_use = true ∧
    ((msgget kernel.booted 42 IPC_CREAT).2.message_queues 0).key = 42 ∧
    ((msgget kernel.booted 42 IPC_CREAT).2.message_queues 1).in_use = false ∧
    (msgsnd (msgget kernel.booted 42 IPC_CREAT).2 1 7 (fun _ => 0) 4 0).1
      = outcome.returned (-1) ∧
    (msgrcv (msgget kernel.booted 42 IPC_CREAT).2 1 4 0 0).1 = outcome.returned (-1) := by
  decide

/-! ## scheduler.min_vruntime (C29) -/

@[simp] theorem cfs_enqueue_task_min_vruntime (k : kernel) (p : Nat) :
    (cfs_enqueue_task k p).scheduler.min_vruntime = k.scheduler.min_vruntime := by
  unfold cfs_enqueue_task
  split <;> rfl

@[simp] theorem cfs_dequeue_task_min_vruntime (k : kernel) (p : Nat) :
    (cfs_dequeue_task k p).scheduler.min_vruntime = k.scheduler.min_vruntime := rfl

theorem update_vruntime_min_vruntime (k : kernel) (p d : Nat)
    (h : k.scheduler.min_vruntime = 0) :
    (update_vruntime k p d).scheduler.min_vruntime = 0 := by
  unfold update_vruntime
  dsimp only
  split
  · rename_i hlt
    simp only [set_proc_scheduler, h] at hlt
    omega
  · simpa using h

theorem schedule_min_vruntime (k : kernel) (a b : Nat) (h : k.scheduler.min_vruntime = 0) :
    (schedule k a b).scheduler.min_vruntime = 0 := by
  unfold schedule
  dsimp only
  repeat' split
  all_goals simp [h, update_vruntime_min_vruntime]

theorem signal_send_min_vruntime (k : kernel) (pid sig : Nat) :
    (signal_send k pid sig).2.scheduler.min_vruntime = k.scheduler.min_vruntime := by
  unfold signal_send
  dsimp only
  repeat' split
  all_goals simp

theorem process_create_min_vruntime (k : kernel) (priority now : Nat) :
    (process_create k priority now).2.scheduler.min_vruntime = k.scheduler.min_vruntime := by
  unfold process_create
  dsimp only
  repeat' split
  all_goals simp

theorem process_exit_min_vruntime (k : kernel) (c a b : Nat)
    (h : k.scheduler.min_vruntime = 0) :
    (process_exit k c a b).scheduler.min_vruntime = 0 := by
  unfold process_exit
  dsimp only
  repeat' split
  all_goals first
    | exact h
    | (apply schedule_min_vruntime
       simp [signal_send_min_vruntime, h])

theorem sched_step_min_vruntime (k : kernel) (op : sched_op)
    (h : k.scheduler.min_vruntime = 0) :
    (sched_step k op).scheduler.min_vruntime = 0 := by
  cases op with
  | create priority now =>
    show (process_create k priority now).2.scheduler.min_vruntime = 0
    rw [process_create_min_vruntime, h]
  | sched a b => exact schedule_min_vruntime k a b h
  | exit c a b => exact process_exit_min_vruntime k c a b h

theorem sched_run_min_vruntime (ops : List sched_op) :
    ∀ k : kernel, k.scheduler.min_vruntime = 0 →
      (sched_run k ops).scheduler.min_vruntime = 0 := by
  induction ops with
  | nil =>
    intro k h
    exact h
  | cons op ops ih =>
    intro k h
    exact ih (sched_step k op) (sched_step_min_vruntime k op h)

/-- C29: from any state, after `scheduler_init` and any sequence of `process_create`,
`schedule` and `process_exit` calls `scheduler.min_vruntime` is 0, and a process
created next (in the slot `i` that `process_create` finds free) starts with
vruntime 0. -/
theorem min_vruntime_stays_zero (k : kernel) (ops : List sched_op) (priority now : Nat) :
    (scheduler_init k).scheduler.min_vruntime = 0 ∧
    (sched_run (scheduler_init k) ops).scheduler.min_vruntime = 0 ∧
    (∀ i, first_index 1 MAX_PROCESSES
            (fun i => !((sched_run (scheduler_init k) ops).processes i).in_use) = some i →
      ((process_create (sched_run (scheduler_init k) ops) priority now).2.processes i).vruntime
        = 0) := by
  have h0 : (scheduler_init k).scheduler.min_vruntime = 0 := rfl
  have h1 := sched_run_min_vruntime ops (scheduler_init k) h0
  refine ⟨h0, h1, ?_⟩
  intro i hi
  unfold process_create
  rw [hi]
  dsimp only
  unfold cfs_enqueue_task
  split
  · simp [h1]
  · simp [h1]

/-- Witness for C29: process A runs from time 0 to 5000 and is preempted by B, so A's
vruntime is 5000; `min_vruntime` is still 0 and the process created next, in slot 3,
starts with vruntime 0. -/
theorem min_vruntime_stays_zero_witness :
    (sched_run (scheduler_init kernel.zero)
        [sched_op.create 2 0, sched_op.sched 0 0, sched_op.create 2 0,
         sched_op.sched 5000 5000]).scheduler.min_vruntime = 0 ∧
    ((process_create
        (sched_run (scheduler_init kernel.zero)
          [sched_op.create 2 0, sched_op.sched 0 0, sched_op.create 2 0,
           sched_op.sched 5000 5000]) 2 6000).2.processes 3).vruntime = 0 :=
  have h := min_vruntime_stays_zero kernel.zero
    [sched_op.create 2 0, sched_op.sched 0 0, sched_op.create 2 0, sched_op.sched 5000 5000]
    2 6000
  ⟨h.2.1, h.2.2 3 (by decide)⟩

/-! ## Run-queue accounting (C30) -/

/-- C30 (failing runs): (1) after boot, process A is created, scheduled, and calls
`process_exit`: `cfs_dequeue_task` is applied to A although `schedule()` has already
taken it off the run queue, so `nr_running` wraps from 0 to `2^32 - 1` and
`total_weight` from 0 to `2^64 - 1024`, with an empty run queue.  (2) after boot the
idle process is started, A is created and preempts it at time 15: the idle process
(slot 0) is now a member of the run queue, and when it is picked again it is RUNNING
while still queued. -/
theorem run_queue_accounting_breaks :
    (sched_run kernel.booted
        [sched_op.create 2 0, sched_op.sched 0 0, sched_op.exit 0 10 10]).scheduler.cfs_runqueue
      = [] ∧
    (sched_run kernel.booted
        [sched_op.create 2 0, sched_op.sched 0 0, sched_op.exit 0 10 10]).scheduler.nr_running
      = 4294967295 ∧
    (sched_run kernel.booted
        [sched_op.create 2 0, sched_op.sched 0 0, sched_op.exit 0 10 10]).scheduler.total_weight
      = 18446744073709550592 ∧
    (sched_run kernel.booted
        [sched_op.sched 0 0, sched_op.create 2 0, sched_op.sched 15 15]).scheduler.cfs_runqueue
      = [⟨0, 1024⟩] ∧
    (sched_run kernel.booted
        [sched_op.sched 0 0, sched_op.create 2 0, sched_op.sched 15 15]).scheduler.idle_process
      = some 0 ∧
    (sched_run kernel.booted
        [sched_op.sched 0 0, sched_op.create 2 0, sched_op.sched 15 15,
         sched_op.sched 5015 5015]).scheduler.cfs_runqueue
      = [⟨0, 1024⟩, ⟨1, 5000⟩] ∧
    ((sched_run kernel.booted
        [sched_op.sched 0 0, sched_op.create 2 0, sched_op.sched 15 15,
         sched_op.sched 5015 5015]).processes 0).state = PROCESS_RUNNING ∧
    (sched_run kernel.booted
        [sched_op.sched 0 0, sched_op.create 2 0, sched_op.sched 15 15,
         sched_op.sched 5015 5015]).scheduler.nr_running = 2 := by
  decide

/-! ## Virtual runtime accounting (C24) -/

theorem set_proc_vruntime (k : kernel) (p i : Nat) (f : process → process)
    (hf : ∀ x, (f x).vruntime = x.vruntime) :
    ((k.set_proc p f).processes i).vruntime = (k.processes i).vruntime := by
  by_cases h : i = p
  · subst h
    simp [hf]
  · rw [set_proc_processes_other _ _ _ _ h]

theorem set_proc_in_use (k : kernel) (p i : Nat) (f : process → process)
    (hf : ∀ x, (f x).in_use = x.in_use) :
    ((k.set_proc p f).processes i).in_use = (k.processes i).in_use := by
  by_cases h : i = p
  · subst h
    simp [hf]
  · rw [set_proc_processes_other _ _ _ _ h]

theorem cfs_enqueue_task_vruntime (k : kernel) (p i : Nat) :
    ((cfs_enqueue_task k p).processes i).vruntime = (k.processes i).vruntime := by
  unfold cfs_enqueue_task
  split
  · dsimp only
    exact set_proc_vruntime k p i (fun q => { q with state := PROCESS_READY }) (fun _ => rfl)
  · rfl

theorem cfs_enqueue_task_in_use (k : kernel) (p i : Nat) :
    ((cfs_enqueue_task k p).processes i).in_use = (k.processes i).in_use := by
  unfold cfs_enqueue_task
  split
  · dsimp only
    exact set_proc_in_use k p i (fun q => { q with state := PROCESS_READY }) (fun _ => rfl)
  · rfl

@[simp] theorem cfs_dequeue_task_processes (k : kernel) (p : Nat) :
    (cfs_dequeue_task k p).processes = k.processes := rfl

/-- What `update_vruntime` does to the process it accounts for. -/
theorem update_vruntime_same (k : kernel) (p d : Nat) :
    ((update_vruntime k p d).processes p).vruntime
      = u64 ((k.processes p).vruntime + u64 (d * 1024) / (k.processes p).weight) ∧
    ((update_vruntime k p d).processes p).sum_exec_runtime
      = u64 ((k.processes p).sum_exec_runtime + d) := by
  unfold update_vruntime
  dsimp only
  split <;> simp

theorem update_vruntime_other (k : kernel) (p d i : Nat) (h : i ≠ p) :
    (update_vruntime k p d).processes i = k.processes i := by
  unfold update_vruntime
  dsimp only
  split <;> simp [set_proc_processes_other _ _ _ _ h]

theorem update_vruntime_in_use (k : kernel) (p d i : Nat) :
    ((update_vruntime k p d).processes i).in_use = (k.processes i).in_use := by
  unfold update_vruntime
  dsimp only
  split
  · exact set_proc_in_use k p i
      (fun q => { q with vruntime := u64 (q.vruntime + u64 (d * 1024) / q.weight),
                         sum_exec_runtime := u64 (q.sum_exec_runtime + d) }) (fun _ => rfl)
  · exact set_proc_in_use k p i
      (fun q => { q with vruntime := u64 (q.vruntime + u64 (d * 1024) / q.weight),
                         sum_exec_runtime := u64 (q.sum_exec_runtime + d) }) (fun _ => rfl)

/-- The function `schedule` as its early returns followed by the two halves of the
switch. -/
theorem schedule_eq (k : kernel) (a b : Nat) :
    schedule k a b =
      if !k.scheduler.scheduler_enabled then k
      else
        match schedule_next k with
        | none => k
        | some next =>
          if k.scheduler.current_process = some next then k
          else schedule_in (schedule_out k a) next b := by
  unfold schedule schedule_in schedule_out
  rfl

/-- The first half of the switch, when the outgoing process `pv` is RUNNING. -/
theorem schedule_out_running (k : kernel) (a pv : Nat)
    (hc : k.scheduler.current_process = some pv)
    (hr : (k.processes pv).state = PROCESS_RUNNING) :
    schedule_out k a
      = cfs_enqueue_task
          ((update_vruntime k pv (sub_u64 a (k.processes pv).exec_start)).set_proc pv (fun p =>
            { p with total_cpu_time := u64 (p.total_cpu_time + sub_u64 a (k.processes pv).exec_start),
                     state := PROCESS_READY })) pv := by
  unfold schedule_out
  rw [hc]
  dsimp only
  rw [if_pos hr, if_pos (by simp)]

/-- The first half of the switch does nothing without a RUNNING current process. -/
theorem schedule_out_idle (k : kernel) (a : Nat)
    (h : ∀ pv, k.scheduler.current_process = some pv → (k.processes pv).state ≠ PROCESS_RUNNING) :
    schedule_out k a = k := by
  unfold schedule_out
  cases hc : k.scheduler.current_process with
  | none => rfl
  | some pv =>
    dsimp only
    rw [if_neg (h pv hc)]

theorem schedule_in_processes_other (k : kernel) (next b i : Nat) (h : i ≠ next) :
    (schedule_in k next b).processes i = k.processes i := by
  unfold schedule_in
  dsimp only
  split <;> simp [set_proc_processes_other _ _ _ _ h]

theorem schedule_in_processes_same (k : kernel) (next b : Nat) :
    (schedule_in k next b).processes next
      = { (k.processes next) with state := PROCESS_RUNNING, exec_start := b, last_scheduled := b } := by
  unfold schedule_in
  dsimp only
  split <;> simp

theorem schedule_in_vruntime (k : kernel) (next b i : Nat) :
    ((schedule_in k next b).processes i).vruntime = (k.processes i).vruntime := by
  by_cases h : i = next
  · subst h
    rw [schedule_in_processes_same]
  · rw [schedule_in_processes_other _ _ _ _ h]

theorem schedule_in_in_use (k : kernel) (next b i : Nat) :
    ((schedule_in k next b).processes i).in_use = (k.processes i).in_use := by
  by_cases h : i = next
  · subst h
    rw [schedule_in_processes_same]
  · rw [schedule_in_processes_other _ _ _ _ h]

theorem schedule_out_in_use (k : kernel) (a i : Nat) :
    ((schedule_out k a).processes i).in_use = (k.processes i).in_use := by
  unfold schedule_out
  cases hc : k.scheduler.current_process with
  | none => rfl
  | some pv =>
    dsimp only
    split
    · rw [if_pos (by simp), cfs_enqueue_task_in_use,
        set_proc_in_use _ pv i
          (fun p => { p with
            total_cpu_time := u64 (p.total_cpu_time + sub_u64 a (k.processes pv).exec_start),
            state := PROCESS_READY }) (fun _ => rfl),
        update_vruntime_in_use]
    · rfl

/-- The vruntime of a process after the first half of the switch: unchanged, or, for
the outgoing RUNNING process, advanced by the accounted execution time. -/
theorem schedule_out_vruntime (k : kernel) (a i : Nat) :
    ((schedule_out k a).processes i).vruntime
      = if k.scheduler.current_process = some i ∧ (k.processes i).state = PROCESS_RUNNING then
          u64 ((k.processes i).vruntime
            + u64 (sub_u64 a (k.processes i).exec_start * 1024) / (k.processes i).weight)
        else (k.processes i).vruntime := by
  cases hc : k.scheduler.current_process with
  | none =>
    rw [schedule_out_idle k a (by intro pv h; rw [hc] at h; cases h)]
    simp
  | some pv =>
    by_cases hr : (k.processes pv).state = PROCESS_RUNNING
    · rw [schedule_out_running k a pv hc hr, cfs_enqueue_task_vruntime,
        set_proc_vruntime _ pv i
          (fun p => { p with
            total_cpu_time := u64 (p.total_cpu_time + sub_u64 a (k.processes pv).exec_start),
            state := PROCESS_READY }) (fun _ => rfl)]
      by_cases hi : i = pv
      · subst hi
        rw [if_pos ⟨rfl, hr⟩]
        exact (update_vruntime_same k i _).1
      · rw [update_vruntime_other _ _ _ _ hi, if_neg]
        intro h
        exact hi (Option.some.inj h.1).symm
    · rw [schedule_out_idle k a (by
        intro q h
        rw [hc] at h
        cases h
        exact hr)]
      rw [if_neg]
      intro h
      have := Option.some.inj h.1
      subst this
      exact hr h.2

/-- The vruntime of a process after `schedule()`: unchanged, or, for the outgoing
RUNNING current process, advanced by the accounted execution time. -/
theorem schedule_vruntime (k : kernel) (a b i : Nat) :
    ((schedule k a b).processes i).vruntime = (k.processes i).vruntime ∨
    (k.scheduler.current_process = some i ∧ (k.processes i).state = PROCESS_RUNNING ∧
      ((schedule k a b).processes i).vruntime
        = u64 ((k.processes i).vruntime
            + u64 (sub_u64 a (k.processes i).exec_start * 1024) / (k.processes i).weight)) := by
  rw [schedule_eq]
  split
  · left; rfl
  · split
    · left; rfl
    · split
      · left; rfl
      · rw [schedule_in_vruntime, schedule_out_vruntime]
        split
        · rename_i h
          right
          exact ⟨h.1, h.2, rfl⟩
        · left; rfl

theorem schedule_in_use (k : kernel) (a b i : Nat) :
    ((schedule k a b).processes i).in_use = (k.processes i).in_use := by
  rw [schedule_eq]
  split
  · rfl
  · split
    · rfl
    · split
      · rfl
      · rw [schedule_in_in_use, schedule_out_in_use]

theorem cfs_enqueue_task_current (k : kernel) (p : Nat) :
    (cfs_enqueue_task k p).scheduler.current_process = k.scheduler.current_process := by
  unfold cfs_enqueue_task
  split <;> rfl

theorem cfs_enqueue_task_exit_code (k : kernel) (p q : Nat) :
    ((cfs_enqueue_task k p).processes q).exit_code = (k.processes q).exit_code := by
  unfold cfs_enqueue_task
  split
  · by_cases h : q = p
    · subst h
      simp
    · simp [set_proc_processes_other _ _ _ _ h]
  · rfl

theorem signal_send_exit_code (k : kernel) (pid sig i : Nat) :
    ((signal_send k pid sig).2.processes i).exit_code = (k.processes i).exit_code := by
  unfold signal_send
  cases hg : get_process_by_pid k pid with
  | none => rfl
  | some t =>
    dsimp only
    by_cases hit : i = t
    · subst hit
      split
      · rw [cfs_enqueue_task_exit_code]
        simp
      · simp
    · split
      · rw [cfs_enqueue_task_exit_code, set_proc_processes_other _ _ _ _ hit,
          set_proc_processes_other _ _ _ _ hit]
      · rw [set_proc_processes_other _ _ _ _ hit]

/-- What `signal_send` leaves alone: every vruntime and `in_use` flag, the current
process, and the state of every process that is not BLOCKED. -/
theorem signal_send_keeps (k : kernel) (pid sig i : Nat) :
    ((signal_send k pid sig).2.processes i).vruntime = (k.processes i).vruntime ∧
    ((signal_send k pid sig).2.processes i).in_use = (k.processes i).in_use ∧
    (signal_send k pid sig).2.scheduler.current_process = k.scheduler.current_process ∧
    ((k.processes i).state ≠ PROCESS_BLOCKED →
      ((signal_send k pid sig).2.processes i).state = (k.processes i).state) := by
  unfold signal_send
  cases hg : get_process_by_pid k pid with
  | none => exact ⟨rfl, rfl, rfl, fun _ => rfl⟩
  | some t =>
    dsimp only
    split
    · rename_i hb
      refine ⟨?_, ?_, ?_, ?_⟩
      · rw [cfs_enqueue_task_vruntime,
          set_proc_vruntime _ t i (fun p => { p with state := PROCESS_READY }) (fun _ => rfl),
          set_proc_vruntime _ t i
            (fun p => { p with pending_signals := u32 (p.pending_signals ||| (1 <<< sig)) })
            (fun _ => rfl)]
      · rw [cfs_enqueue_task_in_use,
          set_proc_in_use _ t i (fun p => { p with state := PROCESS_READY }) (fun _ => rfl),
          set_proc_in_use _ t i
            (fun p => { p with pending_signals := u32 (p.pending_signals ||| (1 <<< sig)) })
            (fun _ => rfl)]
      · rw [cfs_enqueue_task_current]
        rfl
      · intro hnb
        have hit : i ≠ t := by
          intro h
          subst h
          simp at hb
          exact hnb hb
        rw [cfs_enqueue_task_processes_other _ _ _ hit, set_proc_processes_other _ _ _ _ hit,
          set_proc_processes_other _ _ _ _ hit]
    · refine ⟨?_, ?_, rfl, ?_⟩
      · exact set_proc_vruntime _ t i
          (fun p => { p with pending_signals := u32 (p.pending_signals ||| (1 <<< sig)) })
          (fun _ => rfl)
      · exact set_proc_in_use _ t i
          (fun p => { p with pending_signals := u32 (p.pending_signals ||| (1 <<< sig)) })
          (fun _ => rfl)
      · intro _
        by_cases hit : i = t
        · subst hit
          simp
        · rw [set_proc_processes_other _ _ _ _ hit]

/-- The state in which `process_exit` calls `schedule()`, for a non-idle current
process `proc`. -/
theorem process_exit_eq (k : kernel) (c a b proc : Nat)
    (hc : k.scheduler.current_process = some proc)
    (hi : some proc ≠ k.scheduler.idle_process) :
    ∃ k3 : kernel,
      process_exit k c a b = schedule k3 a b ∧
      k3.scheduler.current_process = some proc ∧
      (k3.processes proc).state = PROCESS_ZOMBIE ∧
      (k3.processes proc).exit_code = c ∧
      (∀ i, (k3.processes i).vruntime = (k.processes i).vruntime) ∧
      (∀ i, (k3.processes i).in_use = (k.processes i).in_use) ∧
      (∀ i, i ≠ proc → (k.processes i).state ≠ PROCESS_BLOCKED →
        (k3.processes i).state = (k.processes i).state) := by
  have hv1 : ∀ i, (((k.set_proc proc (fun p =>
      { p with state := PROCESS_ZOMBIE, exit_code := c })).processes i).vruntime
        = (k.processes i).vruntime) := fun i =>
    set_proc_vruntime k proc i (fun p => { p with state := PROCESS_ZOMBIE, exit_code := c })
      (fun _ => rfl)
  have hu1 : ∀ i, (((k.set_proc proc (fun p =>
      { p with state := PROCESS_ZOMBIE, exit_code := c })).processes i).in_use
        = (k.processes i).in_use) := fun i =>
    set_proc_in_use k proc i (fun p => { p with state := PROCESS_ZOMBIE, exit_code := c })
      (fun _ => rfl)
  unfold process_exit
  rw [hc]
  dsimp only
  rw [if_neg hi]
  cases hp : ((cfs_dequeue_task (k.set_proc proc (fun p =>
      { p with state := PROCESS_ZOMBIE, exit_code := c })) proc).processes proc).parent with
  | none =>
    refine ⟨_, rfl, hc, by simp, by simp, ?_, ?_, ?_⟩
    · intro i
      exact hv1 i
    · intro i
      exact hu1 i
    · intro i hip _
      simp [set_proc_processes_other _ _ _ _ hip]
  | some par =>
    dsimp only
    refine ⟨_, rfl, ?_, ?_, ?_, ?_, ?_, ?_⟩
    · rw [(signal_send_keeps _ _ _ proc).2.2.1]
      exact hc
    · rw [(signal_send_keeps _ _ _ proc).2.2.2 (by simp)]
      simp
    · rw [signal_send_exit_code]
      simp
    · intro i
      rw [(signal_send_keeps _ _ _ i).1]
      exact hv1 i
    · intro i
      rw [(signal_send_keeps _ _ _ i).2.1]
      exact hu1 i
    · intro i hip hnb
      rw [(signal_send_keeps _ _ _ i).2.2.2 (by simpa [set_proc_processes_other _ _ _ _ hip] using hnb)]
      simp [set_proc_processes_other _ _ _ _ hip]

/-- A successful or failed `process_create` leaves every process that is in use as it
was. -/
theorem process_create_keeps_in_use (k : kernel) (priority now i : Nat)
    (hu : (k.processes i).in_use = true) :
    (process_create k priority now).2.processes i = k.processes i := by
  unfold process_create
  cases hf : first_index 1 MAX_PROCESSES (fun i => !(k.processes i).in_use) with
  | none => rfl
  | some j =>
    have hj := (first_index_eq_some _ _ _ _).mp hf
    have hij : i ≠ j := by
      intro h
      subst h
      have := hj.2.2.1
      simp [hu] at this
    dsimp only
    rw [cfs_enqueue_task_processes_other _ _ _ hij, set_proc_processes_other _ _ _ _ hij]

/-- One scheduler call and the vruntime of a process in use: the process stays in
use, and its vruntime is unchanged or, if it is the outgoing RUNNING process of a
`schedule()`, advanced by the accounted execution time. -/
theorem sched_step_vruntime (k : kernel) (op : sched_op) (i : Nat)
    (hu : (k.processes i).in_use = true) :
    ((sched_step k op).processes i).in_use = true ∧
    (((sched_step k op).processes i).vruntime = (k.processes i).vruntime ∨
     (k.scheduler.current_process = some i ∧ (k.processes i).state = PROCESS_RUNNING ∧
       ((sched_step k op).processes i).vruntime
         = u64 ((k.processes i).vruntime
             + u64 (sub_u64 (sched_op_now_out op) (k.processes i).exec_start * 1024)
                 / (k.processes i).weight))) := by
  cases op with
  | create priority now =>
    have e : (sched_step k (sched_op.create priority now)).processes i = k.processes i :=
      process_create_keeps_in_use k priority now i hu
    rw [e]
    exact ⟨hu, Or.inl rfl⟩
  | sched a b =>
    refine ⟨?_, schedule_vruntime k a b i⟩
    show ((schedule k a b).processes i).in_use = true
    rw [schedule_in_use, hu]
  | exit c a b =>
    show ((process_exit k c a b).processes i).in_use = true ∧
      (((process_exit k c a b).processes i).vruntime = (k.processes i).vruntime ∨ _)
    cases hc : k.scheduler.current_process with
    | none =>
      have e : process_exit k c a b = k := by
        unfold process_exit
        rw [hc]
      rw [e]
      exact ⟨hu, Or.inl rfl⟩
    | some proc =>
      by_cases hi : some proc = k.scheduler.idle_process
      · have e : process_exit k c a b = k := by
          unfold process_exit
          rw [hc]
          dsimp only
          rw [if_pos hi]
        rw [e]
        exact ⟨hu, Or.inl rfl⟩
      · obtain ⟨k3, he, hc3, hz, _, hv, hin, _⟩ := process_exit_eq k c a b proc hc hi
        rw [he]
        refine ⟨by rw [schedule_in_use, hin, hu], Or.inl ?_⟩
        rcases schedule_vruntime k3 a b i with h | ⟨h1, h2, _⟩
        · rw [h, hv]
        · rw [hc3] at h1
          have := Option.some.inj h1
          subst this
          rw [hz] at h2
          cases h2

theorem sched_run_cons (k : kernel) (op : sched_op) (ops : List sched_op) :
    sched_run k (op :: ops) = sched_run (sched_step k op) ops := rfl

/-! ## One RUNNING process (C23) -/

theorem mem_rb_insert (l : List rb_node) (p key : Nat) (n : rb_node) :
    n ∈ rb_insert l p key ↔ n = ⟨p, key⟩ ∨ n ∈ l := by
  induction l with
  | nil => simp [rb_insert]
  | cons m rest ih =>
    unfold rb_insert
    split
    · simp
    · simp only [List.mem_cons, ih]
      tauto

theorem rb_remove_sublist (l : List rb_node) (key : Nat) : (rb_remove l key).Sublist l := by
  induction l with
  | nil => exact List.Sublist.slnil
  | cons m rest ih =>
    unfold rb_remove
    split
    · exact List.sublist_cons_self m rest
    · exact List.Sublist.cons₂ m ih

theorem rq_distinct_rb_insert (l : List rb_node) (p key : Nat) (h : rq_distinct l)
    (hp : ∀ n, n ∈ l → n.process = p → p = 0) : rq_distinct (rb_insert l p key) := by
  unfold rq_distinct at h ⊢
  induction l with
  | nil => simp [rb_insert]
  | cons m rest ih =>
    unfold rb_insert
    split
    · refine List.Pairwise.cons ?_ h
      intro b hb hpb
      exact hp b hb hpb.symm
    · rw [List.pairwise_cons] at h
      refine List.Pairwise.cons ?_ (ih h.2 (fun n hn => hp n (List.mem_cons_of_mem _ hn)))
      intro b hb hmb
      rcases (mem_rb_insert rest p key b).mp hb with hb | hb
      · subst hb
        have := hp m (List.mem_cons_self _ _) hmb
        rw [hmb]
        exact this
      · exact h.1 b hb hmb

/-- Removing the key of the head node after an insertion: the head node goes, the
inserted node stays. -/
theorem rb_remove_rb_insert_head (h : rb_node) (tl : List rb_node) (p kp : Nat) :
    rb_remove (rb_insert (h :: tl) p kp) h.key
      = if kp < h.key then ⟨p, kp⟩ :: tl else rb_insert tl p kp := by
  by_cases hlt : kp < h.key
  · have hne : ¬ kp = h.key := by omega
    have e : rb_insert (h :: tl) p kp = ⟨p, kp⟩ :: h :: tl := by
      rw [rb_insert, if_pos hlt]
    rw [e, if_pos hlt]
    simp [rb_remove, hne]
  · have e : rb_insert (h :: tl) p kp = h :: rb_insert tl p kp := by
      rw [rb_insert, if_neg hlt]
    rw [e, if_neg hlt]
    simp [rb_remove]

theorem schedule_next_eq (k : kernel) (h : k.scheduler.idle_process = some 0) :
    schedule_next k
      = some (match k.scheduler.cfs_runqueue with
              | [] => 0
              | n :: _ => n.process) := by
  unfold schedule_next cfs_pick_next_task
  cases hq : k.scheduler.cfs_runqueue with
  | nil => simp [h]
  | cons n rest => simp [rb_leftmost]

theorem schedule_in_scheduler (k : kernel) (next b : Nat) :
    (schedule_in k next b).scheduler.scheduler_enabled = k.scheduler.scheduler_enabled ∧
    (schedule_in k next b).scheduler.idle_process = k.scheduler.idle_process ∧
    (schedule_in k next b).scheduler.current_process = some next ∧
    (schedule_in k next b).scheduler.cfs_runqueue
      = if some next ≠ k.scheduler.idle_process
        then rb_remove k.scheduler.cfs_runqueue (k.processes next).vruntime
        else k.scheduler.cfs_runqueue := by
  unfold schedule_in
  dsimp only
  split <;> simp [cfs_dequeue_task]

theorem cfs_enqueue_task_scheduler (k : kernel) (p : Nat) :
    (cfs_enqueue_task k p).scheduler.scheduler_enabled = k.scheduler.scheduler_enabled ∧
    (cfs_enqueue_task k p).scheduler.idle_process = k.scheduler.idle_process ∧
    (cfs_enqueue_task k p).scheduler.current_process = k.scheduler.current_process := by
  unfold cfs_enqueue_task
  split <;> exact ⟨rfl, rfl, rfl⟩

theorem update_vruntime_scheduler (k : kernel) (p d : Nat) :
    (update_vruntime k p d).scheduler.scheduler_enabled = k.scheduler.scheduler_enabled ∧
    (update_vruntime k p d).scheduler.idle_process = k.scheduler.idle_process ∧
    (update_vruntime k p d).scheduler.current_process = k.scheduler.current_process ∧
    (update_vruntime k p d).scheduler.cfs_runqueue = k.scheduler.cfs_runqueue := by
  unfold update_vruntime
  dsimp only
  split <;> exact ⟨rfl, rfl, rfl, rfl⟩

theorem update_vruntime_state (k : kernel) (p d i : Nat) :
    ((update_vruntime k p d).processes i).state = (k.processes i).state := by
  by_cases h : i = p
  · subst h
    unfold update_vruntime
    dsimp only
    split <;> simp
  · rw [update_vruntime_other _ _ _ _ h]

/-- The second half of the switch establishes the invariant, from a state in which no
process is RUNNING. -/
theorem schedule_in_inv (k1 : kernel) (next b : Nat)
    (hen : k1.scheduler.scheduler_enabled = true)
    (hidle : k1.scheduler.idle_process = some 0)
    (h0 : (k1.processes 0).in_use = true)
    (hnr : ∀ i, (k1.processes i).in_use = true → (k1.processes i).state ≠ PROCESS_RUNNING)
    (hnb : ∀ i, (k1.processes i).in_use = true → (k1.processes i).state ≠ PROCESS_BLOCKED)
    (hnodes : ∀ n, n ∈ k1.scheduler.cfs_runqueue →
      (k1.processes n.process).in_use = true ∧
      (n.process ≠ 0 → n.key = (k1.processes n.process).vruntime))
    (hnext : (k1.processes next).in_use = true)
    (hsub : ∀ n, n ∈ (schedule_in k1 next b).scheduler.cfs_runqueue →
      n ∈ k1.scheduler.cfs_runqueue)
    (hdist : rq_distinct (schedule_in k1 next b).scheduler.cfs_runqueue)
    (hgone : next ≠ 0 → ∀ n, n ∈ (schedule_in k1 next b).scheduler.cfs_runqueue →
      n.process ≠ next)
    (hready : ∀ n, n ∈ k1.scheduler.cfs_runqueue → n.process ≠ 0 →
      (k1.processes n.process).state = PROCESS_READY) :
    sched_inv (schedule_in k1 next b) := by
  have hs := schedule_in_scheduler k1 next b
  refine ⟨by rw [hs.1, hen], by rw [hs.2.1, hidle], by rw [schedule_in_in_use, h0],
    ?_, ?_, ?_, ?_, hdist, ?_⟩
  rotate_right
  · intro n hn hn0
    have hne : n.process ≠ next := by
      by_cases hnx : next = 0
      · rw [hnx]
        exact hn0
      · exact hgone hnx n hn
    rw [schedule_in_processes_other _ _ _ _ hne]
    exact hready n (hsub n hn) hn0
  · intro i hu hr
    rw [hs.2.2.1]
    by_cases hi : i = next
    · rw [hi]
    · rw [schedule_in_in_use] at hu
      rw [schedule_in_processes_other _ _ _ _ hi] at hr
      exact absurd hr (hnr i hu)
  · intro c hc
    rw [hs.2.2.1] at hc
    have := Option.some.inj hc
    subst this
    refine ⟨by rw [schedule_in_in_use, hnext], ?_⟩
    rw [schedule_in_processes_same]
  · intro i hu
    by_cases hi : i = next
    · subst hi
      rw [schedule_in_processes_same]
      simp
    · rw [schedule_in_in_use] at hu
      rw [schedule_in_processes_other _ _ _ _ hi]
      exact hnb i hu
  · intro n hn
    have hn1 := hnodes n (hsub n hn)
    refine ⟨by rw [schedule_in_in_use]; exact hn1.1, ?_⟩
    intro hn0
    refine ⟨by rw [schedule_in_vruntime]; exact hn1.2 hn0, ?_⟩
    rw [hs.2.2.1]
    intro he
    have he2 : next = n.process := Option.some.inj he
    by_cases hnx : next = 0
    · exact hn0 (by rw [← he2, hnx])
    · exact hgone hnx n hn he2.symm

/-- The first half of the switch, from a state that satisfies the invariant: nobody
is RUNNING afterwards, and the outgoing process, if there is one, has been inserted
in the run queue under its new vruntime. -/
theorem schedule_out_inv (k : kernel) (a : Nat) (h : sched_inv k) :
    (schedule_out k a).scheduler.scheduler_enabled = true ∧
    (schedule_out k a).scheduler.idle_process = some 0 ∧
    (∀ i, ((schedule_out k a).processes i).in_use = (k.processes i).in_use) ∧
    (∀ i, ((schedule_out k a).processes i).in_use = true →
      ((schedule_out k a).processes i).state ≠ PROCESS_RUNNING) ∧
    (∀ i, ((schedule_out k a).processes i).in_use = true →
      ((schedule_out k a).processes i).state ≠ PROCESS_BLOCKED) ∧
    (∀ n, n ∈ (schedule_out k a).scheduler.cfs_runqueue →
      ((schedule_out k a).processes n.process).in_use = true ∧
      (n.process ≠ 0 → n.key = ((schedule_out k a).processes n.process).vruntime)) ∧
    rq_distinct (schedule_out k a).scheduler.cfs_runqueue ∧
    (∀ i, k.scheduler.current_process ≠ some i →
      (schedule_out k a).processes i = k.processes i) ∧
    (schedule_out k a).scheduler.cfs_runqueue
      = (match k.scheduler.current_process with
         | none => k.scheduler.cfs_runqueue
         | some pv => rb_insert k.scheduler.cfs_runqueue pv
                        ((schedule_out k a).processes pv).vruntime) ∧
    (∀ n, n ∈ (schedule_out k a).scheduler.cfs_runqueue → n.process ≠ 0 →
      ((schedule_out k a).processes n.process).state = PROCESS_READY) := by
  cases hc : k.scheduler.current_process with
  | none =>
    have e : schedule_out k a = k :=
      schedule_out_idle k a (by intro pv hpv; rw [hc] at hpv; cases hpv)
    rw [e]
    refine ⟨h.enabled, h.idle, fun _ => rfl, ?_, h.none_blocked, ?_, h.distinct,
      fun _ _ => rfl, rfl, h.ready⟩
    · intro i hu hr
      have := h.running_is_current i hu hr
      rw [hc] at this
      cases this
    · intro n hn
      exact ⟨(h.nodes n hn).1, fun hn0 => ((h.nodes n hn).2 hn0).1⟩
  | some pv =>
    have hrun := (h.current_is_running pv hc).2
    have hpu := (h.current_is_running pv hc).1
    have e := schedule_out_running k a pv hc hrun
    rw [e]
    generalize hd : sub_u64 a (k.processes pv).exec_start = d
    have hkb_other : ∀ i, i ≠ pv →
        ((update_vruntime k pv d).set_proc pv (fun p =>
          { p with total_cpu_time := u64 (p.total_cpu_time + d), state := PROCESS_READY })).processes i
          = k.processes i := by
      intro i hi
      rw [set_proc_processes_other _ _ _ _ hi, update_vruntime_other _ _ _ _ hi]
    have hother : ∀ i, i ≠ pv →
        (cfs_enqueue_task ((update_vruntime k pv d).set_proc pv (fun p =>
          { p with total_cpu_time := u64 (p.total_cpu_time + d), state := PROCESS_READY })) pv
          ).processes i = k.processes i := by
      intro i hi
      rw [cfs_enqueue_task_processes_other _ _ _ hi, hkb_other i hi]
    have hinuse : ∀ i,
        ((cfs_enqueue_task ((update_vruntime k pv d).set_proc pv (fun p =>
          { p with total_cpu_time := u64 (p.total_cpu_time + d), state := PROCESS_READY })) pv
          ).processes i).in_use = (k.processes i).in_use := by
      intro i
      rw [cfs_enqueue_task_in_use,
        set_proc_in_use _ pv i
          (fun p => { p with total_cpu_time := u64 (p.total_cpu_time + d), state := PROCESS_READY })
          (fun _ => rfl),
        update_vruntime_in_use]
    have hq : (cfs_enqueue_task ((update_vruntime k pv d).set_proc pv (fun p =>
          { p with total_cpu_time := u64 (p.total_cpu_time + d), state := PROCESS_READY })) pv
          ).scheduler.cfs_runqueue
        = rb_insert k.scheduler.cfs_runqueue pv
            ((cfs_enqueue_task ((update_vruntime k pv d).set_proc pv (fun p =>
              { p with total_cpu_time := u64 (p.total_cpu_time + d), state := PROCESS_READY })) pv
              ).processes pv).vruntime := by
      rw [cfs_enqueue_task_runqueue, cfs_enqueue_task_vruntime]
      simp [(update_vruntime_scheduler k pv d).2.2.2]
    have hsch := cfs_enqueue_task_scheduler ((update_vruntime k pv d).set_proc pv (fun p =>
          { p with total_cpu_time := u64 (p.total_cpu_time + d), state := PROCESS_READY })) pv
    have hus := update_vruntime_scheduler k pv d
    refine ⟨?_, ?_, hinuse, ?_, ?_, ?_, ?_, ?_, hq, ?_⟩
    rotate_right
    · intro n hn hn0
      rw [hq, mem_rb_insert] at hn
      rcases hn with hn | hn
      · subst hn
        exact cfs_enqueue_task_state _ _
      · have hne : n.process ≠ pv := by
          intro he
          have := ((h.nodes n hn).2 hn0).2
          rw [hc, he] at this
          exact this rfl
        rw [hother _ hne]
        exact h.ready n hn hn0
    · rw [hsch.1]
      simp [hus.1, h.enabled]
    · rw [hsch.2.1]
      simp [hus.2.1, h.idle]
    · intro i hu hr
      by_cases hi : i = pv
      · subst hi
        rw [cfs_enqueue_task_state] at hr
        cases hr
      · rw [hinuse] at hu
        rw [hother i hi] at hr
        have := h.running_is_current i hu hr
        rw [hc] at this
        exact hi (Option.some.inj this).symm
    · intro i hu
      by_cases hi : i = pv
      · subst hi
        rw [cfs_enqueue_task_state]
        simp
      · rw [hinuse] at hu
        rw [hother i hi]
        exact h.none_blocked i hu
    · intro n hn
      rw [hq, mem_rb_insert] at hn
      rcases hn with hn | hn
      · subst hn
        exact ⟨by rw [hinuse]; exact hpu, fun _ => rfl⟩
      · have hn1 := h.nodes n hn
        refine ⟨by rw [hinuse]; exact hn1.1, ?_⟩
        intro hn0
        have hne : n.process ≠ pv := by
          intro he
          have := (hn1.2 hn0).2
          rw [hc, he] at this
          exact this rfl
        rw [hother _ hne]
        exact (hn1.2 hn0).1
    · rw [hq]
      apply rq_distinct_rb_insert _ _ _ h.distinct
      intro n hn hnp
      by_contra hp0
      have hn0 : n.process ≠ 0 := by rw [hnp]; exact hp0
      have := ((h.nodes n hn).2 hn0).2
      rw [hc, hnp] at this
      exact this rfl
    · intro i hi
      exact hother i (fun he => hi (by rw [he]))

/-- What `schedule()` does in a state that satisfies the invariant: it keeps the
invariant, and the process it leaves as current is the process of the first node of
the run queue, or the idle process when the run queue is empty. -/
theorem schedule_inv (k : kernel) (a b : Nat) (h : sched_inv k) :
    sched_inv (schedule k a b) ∧
    (k.scheduler.cfs_runqueue = [] → (schedule k a b).scheduler.current_process = some 0) ∧
    (∀ hd tl, k.scheduler.cfs_runqueue = hd :: tl →
      (schedule k a b).scheduler.current_process = some hd.process) := by
  have hex : ∃ next, schedule_next k = some next ∧
      (k.scheduler.cfs_runqueue = [] → next = 0) ∧
      (∀ hd tl, k.scheduler.cfs_runqueue = hd :: tl → next = hd.process) := by
    rw [schedule_next_eq k h.idle]
    cases hq : k.scheduler.cfs_runqueue with
    | nil =>
      refine ⟨0, rfl, ?_, ?_⟩
      · intro _
        rfl
      · intro hd tl hc
        cases hc
    | cons n rest =>
      refine ⟨n.process, rfl, ?_, ?_⟩
      · intro hc
        cases hc
      · intro hd tl hc
        cases hc
        rfl
  obtain ⟨next, hsn, hnil, hcons⟩ := hex
  rw [schedule_eq]
  simp only [h.enabled, Bool.not_true, Bool.false_eq_true, if_false, hsn]
  by_cases hcn : k.scheduler.current_process = some next
  · rw [if_pos hcn]
    refine ⟨h, ?_, ?_⟩
    · intro hq
      rw [hcn, hnil hq]
    · intro hd tl hq
      rw [hcn, hcons hd tl hq]
  · rw [if_neg hcn]
    obtain ⟨o1, o2, o3, o4, o5, o6, o7, o8, o9, o10⟩ := schedule_out_inv k a h
    have hs := schedule_in_scheduler (schedule_out k a) next b
    refine ⟨?_, fun hq => by rw [hs.2.2.1, hnil hq],
      fun hd tl hq => by rw [hs.2.2.1, hcons hd tl hq]⟩
    have hnext_use : (k.processes next).in_use = true := by
      cases hq : k.scheduler.cfs_runqueue with
      | nil =>
        rw [hnil hq]
        exact h.idle_in_use
      | cons n rest =>
        rw [hcons n rest hq]
        exact (h.nodes n (by rw [hq]; exact List.mem_cons_self _ _)).1
    have hqsub : ∀ n, n ∈ (schedule_in (schedule_out k a) next b).scheduler.cfs_runqueue →
        n ∈ (schedule_out k a).scheduler.cfs_runqueue := by
      intro n hn
      rw [hs.2.2.2] at hn
      split at hn
      · exact (rb_remove_sublist _ _).subset hn
      · exact hn
    have hqdist : rq_distinct (schedule_in (schedule_out k a) next b).scheduler.cfs_runqueue := by
      rw [hs.2.2.2]
      split
      · exact List.Pairwise.sublist (rb_remove_sublist _ _) o7
      · exact o7
    refine schedule_in_inv (schedule_out k a) next b o1 o2 (by rw [o3]; exact h.idle_in_use)
      o4 o5 o6 (by rw [o3]; exact hnext_use) hqsub hqdist ?_ o10
    intro hn0 n hn
    -- `next` is not the idle process: it is the process of the head node
    cases hq : k.scheduler.cfs_runqueue with
    | nil => exact absurd (hnil hq) hn0
    | cons hd tl =>
      have hnx : hd.process = next := (hcons hd tl hq).symm
      have hhd := h.nodes hd (by rw [hq]; exact List.mem_cons_self _ _)
      have hhd0 : hd.process ≠ 0 := by rw [hnx]; exact hn0
      have hkey : ((schedule_out k a).processes next).vruntime = hd.key := by
        rw [o8 next hcn, ← hnx]
        exact ((hhd.2 hhd0).1).symm
      have htl : ∀ m, m ∈ tl → m.process ≠ next := by
        intro m hm he
        have hd2 := h.distinct
        rw [hq] at hd2
        unfold rq_distinct at hd2
        rw [List.pairwise_cons] at hd2
        exact hhd0 (hd2.1 m hm (by rw [hnx, he]))
      have hne : some next ≠ (schedule_out k a).scheduler.idle_process := by
        rw [o2]
        intro he
        exact hn0 (Option.some.inj he)
      rw [hs.2.2.2, if_pos hne, hkey, o9, hq] at hn
      cases hc : k.scheduler.current_process with
      | none =>
        rw [hc] at hn
        dsimp only at hn
        have e : rb_remove (hd :: tl) hd.key = tl := by simp [rb_remove]
        rw [e] at hn
        exact htl n hn
      | some pv =>
        rw [hc] at hn
        dsimp only at hn
        rw [rb_remove_rb_insert_head] at hn
        have hpv : pv ≠ next := by
          intro he
          rw [hc, he] at hcn
          exact hcn rfl
        split at hn
        · rcases List.mem_cons.mp hn with hn | hn
          · rw [hn]
            exact hpv
          · exact htl n hn
        · rcases (mem_rb_insert _ _ _ _).mp hn with hn | hn
          · rw [hn]
            exact hpv
          · exact htl n hn

theorem cfs_enqueue_task_of_ready (k : kernel) (p : Nat)
    (h : (k.processes p).state = PROCESS_READY) :
    cfs_enqueue_task k p
      = { k with scheduler := { k.scheduler with
            cfs_runqueue := rb_insert k.scheduler.cfs_runqueue p (k.processes p).vruntime,
            total_weight := u64 (k.scheduler.total_weight + (k.processes p).weight),
            nr_running := u32 (k.scheduler.nr_running + 1) } } := by
  unfold cfs_enqueue_task
  simp [h]

/-- The invariant holds after `scheduler_init`, whatever the state before, provided
nothing beyond the 256 slots of the table is marked in use. -/
theorem scheduler_init_inv (k0 : kernel)
    (h : ∀ i, MAX_PROCESSES ≤ i → (k0.processes i).in_use = false) :
    sched_inv (scheduler_init k0) := by
  have hp : ∀ i, ((scheduler_init k0).processes i).in_use = true → i = 0 := by
    intro i hi
    by_contra hne
    unfold scheduler_init create_idle_process at hi
    simp only [kernel.set_proc, Function.update, hne, dite_false] at hi
    by_cases hlt : i < MAX_PROCESSES
    · simp [hlt] at hi
    · simp only [hlt, if_false] at hi
      rw [h i (by omega)] at hi
      cases hi
  have hs0 : ((scheduler_init k0).processes 0).state = PROCESS_READY := by
    unfold scheduler_init create_idle_process
    simp [kernel.set_proc]
  refine ⟨rfl, rfl, ?_, ?_, ?_, ?_, ?_, ?_, ?_⟩
  · unfold scheduler_init create_idle_process
    simp [kernel.set_proc]
  · intro i hu hr
    have := hp i hu
    subst this
    rw [hs0] at hr
    cases hr
  · intro c hc
    cases hc
  · intro i hu
    have := hp i hu
    subst this
    rw [hs0]
    simp
  · intro n hn
    cases hn
  · exact List.Pairwise.nil
  · intro n hn
    cases hn

/-- `process_create` keeps the invariant. -/
theorem process_create_inv (k : kernel) (priority now : Nat) (h : sched_inv k) :
    sched_inv (process_create k priority now).2 := by
  unfold process_create
  cases hf : first_index 1 MAX_PROCESSES (fun i => !(k.processes i).in_use) with
  | none => exact h
  | some j =>
    have hj := (first_index_eq_some _ _ _ _).mp hf
    have hj0 : j ≠ 0 := by omega
    have hju : (k.processes j).in_use = false := by simpa using hj.2.2.1
    dsimp only
    rw [cfs_enqueue_task_of_ready _ _ (by simp)]
    have hoth : ∀ i, i ≠ j → ∀ f : process → process,
        (({ k with scheduler := { k.scheduler with
            next_pid := u32 (k.scheduler.next_pid + 1) } } : kernel).set_proc j f).processes i
          = k.processes i := by
      intro i hi f
      rw [set_proc_processes_other _ _ _ _ hi]
    refine ⟨h.enabled, h.idle, ?_, ?_, ?_, ?_, ?_, ?_, ?_⟩
    rotate_right
    · intro n hn hn0
      dsimp only at hn ⊢
      rw [mem_rb_insert] at hn
      rcases hn with hn | hn
      · subst hn
        simp
      · have hn1 := h.nodes n hn
        have hnj : n.process ≠ j := by
          intro he
          rw [he, hju] at hn1
          cases hn1.1
        rw [hoth _ hnj]
        exact h.ready n hn hn0
    · dsimp only
      rw [hoth 0 (Ne.symm hj0)]
      exact h.idle_in_use
    · intro i hu hr
      dsimp only at hu hr ⊢
      by_cases hi : i = j
      · subst hi
        simp at hr
      · rw [hoth i hi] at hu hr
        exact h.running_is_current i hu hr
    · intro c hc
      dsimp only at hc ⊢
      have hcu := h.current_is_running c hc
      have hcj : c ≠ j := by
        intro he
        rw [he, hju] at hcu
        cases hcu.1
      rw [hoth c hcj]
      exact hcu
    · intro i hu
      dsimp only at hu ⊢
      by_cases hi : i = j
      · subst hi
        simp
      · rw [hoth i hi] at hu ⊢
        exact h.none_blocked i hu
    · intro n hn
      dsimp only at hn ⊢
      rw [mem_rb_insert] at hn
      rcases hn with hn | hn
      · subst hn
        dsimp only
        refine ⟨by simp, fun _ => ⟨rfl, ?_⟩⟩
        intro hc
        have hcu := h.current_is_running j hc
        rw [hju] at hcu
        cases hcu.1
      · have hn1 := h.nodes n hn
        have hnj : n.process ≠ j := by
          intro he
          rw [he, hju] at hn1
          cases hn1.1
        rw [hoth _ hnj]
        exact hn1
    · dsimp only
      apply rq_distinct_rb_insert _ _ _ h.distinct
      intro n hn he
      have hn1 := h.nodes n hn
      rw [he, hju] at hn1
      cases hn1.1

/-- The second half of the switch does not read the outgoing current process. -/
theorem schedule_in_current_irrelevant (k : kernel) (c : Option Nat) (next b : Nat) :
    schedule_in { k with scheduler := { k.scheduler with current_process := c } } next b
      = schedule_in k next b := by
  unfold schedule_in cfs_dequeue_task kernel.set_proc
  dsimp only
  split <;> rfl

/-- With no in-use process BLOCKED, `signal_send` at most sets a pending bit. -/
theorem signal_send_none_blocked (k : kernel) (pid sig : Nat)
    (h : ∀ i, (k.processes i).in_use = true → (k.processes i).state ≠ PROCESS_BLOCKED) :
    (signal_send k pid sig).2 = k ∨
    ∃ t, (signal_send k pid sig).2 = k.set_proc t (fun p =>
      { p with pending_signals := u32 (p.pending_signals ||| (1 <<< sig)) }) := by
  unfold signal_send
  cases hg : get_process_by_pid k pid with
  | none => exact Or.inl rfl
  | some t =>
    right
    refine ⟨t, ?_⟩
    have ht := (first_index_eq_some _ _ _ _).mp hg
    have hu : (k.processes t).in_use = true := by
      have := ht.2.2.1
      simp only [Bool.and_eq_true] at this
      exact this.1
    dsimp only
    rw [if_neg]
    simp only [kernel.set_proc, Function.update_same]
    exact h t hu

/-- The state in which `process_exit` calls `schedule()`, from a state satisfying the
invariant with a non-idle current process `proc`: the process is a ZOMBIE, the run
queue has lost at most one node, and nothing else that the scheduler reads changed. -/
theorem process_exit_state (k : kernel) (c a b proc : Nat) (h : sched_inv k)
    (hc : k.scheduler.current_process = some proc) (hi : proc ≠ 0) :
    ∃ k3 : kernel,
      process_exit k c a b = schedule k3 a b ∧
      k3.scheduler.current_process = some proc ∧
      k3.scheduler.scheduler_enabled = true ∧
      k3.scheduler.idle_process = some 0 ∧
      k3.scheduler.cfs_runqueue
        = rb_remove k.scheduler.cfs_runqueue (k.processes proc).vruntime ∧
      (k3.processes proc).state = PROCESS_ZOMBIE ∧
      (∀ i, (k3.processes i).vruntime = (k.processes i).vruntime) ∧
      (∀ i, (k3.processes i).in_use = (k.processes i).in_use) ∧
      (∀ i, i ≠ proc → (k3.processes i).state = (k.processes i).state) := by
  have hidle : some proc ≠ k.scheduler.idle_process := by
    rw [h.idle]
    intro he
    cases he
    exact hi rfl
  have hk2 : ∀ i, ((cfs_dequeue_task (k.set_proc proc (fun p =>
      { p with state := PROCESS_ZOMBIE, exit_code := c })) proc).processes i).in_use = true →
      ((cfs_dequeue_task (k.set_proc proc (fun p =>
      { p with state := PROCESS_ZOMBIE, exit_code := c })) proc).processes i).state
        ≠ PROCESS_BLOCKED := by
    intro i hu
    rw [cfs_dequeue_task_processes] at hu ⊢
    by_cases hip : i = proc
    · subst hip
      simp
    · rw [set_proc_processes_other _ _ _ _ hip] at hu ⊢
      exact h.none_blocked i hu
  have base : ∀ k3 : kernel,
      (k3 = cfs_dequeue_task (k.set_proc proc (fun p =>
          { p with state := PROCESS_ZOMBIE, exit_code := c })) proc ∨
       ∃ t sig, k3 = (cfs_dequeue_task (k.set_proc proc (fun p =>
          { p with state := PROCESS_ZOMBIE, exit_code := c })) proc).set_proc t (fun p =>
            { p with pending_signals := u32 (p.pending_signals ||| (1 <<< sig)) })) →
      k3.scheduler.current_process = some proc ∧
      k3.scheduler.scheduler_enabled = true ∧
      k3.scheduler.idle_process = some 0 ∧
      k3.scheduler.cfs_runqueue
        = rb_remove k.scheduler.cfs_runqueue (k.processes proc).vruntime ∧
      (k3.processes proc).state = PROCESS_ZOMBIE ∧
      (∀ i, (k3.processes i).vruntime = (k.processes i).vruntime) ∧
      (∀ i, (k3.processes i).in_use = (k.processes i).in_use) ∧
      (∀ i, i ≠ proc → (k3.processes i).state = (k.processes i).state) := by
    intro k3 hk3
    rcases hk3 with e | ⟨t, sig, e⟩
    · subst e
      refine ⟨hc, h.enabled, h.idle, ?_, ?_, ?_, ?_, ?_⟩
      · simp [cfs_dequeue_task, kernel.set_proc]
      · simp [cfs_dequeue_task, kernel.set_proc]
      · intro i
        rw [cfs_dequeue_task_processes]
        exact set_proc_vruntime k proc i
          (fun p => { p with state := PROCESS_ZOMBIE, exit_code := c }) (fun _ => rfl)
      · intro i
        rw [cfs_dequeue_task_processes]
        exact set_proc_in_use k proc i
          (fun p => { p with state := PROCESS_ZOMBIE, exit_code := c }) (fun _ => rfl)
      · intro i hip
        rw [cfs_dequeue_task_processes, set_proc_processes_other _ _ _ _ hip]
    · subst e
      refine ⟨hc, h.enabled, h.idle, ?_, ?_, ?_, ?_, ?_⟩
      · simp [cfs_dequeue_task, kernel.set_proc]
      · by_cases htp : proc = t
        · subst htp
          simp [cfs_dequeue_task, kernel.set_proc]
        · rw [set_proc_processes_other _ _ _ _ htp]
          simp [cfs_dequeue_task, kernel.set_proc]
      · intro i
        rw [set_proc_vruntime _ t i
          (fun p => { p with pending_signals := u32 (p.pending_signals ||| (1 <<< sig)) })
          (fun _ => rfl), cfs_dequeue_task_processes]
        exact set_proc_vruntime k proc i
          (fun p => { p with state := PROCESS_ZOMBIE, exit_code := c }) (fun _ => rfl)
      · intro i
        rw [set_proc_in_use _ t i
          (fun p => { p with pending_signals := u32 (p.pending_signals ||| (1 <<< sig)) })
          (fun _ => rfl), cfs_dequeue_task_processes]
        exact set_proc_in_use k proc i
          (fun p => { p with state := PROCESS_ZOMBIE, exit_code := c }) (fun _ => rfl)
      · intro i hip
        by_cases hit : i = t
        · subst hit
          simp [kernel.set_proc, cfs_dequeue_task, Function.update, hip]
        · rw [set_proc_processes_other _ _ _ _ hit, cfs_dequeue_task_processes,
            set_proc_processes_other _ _ _ _ hip]
  unfold process_exit
  rw [hc]
  dsimp only
  rw [if_neg hidle]
  split
  · rename_i par hpar
    refine ⟨_, rfl, base _ ?_⟩
    rcases signal_send_none_blocked _ ((cfs_dequeue_task (k.set_proc proc (fun p =>
      { p with state := PROCESS_ZOMBIE, exit_code := c })) proc).processes par).pid SIGCHLD hk2
      with e | ⟨t, e⟩
    · exact Or.inl e
    · exact Or.inr ⟨t, SIGCHLD, e⟩
  · exact ⟨_, rfl, base _ (Or.inl rfl)⟩

/-- `process_exit` keeps the invariant. -/
theorem process_exit_inv (k : kernel) (c a b : Nat) (h : sched_inv k) :
    sched_inv (process_exit k c a b) := by
  cases hc : k.scheduler.current_process with
  | none =>
    have : process_exit k c a b = k := by
      unfold process_exit
      rw [hc]
    rw [this]
    exact h
  | some proc =>
    by_cases hi : proc = 0
    · have : process_exit k c a b = k := by
        unfold process_exit
        rw [hc]
        dsimp only
        rw [if_pos (by rw [h.idle, hi])]
      rw [this]
      exact h
    · obtain ⟨k3, he, hcur, hen, hid, hq, hz, hv, hu, hst⟩ :=
        process_exit_state k c a b proc h hc hi
      have hsub := rb_remove_sublist k.scheduler.cfs_runqueue (k.processes proc).vruntime
      have hinv : sched_inv
          { k3 with scheduler := { k3.scheduler with current_process := none } } := by
        refine ⟨hen, hid, ?_, ?_, ?_, ?_, ?_, ?_, ?_⟩
        rotate_right
        · intro n hn hn0
          change n ∈ k3.scheduler.cfs_runqueue at hn
          rw [hq] at hn
          show (k3.processes n.process).state = PROCESS_READY
          have hne : n.process ≠ proc := by
            intro he
            have := ((h.nodes n (hsub.subset hn)).2 hn0).2
            rw [hc, he] at this
            exact this rfl
          rw [hst _ hne]
          exact h.ready n (hsub.subset hn) hn0
        · show (k3.processes 0).in_use = true
          rw [hu]
          exact h.idle_in_use
        · intro i hiu hr
          exfalso
          change (k3.processes i).in_use = true at hiu
          change (k3.processes i).state = PROCESS_RUNNING at hr
          by_cases hip : i = proc
          · subst hip
            rw [hz] at hr
            cases hr
          · rw [hu] at hiu
            rw [hst i hip] at hr
            have := h.running_is_current i hiu hr
            rw [hc] at this
            cases this
            exact hip rfl
        · intro c0 hc0
          cases hc0
        · intro i hiu
          change (k3.processes i).in_use = true at hiu
          show (k3.processes i).state ≠ PROCESS_BLOCKED
          by_cases hip : i = proc
          · subst hip
            rw [hz]
            simp
          · rw [hu] at hiu
            rw [hst i hip]
            exact h.none_blocked i hiu
        · intro n hn
          change n ∈ k3.scheduler.cfs_runqueue at hn
          rw [hq] at hn
          have hn1 := h.nodes n (hsub.subset hn)
          show (k3.processes n.process).in_use = true ∧
            (n.process ≠ 0 → n.key = (k3.processes n.process).vruntime ∧
              (none : Option Nat) ≠ some n.process)
          rw [hu, hv]
          exact ⟨hn1.1, fun h0 => ⟨(hn1.2 h0).1, by simp⟩⟩
        · show rq_distinct k3.scheduler.cfs_runqueue
          rw [hq]
          exact List.Pairwise.sublist hsub h.distinct
      obtain ⟨next, hnext, hnil, hcons⟩ : ∃ next, schedule_next k3 = some next ∧
          (k3.scheduler.cfs_runqueue = [] → next = 0) ∧
          (∀ hd tl, k3.scheduler.cfs_runqueue = hd :: tl → next = hd.process) := by
        rw [schedule_next_eq k3 hid]
        cases hq3 : k3.scheduler.cfs_runqueue with
        | nil =>
          refine ⟨0, rfl, ?_, ?_⟩
          · intro _
            rfl
          · intro hd tl hc0
            cases hc0
        | cons n rest =>
          refine ⟨n.process, rfl, ?_, ?_⟩
          · intro hc0
            cases hc0
          · intro hd tl hc0
            cases hc0
            rfl
      have hnp : next ≠ proc := by
        cases hq3 : k3.scheduler.cfs_runqueue with
        | nil =>
          rw [hnil hq3]
          exact Ne.symm hi
        | cons n rest =>
          rw [hcons n rest hq3]
          have hmem : n ∈ k.scheduler.cfs_runqueue := by
            apply hsub.subset
            rw [← hq, hq3]
            exact List.mem_cons_self _ _
          by_cases h0 : n.process = 0
          · rw [h0]
            exact Ne.symm hi
          · have := ((h.nodes n hmem).2 h0).2
            rw [hc] at this
            intro he2
            exact this (by rw [he2])
      have hnext2 : schedule_next
          { k3 with scheduler := { k3.scheduler with current_process := none } }
            = some next := by
        rw [← hnext]
        rfl
      have e1 : schedule k3 a b = schedule_in k3 next b := by
        rw [schedule_eq, hen, hnext, hcur]
        dsimp only
        rw [if_neg (by simp), if_neg (by
          intro he2
          cases he2
          exact hnp rfl)]
        rw [schedule_out_idle]
        intro pv hpv
        rw [hcur] at hpv
        cases hpv
        rw [hz]
        simp
      have e2 : schedule { k3 with scheduler := { k3.scheduler with current_process := none } }
          a b = schedule_in k3 next b := by
        rw [schedule_eq, hnext2]
        dsimp only
        rw [if_neg (by rw [hen]; simp), if_neg (by simp)]
        rw [schedule_out_idle _ _ (by
          intro pv hpv
          cases hpv)]
        exact schedule_in_current_irrelevant k3 none next b
      rw [he, e1, ← e2]
      exact (schedule_inv _ a b hinv).1

/-- Every call keeps the invariant. -/
theorem sched_step_inv (k : kernel) (op : sched_op) (h : sched_inv k) :
    sched_inv (sched_step k op) := by
  cases op with
  | create priority now => exact process_create_inv k priority now h
  | sched a b => exact (schedule_inv k a b h).1
  | exit c a b => exact process_exit_inv k c a b h

/-- Every state reached by a sequence of calls satisfies the invariant. -/
theorem sched_run_inv (ops : List sched_op) (k : kernel) (h : sched_inv k) :
    sched_inv (sched_run k ops) := by
  induction ops generalizing k with
  | nil => exact h
  | cons op rest ih => exact ih (sched_step k op) (sched_step_inv k op h)

/-- C23: after `scheduler_init` (run on any state whose slots beyond the process table
are unused) and any sequence of `process_create`, `schedule` and `process_exit` calls,
at most one process in use is RUNNING; and a `schedule()` call made then returns with
a current process that is in use and RUNNING, is the only RUNNING process, and is the
idle process (slot 0) when the run queue was empty and, more generally, when no process
other than the idle one was READY. -/
theorem one_running_process (k0 : kernel) (ops : List sched_op)
    (h0 : ∀ i, MAX_PROCESSES ≤ i → (k0.processes i).in_use = false) :
    (∀ i j, ((sched_run (scheduler_init k0) ops).processes i).in_use = true →
      ((sched_run (scheduler_init k0) ops).processes j).in_use = true →
      ((sched_run (scheduler_init k0) ops).processes i).state = PROCESS_RUNNING →
      ((sched_run (scheduler_init k0) ops).processes j).state = PROCESS_RUNNING → i = j) ∧
    (∀ a b, ∃ c,
      (schedule (sched_run (scheduler_init k0) ops) a b).scheduler.current_process = some c ∧
      ((schedule (sched_run (scheduler_init k0) ops) a b).processes c).in_use = true ∧
      ((schedule (sched_run (scheduler_init k0) ops) a b).processes c).state
        = PROCESS_RUNNING ∧
      (∀ i, ((schedule (sched_run (scheduler_init k0) ops) a b).processes i).in_use = true →
        ((schedule (sched_run (scheduler_init k0) ops) a b).processes i).state
          = PROCESS_RUNNING → i = c) ∧
      (schedule (sched_run (scheduler_init k0) ops) a b).scheduler.idle_process = some 0 ∧
      ((sched_run (scheduler_init k0) ops).scheduler.cfs_runqueue = [] → c = 0) ∧
      ((∀ i, i ≠ 0 → ((sched_run (scheduler_init k0) ops).processes i).in_use = true →
          ((sched_run (scheduler_init k0) ops).processes i).state ≠ PROCESS_READY) →
        c = 0)) := by
  have hinv := sched_run_inv ops (scheduler_init k0) (scheduler_init_inv k0 h0)
  generalize sched_run (scheduler_init k0) ops = k at hinv ⊢
  constructor
  · intro i j hi hj hri hrj
    have e1 := hinv.running_is_current i hi hri
    have e2 := hinv.running_is_current j hj hrj
    rw [e1] at e2
    exact Option.some.inj e2
  · intro a b
    obtain ⟨hs, hnil, hcons⟩ := schedule_inv k a b hinv
    have main : ∀ c, (schedule k a b).scheduler.current_process = some c →
        (k.scheduler.cfs_runqueue = [] → c = 0) →
        ((∀ i, i ≠ 0 → (k.processes i).in_use = true →
          (k.processes i).state ≠ PROCESS_READY) → c = 0) →
        ∃ c,
          (schedule k a b).scheduler.current_process = some c ∧
          ((schedule k a b).processes c).in_use = true ∧
          ((schedule k a b).processes c).state = PROCESS_RUNNING ∧
          (∀ i, ((schedule k a b).processes i).in_use = true →
            ((schedule k a b).processes i).state = PROCESS_RUNNING → i = c) ∧
          (schedule k a b).scheduler.idle_process = some 0 ∧
          (k.scheduler.cfs_runqueue = [] → c = 0) ∧
          ((∀ i, i ≠ 0 → (k.processes i).in_use = true →
              (k.processes i).state ≠ PROCESS_READY) → c = 0) := by
      intro c hc h1 h2
      refine ⟨c, hc, (hs.current_is_running c hc).1, (hs.current_is_running c hc).2, ?_,
        hs.idle, h1, h2⟩
      intro i hi hr
      have := hs.running_is_current i hi hr
      rw [hc] at this
      exact (Option.some.inj this).symm
    by_cases hq0 : k.scheduler.cfs_runqueue = []
    · exact main 0 (hnil hq0) (fun _ => rfl) (fun _ => rfl)
    · obtain ⟨hd, tl, hq⟩ := List.exists_cons_of_ne_nil hq0
      refine main hd.process (hcons hd tl hq) ?_ ?_
      · intro hc
        exact absurd hc hq0
      · intro hno
        by_contra hne
        have hmem : hd ∈ k.scheduler.cfs_runqueue := by
          rw [hq]
          exact List.mem_cons_self _ _
        exact hno hd.process hne (hinv.nodes hd hmem).1 (hinv.ready hd hmem hne)

/-- Witness for C23: process A is created and scheduled, then exits; the `schedule()`
call after that leaves a RUNNING current process. -/
theorem one_running_process_witness :
    (∀ i, MAX_PROCESSES ≤ i → (kernel.zero.processes i).in_use = false) ∧
    ∃ c, (schedule (sched_run (scheduler_init kernel.zero)
            [sched_op.create 2 0, sched_op.sched 0 0, sched_op.exit 0 5000 5000])
            9000 9000).scheduler.current_process = some c ∧
      ((schedule (sched_run (scheduler_init kernel.zero)
            [sched_op.create 2 0, sched_op.sched 0 0, sched_op.exit 0 5000 5000])
            9000 9000).processes c).state = PROCESS_RUNNING := by
  refine ⟨fun _ _ => rfl, ?_⟩
  obtain ⟨c, h1, _, h3, _⟩ := (one_running_process kernel.zero
    [sched_op.create 2 0, sched_op.sched 0 0, sched_op.exit 0 5000 5000]
    (fun _ _ => rfl)).2 9000 9000
  exact ⟨c, h1, h3⟩

/-! ## A pipe nobody is registered on (C27) -/

@[simp] theorem set_proc_pipes (k : kernel) (i : Nat) (f : process → process) :
    (k.set_proc i f).pipes = k.pipes := rfl

@[simp] theorem cfs_enqueue_task_pipes (k : kernel) (p : Nat) :
    (cfs_enqueue_task k p).pipes = k.pipes := by
  unfold cfs_enqueue_task
  split <;> rfl

@[simp] theorem cfs_dequeue_task_pipes (k : kernel) (p : Nat) :
    (cfs_dequeue_task k p).pipes = k.pipes := rfl

@[simp] theorem update_vruntime_pipes (k : kernel) (p d : Nat) :
    (update_vruntime k p d).pipes = k.pipes := by
  unfold update_vruntime
  dsimp only
  split <;> rfl

@[simp] theorem schedule_pipes (k : kernel) (a b : Nat) :
    (schedule k a b).pipes = k.pipes := by
  unfold schedule
  dsimp only
  repeat' split
  all_goals simp

@[simp] theorem signal_send_pipes (k : kernel) (pid sig : Nat) :
    (signal_send k pid sig).2.pipes = k.pipes := by
  unfold signal_send
  dsimp only
  repeat' split
  all_goals simp

@[simp] theorem process_create_pipes (k : kernel) (priority now : Nat) :
    (process_create k priority now).2.pipes = k.pipes := by
  unfold process_create
  dsimp only
  repeat' split
  all_goals simp

@[simp] theorem process_exit_pipes (k : kernel) (c a b : Nat) :
    (process_exit k c a b).pipes = k.pipes := by
  unfold process_exit
  dsimp only
  repeat' split
  all_goals simp

theorem sched_step_pipes (k : kernel) (op : sched_op) :
    (sched_step k op).pipes = k.pipes := by
  cases op with
  | create priority now => exact process_create_pipes k priority now
  | sched a b => exact schedule_pipes k a b
  | exit c a b => exact process_exit_pipes k c a b

/-- A scheduler that has a current process keeps having one through `schedule()`. -/
theorem schedule_keeps_current (k : kernel) (a b : Nat)
    (h : k.scheduler.current_process ≠ none) :
    (schedule k a b).scheduler.current_process ≠ none := by
  rw [schedule_eq]
  repeat' split
  all_goals first
    | exact h
    | (rw [(schedule_in_scheduler _ _ _).2.2.1]
       simp)

theorem process_create_current (k : kernel) (priority now : Nat) :
    (process_create k priority now).2.scheduler.current_process
      = k.scheduler.current_process := by
  unfold process_create
  dsimp only
  repeat' split
  all_goals simp [cfs_enqueue_task_current]

theorem process_exit_keeps_current (k : kernel) (c a b : Nat)
    (h : k.scheduler.current_process ≠ none) :
    (process_exit k c a b).scheduler.current_process ≠ none := by
  cases hc : k.scheduler.current_process with
  | none => exact absurd hc h
  | some proc =>
    by_cases hi : some proc = k.scheduler.idle_process
    · have : process_exit k c a b = k := by
        unfold process_exit
        rw [hc]
        dsimp only
        rw [if_pos hi]
      rw [this, hc]
      simp
    · obtain ⟨k3, he, hcur, _⟩ := process_exit_eq k c a b proc hc hi
      rw [he]
      apply schedule_keeps_current
      rw [hcur]
      simp

theorem sched_step_keeps_current (k : kernel) (op : sched_op)
    (h : k.scheduler.current_process ≠ none) :
    (sched_step k op).scheduler.current_process ≠ none := by
  cases op with
  | create priority now =>
    show (process_create k priority now).2.scheduler.current_process ≠ none
    rw [process_create_current]
    exact h
  | sched a b => exact schedule_keeps_current k a b h
  | exit c a b => exact process_exit_keeps_current k c a b h

/-- What the two pipe calls do on an in-use pipe with no registered reader or writer
and no data, when there is a calling process: `pipe_read` returns 0 with no byte and
changes nothing; `pipe_write` returns -1 and its only effect is
`signal_send(caller's pid, SIGPIPE)`. -/
theorem pipe_calls_on_idle_pipe (k : kernel) (i c : Nat)
    (hu : (k.pipes i).in_use = true) (hr : (k.pipes i).reader_count = 0)
    (hw : (k.pipes i).writer_count = 0) (hd : (k.pipes i).data_size = 0)
    (hc : k.scheduler.current_process = some c) :
    (∀ size, pipe_read k i size = (outcome.returned 0, [], k)) ∧
    (∀ buf, pipe_write k i buf
      = (outcome.returned (-1), (signal_send k (k.processes c).pid SIGPIPE).2)) := by
  constructor
  · intro size
    unfold pipe_read pipe_read_loop
    simp [hu, hd, hw]
  · intro buf
    unfold pipe_write
    simp [hu, hr, hc]

/-- Every call of a run keeps the pipe as it is and keeps a current process. -/
theorem pipe_step_keeps (k : kernel) (i : Nat) (op : pipe_op)
    (hu : (k.pipes i).in_use = true) (hr : (k.pipes i).reader_count = 0)
    (hw : (k.pipes i).writer_count = 0) (hd : (k.pipes i).data_size = 0)
    (hc : k.scheduler.current_process ≠ none) :
    (pipe_step k i op).pipes = k.pipes ∧
    (pipe_step k i op).scheduler.current_process ≠ none := by
  obtain ⟨c, hcc⟩ := Option.ne_none_iff_exists'.mp hc
  have hp := pipe_calls_on_idle_pipe k i c hu hr hw hd hcc
  cases op with
  | read size =>
    show (pipe_read k i size).2.2.pipes = k.pipes ∧
      (pipe_read k i size).2.2.scheduler.current_process ≠ none
    rw [hp.1 size]
    exact ⟨rfl, hc⟩
  | write buf =>
    show (pipe_write k i buf).2.pipes = k.pipes ∧
      (pipe_write k i buf).2.scheduler.current_process ≠ none
    rw [hp.2 buf]
    refine ⟨signal_send_pipes _ _ _, ?_⟩
    show (signal_send k (k.processes c).pid SIGPIPE).2.scheduler.current_process ≠ none
    rw [(signal_send_keeps k (k.processes c).pid SIGPIPE 0).2.2.1]
    exact hc
  | sched s => exact ⟨sched_step_pipes k s, sched_step_keeps_current k s hc⟩

theorem pipe_run_keeps (i : Nat) (ops : List pipe_op) (k : kernel)
    (hu : (k.pipes i).in_use = true) (hr : (k.pipes i).reader_count = 0)
    (hw : (k.pipes i).writer_count = 0) (hd : (k.pipes i).data_size = 0)
    (hc : k.scheduler.current_process ≠ none) :
    (pipe_run k i ops).pipes = k.pipes ∧
    (pipe_run k i ops).scheduler.current_process ≠ none := by
  induction ops generalizing k with
  | nil => exact ⟨rfl, hc⟩
  | cons op rest ih =>
    have h1 := pipe_step_keeps k i op hu hr hw hd hc
    have h2 := ih (pipe_step k i op) (by rw [h1.1]; exact hu) (by rw [h1.1]; exact hr)
      (by rw [h1.1]; exact hw) (by rw [h1.1]; exact hd) h1.2
    show (pipe_run (pipe_step k i op) i rest).pipes = k.pipes ∧ _
    exact ⟨by rw [h2.1, h1.1], h2.2⟩

/-- What a successful `pipe_create` leaves in the slot it returns. -/
theorem pipe_create_spec (k0 : kernel) (rfd wfd i : Nat) (k1 : kernel)
    (h : pipe_create k0 rfd wfd = (0, some i, k1)) :
    (k1.pipes i).in_use = true ∧ (k1.pipes i).reader_count = 0 ∧
    (k1.pipes i).writer_count = 0 ∧ (k1.pipes i).data_size = 0 ∧
    (k1.pipes i).read_pos = 0 ∧ (k1.pipes i).write_pos = 0 ∧
    k1.scheduler = k0.scheduler ∧ k1.processes = k0.processes := by
  unfold pipe_create at h
  cases hf : first_index 0 MAX_PIPES (fun i => !(k0.pipes i).in_use) with
  | none =>
    rw [hf] at h
    simp at h
  | some j =>
    rw [hf] at h
    simp only [Prod.mk.injEq, Option.some.injEq, true_and] at h
    obtain ⟨hj, hk⟩ := h
    subst hj
    subst hk
    simp [kernel.set_pipe]

/-- C27: on the pipe that a successful `pipe_create` initialised, after every sequence
of `pipe_read` and `pipe_write` calls on it, interleaved with any scheduler calls that
change the caller, the pipe is in use with `reader_count`, `writer_count` and
`data_size` all 0; a `pipe_read` of any size made then returns 0, stores no byte and
changes nothing; a `pipe_write` of any buffer made then returns -1, does nothing but
`signal_send(caller's pid, SIGPIPE)`, which leaves every pipe alone and, the pid
being the caller's own, sets bit 13 of the caller's pending signals. -/
theorem fresh_pipe_never_transfers (k0 : kernel) (rfd wfd i : Nat) (k1 : kernel)
    (ops : List pipe_op)
    (hcreate : pipe_create k0 rfd wfd = (0, some i, k1))
    (hcur : k0.scheduler.current_process ≠ none) :
    ((pipe_run k1 i ops).pipes i).in_use = true ∧
    ((pipe_run k1 i ops).pipes i).reader_count = 0 ∧
    ((pipe_run k1 i ops).pipes i).writer_count = 0 ∧
    ((pipe_run k1 i ops).pipes i).data_size = 0 ∧
    (∀ size, pipe_read (pipe_run k1 i ops) i size
      = (outcome.returned 0, [], pipe_run k1 i ops)) ∧
    (∃ c, (pipe_run k1 i ops).scheduler.current_process = some c ∧
      ∀ buf,
        (pipe_write (pipe_run k1 i ops) i buf).1 = outcome.returned (-1) ∧
        (pipe_write (pipe_run k1 i ops) i buf).2
          = (signal_send (pipe_run k1 i ops) ((pipe_run k1 i ops).processes c).pid SIGPIPE).2 ∧
        (pipe_write (pipe_run k1 i ops) i buf).2.pipes = (pipe_run k1 i ops).pipes ∧
        (get_process_by_pid (pipe_run k1 i ops) ((pipe_run k1 i ops).processes c).pid = some c →
          (((pipe_write (pipe_run k1 i ops) i buf).2.processes c).pending_signals).testBit
            SIGPIPE = true)) := by
  obtain ⟨hu, hr, hw, hd, _, _, hs, _⟩ := pipe_create_spec k0 rfd wfd i k1 hcreate
  have hc1 : k1.scheduler.current_process ≠ none := by
    rw [hs]
    exact hcur
  obtain ⟨hp, hc⟩ := pipe_run_keeps i ops k1 hu hr hw hd hc1
  generalize pipe_run k1 i ops = k at hp hc ⊢
  obtain ⟨c, hcc⟩ := Option.ne_none_iff_exists'.mp hc
  have hu2 : (k.pipes i).in_use = true := by rw [hp]; exact hu
  have hr2 : (k.pipes i).reader_count = 0 := by rw [hp]; exact hr
  have hw2 : (k.pipes i).writer_count = 0 := by rw [hp]; exact hw
  have hd2 : (k.pipes i).data_size = 0 := by rw [hp]; exact hd
  have hcalls := pipe_calls_on_idle_pipe k i c hu2 hr2 hw2 hd2 hcc
  refine ⟨hu2, hr2, hw2, hd2, hcalls.1, c, hcc, ?_⟩
  intro buf
  rw [hcalls.2 buf]
  refine ⟨rfl, rfl, signal_send_pipes _ _ _, ?_⟩
  intro hg
  show (((signal_send k (k.processes c).pid SIGPIPE).2.processes c).pending_signals).testBit
    SIGPIPE = true
  rw [(signal_send_spec k _ SIGPIPE c hg).2.1]
  exact testBit_u32_or_shift _ SIGPIPE (by decide)

/-- Witness for C27: process A (slot 1) runs and creates the pipe (slot 0); it writes
one byte and reads, process B is created and scheduled, and B writes two bytes.  The
pipe's `data_size` is still 0 and a read of 4 bytes returns 0. -/
theorem fresh_pipe_never_transfers_witness :
    ((pipe_run fresh_pipe_trace 0
        [pipe_op.write [65], pipe_op.read 1, pipe_op.sched (sched_op.create 2 10),
         pipe_op.sched (sched_op.sched 20 20), pipe_op.write [66, 67]]).pipes 0).data_size = 0 ∧
    (pipe_read (pipe_run fresh_pipe_trace 0
        [pipe_op.write [65], pipe_op.read 1, pipe_op.sched (sched_op.create 2 10),
         pipe_op.sched (sched_op.sched 20 20), pipe_op.write [66, 67]]) 0 4).1
      = outcome.returned 0 :=
  have h := fresh_pipe_never_transfers
    (schedule (process_create kernel.booted PRIORITY_NORMAL 0).2 0 0) 3 4 0 fresh_pipe_trace
    [pipe_op.write [65], pipe_op.read 1, pipe_op.sched (sched_op.create 2 10),
     pipe_op.sched (sched_op.sched 20 20), pipe_op.write [66, 67]]
    (Prod.ext (by decide) (Prod.ext (by decide) rfl)) (by decide)
  ⟨h.2.2.2.1, by rw [h.2.2.2.2.1 4]⟩

/-! ## The pipe ring is a FIFO (C28) -/

/-- C28, evaluated on the code for N = 0: on the empty in-use pipe 0 with one reader
and one writer registered, `pipe_write` of 0 bytes returns 0 and keeps the cursor
relation, but the `pipe_read` of 1 byte that follows does not return `min 1 0 = 0`:
the buffer is empty and a writer is registered, so the caller is put on the reader
list, BLOCKED. -/
theorem pipe_read_after_empty_write_blocks :
    (pipe_both_waiting_state.pipes 0).in_use = true ∧
    (pipe_both_waiting_state.pipes 0).data_size = 0 ∧
    (pipe_both_waiting_state.pipes 0).read_pos = (pipe_both_waiting_state.pipes 0).write_pos ∧
    (pipe_both_waiting_state.pipes 0).reader_count = 1 ∧
    (pipe_write pipe_both_waiting_state 0 []).1 = outcome.returned 0 ∧
    (pipe_read (pipe_write pipe_both_waiting_state 0 []).2 0 1).1 = outcome.blocked ∧
    ((pipe_read (pipe_write pipe_both_waiting_state 0 []).2 0 1).2.2.processes 1).state
      = PROCESS_BLOCKED := by
  decide

theorem wake_fold_pipes (list : Nat → Nat) (xs : List Nat) :
    ∀ k : kernel,
      (xs.foldl
        (fun acc i => cfs_enqueue_task
          (acc.set_proc (list i) (fun p => { p with state := PROCESS_READY })) (list i)) k
        ).pipes = k.pipes := by
  induction xs with
  | nil => intro k; rfl
  | cons x xs ih =>
    intro k
    rw [List.foldl_cons, ih]
    simp

@[simp] theorem wake_all_pipes (k : kernel) (list : Nat → Nat) (count : Nat) :
    (wake_all k list count).pipes = k.pipes := by
  unfold wake_all
  exact wake_fold_pipes list _ k

/-- Reading one byte takes the head of the contents. -/
theorem pipe_contents_cons (p : pipe) (hr : p.read_pos < 4096) (hd : 0 < p.data_size) :
    pipe_contents p
      = p.buffer p.read_pos ::
        pipe_contents { p with read_pos := (p.read_pos + 1) % PIPE_BUFFER_SIZE,
                               data_size := p.data_size - 1 } := by
  unfold pipe_contents
  obtain ⟨d, hd2⟩ : ∃ d, p.data_size = d + 1 := ⟨p.data_size - 1, by omega⟩
  simp only [hd2, Nat.add_sub_cancel, PIPE_BUFFER_SIZE]
  rw [List.range_succ_eq_map, List.map_cons, List.map_map]
  have e0 : (p.read_pos + 0) % 4096 = p.read_pos := by omega
  rw [e0]
  congr 1
  apply List.map_congr_left
  intro j _
  have e : (p.read_pos + (j + 1)) % 4096 = ((p.read_pos + 1) % 4096 + j) % 4096 := by omega
  simp [e]

/-- Writing one byte appends it to the contents. -/
theorem pipe_contents_snoc (p : pipe) (b : Nat)
    (hw : p.write_pos = (p.read_pos + p.data_size) % 4096) (hd : p.data_size < 4096) :
    pipe_contents { p with buffer := Function.update p.buffer p.write_pos b,
                           write_pos := (p.write_pos + 1) % PIPE_BUFFER_SIZE,
                           data_size := p.data_size + 1 }
      = pipe_contents p ++ [b] := by
  unfold pipe_contents
  simp only [PIPE_BUFFER_SIZE]
  rw [List.range_succ, List.map_append, List.map_singleton]
  congr 1
  · apply List.map_congr_left
    intro j hj
    have hj2 : j < p.data_size := List.mem_range.mp hj
    have hne : (p.read_pos + j) % 4096 ≠ p.write_pos := by omega
    simp [Function.update, hne]
  · rw [← hw]
    simp

/-- The copy loop of `pipe_write` on a ring with room for the whole buffer. -/
theorem pipe_write_bytes_spec (buf : List Nat) :
    ∀ p : pipe, p.write_pos = (p.read_pos + p.data_size) % 4096 →
      p.data_size + buf.length ≤ 4096 →
      (pipe_write_bytes buf p).1 = buf.length ∧
      (pipe_write_bytes buf p).2.data_size = p.data_size + buf.length ∧
      (pipe_write_bytes buf p).2.read_pos = p.read_pos ∧
      (pipe_write_bytes buf p).2.write_pos
        = (p.read_pos + (p.data_size + buf.length)) % 4096 ∧
      (pipe_write_bytes buf p).2.in_use = p.in_use ∧
      (pipe_write_bytes buf p).2.writer_count = p.writer_count ∧
      pipe_contents (pipe_write_bytes buf p).2 = pipe_contents p ++ buf := by
  induction buf with
  | nil =>
    intro p hw _
    simp [pipe_write_bytes, hw]
  | cons b rest ih =>
    intro p hw hlen
    have hlen2 : p.data_size + (rest.length + 1) ≤ 4096 := by simpa using hlen
    have hd : p.data_size < PIPE_BUFFER_SIZE := by
      unfold PIPE_BUFFER_SIZE
      omega
    rw [pipe_write_bytes, if_pos hd]
    dsimp only
    obtain ⟨i1, i2, i3, i4, i5, i6, i7⟩ := ih
      { p with buffer := Function.update p.buffer p.write_pos b,
               write_pos := (p.write_pos + 1) % PIPE_BUFFER_SIZE,
               data_size := p.data_size + 1 }
      (by
        show (p.write_pos + 1) % PIPE_BUFFER_SIZE = (p.read_pos + (p.data_size + 1)) % 4096
        unfold PIPE_BUFFER_SIZE
        omega)
      (by
        show p.data_size + 1 + rest.length ≤ 4096
        omega)
    refine ⟨?_, ?_, ?_, ?_, ?_, ?_, ?_⟩
    · rw [i1]
      simp
    · rw [i2]
      simp
      omega
    · rw [i3]
    · rw [i4]
      simp
      congr 1
      omega
    · rw [i5]
    · rw [i6]
    · rw [i7, pipe_contents_snoc p b hw (by unfold PIPE_BUFFER_SIZE at hd; exact hd)]
      simp

/-- The copy loop of `pipe_read` returns the first bytes of the contents. -/
theorem pipe_read_bytes_spec (n : Nat) :
    ∀ p : pipe, p.read_pos < 4096 → (pipe_read_bytes n p).1 = (pipe_contents p).take n := by
  induction n with
  | zero =>
    intro p _
    simp [pipe_read_bytes]
  | succ n ih =>
    intro p hr
    rw [pipe_read_bytes]
    by_cases hd : p.data_size > 0
    · rw [if_pos hd]
      dsimp only
      rw [pipe_contents_cons p hr hd, List.take_succ_cons]
      congr 1
      apply ih
      show (p.read_pos + 1) % PIPE_BUFFER_SIZE < 4096
      unfold PIPE_BUFFER_SIZE
      omega
    · rw [if_neg hd]
      have h0 : p.data_size = 0 := by omega
      simp [pipe_contents, h0]

/-- The state of the pipe after a `pipe_write` that finds a registered reader and
room for the whole buffer. -/
theorem pipe_write_stores (k : kernel) (i : Nat) (buf : List Nat)
    (hu : (k.pipes i).in_use = true) (hd : (k.pipes i).data_size = 0)
    (hrc : (k.pipes i).reader_count ≠ 0) (hN : buf.length < 4096) :
    (pipe_write k i buf).1
      = outcome.returned (wrap_i32 ((pipe_write_bytes buf (k.pipes i)).1 : Nat)) ∧
    (pipe_write k i buf).2.pipes i
      = { (pipe_write_bytes buf (k.pipes i)).2 with reader_count := 0 } := by
  have hs : sub_u32 PIPE_BUFFER_SIZE buf.length = 4096 - buf.length := by
    unfold sub_u32 u32 PIPE_BUFFER_SIZE
    omega
  have hnb : ¬ (k.pipes i).data_size ≥ sub_u32 PIPE_BUFFER_SIZE buf.length := by
    rw [hs, hd]
    omega
  unfold pipe_write
  dsimp only
  rw [if_neg (by simp [hu]), if_neg hrc]
  unfold pipe_write_loop
  dsimp only
  rw [if_neg hnb]
  refine ⟨rfl, ?_⟩
  simp [kernel.set_pipe]

/-- C28 with its correction: for an in-use pipe that is empty at any cursor position
(`read_pos = write_pos < 4096`, `data_size = 0`) and has a registered reader,
`pipe_write` of a buffer of N < 4096 bytes, where N is at least 1 or no writer is
registered, returns N and leaves `data_size = N <= 4096` and
`write_pos = (read_pos + data_size) mod 4096`; a following `pipe_read` of `n` bytes
returns `min n N` and yields the first `min n N` bytes of the buffer, in order. -/
theorem pipe_write_then_read_fifo (k : kernel) (i : Nat) (buf : List Nat)
    (hu : (k.pipes i).in_use = true) (hd : (k.pipes i).data_size = 0)
    (hpos : (k.pipes i).read_pos = (k.pipes i).write_pos)
    (hlt : (k.pipes i).read_pos < 4096)
    (hrc : (k.pipes i).reader_count ≠ 0) (hN : buf.length < 4096)
    (hw : buf ≠ [] ∨ (k.pipes i).writer_count = 0) :
    (pipe_write k i buf).1 = outcome.returned (buf.length : Nat) ∧
    ((pipe_write k i buf).2.pipes i).data_size = buf.length ∧
    ((pipe_write k i buf).2.pipes i).data_size ≤ 4096 ∧
    ((pipe_write k i buf).2.pipes i).write_pos
      = (((pipe_write k i buf).2.pipes i).read_pos
          + ((pipe_write k i buf).2.pipes i).data_size) % 4096 ∧
    (∀ n, (pipe_read (pipe_write k i buf).2 i n).1
            = outcome.returned ((min n buf.length : Nat) : Int) ∧
          (pipe_read (pipe_write k i buf).2 i n).2.1 = buf.take n) := by
  obtain ⟨ho, hp⟩ := pipe_write_stores k i buf hu hd hrc hN
  obtain ⟨w1, w2, w3, w4, w5, w6, w7⟩ := pipe_write_bytes_spec buf (k.pipes i)
    (by rw [hd, ← hpos]; omega) (by rw [hd]; omega)
  have hc0 : pipe_contents (k.pipes i) = [] := by
    simp [pipe_contents, hd]
  rw [hc0, List.nil_append] at w7
  rw [hd, Nat.zero_add] at w2 w4
  have hds : ((pipe_write k i buf).2.pipes i).data_size = buf.length := by
    rw [hp]
    exact w2
  have hrs : ((pipe_write k i buf).2.pipes i).read_pos = (k.pipes i).read_pos := by
    rw [hp]
    exact w3
  have hws : ((pipe_write k i buf).2.pipes i).write_pos
      = ((k.pipes i).read_pos + buf.length) % 4096 := by
    rw [hp]
    exact w4
  have hus : ((pipe_write k i buf).2.pipes i).in_use = true := by
    rw [hp]
    exact w5.trans hu
  have hwc : ((pipe_write k i buf).2.pipes i).writer_count = (k.pipes i).writer_count := by
    rw [hp]
    exact w6
  have hcs : pipe_contents ((pipe_write k i buf).2.pipes i) = buf := by
    rw [hp]
    exact w7
  refine ⟨?_, hds, by rw [hds]; omega, by rw [hws, hrs, hds], ?_⟩
  · rw [ho, w1, wrap_i32_of_range _ (by omega) (by omega)]
  · intro n
    generalize (pipe_write k i buf).2 = k2 at hds hrs hus hwc hcs
    unfold pipe_read
    rw [if_neg (by simp [hus])]
    unfold pipe_read_loop
    dsimp only
    by_cases hb : buf = []
    · have hw0 : (k2.pipes i).writer_count = 0 := by
        rw [hwc]
        rcases hw with h | h
        · exact absurd hb h
        · exact h
      have hd0 : (k2.pipes i).data_size = 0 := by
        rw [hds, hb]
        rfl
      rw [if_pos hd0, if_pos hw0, hb]
      simp
    · have hd1 : ¬ (k2.pipes i).data_size = 0 := by
        rw [hds]
        intro h0
        exact hb (List.length_eq_zero.mp h0)
      rw [if_neg hd1]
      dsimp only
      rw [pipe_read_bytes_spec n _ (by rw [hrs]; exact hlt), hcs]
      refine ⟨?_, rfl⟩
      rw [List.length_take, wrap_i32_of_range _ (by omega) (by omega)]

/-- Witness for C28: on the empty pipe 0 with both cursors moved to 4094 and process B
registered as reader and writer, `pipe_write` of the three bytes 65, 66, 67 wraps
around the end of the ring and returns 3, and the `pipe_read` of 2 bytes that follows
yields 65, 66. -/
theorem pipe_write_then_read_fifo_witness :
    (pipe_write
        (pipe_both_waiting_state.set_pipe 0
          (fun p => { p with read_pos := 4094, write_pos := 4094 })) 0 [65, 66, 67]).1
      = outcome.returned 3 ∧
    (pipe_read
        (pipe_write
          (pipe_both_waiting_state.set_pipe 0
            (fun p => { p with read_pos := 4094, write_pos := 4094 })) 0 [65, 66, 67]).2
        0 2).2.1 = [65, 66] :=
  have h := pipe_write_then_read_fifo
    (pipe_both_waiting_state.set_pipe 0
      (fun p => { p with read_pos := 4094, write_pos := 4094 })) 0 [65, 66, 67]
    (by decide) (by decide) (by decide) (by decide) (by decide) (by decide)
    (Or.inl (by decide))
  ⟨h.1, (h.2.2.2.2 2).2⟩

/-! ## Expired timeouts (C25) -/

/-- C20, evaluated on the code with two overlapping VMAs: the process holds VMA B
`[0x401000, 0x403000)` and VMA A `[0x400000, 0x402000)`, and the page at 0x401000 is
mapped (its leaf entry, at 0x5008, holds frame 7 with the present bit).
`munmap(0x400000, 0x2000)` returns 0 and removes A only; B, which only partially
overlaps the range, stays in the list, but its page at 0x401000 is no longer mapped:
the leaf entry is 0, and frame 7 is back on the free list. -/
theorem munmap_unmaps_page_of_remaining_vma :
    (mmap_overlap_state.processes 1).vma_list
      = [{ start := 0x401000, vm_end := 0x403000, flags := 0x32, permissions := 3,
           file := none, file_offset := 0 },
         { start := 0x400000, vm_end := 0x402000, flags := 0x32, permissions := 3,
           file := none, file_offset := 0 }] ∧
    (get_pte mmap_overlap_state 0x1000 0x401000 false).1 = some 0x5008 ∧
    mmap_overlap_state.phys 0x5008 = (0x7000 ||| 7) ∧
    (munmap mmap_overlap_state 0x400000 0x2000).1 = 0 ∧
    ((munmap mmap_overlap_state 0x400000 0x2000).2.processes 1).vma_list
      = [{ start := 0x401000, vm_end := 0x403000, flags := 0x32, permissions := 3,
           file := none, file_offset := 0 }] ∧
    (get_pte (munmap mmap_overlap_state 0x400000 0x2000).2 0x1000 0x401000 false).1
      = some 0x5008 ∧
    (munmap mmap_overlap_state 0x400000 0x2000).2.phys 0x5008 = 0 ∧
    7 ∈ (munmap mmap_overlap_state 0x400000 0x2000).2.mm_state.free_pages := by
  decide

theorem pmm_free_page_processes (k : kernel) (a : Nat) :
    (pmm_free_page k a).processes = k.processes := by
  unfold pmm_free_page
  dsimp only
  repeat' split
  all_goals rfl

theorem pmm_free_page_scheduler (k : kernel) (a : Nat) :
    (pmm_free_page k a).scheduler = k.scheduler := by
  unfold pmm_free_page
  dsimp only
  repeat' split
  all_goals rfl

/-- The allocator state after `pmm_free_page` depends on the allocator state only. -/
theorem pmm_free_page_mm_congr (k k2 : kernel) (a : Nat) (h : k.mm_state = k2.mm_state) :
    (pmm_free_page k a).mm_state = (pmm_free_page k2 a).mm_state := by
  unfold pmm_free_page
  dsimp only
  rw [h]
  repeat' split
  all_goals first
    | rfl
    | exact h

theorem pmm_free_fold_mm_congr (fs : List Nat) :
    ∀ k k2 : kernel, k.mm_state = k2.mm_state →
      (fs.foldl pmm_free_page k).mm_state = (fs.foldl pmm_free_page k2).mm_state := by
  induction fs with
  | nil =>
    intro k k2 h
    exact h
  | cons f rest ih =>
    intro k k2 h
    rw [List.foldl_cons, List.foldl_cons]
    exact ih _ _ (pmm_free_page_mm_congr k k2 f h)

/-- The call `unmap_page(pgd, v)` on a page whose page tables exist: if the leaf entry
is present it is cleared and its frame goes to `pmm_free_page`; otherwise nothing
happens. -/
theorem unmap_page_of_walk (k : kernel) (pgd v : Nat) (w : Nat × Nat × Nat × Nat)
    (hw : pte_walk k.phys pgd v = some w) :
    unmap_page k pgd v
      = if k.phys w.2.2.2 &&& PAGE_PRESENT ≠ 0 then
          pmm_free_page { k with phys := Function.update k.phys w.2.2.2 0 }
            (page_mask (k.phys w.2.2.2))
        else k := by
  unfold unmap_page
  rw [get_pte_of_walk k pgd v false w hw]

/-- The calls `unmap_page` for a list of pages whose page tables exist, no leaf entry
of which is an upper-level entry on the way to one of them or the leaf entry of
another: the present leaf entries are cleared, every other memory cell is kept, the
frames of the present entries go to `pmm_free_page` in order, and nothing else
changes. -/
theorem unmap_list_spec (pgd : Nat) (w : Nat → Nat × Nat × Nat × Nat) :
    ∀ (P : List Nat) (k : kernel),
      (∀ a, a ∈ P → pte_walk k.phys pgd a = some (w a)) →
      (∀ a, a ∈ P → ∀ b, b ∈ P →
        (w a).2.2.2 ≠ (w b).1 ∧ (w a).2.2.2 ≠ (w b).2.1 ∧ (w a).2.2.2 ≠ (w b).2.2.1) →
      P.Pairwise (fun a b => (w a).2.2.2 ≠ (w b).2.2.2) →
      (unmap_list pgd P k).phys
        = (fun c => if c ∈ (P.filter (leaf_present k.phys w)).map (fun a => (w a).2.2.2)
                    then 0 else k.phys c) ∧
      (unmap_list pgd P k).mm_state
        = (((P.filter (leaf_present k.phys w)).map
              (fun a => page_mask (k.phys (w a).2.2.2))).foldl pmm_free_page k).mm_state ∧
      (unmap_list pgd P k).processes = k.processes ∧
      (unmap_list pgd P k).scheduler = k.scheduler := by
  intro P
  induction P with
  | nil =>
    intro k _ _ _
    refine ⟨?_, rfl, rfl, rfl⟩
    funext c
    simp [unmap_list]
  | cons a rest ih =>
    intro k hwalk hsep hpw
    have hunf : unmap_list pgd (a :: rest) k = unmap_list pgd rest (unmap_page k pgd a) := rfl
    rw [hunf, unmap_page_of_walk k pgd a (w a) (hwalk a (List.mem_cons_self _ _))]
    obtain ⟨hpa, hpr⟩ := List.pairwise_cons.mp hpw
    have hsep_r : ∀ x, x ∈ rest → ∀ b, b ∈ rest →
        (w x).2.2.2 ≠ (w b).1 ∧ (w x).2.2.2 ≠ (w b).2.1 ∧ (w x).2.2.2 ≠ (w b).2.2.1 :=
      fun x hx b hb => hsep x (List.mem_cons_of_mem _ hx) b (List.mem_cons_of_mem _ hb)
    by_cases hp : k.phys (w a).2.2.2 &&& PAGE_PRESENT ≠ 0
    · rw [if_pos hp]
      have hcell : ∀ c, c ≠ (w a).2.2.2 →
          (pmm_free_page { k with phys := Function.update k.phys (w a).2.2.2 0 }
            (page_mask (k.phys (w a).2.2.2))).phys c = k.phys c := by
        intro c hc
        rw [pmm_free_page_phys]
        exact Function.update_noteq hc _ _
      have hcell0 : (pmm_free_page { k with phys := Function.update k.phys (w a).2.2.2 0 }
            (page_mask (k.phys (w a).2.2.2))).phys (w a).2.2.2 = 0 := by
        rw [pmm_free_page_phys]
        exact Function.update_same _ _ _
      have hwalk_r : ∀ b, b ∈ rest →
          pte_walk (pmm_free_page { k with phys := Function.update k.phys (w a).2.2.2 0 }
            (page_mask (k.phys (w a).2.2.2))).phys pgd b = some (w b) := by
        intro b hb
        have hs := hsep a (List.mem_cons_self _ _) b (List.mem_cons_of_mem _ hb)
        exact pte_walk_congr k.phys _ pgd b (w b) (hwalk b (List.mem_cons_of_mem _ hb))
          (hcell _ (Ne.symm hs.1)) (hcell _ (Ne.symm hs.2.1)) (hcell _ (Ne.symm hs.2.2))
      obtain ⟨i1, i2, i3, i4⟩ := ih _ hwalk_r hsep_r hpr
      have hleaf : ∀ b, b ∈ rest →
          (pmm_free_page { k with phys := Function.update k.phys (w a).2.2.2 0 }
            (page_mask (k.phys (w a).2.2.2))).phys (w b).2.2.2 = k.phys (w b).2.2.2 :=
        fun b hb => hcell _ (Ne.symm (hpa b hb))
      have hfilt : rest.filter (leaf_present
          (pmm_free_page { k with phys := Function.update k.phys (w a).2.2.2 0 }
            (page_mask (k.phys (w a).2.2.2))).phys w)
          = rest.filter (leaf_present k.phys w) := by
        apply List.filter_congr
        intro b hb
        unfold leaf_present
        rw [hleaf b hb]
      have hfa : (a :: rest).filter (leaf_present k.phys w)
          = a :: rest.filter (leaf_present k.phys w) := by
        rw [List.filter_cons_of_pos]
        unfold leaf_present
        exact decide_eq_true hp
      rw [hfilt] at i1 i2
      refine ⟨?_, ?_, ?_, ?_⟩
      · rw [i1, hfa]
        funext c
        by_cases hc : c = (w a).2.2.2
        · subst hc
          simp [hcell0]
        · rw [hcell c hc, List.map_cons]
          simp only [List.mem_cons, hc, false_or]
      · rw [i2, hfa, List.map_cons, List.foldl_cons]
        have hmap : (rest.filter (leaf_present k.phys w)).map
            (fun b => page_mask ((pmm_free_page
              { k with phys := Function.update k.phys (w a).2.2.2 0 }
              (page_mask (k.phys (w a).2.2.2))).phys (w b).2.2.2))
            = (rest.filter (leaf_present k.phys w)).map
                (fun b => page_mask (k.phys (w b).2.2.2)) := by
          apply List.map_congr_left
          intro b hb
          rw [hleaf b (List.mem_of_mem_filter hb)]
        rw [hmap]
        apply pmm_free_fold_mm_congr
        exact pmm_free_page_mm_congr _ _ _ rfl
      · rw [i3, pmm_free_page_processes]
      · rw [i4, pmm_free_page_scheduler]
    · rw [if_neg hp]
      have hwalk_r : ∀ b, b ∈ rest → pte_walk k.phys pgd b = some (w b) :=
        fun b hb => hwalk b (List.mem_cons_of_mem _ hb)
      obtain ⟨i1, i2, i3, i4⟩ := ih k hwalk_r hsep_r hpr
      have hfa : (a :: rest).filter (leaf_present k.phys w)
          = rest.filter (leaf_present k.phys w) := by
        rw [List.filter_cons_of_neg]
        unfold leaf_present
        simpa using hp
      rw [hfa]
      exact ⟨i1, i2, i3, i4⟩

theorem unmap_list_append (pgd : Nat) (P Q : List Nat) (k : kernel) :
    unmap_list pgd (P ++ Q) k = unmap_list pgd Q (unmap_list pgd P k) := by
  unfold unmap_list
  rw [List.foldl_append]

/-- The page loop of `munmap` is the list of `unmap_page` calls for the pages it
steps through, as long as `vaddr` does not wrap. -/
theorem unmap_range_eq_unmap_list (pgd vm_end : Nat)
    (hend : vm_end + 4096 ≤ 18446744073709551616) :
    ∀ (n v : Nat) (k : kernel), (∀ j, j < n → v + 4096 * j < vm_end) →
      unmap_range pgd vm_end n v k
        = unmap_list pgd ((List.range n).map (fun j => v + PAGE_SIZE * j)) k := by
  intro n
  induction n with
  | zero =>
    intro v k _
    rfl
  | succ n ih =>
    intro v k h
    have hlt : v < vm_end := by
      have := h 0 (by omega)
      omega
    have hu : u64 (v + PAGE_SIZE) = v + 4096 := by
      unfold u64 PAGE_SIZE
      omega
    rw [unmap_range, if_pos hlt, hu, ih (v + 4096) _ (by
      intro j hj
      have := h (j + 1) (by omega)
      omega)]
    rw [List.range_succ_eq_map, List.map_cons, List.map_map]
    have e : (fun j => v + 4096 + PAGE_SIZE * j) = ((fun j => v + PAGE_SIZE * j) ∘ Nat.succ) := by
      funext j
      unfold PAGE_SIZE
      simp only [Function.comp]
      omega
    rw [e]
    have e0 : v + PAGE_SIZE * 0 = v := by omega
    rw [e0]
    rfl

theorem unmap_range_vma (pgd : Nat) (v : vma) (k : kernel)
    (hend : v.vm_end + 4096 ≤ 18446744073709551616) :
    unmap_range pgd v.vm_end ((v.vm_end - v.start + (PAGE_SIZE - 1)) / PAGE_SIZE) v.start k
      = unmap_list pgd (vma_pages v) k := by
  unfold vma_pages
  apply unmap_range_eq_unmap_list pgd v.vm_end hend
  intro j hj
  unfold PAGE_SIZE at hj
  omega

/-- The VMA loop of `munmap`: the VMAs within the range are unlinked, the others stay
in order, and the pages of the unlinked ones are unmapped, VMA after VMA. -/
theorem munmap_vmas_eq (pgd s e : Nat) :
    ∀ (l : List vma) (k : kernel),
      (∀ v, v ∈ l → vma_within s e v = true → v.vm_end + 4096 ≤ 18446744073709551616) →
      munmap_vmas pgd s e l k
        = (l.filter (fun v => !vma_within s e v),
           unmap_list pgd ((l.filter (vma_within s e)).flatMap vma_pages) k) := by
  intro l
  induction l with
  | nil =>
    intro k _
    rfl
  | cons v rest ih =>
    intro k h
    have hrest : ∀ u, u ∈ rest → vma_within s e u = true →
        u.vm_end + 4096 ≤ 18446744073709551616 :=
      fun u hu => h u (List.mem_cons_of_mem _ hu)
    rw [munmap_vmas]
    by_cases hw : v.start ≥ s ∧ v.vm_end ≤ e
    · have hwt : vma_within s e v = true := by
        unfold vma_within
        exact decide_eq_true hw
      rw [if_pos hw, ih _ hrest, unmap_range_vma pgd v k (h v (List.mem_cons_self _ _) hwt)]
      rw [List.filter_cons_of_neg (by simp [hwt]), List.filter_cons_of_pos hwt,
        List.flatMap_cons, unmap_list_append]
    · have hwf : vma_within s e v = false := by
        unfold vma_within
        exact decide_eq_false hw
      rw [if_neg hw, ih _ hrest]
      dsimp only
      rw [List.filter_cons_of_pos (by simp [hwf]), List.filter_cons_of_neg (by simp [hwf])]

/-- The rounding of `munmap`, when `addr + length + PAGE_SIZE - 1` does not wrap. -/
theorem munmap_rounding (addr length : Nat)
    (h : addr + length + 4095 < 18446744073709551616) :
    page_mask addr = addr / 4096 * 4096 ∧
    page_mask (addr + length + PAGE_SIZE - 1) = (addr + length + 4095) / 4096 * 4096 := by
  unfold page_mask u64 PAGE_SIZE
  constructor
  · rw [Nat.mod_eq_of_lt (by omega)]
  · have e : addr + length + 4096 - 1 = addr + length + 4095 := by omega
    rw [e, Nat.mod_eq_of_lt h]

theorem page_mask_add_page_le (x : Nat) : page_mask x + 4096 ≤ 18446744073709551616 := by
  unfold page_mask u64
  omega

/-- The state `munmap` returns, for a running process. -/
theorem munmap_eq (k : kernel) (cur addr length : Nat)
    (hcur : k.scheduler.current_process = some cur) :
    munmap k addr length
      = (0, (unmap_list (k.processes cur).pgd (munmap_pages k cur addr length) k).set_proc cur
              (fun p => { p with vma_list := ((k.processes cur).vma_list.filter
                (fun v => !vma_within (page_mask addr)
                  (page_mask (addr + length + PAGE_SIZE - 1)) v)) })) := by
  unfold munmap
  rw [hcur]
  dsimp only
  rw [munmap_vmas_eq]
  · rfl
  · intro v _ hv
    unfold vma_within at hv
    have hv2 := of_decide_eq_true hv
    have := page_mask_add_page_le (addr + length + PAGE_SIZE - 1)
    omega

theorem get_pte_level_no_create (k : kernel) (entry : Nat) :
    get_pte_level k entry false = ((get_pte_level k entry false).1, k) := by
  unfold get_pte_level
  split <;> rfl

/-- Without `create` the walk of `get_pte` changes nothing. -/
theorem get_pte_no_create (k : kernel) (pgd v : Nat) :
    (get_pte k pgd v false).2 = k := by
  unfold get_pte
  dsimp only
  rw [get_pte_level_no_create k]
  cases (get_pte_level k (pgd + 8 * (v >>> 39 &&& 0x1FF)) false).1 with
  | none => rfl
  | some pud =>
    dsimp only
    rw [get_pte_level_no_create k]
    cases (get_pte_level k (pud + 8 * (v >>> 30 &&& 0x1FF)) false).1 with
    | none => rfl
    | some pmd =>
      dsimp only
      rw [get_pte_level_no_create k]
      cases (get_pte_level k (pmd + 8 * (v >>> 21 &&& 0x1FF)) false).1 with
      | none => rfl
      | some pte_table => rfl

/-- The call `unmap_page` never touches a PCB. -/
theorem unmap_page_processes (k : kernel) (pgd v : Nat) :
    (unmap_page k pgd v).processes = k.processes := by
  have e : get_pte k pgd v false = ((get_pte k pgd v false).1, k) :=
    Prod.ext rfl (get_pte_no_create k pgd v)
  unfold unmap_page
  rw [e]
  cases (get_pte k pgd v false).1 with
  | none => rfl
  | some pte =>
    dsimp only
    split
    · exact pmm_free_page_processes _ _
    · rfl

theorem unmap_list_processes (pgd : Nat) (P : List Nat) (k : kernel) (q : Nat) :
    (unmap_list pgd P k).processes q = k.processes q := by
  induction P generalizing k with
  | nil => rfl
  | cons a rest ih =>
    show (unmap_list pgd rest (unmap_page k pgd a)).processes q = k.processes q
    rw [ih, unmap_page_processes]

/-- C20 with its correction.  For a running process `cur` and a range that does not
wrap, without any condition on the page tables: `munmap(addr, length)` returns 0,
removes from the VMA list of `cur` exactly the VMAs that lie within
`[addr rounded down, addr + length rounded up)` and keeps the others in order, leaves
the other processes alone, and calls `unmap_page` on the pages of the removed VMAs in
order and does nothing else to memory or to the allocator.  When moreover the pages
of the removed VMAs have page tables (`w a` is the walk of page `a`), no leaf entry of
such a page is an upper-level entry on the way to one of them, and no two of them
share a leaf entry: afterwards the walk of each such page is unchanged and its leaf
entry is not present; the frames of the entries that were present have gone to
`pmm_free_page`, in order; every memory cell other than those leaf entries is
unchanged, so that any page whose walk and leaf entry avoid them, such as a page of a
remaining VMA that no removed VMA contains, is mapped as before. -/
theorem munmap_removes_vmas_within (k : kernel) (cur addr length : Nat)
    (hcur : k.scheduler.current_process = some cur)
    (hrange : addr + length + 4095 < 18446744073709551616) :
    (munmap k addr length).1 = 0 ∧
    ((munmap k addr length).2.processes cur).vma_list
      = (k.processes cur).vma_list.filter
          (fun v => !vma_within (addr / 4096 * 4096) ((addr + length + 4095) / 4096 * 4096) v) ∧
    munmap_pages k cur addr length
      = ((k.processes cur).vma_list.filter
          (vma_within (addr / 4096 * 4096) ((addr + length + 4095) / 4096 * 4096))).flatMap
            vma_pages ∧
    (∀ q, q ≠ cur → (munmap k addr length).2.processes q = k.processes q) ∧
    (munmap k addr length).2.phys
      = (unmap_list (k.processes cur).pgd (munmap_pages k cur addr length) k).phys ∧
    (munmap k addr length).2.mm_state
      = (unmap_list (k.processes cur).pgd (munmap_pages k cur addr length) k).mm_state ∧
    (∀ w : Nat → Nat × Nat × Nat × Nat,
      (∀ a, a ∈ munmap_pages k cur addr length →
        pte_walk k.phys (k.processes cur).pgd a = some (w a)) →
      (∀ a, a ∈ munmap_pages k cur addr length →
        ∀ b, b ∈ munmap_pages k cur addr length →
          (w a).2.2.2 ≠ (w b).1 ∧ (w a).2.2.2 ≠ (w b).2.1 ∧ (w a).2.2.2 ≠ (w b).2.2.1) →
      (munmap_pages k cur addr length).Pairwise
        (fun a b => (w a).2.2.2 ≠ (w b).2.2.2) →
      (∀ a, a ∈ munmap_pages k cur addr length →
        pte_walk (munmap k addr length).2.phys (k.processes cur).pgd a = some (w a) ∧
        (munmap k addr length).2.phys (w a).2.2.2 &&& PAGE_PRESENT = 0) ∧
      (munmap k addr length).2.mm_state
        = ((((munmap_pages k cur addr length).filter (leaf_present k.phys w)).map
              (fun a => page_mask (k.phys (w a).2.2.2))).foldl pmm_free_page k).mm_state ∧
      (∀ c, (∀ a, a ∈ munmap_pages k cur addr length → c ≠ (w a).2.2.2) →
        (munmap k addr length).2.phys c = k.phys c) ∧
      (∀ b wb, pte_walk k.phys (k.processes cur).pgd b = some wb →
        (∀ a, a ∈ munmap_pages k cur addr length →
          (w a).2.2.2 ≠ wb.1 ∧ (w a).2.2.2 ≠ wb.2.1 ∧ (w a).2.2.2 ≠ wb.2.2.1 ∧
          (w a).2.2.2 ≠ wb.2.2.2) →
        pte_walk (munmap k addr length).2.phys (k.processes cur).pgd b = some wb ∧
        (munmap k addr length).2.phys wb.2.2.2 = k.phys wb.2.2.2)) := by
  obtain ⟨hr1, hr2⟩ := munmap_rounding addr length hrange
  have hphys : (munmap k addr length).2.phys
      = (unmap_list (k.processes cur).pgd (munmap_pages k cur addr length) k).phys := by
    rw [munmap_eq k cur addr length hcur]
    rfl
  have hmm : (munmap k addr length).2.mm_state
      = (unmap_list (k.processes cur).pgd (munmap_pages k cur addr length) k).mm_state := by
    rw [munmap_eq k cur addr length hcur]
    rfl
  refine ⟨?_, ?_, ?_, ?_, hphys, hmm, ?_⟩
  · rw [munmap_eq k cur addr length hcur]
  · rw [munmap_eq k cur addr length hcur, ← hr1, ← hr2]
    simp [kernel.set_proc]
  · unfold munmap_pages
    rw [hr1, hr2]
  · intro q hq
    rw [munmap_eq k cur addr length hcur]
    dsimp only
    rw [set_proc_processes_other _ _ _ _ hq]
    exact unmap_list_processes _ _ _ q
  · intro w hwalk hsep hpw
    obtain ⟨s1, s2, _, _⟩ := unmap_list_spec (k.processes cur).pgd w
      (munmap_pages k cur addr length) k hwalk hsep hpw
    have hkeep : ∀ c, (∀ a, a ∈ munmap_pages k cur addr length → c ≠ (w a).2.2.2) →
        (munmap k addr length).2.phys c = k.phys c := by
      intro c hc
      rw [hphys, s1]
      dsimp only
      rw [if_neg]
      intro hm
      rw [List.mem_map] at hm
      obtain ⟨a, ha, hca⟩ := hm
      exact hc a (List.mem_of_mem_filter ha) hca.symm
    refine ⟨?_, ?_, hkeep, ?_⟩
    · intro a ha
      constructor
      · exact pte_walk_congr k.phys _ _ a (w a) (hwalk a ha)
          (hkeep _ (fun x hx => Ne.symm (hsep x hx a ha).1))
          (hkeep _ (fun x hx => Ne.symm (hsep x hx a ha).2.1))
          (hkeep _ (fun x hx => Ne.symm (hsep x hx a ha).2.2))
      · rw [hphys, s1]
        dsimp only
        by_cases hm : (w a).2.2.2 ∈ ((munmap_pages k cur addr length).filter
            (leaf_present k.phys w)).map (fun a => (w a).2.2.2)
        · rw [if_pos hm]
          rfl
        · rw [if_neg hm]
          by_contra hp
          apply hm
          rw [List.mem_map]
          refine ⟨a, List.mem_filter.mpr ⟨ha, ?_⟩, rfl⟩
          unfold leaf_present
          exact decide_eq_true hp
    · rw [hmm]
      exact s2
    · intro b wb hb hav
      refine ⟨?_, hkeep _ (fun a ha => Ne.symm (hav a ha).2.2.2)⟩
      exact pte_walk_congr k.phys _ _ b wb hb
        (hkeep _ (fun a ha => Ne.symm (hav a ha).1))
        (hkeep _ (fun a ha => Ne.symm (hav a ha).2.1))
        (hkeep _ (fun a ha => Ne.symm (hav a ha).2.2.1))

/-- Witness for C20: the process holds VMA B `[0x401000, 0x403000)` and VMA A
`[0x400000, 0x401000)`; `munmap(0x400000, 0x2000)` returns 0 and removes A; B, which
partially overlaps the range `[0x400000, 0x402000)`, stays; the leaf entry of A's page
is not present afterwards and the leaf entry of B's first page still holds frame 6. -/
theorem munmap_removes_vmas_within_witness :
    (munmap mmap_adjacent_state 0x400000 0x2000).1 = 0 ∧
    ((munmap mmap_adjacent_state 0x400000 0x2000).2.processes 1).vma_list
      = [{ start := 0x401000, vm_end := 0x403000, flags := 0x32, permissions := 3,
           file := none, file_offset := 0 }] ∧
    (munmap mmap_adjacent_state 0x400000 0x2000).2.phys 0x5000 &&& PAGE_PRESENT = 0 ∧
    (munmap mmap_adjacent_state 0x400000 0x2000).2.phys 0x5008 = (0x6000 ||| 7) :=
  have h := munmap_removes_vmas_within mmap_adjacent_state 1 0x400000 0x2000
    (by decide) (by decide)
  have hp := h.2.2.2.2.2.2
    (fun a => (0x1000, 0x3000, 0x4010, 0x5000 + 8 * ((a >>> 12) &&& 0x1FF)))
    (by decide) (by decide) (by decide)
  ⟨h.1, h.2.1.trans (by decide), (hp.1 0x400000 (by decide)).2,
   (hp.2.2.2 0x401000 (0x1000, 0x3000, 0x4010, 0x5008) (by decide) (by decide)).2.trans
     (by decide)⟩

set_option maxRecDepth 100000 in
/-- C24, evaluated on the code on a run that wraps: after the 15 rounds of
`vruntime_wrap_ops` the idle process (slot 0, weight 15) is in use, RUNNING and
current, with vruntime 18446744073709550580; the next `schedule()` call accounts
another `2^54 - 1` time units for it, the 64-bit sum wraps, and its vruntime drops to
1229782938247302336. -/
theorem vruntime_decreases_on_wrap :
    ((sched_run kernel.booted (vruntime_wrap_ops 15)).processes 0).in_use = true ∧
    (sched_run kernel.booted (vruntime_wrap_ops 15)).scheduler.current_process = some 0 ∧
    ((sched_run kernel.booted (vruntime_wrap_ops 15)).processes 0).state = PROCESS_RUNNING ∧
    ((sched_run kernel.booted (vruntime_wrap_ops 15)).processes 0).weight = 15 ∧
    ((sched_run kernel.booted (vruntime_wrap_ops 15)).processes 0).exec_start
      = 18014398509481983 * 15 ∧
    ((sched_run kernel.booted (vruntime_wrap_ops 15)).processes 0).vruntime
      = 18446744073709550580 ∧
    ((schedule (sched_run kernel.booted (vruntime_wrap_ops 15))
        (18014398509481983 * 16) (18014398509481983 * 16)).processes 0).vruntime
      = 1229782938247302336 ∧
    ((schedule (sched_run kernel.booted (vruntime_wrap_ops 15))
        (18014398509481983 * 16) (18014398509481983 * 16)).processes 0).vruntime
      < ((sched_run kernel.booted (vruntime_wrap_ops 15)).processes 0).vruntime := by
  decide

theorem set_proc_sum_exec (k : kernel) (p i : Nat) (f : process → process)
    (hf : ∀ x, (f x).sum_exec_runtime = x.sum_exec_runtime) :
    ((k.set_proc p f).processes i).sum_exec_runtime = (k.processes i).sum_exec_runtime := by
  by_cases h : i = p
  · subst h
    simp [hf]
  · rw [set_proc_processes_other _ _ _ _ h]

theorem cfs_enqueue_task_sum_exec (k : kernel) (p i : Nat) :
    ((cfs_enqueue_task k p).processes i).sum_exec_runtime
      = (k.processes i).sum_exec_runtime := by
  unfold cfs_enqueue_task
  split
  · dsimp only
    exact set_proc_sum_exec k p i (fun q => { q with state := PROCESS_READY }) (fun _ => rfl)
  · rfl

theorem schedule_in_sum_exec (k : kernel) (next b i : Nat) :
    ((schedule_in k next b).processes i).sum_exec_runtime
      = (k.processes i).sum_exec_runtime := by
  by_cases h : i = next
  · subst h
    rw [schedule_in_processes_same]
  · rw [schedule_in_processes_other _ _ _ _ h]

theorem schedule_out_sum_exec (k : kernel) (a i : Nat) :
    ((schedule_out k a).processes i).sum_exec_runtime
      = if k.scheduler.current_process = some i ∧ (k.processes i).state = PROCESS_RUNNING then
          u64 ((k.processes i).sum_exec_runtime + sub_u64 a (k.processes i).exec_start)
        else (k.processes i).sum_exec_runtime := by
  cases hc : k.scheduler.current_process with
  | none =>
    rw [schedule_out_idle k a (by intro pv h; rw [hc] at h; cases h)]
    simp
  | some pv =>
    by_cases hr : (k.processes pv).state = PROCESS_RUNNING
    · rw [schedule_out_running k a pv hc hr, cfs_enqueue_task_sum_exec,
        set_proc_sum_exec _ pv i
          (fun p => { p with
            total_cpu_time := u64 (p.total_cpu_time + sub_u64 a (k.processes pv).exec_start),
            state := PROCESS_READY }) (fun _ => rfl)]
      by_cases hi : i = pv
      · subst hi
        rw [if_pos ⟨rfl, hr⟩]
        exact (update_vruntime_same k i _).2
      · rw [update_vruntime_other _ _ _ _ hi, if_neg]
        intro h
        exact hi (Option.some.inj h.1).symm
    · rw [schedule_out_idle k a (by
        intro q h
        rw [hc] at h
        cases h
        exact hr)]
      rw [if_neg]
      intro h
      have := Option.some.inj h.1
      subst this
      exact hr h.2

/-- What `schedule()` is in terms of `schedule_switches`. -/
theorem schedule_eq_switch (k : kernel) (a b : Nat) :
    (¬ schedule_switches k → schedule k a b = k) ∧
    (schedule_switches k →
      ∃ next, schedule_next k = some next ∧
        schedule k a b = schedule_in (schedule_out k a) next b) := by
  unfold schedule_switches
  rw [schedule_eq]
  by_cases hen : k.scheduler.scheduler_enabled = true
  · cases hn : schedule_next k with
    | none =>
      constructor
      · intro _
        simp [hen]
      · intro h
        exact absurd rfl h.2.1
    | some next =>
      by_cases hcn : k.scheduler.current_process = some next
      · constructor
        · intro _
          simp [hen, hcn]
        · intro h
          exact absurd hcn h.2.2
      · constructor
        · intro h
          exact absurd ⟨hen, by simp, hcn⟩ h
        · intro _
          exact ⟨next, rfl, by simp [hen, hcn]⟩
  · constructor
    · intro _
      simp [hen]
    · intro h
      exact absurd h.1 hen

/-- The vruntime and the `sum_exec_runtime` of every process after `schedule()`. -/
theorem schedule_accounting_exact (k : kernel) (a b i : Nat) :
    ((schedule k a b).processes i).vruntime
      = (if schedule_switches k ∧ k.scheduler.current_process = some i ∧
            (k.processes i).state = PROCESS_RUNNING then
          u64 ((k.processes i).vruntime
            + u64 (sub_u64 a (k.processes i).exec_start * 1024) / (k.processes i).weight)
        else (k.processes i).vruntime) ∧
    ((schedule k a b).processes i).sum_exec_runtime
      = (if schedule_switches k ∧ k.scheduler.current_process = some i ∧
            (k.processes i).state = PROCESS_RUNNING then
          u64 ((k.processes i).sum_exec_runtime + sub_u64 a (k.processes i).exec_start)
        else (k.processes i).sum_exec_runtime) := by
  obtain ⟨h1, h2⟩ := schedule_eq_switch k a b
  by_cases hs : schedule_switches k
  · obtain ⟨next, _, he⟩ := h2 hs
    rw [he, schedule_in_vruntime, schedule_in_sum_exec, schedule_out_vruntime,
      schedule_out_sum_exec]
    simp only [hs, true_and]
  · rw [h1 hs]
    simp only [hs, false_and, if_false]
    trivial

/-- `process_exit` changes no vruntime: the exiting process is a ZOMBIE when
`schedule()` runs, so nothing is accounted. -/
theorem process_exit_vruntime (k : kernel) (c a b i : Nat) :
    ((process_exit k c a b).processes i).vruntime = (k.processes i).vruntime := by
  cases hc : k.scheduler.current_process with
  | none =>
    have e : process_exit k c a b = k := by
      unfold process_exit
      rw [hc]
    rw [e]
  | some proc =>
    by_cases hi : some proc = k.scheduler.idle_process
    · have e : process_exit k c a b = k := by
        unfold process_exit
        rw [hc]
        dsimp only
        rw [if_pos hi]
      rw [e]
    · obtain ⟨k3, he, hc3, hz, _, hv, _, _⟩ := process_exit_eq k c a b proc hc hi
      rw [he, (schedule_accounting_exact k3 a b i).1, if_neg, hv]
      intro h
      rw [hc3] at h
      have := Option.some.inj h.2.1
      subst this
      rw [hz] at h
      cases h.2.2

/-- C24 with its correction.  (1) `update_vruntime` with elapsed time `d` on a process
of weight `w` adds `d * 1024 / w` (rounded down, the product taken in 64 bits) to its
vruntime and `d` to its `sum_exec_runtime`, both sums taken in 64 bits.  (2)
`schedule()` does exactly this, with `d` the time elapsed since `exec_start`, to the
current process when it switches and that process is RUNNING, and leaves every other
vruntime and `sum_exec_runtime`, and all of them when it does not switch, unchanged.
(3) `process_exit` changes no vruntime, and `process_create` changes the vruntime of
no process in use.  (4) Over any sequence of such calls in which the 64-bit sum of
(1) never wraps for process `i`, the vruntime of `i` never ends below where it
started. -/
theorem vruntime_accounting (k : kernel) (p d i a b c priority now : Nat)
    (ops : List sched_op) :
    ((update_vruntime k p d).processes p).vruntime
      = u64 ((k.processes p).vruntime + u64 (d * 1024) / (k.processes p).weight) ∧
    ((update_vruntime k p d).processes p).sum_exec_runtime
      = u64 ((k.processes p).sum_exec_runtime + d) ∧
    ((schedule k a b).processes i).vruntime
      = (if schedule_switches k ∧ k.scheduler.current_process = some i ∧
            (k.processes i).state = PROCESS_RUNNING then
          u64 ((k.processes i).vruntime
            + u64 (sub_u64 a (k.processes i).exec_start * 1024) / (k.processes i).weight)
        else (k.processes i).vruntime) ∧
    ((schedule k a b).processes i).sum_exec_runtime
      = (if schedule_switches k ∧ k.scheduler.current_process = some i ∧
            (k.processes i).state = PROCESS_RUNNING then
          u64 ((k.processes i).sum_exec_runtime + sub_u64 a (k.processes i).exec_start)
        else (k.processes i).sum_exec_runtime) ∧
    ((process_exit k c a b).processes i).vruntime = (k.processes i).vruntime ∧
    ((k.processes i).in_use = true →
      ((process_create k priority now).2.processes i).vruntime = (k.processes i).vruntime) ∧
    ((k.processes i).in_use = true → no_vruntime_wrap i k ops →
      (k.processes i).vruntime ≤ ((sched_run k ops).processes i).vruntime) := by
  have hstep : ∀ (k : kernel) (op : sched_op), (k.processes i).in_use = true →
      (k.scheduler.current_process = some i → (k.processes i).state = PROCESS_RUNNING →
        (k.processes i).vruntime
          + u64 (sub_u64 (sched_op_now_out op) (k.processes i).exec_start * 1024)
              / (k.processes i).weight < 18446744073709551616) →
      (k.processes i).vruntime ≤ ((sched_step k op).processes i).vruntime := by
    intro k op hu hw
    rcases (sched_step_vruntime k op i hu).2 with h | ⟨h1, h2, h3⟩
    · rw [h]
    · rw [h3]
      have := hw h1 h2
      unfold u64 at this ⊢
      rw [Nat.mod_eq_of_lt this]
      exact Nat.le_add_right _ _
  refine ⟨(update_vruntime_same k p d).1, (update_vruntime_same k p d).2,
    (schedule_accounting_exact k a b i).1, (schedule_accounting_exact k a b i).2,
    process_exit_vruntime k c a b i, ?_, ?_⟩
  · intro hu
    rw [process_create_keeps_in_use k priority now i hu]
  · intro hu hw
    induction ops generalizing k with
    | nil => exact Nat.le_refl _
    | cons op ops ih =>
      rw [sched_run_cons]
      exact Nat.le_trans (hstep k op hu hw.1)
        (ih (sched_step k op) (sched_step_vruntime k op i hu).1 hw.2)

/-- Witness for C24: process A (slot 1, weight 1024) is created and scheduled at time
0; process B is created and `schedule()` at time 5000 switches to it: A's vruntime
goes from 0 to 5000; creating B leaves A's vruntime alone; and A's vruntime is not
below its start after the run. -/
theorem vruntime_accounting_witness :
    ((schedule (sched_run kernel.booted
          [sched_op.create 2 0, sched_op.sched 0 0, sched_op.create 2 0]) 5000 5000).processes
        1).vruntime = 5000 ∧
    ((process_create (sched_run kernel.booted [sched_op.create 2 0]) 2 0).2.processes
        1).vruntime
      = ((sched_run kernel.booted [sched_op.create 2 0]).processes 1).vruntime ∧
    ((sched_run kernel.booted [sched_op.create 2 0]).processes 1).vruntime
      ≤ ((sched_run (sched_run kernel.booted [sched_op.create 2 0])
            [sched_op.sched 0 0, sched_op.create 2 0, sched_op.sched 5000 5000]).processes
          1).vruntime :=
  ⟨(vruntime_accounting (sched_run kernel.booted
        [sched_op.create 2 0, sched_op.sched 0 0, sched_op.create 2 0]) 1 5000 1 5000 5000 0 2 0
      []).2.2.1.trans (by decide),
   (vruntime_accounting (sched_run kernel.booted [sched_op.create 2 0]) 1 5000 1 0 0 0 2 0
      []).2.2.2.2.2.1 (by decide),
   (vruntime_accounting (sched_run kernel.booted [sched_op.create 2 0]) 1 5000 1 0 0 0 2 0
      [sched_op.sched 0 0, sched_op.create 2 0, sched_op.sched 5000 5000]).2.2.2.2.2.2
      (by decide) ⟨by decide, by decide, by decide, trivial⟩⟩

/-- C16 (failing run): on `sem_boost_before` semaphore 0 is held by P1 (priority 2),
its wait list is P3 (priority 1), P2 (priority 2), and P4 (LOW, priority 3) is
running.  P4 calls `sem_wait`: the priority-inheritance step, whose comment says it
boosts the holder, overwrites the caller's own priority with 1 (P1's stays 2), and
the insertion then compares that overwritten priority, so P4 is placed ahead of P2,
the NORMAL process that has been waiting longer.  The holder's two `sem_signal` calls
wake P3 and then P4; P2 is still BLOCKED at the head of the list. -/
theorem sem_wait_queues_low_caller_ahead :
    sem_boost_before.scheduler.current_process = some 4 ∧
    (sem_boost_before.semaphores 0).value = 0 ∧
    (sem_boost_before.semaphores 0).waiting_count = 2 ∧
    (sem_boost_before.semaphores 0).waiting_processes 0 = 3 ∧
    (sem_boost_before.semaphores 0).waiting_processes 1 = 2 ∧
    (sem_boost_before.processes 1).priority = 2 ∧
    (sem_boost_before.processes 2).priority = 2 ∧
    (sem_boost_before.processes 3).priority = 1 ∧
    (sem_boost_before.processes 4).priority = 3 ∧
    (sem_wait sem_boost_before 0).1 = outcome.blocked ∧
    ((sem_wait sem_boost_before 0).2.processes 4).priority = 1 ∧
    ((sem_wait sem_boost_before 0).2.processes 4).original_priority = 3 ∧
    ((sem_wait sem_boost_before 0).2.processes 4).priority_inherited = true ∧
    ((sem_wait sem_boost_before 0).2.processes 1).priority = 2 ∧
    ((sem_wait sem_boost_before 0).2.processes 1).priority_inherited = false ∧
    ((sem_wait sem_boost_before 0).2.semaphores 0).waiting_count = 3 ∧
    ((sem_wait sem_boost_before 0).2.semaphores 0).waiting_processes 0 = 3 ∧
    ((sem_wait sem_boost_before 0).2.semaphores 0).waiting_processes 1 = 4 ∧
    ((sem_wait sem_boost_before 0).2.semaphores 0).waiting_processes 2 = 2 ∧
    (sem_boost_trace.processes 3).state = PROCESS_READY ∧
    (sem_boost_trace.processes 4).state = PROCESS_READY ∧
    (sem_boost_trace.processes 2).state = PROCESS_BLOCKED ∧
    (sem_boost_trace.semaphores 0).waiting_count = 1 ∧
    (sem_boost_trace.semaphores 0).waiting_processes 0 = 2 := by
  decide

end Kronos
